import Mathlib

/-!
# Partition manager of nyx (hekate): size planner, layout writer, partition locator,
Linux image flasher, backup walk and hybrid MBR repair

Shallow embedding of `nyx/nyx_gui/frontend/gui_tools_partition_manager.c`.

Conventions of the embedding
* `u32` values are `Nat`, every 32-bit operation is reduced modulo `2^32 = 4294967296`
  (`to_u32`); the one `s32` field, `hos_size`, is an `Int` obtained with `to_s32`.
* `x << 11` is written `x * 2048`, `x >> 11` is written `x / 2048` (same for 10 / 1024).
* byte arrays (`bootstrap`, the SDMMC upper buffer, sectors of the card) are functions
  from the byte index to the byte value.
* calls into the GUI library are kept only where they carry data: the value handed to
  `lv_slider_set_value` is returned next to the new context.
-/

namespace Hekate

/-! ## Machine integers -/

/-- Conversion of an integer to `u32` (value modulo `2^32`). -/
def to_u32 (x : Int) : Nat := (x % 4294967296).toNat

/-- Conversion of an integer to `s32` (two's complement, 32 bits). -/
def to_s32 (x : Int) : Int := (x + 2147483648) % 4294967296 - 2147483648

/-- Conversion of an integer to `u8`. -/
def to_u8 (x : Int) : Nat := (x % 256).toNat

/-! ## On-disk structures (`storage/mbr_gpt.h`) -/

/-- Modelled from the spec: `mbr_part_t`, declared in `storage/mbr_gpt.h` (not part of the
sources). One 16-byte MBR partition entry: status byte, CHS of the first sector (3 bytes),
type byte, CHS of the last sector (3 bytes), start LBA (`u32`), size in sectors (`u32`). -/
structure mbr_part_t where
  status : Nat
  start_sct_chs : List Nat
  type : Nat
  end_sct_chs : List Nat
  start_sct : Nat
  size_sct : Nat
deriving DecidableEq

/-- Modelled from the spec: `mbr_t`, declared in `storage/mbr_gpt.h` (not part of the
sources). 512-byte sector: boot code (440 bytes), disk signature (`u32`), copy-protect
word, four partition entries at `0x1BE`, boot signature at `0x1FE`. -/
structure mbr_t where
  bootstrap : Nat → Nat
  signature : Nat
  copy_protected : Nat
  partitions : Nat → mbr_part_t
  boot_signature : Nat

/-- Modelled from the spec: `gpt_entry_t`, declared in `storage/mbr_gpt.h` (not part of the
sources). 128 bytes: 16-byte type GUID, 16-byte unique GUID, 8-byte start LBA, 8-byte end
LBA, 8-byte attributes, 72-byte UTF-16LE name (kept as its 72 bytes). -/
structure gpt_entry_t where
  type_guid : List Nat
  part_guid : List Nat
  lba_start : Nat
  lba_end : Nat
  attrs : Nat
  name : List Nat
deriving DecidableEq

/-- Modelled from the spec: `gpt_header_t`, declared in `storage/mbr_gpt.h` (not part of the
sources). The 92-byte GPT header (8-byte signature, revision, header size, header CRC,
reserved word, self/alternate LBA, usable LBA range, disk GUID, entries LBA, entry count,
entry size, entries CRC), padded by `res2` to one 512-byte sector. -/
structure gpt_header_t where
  signature : List Nat
  revision : Nat
  size : Nat
  crc32 : Nat
  res1 : Nat
  my_lba : Nat
  alt_lba : Nat
  first_use_lba : Nat
  last_use_lba : Nat
  disk_guid : List Nat
  part_ent_lba : Nat
  num_part_ents : Nat
  part_ent_size : Nat
  part_ents_crc32 : Nat
  res2 : List Nat
deriving DecidableEq

/-- Modelled from the spec: `gpt_t`, declared in `storage/mbr_gpt.h` (not part of the
sources): the header sector followed by the array of 128 entries. -/
structure gpt_t where
  header : gpt_header_t
  entries : Nat → gpt_entry_t

/-- Modelled from the spec: `sizeof(mbr_t)`, one 512-byte sector. -/
def sizeof_mbr_t : Nat := 512

/-- Modelled from the spec: `sizeof(gpt_entry_t)`, 128 bytes. -/
def sizeof_gpt_entry_t : Nat := 128

/-- Modelled from the spec: `sizeof(gpt_header_t)`, one 512-byte sector. -/
def sizeof_gpt_header_t : Nat := 512

/-- Modelled from the spec: `sizeof(gpt_t)`, the header sector and 128 entries of 128 bytes. -/
def sizeof_gpt_t : Nat := sizeof_gpt_header_t + sizeof_gpt_entry_t * 128

/-- The all-zero partition entry. -/
def mbr_part_zero : mbr_part_t :=
  { status := 0, start_sct_chs := [0, 0, 0], type := 0, end_sct_chs := [0, 0, 0],
    start_sct := 0, size_sct := 0 }

/-- The all-zero MBR (`mbr_t mbr = { 0 }`). -/
def mbr_zero : mbr_t :=
  { bootstrap := fun _ => 0, signature := 0, copy_protected := 0,
    partitions := fun _ => mbr_part_zero, boot_signature := 0 }

/-- The all-zero GPT entry. -/
def gpt_entry_zero : gpt_entry_t :=
  { type_guid := List.replicate 16 0, part_guid := List.replicate 16 0, lba_start := 0,
    lba_end := 0, attrs := 0, name := List.replicate 72 0 }

/-- The all-zero GPT header (`gpt_header_t gpt_hdr_backup = { 0 }`). -/
def gpt_header_zero : gpt_header_t :=
  { signature := List.replicate 8 0, revision := 0, size := 0, crc32 := 0, res1 := 0,
    my_lba := 0, alt_lba := 0, first_use_lba := 0, last_use_lba := 0,
    disk_guid := List.replicate 16 0, part_ent_lba := 0, num_part_ents := 0,
    part_ent_size := 0, part_ents_crc32 := 0, res2 := List.replicate 420 0 }

/-- The all-zero GPT (`calloc(1, sizeof(gpt_t))`). -/
def gpt_zero : gpt_t := { header := gpt_header_zero, entries := fun _ => gpt_entry_zero }

/-! ### Bytes of the structures -/

/-- Byte `k` of the little-endian representation of `x`. -/
def le_byte (x k : Nat) : Nat := x / 256 ^ k % 256

/-- The little-endian `u16` at offset `off` of a byte array. -/
def le16 (b : Nat → Nat) (off : Nat) : Nat := b off % 256 + 256 * (b (off + 1) % 256)

/-- The little-endian `u32` at offset `off` of a byte array. -/
def le32 (b : Nat → Nat) (off : Nat) : Nat :=
  b off % 256 + 256 * (b (off + 1) % 256) + 65536 * (b (off + 2) % 256)
    + 16777216 * (b (off + 3) % 256)

/-- The little-endian `u64` at offset `off` of a byte array. -/
def le64 (b : Nat → Nat) (off : Nat) : Nat :=
  le32 b off + 4294967296 * le32 b (off + 4)

/-- The `n` bytes at offset `off` of a byte array. -/
def bytes_at (b : Nat → Nat) (off n : Nat) : List Nat := (List.range n).map (fun k => b (off + k))

/-- `memcpy(dst, src, n)` on byte lists: the first `n` bytes come from `src`. -/
def memcpy_list (dst src : List Nat) (n : Nat) : List Nat := src.take n ++ dst.drop n

/-- `memcpy(&dst[off], &src[off], n)` on byte arrays. -/
def memcpy_at (dst src : Nat → Nat) (off n : Nat) : Nat → Nat :=
  fun j => if off ≤ j ∧ j < off + n then src j else dst j

/-- Byte `j` of a partition entry. -/
def mbr_part_t.byte (e : mbr_part_t) (j : Nat) : Nat :=
  if j < 1 then le_byte e.status 0
  else if j < 4 then e.start_sct_chs.getD (j - 1) 0
  else if j < 5 then le_byte e.type 0
  else if j < 8 then e.end_sct_chs.getD (j - 5) 0
  else if j < 12 then le_byte e.start_sct (j - 8)
  else if j < 16 then le_byte e.size_sct (j - 12)
  else 0

/-- Byte `j` of the MBR sector. -/
def mbr_t.byte (m : mbr_t) (j : Nat) : Nat :=
  if j < 440 then m.bootstrap j
  else if j < 444 then le_byte m.signature (j - 440)
  else if j < 446 then le_byte m.copy_protected (j - 444)
  else if j < 510 then (m.partitions ((j - 446) / 16)).byte ((j - 446) % 16)
  else if j < 512 then le_byte m.boot_signature (j - 510)
  else 0

/-- Byte `j` of a GPT entry. -/
def gpt_entry_t.byte (e : gpt_entry_t) (j : Nat) : Nat :=
  if j < 16 then e.type_guid.getD j 0
  else if j < 32 then e.part_guid.getD (j - 16) 0
  else if j < 40 then le_byte e.lba_start (j - 32)
  else if j < 48 then le_byte e.lba_end (j - 40)
  else if j < 56 then le_byte e.attrs (j - 48)
  else if j < 128 then e.name.getD (j - 56) 0
  else 0

/-- Byte `j` of the GPT header sector. -/
def gpt_header_t.byte (h : gpt_header_t) (j : Nat) : Nat :=
  if j < 8 then h.signature.getD j 0
  else if j < 12 then le_byte h.revision (j - 8)
  else if j < 16 then le_byte h.size (j - 12)
  else if j < 20 then le_byte h.crc32 (j - 16)
  else if j < 24 then le_byte h.res1 (j - 20)
  else if j < 32 then le_byte h.my_lba (j - 24)
  else if j < 40 then le_byte h.alt_lba (j - 32)
  else if j < 48 then le_byte h.first_use_lba (j - 40)
  else if j < 56 then le_byte h.last_use_lba (j - 48)
  else if j < 72 then h.disk_guid.getD (j - 56) 0
  else if j < 80 then le_byte h.part_ent_lba (j - 72)
  else if j < 84 then le_byte h.num_part_ents (j - 80)
  else if j < 88 then le_byte h.part_ent_size (j - 84)
  else if j < 92 then le_byte h.part_ents_crc32 (j - 88)
  else if j < 512 then h.res2.getD (j - 92) 0
  else 0

/-- Byte `j` of an array of GPT entries. -/
def gpt_entries_byte (es : Nat → gpt_entry_t) (j : Nat) : Nat :=
  (es (j / sizeof_gpt_entry_t)).byte (j % sizeof_gpt_entry_t)

/-- Byte `j` of a `gpt_t`: the header sector, then the 128 entries. -/
def gpt_t.byte (g : gpt_t) (j : Nat) : Nat :=
  if j < sizeof_gpt_header_t then g.header.byte j
  else if j < sizeof_gpt_t then gpt_entries_byte g.entries (j - sizeof_gpt_header_t)
  else 0

/-- The partition entry stored at offset `off` of a byte array. -/
def mbr_part_of_bytes (b : Nat → Nat) (off : Nat) : mbr_part_t :=
  { status := b off % 256
    start_sct_chs := bytes_at b (off + 1) 3
    type := b (off + 4) % 256
    end_sct_chs := bytes_at b (off + 5) 3
    start_sct := le32 b (off + 8)
    size_sct := le32 b (off + 12) }

/-- The `mbr_t` stored in a sector. -/
def mbr_of_bytes (b : Nat → Nat) : mbr_t :=
  { bootstrap := fun j => if j < 440 then b j else 0
    signature := le32 b 440
    copy_protected := le16 b 444
    partitions := fun i => mbr_part_of_bytes b (446 + 16 * i)
    boot_signature := le16 b 510 }

/-- The GPT entry stored at offset `off` of a byte array. -/
def gpt_entry_of_bytes (b : Nat → Nat) (off : Nat) : gpt_entry_t :=
  { type_guid := bytes_at b off 16
    part_guid := bytes_at b (off + 16) 16
    lba_start := le64 b (off + 32)
    lba_end := le64 b (off + 40)
    attrs := le64 b (off + 48)
    name := bytes_at b (off + 56) 72 }

/-- The GPT header stored in a sector. -/
def gpt_header_of_bytes (b : Nat → Nat) : gpt_header_t :=
  { signature := bytes_at b 0 8
    revision := le32 b 8
    size := le32 b 12
    crc32 := le32 b 16
    res1 := le32 b 20
    my_lba := le64 b 24
    alt_lba := le64 b 32
    first_use_lba := le64 b 40
    last_use_lba := le64 b 48
    disk_guid := bytes_at b 56 16
    part_ent_lba := le64 b 72
    num_part_ents := le32 b 80
    part_ent_size := le32 b 84
    part_ents_crc32 := le32 b 88
    res2 := bytes_at b 92 420 }

/-- The `gpt_t` stored in 33 consecutive sectors. -/
def gpt_of_bytes (b : Nat → Nat) : gpt_t :=
  { header := gpt_header_of_bytes b
    entries := fun i => gpt_entry_of_bytes b (sizeof_gpt_header_t + sizeof_gpt_entry_t * i) }

/-- UTF-16LE bytes of an ASCII string, as in `(char[]) { 'l', 0, '4', 0, 't', 0 }`. -/
def utf16le (s : String) : List Nat := s.toList.flatMap (fun c => [c.toNat, 0])

/-- The bytes of an ASCII string, as in `"EFI PART"`. -/
def ascii (s : String) : List Nat := s.toList.map Char.toNat

/-! ## Block device (`sdmmc_storage_read` / `sdmmc_storage_write`) -/

/-- What a block write takes its bytes from. -/
inductive sd_payload where
  | upper_buffer (buf : Nat → Nat)
  | mbr (m : mbr_t)
  | gpt (g : gpt_t)
  | gpt_entries (es : Nat → gpt_entry_t)
  | gpt_header (h : gpt_header_t)

/-- Byte `j` of the memory a block write reads from. -/
def sd_payload.byte : sd_payload → Nat → Nat
  | .upper_buffer buf, j => buf j
  | .mbr m, j => m.byte j
  | .gpt g, j => g.byte j
  | .gpt_entries es, j => gpt_entries_byte es j
  | .gpt_header h, j => h.byte j

/-- One call `sdmmc_storage_write(&sd_storage, sector, num_sectors, buf)`. -/
structure sd_write where
  sector : Nat
  num_sectors : Nat
  data : sd_payload

/-- Modelled from the spec: `sdmmc_storage_write`, the block I/O service
`write(sector, count, buffer)` with 512-byte sectors (its code is not part of the
sources). The card is a byte array; the write replaces `num_sectors * 512` bytes from
byte `sector * 512` on. -/
def sdmmc_storage_write (dev : Nat → Nat) (w : sd_write) : Nat → Nat :=
  fun a => if 512 * w.sector ≤ a ∧ a < 512 * (w.sector + w.num_sectors)
    then w.data.byte (a - 512 * w.sector) else dev a

/-- The card after a sequence of block writes. -/
def sd_apply_writes (dev : Nat → Nat) (ws : List sd_write) : Nat → Nat :=
  ws.foldl sdmmc_storage_write dev

/-- Modelled from the spec: `sdmmc_storage_read`, the block I/O service
`read(sector, count, buffer)` with 512-byte sectors (its code is not part of the
sources): the bytes of the card from byte `sector * 512` on. -/
def sdmmc_storage_read (dev : Nat → Nat) (sector : Nat) : Nat → Nat :=
  fun j => dev (512 * sector + j)

/-! ## Size planner -/

/-- Data fields of `partition_ctxt_t` (lines 41-75); sizes are in MiB. The widget handles
of the struct carry no data of the plan and are left out. -/
structure partition_ctxt_t where
  total_sct : Nat
  hos_size : Int
  emu_size : Nat
  l4t_size : Nat
  and_size : Nat
  emu_double : Bool
  mbr_old : mbr_t

/-- The constant `rsvd_mb` of `_action_slider_emu`: BOOT0 + BOOT1 + 16MB offset + 8MB alignment. -/
def rsvd_mb : Nat := 4 + 4 + 16 + 8

/-- The plan set up by `create_window_partition_manager` (lines 2290-2299):
`memset(&part_info, 0, ...)`, `total_sct = sd_storage.sec_cnt`,
`hos_size = (total_sct >> 11) - 16`. -/
def create_window_partition_manager (sec_cnt : Nat) : partition_ctxt_t :=
  { total_sct := sec_cnt
    hos_size := to_s32 ((sec_cnt / 2048 : Nat) - 16)
    emu_size := 0
    l4t_size := 0
    and_size := 0
    emu_double := false
    mbr_old := mbr_zero }

/-- The size in MiB that `_action_slider_emu` computes for slider value `slide_val`
(lines 1700-1716), with the doubled flag it sets. -/
def emu_slider_size (slide_val : Int) : Nat × Bool :=
  let size : Nat := to_u32 ((if slide_val > 10 then slide_val - 10 else slide_val) + 3)
  let size : Nat := to_u32 (size * 1024)
  let size : Nat := to_u32 (size + rsvd_mb)
  let r : Nat × Bool :=
    if slide_val = 0 then (0, false)
    else if slide_val ≥ 11 then (to_u32 (size * 2), true)
    else (size, false)
  if slide_val = 10 then (29856, r.2)
  else if slide_val = 20 then (59712, r.2)
  else r

/-- The `hos_size` candidate of `_action_slider_emu` (line 1718). -/
def emu_request_hos (part_info : partition_ctxt_t) (slide_val : Int) : Int :=
  to_s32 ((part_info.total_sct / 2048 : Nat) - 16 - (emu_slider_size slide_val).1
    - part_info.l4t_size - part_info.and_size)

/-- The slider position that the reject branch of `_action_slider_emu` recomputes from
the stored `emu_size` (lines 1741-1759). -/
def emu_slider_restore (emu_size : Nat) (prev_emu_double : Bool) : Int :=
  let emu_size : Nat :=
    if emu_size = 29856 then 10
    else if emu_size = 59712 then 20
    else if emu_size ≠ 0 then
      let e : Nat := if prev_emu_double then emu_size / 2 else emu_size
      let e : Nat := to_u32 ((e : Int) - rsvd_mb)
      let e : Nat := e / 1024
      let e : Nat := to_u32 ((e : Int) - 3)
      if prev_emu_double then to_u32 (e + 11) else e
    else emu_size
  to_s32 emu_size

/-- Function `_action_slider_emu` (lines 1690-1768). Returns the new context and the value
passed to `lv_slider_set_value`, if it is called. -/
def _action_slider_emu (part_info : partition_ctxt_t) (slide_val : Int) :
    partition_ctxt_t × Option Int :=
  let prev_emu_double := part_info.emu_double
  let size := (emu_slider_size slide_val).1
  let emu_double := (emu_slider_size slide_val).2
  let hos_size := emu_request_hos part_info slide_val
  if hos_size > 2048 then
    ({ part_info with emu_double := emu_double, emu_size := size, hos_size := hos_size }, none)
  else
    ({ part_info with emu_double := prev_emu_double },
      some (emu_slider_restore part_info.emu_size prev_emu_double))

/-- The size in MiB requested by the Linux slider (lines 1774-1778): `(u32)value << 10`,
below 4096 reset to 0, below 8192 raised to 8192. -/
def l4t_slider_size (slider_val : Int) : Nat :=
  let size : Nat := to_u32 (to_u32 slider_val * 1024)
  if size < 4096 then 0 else if size < 8192 then 8192 else size

/-- The `hos_size` candidate of `_action_slider_l4t` (line 1780). -/
def l4t_request_hos (part_info : partition_ctxt_t) (slider_val : Int) : Int :=
  to_s32 ((part_info.total_sct / 2048 : Nat) - 16 - part_info.emu_size
    - l4t_slider_size slider_val - part_info.and_size)

/-- Function `_action_slider_l4t` (lines 1770-1812). Returns the new context and the value
passed to `lv_slider_set_value`, if it is called. -/
def _action_slider_l4t (part_info : partition_ctxt_t) (slider_val : Int) :
    partition_ctxt_t × Option Int :=
  let size := l4t_slider_size slider_val
  let hos_size := l4t_request_hos part_info slider_val
  if hos_size > 2048 then
    ({ part_info with l4t_size := size, hos_size := hos_size },
      if size ≤ 8192 then some ((size / 1024 : Nat) : Int) else none)
  else
    let size : Nat := to_u32 ((part_info.total_sct / 2048 : Nat) - 16 - part_info.emu_size
      - part_info.and_size - 2048)
    let hos_size : Int := to_s32 ((part_info.total_sct / 2048 : Nat) - 16 - part_info.emu_size
      - part_info.and_size - size)
    if hos_size < 2048 ∨ size < 8192 then
      (part_info, some ((part_info.l4t_size / 1024 : Nat) : Int))
    else
      ({ part_info with l4t_size := size, hos_size := hos_size },
        some ((size / 1024 : Nat) : Int))

/-- The user size in MiB requested by the Android slider (lines 1818-1822). -/
def and_slider_user_size (slider_val : Int) : Nat :=
  let user_size : Nat := to_u32 (to_u32 slider_val * 1024)
  if user_size < 2048 then 0 else if user_size < 4096 then 4096 else user_size

/-- The Android size requested (line 1824): user size plus the reserved partitions. -/
def and_slider_size (slider_val : Int) : Nat :=
  let user_size := and_slider_user_size slider_val
  if user_size ≠ 0 then to_u32 (user_size + 4096) else 0

/-- The `hos_size` candidate of `_action_slider_and` (line 1825). -/
def and_request_hos (part_info : partition_ctxt_t) (slider_val : Int) : Int :=
  to_s32 ((part_info.total_sct / 2048 : Nat) - 16 - part_info.emu_size
    - part_info.l4t_size - and_slider_size slider_val)

/-- Function `_action_slider_and` (lines 1814-1858). Returns the new context and the value
passed to `lv_slider_set_value`, if it is called. -/
def _action_slider_and (part_info : partition_ctxt_t) (slider_val : Int) :
    partition_ctxt_t × Option Int :=
  let user_size := and_slider_user_size slider_val
  let and_size := and_slider_size slider_val
  let hos_size := and_request_hos part_info slider_val
  if hos_size > 2048 then
    ({ part_info with and_size := and_size, hos_size := hos_size },
      if user_size ≤ 4096 then some ((user_size / 1024 : Nat) : Int) else none)
  else
    let and_size : Nat := to_u32 ((part_info.total_sct / 2048 : Nat) - 16 - part_info.emu_size
      - part_info.l4t_size - 2048)
    let hos_size : Int := to_s32 ((part_info.total_sct / 2048 : Nat) - 16 - part_info.emu_size
      - part_info.l4t_size - and_size)
    if hos_size < 2048 ∨ and_size < 8192 then
      (part_info, some ((part_info.and_size / 1024 : Nat) : Int))
    else
      let user_size : Nat := to_u32 ((and_size : Int) - 4096)
      ({ part_info with and_size := and_size, hos_size := hos_size },
        some ((user_size / 1024 : Nat) : Int))

/-- One slider callback: which slider moved and the value `lv_slider_get_value` returns. -/
inductive slider_action where
  | emu (slide_val : Int)
  | l4t (slider_val : Int)
  | and (slider_val : Int)

/-- The value carried by a slider callback. -/
def slider_action.value : slider_action → Int
  | .emu v => v
  | .l4t v => v
  | .and v => v

/-- The context after one slider callback. -/
def slider_step (part_info : partition_ctxt_t) : slider_action → partition_ctxt_t
  | .emu v => (_action_slider_emu part_info v).1
  | .l4t v => (_action_slider_l4t part_info v).1
  | .and v => (_action_slider_and part_info v).1

/-- The context after a finite sequence of slider callbacks. -/
def slider_run (part_info : partition_ctxt_t) (acts : List slider_action) : partition_ctxt_t :=
  acts.foldl slider_step part_info

/-- The invariant of a plan produced by the size planner. -/
def planner_inv (p : partition_ctxt_t) : Prop :=
  p.total_sct < 4294967296 ∧ 2048 ≤ p.hos_size ∧
  p.hos_size + p.emu_size + p.l4t_size + p.and_size = ((p.total_sct / 2048 : Nat) : Int) - 16 ∧
  (p.emu_size = 0 ∨ 4128 ≤ p.emu_size) ∧
  (p.l4t_size = 0 ∨ 8192 ≤ p.l4t_size) ∧
  (p.and_size = 0 ∨ 8192 ≤ p.and_size)

/-- The values a slider can report: a non-negative number of steps below `2^20`. Every
position of the ranges set at lines 2384, 2395 and 2406 (`0 .. 20` and
`0 .. (total_sct - extra_sct) / 0x200000`) is of this kind. -/
def slider_value (v : Int) : Prop := 0 ≤ v ∧ v < 1048576

instance slider_value_decidable (v : Int) : Decidable (slider_value v) :=
  inferInstanceAs (Decidable (0 ≤ v ∧ v < 1048576))

instance planner_inv_decidable (p : partition_ctxt_t) : Decidable (planner_inv p) :=
  inferInstanceAs (Decidable (p.total_sct < 4294967296 ∧ 2048 ≤ p.hos_size ∧
    p.hos_size + p.emu_size + p.l4t_size + p.and_size = ((p.total_sct / 2048 : Nat) : Int) - 16 ∧
    (p.emu_size = 0 ∨ 4128 ≤ p.emu_size) ∧
    (p.l4t_size = 0 ∨ 8192 ≤ p.l4t_size) ∧
    (p.and_size = 0 ∨ 8192 ≤ p.and_size)))

/-! ## Layout writer (`_prepare_and_flash_mbr_gpt`, lines 223-484) -/

/-- Reduction of a natural number to `u32`. -/
def u32 (x : Nat) : Nat := x % 4294967296

/-- Subtraction `a - b` in `u32`. -/
def u32_sub (a b : Nat) : Nat := to_u32 ((a : Int) - (b : Int))

/-- The 16 bytes that call number `k` of `se_gen_prng128` leaves in `random_number`;
`prng k j` is byte `j` of the entropy delivered by that call. -/
def random_number (prng : Nat → Nat → Nat) (k : Nat) : List Nat :=
  (List.range 16).map (fun j => prng k j % 256)

/-- The array `basic_part_guid` (line 299). -/
def basic_part_guid : List Nat :=
  [0xA2, 0xA0, 0xD0, 0xEB, 0xE5, 0xB9, 0x33, 0x44, 0x87, 0xC0, 0x68, 0xB6, 0xB7, 0x26, 0x99, 0xC7]

/-- The array `android_part_guid` (line 313). -/
def android_part_guid : List Nat :=
  [0xAF, 0x3D, 0xC6, 0x0F, 0x83, 0x84, 0x72, 0x47, 0x8E, 0x79, 0x3D, 0x69, 0xD8, 0x47, 0x7D, 0xE4]

/-- The array `emu_part_guid` (line 432). -/
def emu_part_guid : List Nat :=
  [0x00, 0x7E, 0xCA, 0x11, 0x00, 0x00, 0x00, 0x00, 0x00, 0x00] ++ ascii "emuMMC"

/-- The local state of `_prepare_and_flash_mbr_gpt`: the MBR, the GPT and the backup GPT
header being built, the two table indexes, the running LBA, the number of `se_gen_prng128`
calls made so far, the contents of `SDMMC_UPPER_BUFFER` and the block writes issued so far,
oldest first. -/
structure flash_state where
  mbr : mbr_t
  mbr_idx : Nat
  gpt : gpt_t
  gpt_hdr_backup : gpt_header_t
  gpt_idx : Nat
  curr_part_lba : Nat
  prng_calls : Nat
  upper_buf : Nat → Nat
  writes : List sd_write

/-- Assignment to fields of `mbr.partitions[idx]`. -/
def mbr_set_partition (m : mbr_t) (idx : Nat) (f : mbr_part_t → mbr_part_t) : mbr_t :=
  { m with partitions := Function.update m.partitions idx (f (m.partitions idx)) }

/-- Assignment to fields of `gpt->entries[idx]`. -/
def gpt_set_entry (g : gpt_t) (idx : Nat) (f : gpt_entry_t → gpt_entry_t) : gpt_t :=
  { g with entries := Function.update g.entries idx (f (g.entries idx)) }

/-- `(u32)part_info.hos_size << 11`. -/
def hos_sct (part_info : partition_ctxt_t) : Nat := u32 (to_u32 part_info.hos_size * 2048)

/-- Lines 225-272 of `_prepare_and_flash_mbr_gpt`: read the MBR, keep the metadata of the
old MBR, clear the first 16MB, draw the disk signature, then the Linux slot (no Android)
and the emuMMC slot(s). `dev_mbr` is the sector read at line 229, `upper` the contents of
`SDMMC_UPPER_BUFFER` on entry. -/
def flash_mbr_slots (part_info : partition_ctxt_t) (dev_mbr : mbr_t) (upper : Nat → Nat)
    (prng : Nat → Nat → Nat) : flash_state :=
  -- 229: read current MBR.
  let mbr := dev_mbr
  -- 232-233: copy over metadata if they exist.
  let mbr : mbr_t :=
    { mbr with bootstrap :=
        if le32 part_info.mbr_old.bootstrap 0x80 ≠ 0 then
          memcpy_at mbr.bootstrap part_info.mbr_old.bootstrap 0x80 304
        else mbr.bootstrap }
  -- 236-237: memset of 0x8000 bytes, write of 0x8000 sectors.
  let upper_buf : Nat → Nat := fun j => if j < 0x8000 then 0 else upper j
  let writes : List sd_write := [⟨0, 0x8000, .upper_buffer upper_buf⟩]
  -- 239-241
  let mbr_idx := 1
  let mbr := { mbr with signature := le32 (fun j => (random_number prng 0).getD j 0) 0 }
  let st : flash_state :=
    { mbr := mbr, mbr_idx := mbr_idx, gpt := gpt_zero, gpt_hdr_backup := gpt_header_zero,
      gpt_idx := 0, curr_part_lba := 0,
      prng_calls := 1, upper_buf := upper_buf, writes := writes }
  -- 244-251: L4T Linux second to MBR if no Android.
  let st : flash_state :=
    if part_info.l4t_size ≠ 0 ∧ part_info.and_size = 0 then
      let mbr := mbr_set_partition st.mbr st.mbr_idx (fun e =>
        { e with type := 0x83, start_sct := u32 (0x8000 + hos_sct part_info),
                 size_sct := u32 (part_info.l4t_size * 2048) })
      { st with mbr := mbr,
                writes := st.writes ++
                  [⟨(mbr.partitions st.mbr_idx).start_sct, 0x800, .upper_buffer st.upper_buf⟩],
                mbr_idx := st.mbr_idx + 1 }
    else st
  -- 254-272: emuMMC goes second or third.
  if part_info.emu_size ≠ 0 then
    let mbr := mbr_set_partition st.mbr st.mbr_idx (fun e =>
      { e with type := 0xE0,
               start_sct := u32 (0x8000 + hos_sct part_info + u32 (part_info.l4t_size * 2048)
                 + u32 (part_info.and_size * 2048)) })
    if ¬ part_info.emu_double then
      let mbr := mbr_set_partition mbr st.mbr_idx (fun e =>
        { e with size_sct := u32_sub (u32 (part_info.emu_size * 2048)) 0x800 })
      { st with mbr := mbr, mbr_idx := st.mbr_idx + 1 }
    else
      -- 263-265: type and size of the slot at `mbr_idx`, then `mbr_idx++`.
      let mbr := mbr_set_partition mbr st.mbr_idx (fun e =>
        { e with type := 0xE0, size_sct := u32 (part_info.emu_size * 1024) })
      let mbr_idx := st.mbr_idx + 1
      -- 268-269: 2nd emuMMC, start and size.
      let mbr := mbr_set_partition mbr mbr_idx (fun e =>
        { e with start_sct := u32 ((mbr.partitions (mbr_idx - 1)).start_sct
                   + u32 (part_info.emu_size * 1024)),
                 size_sct := u32_sub (u32 (part_info.emu_size * 1024)) 0x800 })
      { st with mbr := mbr, mbr_idx := mbr_idx + 1 }
  else st

/-- One partition block of the GPT (the pattern of lines 316-325, repeated at lines 329-337,
340-348, ..., 420-428): type GUID, a fresh unique GUID, `lba_start = curr_part_lba`,
`lba_end = curr_part_lba + size - 1`, the name (`name_len` bytes), a write of `wipe`
sectors from the upper buffer at `curr_part_lba`, then `curr_part_lba += size` and
`gpt_idx++`. -/
def flash_gpt_part (prng : Nat → Nat → Nat) (st : flash_state) (name : List Nat)
    (name_len size wipe : Nat) : flash_state :=
  let gpt := gpt_set_entry st.gpt st.gpt_idx (fun e =>
    { e with type_guid := memcpy_list e.type_guid android_part_guid 16,
             part_guid := memcpy_list e.part_guid (random_number prng st.prng_calls) 16,
             lba_start := st.curr_part_lba,
             lba_end := u32_sub (u32 (st.curr_part_lba + size)) 1,
             name := memcpy_list e.name name name_len })
  { st with gpt := gpt,
            prng_calls := st.prng_calls + 1,
            writes := st.writes ++ [⟨st.curr_part_lba, wipe, .upper_buffer st.upper_buf⟩],
            curr_part_lba := u32 (st.curr_part_lba + size),
            gpt_idx := st.gpt_idx + 1 }

/-- The size of the Android userdata partition (lines 417-419). -/
def and_user_size (part_info : partition_ctxt_t) : Nat :=
  let user_size := u32_sub (u32 (part_info.and_size * 2048)) 0x798000
  if part_info.emu_size = 0 then u32_sub user_size 0x800 else user_size

/-- Lines 279-312 of `_prepare_and_flash_mbr_gpt` (inside `if (part_info.and_size)`): the
protective MBR slot, the GPT header, entry 0 and the start of the running LBA. -/
def flash_gpt_head (part_info : partition_ctxt_t) (sec_cnt : Nat)
    (prng : Nat → Nat → Nat) (st : flash_state) : flash_state :=
  -- 279-282: GPT protective partition.
  let mbr := mbr_set_partition st.mbr st.mbr_idx (fun e =>
    { e with type := 0xEE, start_sct := 1, size_sct := u32_sub sec_cnt 1 })
  let st := { st with mbr := mbr, mbr_idx := st.mbr_idx + 1 }
  -- 285-296: set GPT header.
  let hdr : gpt_header_t :=
    { st.gpt.header with
      signature := memcpy_list st.gpt.header.signature (ascii "EFI PART") 8,
      revision := 0x10000,
      size := 92,
      my_lba := 1,
      alt_lba := u32_sub sec_cnt 1,
      first_use_lba := (sizeof_mbr_t + sizeof_gpt_t) / 512,
      last_use_lba := u32_sub (u32_sub sec_cnt 0x800) 1,
      disk_guid := memcpy_list st.gpt.header.disk_guid
        ((random_number prng st.prng_calls).take 10 ++ ascii "NYXGPT") 16,
      part_ent_lba := 2,
      part_ent_size := 128 }
  let st := { st with gpt := { st.gpt with header := hdr }, prng_calls := st.prng_calls + 1 }
  -- 299-309: entry 0, the FAT partition of MBR slot 0.
  let gpt := gpt_set_entry st.gpt 0 (fun e =>
    { e with type_guid := memcpy_list e.type_guid basic_part_guid 16,
             part_guid := (memcpy_list e.part_guid (random_number prng st.prng_calls) 16).set 7 0,
             lba_start := (st.mbr.partitions 0).start_sct,
             lba_end := u32_sub (u32 ((st.mbr.partitions 0).start_sct
               + (st.mbr.partitions 0).size_sct)) 1,
             name := memcpy_list e.name (utf16le "hos_data") 16 })
  -- 311-312
  { st with gpt := gpt, prng_calls := st.prng_calls + 1, gpt_idx := 1,
            curr_part_lba := u32 (0x8000 + hos_sct part_info) }

/-- Lines 314-326 of `_prepare_and_flash_mbr_gpt`: the Linux entry, if sized. -/
def flash_gpt_l4t (part_info : partition_ctxt_t) (prng : Nat → Nat → Nat)
    (st : flash_state) : flash_state :=
  if part_info.l4t_size ≠ 0 then
    flash_gpt_part prng st (utf16le "l4t") 6 (u32 (part_info.l4t_size * 2048)) 0x800
  else st

/-- Lines 328-428 of `_prepare_and_flash_mbr_gpt`: the eight fixed Android partitions and
the Android userdata partition. -/
def flash_gpt_android (part_info : partition_ctxt_t) (prng : Nat → Nat → Nat)
    (st : flash_state) : flash_state :=
  -- 328-337: Android Vendor partition, 1GB.
  let st := flash_gpt_part prng st (utf16le "vendor") 12 0x200000 0x800
  -- 339-348: Android System partition, 2GB.
  let st := flash_gpt_part prng st (utf16le "APP") 6 0x400000 0x800
  -- 350-359: Android Linux Kernel partition, 32MB.
  let st := flash_gpt_part prng st (utf16le "LNX") 6 0x10000 0x800
  -- 361-370: Android Recovery partition, 64MB.
  let st := flash_gpt_part prng st (utf16le "SOS") 6 0x20000 0x800
  -- 372-381: Android Device Tree Reference partition, 1MB.
  let st := flash_gpt_part prng st (utf16le "DTB") 6 0x800 0x800
  -- 383-392: Android Encryption partition, 16MB, cleared in full.
  let st := flash_gpt_part prng st (utf16le "MDA") 6 0x8000 0x8000
  -- 394-403: Android Cache partition, 700MB.
  let st := flash_gpt_part prng st (utf16le "CAC") 6 0x15E000 0x800
  -- 405-414: Android Misc partition, 3MB.
  let st := flash_gpt_part prng st (utf16le "MSC") 6 0x1800 0x800
  -- 416-428: Android Userdata partition.
  flash_gpt_part prng st (utf16le "UDA") 6 (and_user_size part_info) 0x800

/-- Lines 430-455 of `_prepare_and_flash_mbr_gpt`: the emuMMC entries, if sized. -/
def flash_gpt_emummc (part_info : partition_ctxt_t) (prng : Nat → Nat → Nat)
    (st : flash_state) : flash_state :=
  if part_info.emu_size ≠ 0 then
    let gpt := gpt_set_entry st.gpt st.gpt_idx (fun e =>
      { e with type_guid := memcpy_list e.type_guid emu_part_guid 16,
               part_guid := memcpy_list e.part_guid (random_number prng st.prng_calls) 16,
               lba_start := st.curr_part_lba,
               lba_end :=
                 if ¬ part_info.emu_double then
                   u32_sub (u32_sub (u32 (st.curr_part_lba + u32 (part_info.emu_size * 2048)))
                     0x800) 1
                 else u32_sub (u32 (st.curr_part_lba + u32 (part_info.emu_size * 1024))) 1,
               name := memcpy_list e.name (utf16le "emummc") 12 })
    let st := { st with gpt := gpt, prng_calls := st.prng_calls + 1, gpt_idx := st.gpt_idx + 1 }
    if part_info.emu_double then
      let curr_part_lba := u32 (st.curr_part_lba + u32 (part_info.emu_size * 1024))
      let gpt := gpt_set_entry st.gpt st.gpt_idx (fun e =>
        { e with type_guid := memcpy_list e.type_guid emu_part_guid 16,
                 part_guid := memcpy_list e.part_guid (random_number prng st.prng_calls) 16,
                 lba_start := curr_part_lba,
                 lba_end := u32_sub (u32_sub (u32 (curr_part_lba
                   + u32 (part_info.emu_size * 1024))) 0x800) 1,
                 name := memcpy_list e.name (utf16le "emummc2") 14 })
      { st with gpt := gpt, prng_calls := st.prng_calls + 1, gpt_idx := st.gpt_idx + 1,
                curr_part_lba := curr_part_lba }
    else st
  else st

/-- Lines 279-455 of `_prepare_and_flash_mbr_gpt` (inside `if (part_info.and_size)`): the
protective MBR slot, the GPT header and the GPT entries. -/
def flash_gpt_entries (part_info : partition_ctxt_t) (sec_cnt : Nat)
    (prng : Nat → Nat → Nat) (st : flash_state) : flash_state :=
  flash_gpt_emummc part_info prng
    (flash_gpt_android part_info prng
      (flash_gpt_l4t part_info prng
        (flash_gpt_head part_info sec_cnt prng st)))

/-- The bytes `crc32_calc` reads at line 459: the 128 entries of 128 bytes. -/
def gpt_entries_bytes (es : Nat → gpt_entry_t) : List Nat :=
  bytes_at (gpt_entries_byte es) 0 (sizeof_gpt_entry_t * 128)

/-- The bytes `crc32_calc` reads at lines 461 and 468: the first `size` bytes of a header. -/
def gpt_header_bytes (h : gpt_header_t) : List Nat := bytes_at h.byte 0 h.size

/-- Lines 457-477 of `_prepare_and_flash_mbr_gpt`: final header fields, the two CRCs, the
backup header, and the three GPT writes. `crc32_calc` is the checksum service
`crc32_calc(seed, buf, len)`, whose code is not part of the sources. -/
def flash_gpt_finish (sec_cnt : Nat) (crc32_calc : Nat → List Nat → Nat)
    (st : flash_state) : flash_state :=
  -- 458-461
  let hdr := { st.gpt.header with num_part_ents := 128 }
  let hdr := { hdr with part_ents_crc32 := u32 (crc32_calc 0 (gpt_entries_bytes st.gpt.entries)) }
  let hdr := { hdr with crc32 := 0 }
  let hdr := { hdr with crc32 := u32 (crc32_calc 0 (gpt_header_bytes hdr)) }
  let gpt : gpt_t := { st.gpt with header := hdr }
  -- 463-468
  let gpt_hdr_backup : gpt_header_t := gpt.header
  let gpt_hdr_backup := { gpt_hdr_backup with my_lba := u32_sub sec_cnt 1 }
  let gpt_hdr_backup := { gpt_hdr_backup with alt_lba := 1 }
  let gpt_hdr_backup := { gpt_hdr_backup with part_ent_lba := u32_sub sec_cnt 33 }
  let gpt_hdr_backup := { gpt_hdr_backup with crc32 := 0 }
  let gpt_hdr_backup :=
    { gpt_hdr_backup with crc32 := u32 (crc32_calc 0 (gpt_header_bytes gpt_hdr_backup)) }
  -- 471-477
  { st with gpt := gpt,
            gpt_hdr_backup := gpt_hdr_backup,
            writes := st.writes ++
              [⟨u32 gpt.header.my_lba, sizeof_gpt_t / 512, .gpt gpt⟩,
               ⟨u32 gpt_hdr_backup.part_ent_lba, sizeof_gpt_entry_t * 128 / 512,
                 .gpt_entries gpt.entries⟩,
               ⟨u32 gpt_hdr_backup.my_lba, 1, .gpt_header gpt_hdr_backup⟩] }

/-- Function `_prepare_and_flash_mbr_gpt` (lines 223-484), up to the last statement: the
state after line 480. -/
def flash_state_final (part_info : partition_ctxt_t) (sec_cnt : Nat) (dev_mbr : mbr_t)
    (upper : Nat → Nat) (prng : Nat → Nat → Nat) (crc32_calc : Nat → List Nat → Nat) :
    flash_state :=
  let st := flash_mbr_slots part_info dev_mbr upper prng
  if part_info.and_size ≠ 0 then
    flash_gpt_finish sec_cnt crc32_calc (flash_gpt_entries part_info sec_cnt prng st)
  else st

/-- Function `_prepare_and_flash_mbr_gpt` (lines 223-484): the block writes it issues, in
order; the last statement (line 483) writes the MBR. `sec_cnt` is `sd_storage.sec_cnt`,
`dev_mbr` the sector read at line 229, `upper` the contents of `SDMMC_UPPER_BUFFER` on
entry, `prng` the entropy service, `crc32_calc` the checksum service. The results of the
write calls are not looked at by the function. -/
def _prepare_and_flash_mbr_gpt (part_info : partition_ctxt_t) (sec_cnt : Nat) (dev_mbr : mbr_t)
    (upper : Nat → Nat) (prng : Nat → Nat → Nat) (crc32_calc : Nat → List Nat → Nat) :
    List sd_write :=
  let st := flash_state_final part_info sec_cnt dev_mbr upper prng crc32_calc
  st.writes ++ [⟨0, 1, .mbr st.mbr⟩]

/-- The MBR that `_prepare_and_flash_mbr_gpt` writes at line 483. -/
def flashed_mbr (part_info : partition_ctxt_t) (sec_cnt : Nat) (dev_mbr : mbr_t)
    (upper : Nat → Nat) (prng : Nat → Nat → Nat) (crc32_calc : Nat → List Nat → Nat) : mbr_t :=
  (flash_state_final part_info sec_cnt dev_mbr upper prng crc32_calc).mbr

/-- The GPT that `_prepare_and_flash_mbr_gpt` builds and writes at line 471 (all zero when
`and_size = 0`, where no GPT is built or written). -/
def flashed_gpt (part_info : partition_ctxt_t) (sec_cnt : Nat) (dev_mbr : mbr_t)
    (upper : Nat → Nat) (prng : Nat → Nat → Nat) (crc32_calc : Nat → List Nat → Nat) : gpt_t :=
  (flash_state_final part_info sec_cnt dev_mbr upper prng crc32_calc).gpt

/-- The backup GPT header that `_prepare_and_flash_mbr_gpt` builds and writes at line 477
(all zero when `and_size = 0`). -/
def flashed_gpt_hdr_backup (part_info : partition_ctxt_t) (sec_cnt : Nat) (dev_mbr : mbr_t)
    (upper : Nat → Nat) (prng : Nat → Nat → Nat) (crc32_calc : Nat → List Nat → Nat) :
    gpt_header_t :=
  (flash_state_final part_info sec_cnt dev_mbr upper prng crc32_calc).gpt_hdr_backup

/-- The card after `_prepare_and_flash_mbr_gpt` ran on a card with contents `dev`, every
block read and write succeeding. -/
def flashed_card (part_info : partition_ctxt_t) (sec_cnt : Nat) (dev : Nat → Nat)
    (upper : Nat → Nat) (prng : Nat → Nat → Nat) (crc32_calc : Nat → List Nat → Nat) :
    Nat → Nat :=
  sd_apply_writes dev
    (_prepare_and_flash_mbr_gpt part_info sec_cnt (mbr_of_bytes (sdmmc_storage_read dev 0))
      upper prng crc32_calc)

/-! ## Partition locator (`_get_available_l4t_partition`, lines 738-784) -/

/-- Data of `l4t_flasher_ctxt_t` (lines 77-81). -/
structure l4t_flasher_ctxt_t where
  offset_sct : Nat
  image_size_sct : Nat
deriving DecidableEq

/-- The loop of lines 755-766 from index `i` on: `some (offset_sct, size_sct)` when an
entry whose name starts with `l4t` is reached. `fuel` bounds the number of iterations;
the loop leaves at `i > 126` at the latest, so 128 is enough from index 0. -/
def l4t_gpt_scan (gpt : gpt_t) : Nat → Nat → Option (Nat × Nat)
  | _, 0 => none
  | i, fuel + 1 =>
    if i < gpt.header.num_part_ents then
      if (gpt.entries i).name.take 6 = utf16le "l4t" then
        some (to_u32 (gpt.entries i).lba_start,
          to_u32 (((gpt.entries i).lba_end : Int) + 1 - ((gpt.entries i).lba_start : Int)))
      else if i > 126 then none
      else l4t_gpt_scan gpt (i + 1) fuel
    else none

/-- The loop of lines 770-778 from slot `i` on: `some (offset_sct, size_sct)` for the
first slot of type `0x83` below 4. -/
def l4t_mbr_scan (mbr : mbr_t) : Nat → Nat → Option (Nat × Nat)
  | _, 0 => none
  | i, fuel + 1 =>
    if i < 4 then
      if (mbr.partitions i).type = 0x83 then
        some ((mbr.partitions i).start_sct, (mbr.partitions i).size_sct)
      else l4t_mbr_scan mbr (i + 1) fuel
    else none

/-- Lines 751-783 of `_get_available_l4t_partition` on the MBR and GPT read at lines 746
and 749: the new `l4t_flash_ctxt` and the returned `size_sct`. -/
def l4t_partition_search (mbr : mbr_t) (gpt : gpt_t) : l4t_flasher_ctxt_t × Nat :=
  let found : Option (Nat × Nat) :=
    if gpt.header.signature = ascii "EFI PART" ∨ gpt.header.num_part_ents > 128 then
      l4t_gpt_scan gpt 0 128
    else
      l4t_mbr_scan mbr 1 3
  match found with
  | some (offset_sct, size_sct) => ({ offset_sct := offset_sct, image_size_sct := 0 }, size_sct)
  | none => ({ offset_sct := 0, image_size_sct := 0 }, 0)

/-- Function `_get_available_l4t_partition` (lines 738-784) on a card with contents `dev`:
the new `l4t_flash_ctxt` and the returned `size_sct`. -/
def _get_available_l4t_partition (dev : Nat → Nat) : l4t_flasher_ctxt_t × Nat :=
  l4t_partition_search (mbr_of_bytes (sdmmc_storage_read dev 0))
    (gpt_of_bytes (sdmmc_storage_read dev 1))

/-! ## Auxiliary descriptions used by the theorems on the layout writer -/

/-- The MBR slot of the (first) emuMMC entry: after the Linux slot when there is one. -/
def mbr_emu_idx (p : partition_ctxt_t) : Nat := if p.l4t_size ≠ 0 ∧ p.and_size = 0 then 2 else 1

/-- The MBR slot after the emuMMC entries: the slot of the protective entry. -/
def mbr_protective_idx (p : partition_ctxt_t) : Nat :=
  mbr_emu_idx p + (if p.emu_size ≠ 0 then (if p.emu_double then 2 else 1) else 0)

/-- One row of the table of GPT partition blocks: name bytes, their count, the size in
sectors and the number of sectors cleared at the head of the partition. -/
structure gpt_part_row where
  name : List Nat
  name_len : Nat
  size : Nat
  wipe : Nat

/-- A run of partition blocks, one `flash_gpt_part` per row. -/
def flash_gpt_rows (prng : Nat → Nat → Nat) (st : flash_state) (rows : List gpt_part_row) :
    flash_state :=
  rows.foldl (fun st r => flash_gpt_part prng st r.name r.name_len r.size r.wipe) st

/-- The row of the Linux block (lines 314-326), if sized. -/
def l4t_rows (p : partition_ctxt_t) : List gpt_part_row :=
  if p.l4t_size ≠ 0 then [⟨utf16le "l4t", 6, u32 (p.l4t_size * 2048), 0x800⟩] else []

/-- The rows of the nine Android blocks (lines 328-428). -/
def android_rows (p : partition_ctxt_t) : List gpt_part_row :=
  [⟨utf16le "vendor", 12, 0x200000, 0x800⟩,
   ⟨utf16le "APP", 6, 0x400000, 0x800⟩,
   ⟨utf16le "LNX", 6, 0x10000, 0x800⟩,
   ⟨utf16le "SOS", 6, 0x20000, 0x800⟩,
   ⟨utf16le "DTB", 6, 0x800, 0x800⟩,
   ⟨utf16le "MDA", 6, 0x8000, 0x8000⟩,
   ⟨utf16le "CAC", 6, 0x15E000, 0x800⟩,
   ⟨utf16le "MSC", 6, 0x1800, 0x800⟩,
   ⟨utf16le "UDA", 6, and_user_size p, 0x800⟩]

/-- The first sector of the partition of row `k`, when the run starts at `start` and
nothing wraps. -/
def rows_start (start : Nat) (rows : List gpt_part_row) (k : Nat) : Nat :=
  start + ((rows.take k).map (fun r => r.size)).sum

/-- The entry a partition block leaves, when nothing wraps: `old` is the entry before,
`calls` the number of earlier `se_gen_prng128` calls, `start` the first sector. -/
def gpt_part_entry (prng : Nat → Nat → Nat) (old : gpt_entry_t) (calls start : Nat)
    (r : gpt_part_row) : gpt_entry_t :=
  { old with type_guid := memcpy_list old.type_guid android_part_guid 16,
             part_guid := memcpy_list old.part_guid (random_number prng calls) 16,
             lba_start := start,
             lba_end := start + r.size - 1,
             name := memcpy_list old.name r.name r.name_len }

/-- The head-clearing writes of a run of partition blocks, when nothing wraps. -/
def rows_writes (buf : Nat → Nat) : Nat → List gpt_part_row → List sd_write
  | _, [] => []
  | start, r :: rows => ⟨start, r.wipe, .upper_buffer buf⟩ :: rows_writes buf (start + r.size) rows

/-- The 72-byte name field of a GPT entry named `s`: UTF-16LE, zero filled. -/
def gpt_name (s : String) : List Nat :=
  memcpy_list (List.replicate 72 0) (utf16le s) (utf16le s).length

/-- The GPT entries the layout writer is to produce, in order, as name and size in sectors
(where the size is a fixed figure of the layout): `hos_data`, `l4t` if sized, the nine
Android partitions, `emummc` (and `emummc2` in doubled mode) if sized. -/
def gpt_layout_expected (p : partition_ctxt_t) : List (String × Option Nat) :=
  [("hos_data", none)]
    ++ (if p.l4t_size ≠ 0 then [("l4t", some (p.l4t_size * 2048))] else [])
    ++ [("vendor", some 0x200000), ("APP", some 0x400000), ("LNX", some 0x10000),
        ("SOS", some 0x20000), ("DTB", some 0x800), ("MDA", some 0x8000),
        ("CAC", some 0x15E000), ("MSC", some 0x1800), ("UDA", none)]
    ++ (if p.emu_size ≠ 0 then
          (if p.emu_double then [("emummc", none), ("emummc2", none)] else [("emummc", none)])
        else [])

/-- The index of the Android userdata entry: after `hos_data`, `l4t` if sized, and the
eight fixed Android partitions. -/
def gpt_uda_idx (p : partition_ctxt_t) : Nat := if p.l4t_size ≠ 0 then 10 else 9

/-- The index of the Android vendor entry, the first of the nine Android entries. -/
def gpt_vendor_idx (p : partition_ctxt_t) : Nat := if p.l4t_size ≠ 0 then 2 else 1

/-- Entry 0 of the GPT as lines 299-309 leave it: `slot0` is slot 0 of the MBR, `calls`
the number of earlier `se_gen_prng128` calls. -/
def gpt_hos_data_entry (prng : Nat → Nat → Nat) (calls : Nat) (slot0 : mbr_part_t) :
    gpt_entry_t :=
  { gpt_entry_zero with
    type_guid := memcpy_list gpt_entry_zero.type_guid basic_part_guid 16,
    part_guid := (memcpy_list gpt_entry_zero.part_guid (random_number prng calls) 16).set 7 0,
    lba_start := slot0.start_sct,
    lba_end := u32_sub (u32 (slot0.start_sct + slot0.size_sct)) 1,
    name := memcpy_list gpt_entry_zero.name (utf16le "hos_data") 16 }

/-- An emuMMC entry of the GPT as lines 430-455 leave it, when nothing wraps: `name_len`
bytes of `name`, `size` sectors from `start`. -/
def gpt_emummc_entry (prng : Nat → Nat → Nat) (calls : Nat) (name : List Nat)
    (name_len start size : Nat) : gpt_entry_t :=
  { gpt_entry_zero with
    type_guid := memcpy_list gpt_entry_zero.type_guid emu_part_guid 16,
    part_guid := memcpy_list gpt_entry_zero.part_guid (random_number prng calls) 16,
    lba_start := start,
    lba_end := start + size - 1,
    name := memcpy_list gpt_entry_zero.name name name_len }

/-- The first sector after the primary partition, `0x8000 + hos_size * 2048`. -/
def gpt_first_lba (p : partition_ctxt_t) : Nat := 0x8000 + p.hos_size.toNat * 2048

/-- The number of emuMMC entries of a plan. -/
def emu_count (p : partition_ctxt_t) : Nat :=
  if p.emu_size ≠ 0 then (if p.emu_double then 2 else 1) else 0

/-- The all-zero row, the default of out-of-range look-ups in a table of rows. -/
def gpt_part_row_zero : gpt_part_row := ⟨[], 0, 0, 0⟩

/-! ## Checksum service (`crc32_calc`) -/

/-- One bit of the reflected CRC-32: shift right, folding in the polynomial `0xEDB88320`
when the bit shifted out is set. -/
def crc32_bit (rem : Nat) : Nat :=
  if rem % 2 = 1 then (rem / 2) ^^^ 0xEDB88320 else rem / 2

/-- One byte of the reflected CRC-32. -/
def crc32_byte (crc oct : Nat) : Nat :=
  crc32_bit (crc32_bit (crc32_bit (crc32_bit (crc32_bit (crc32_bit (crc32_bit (crc32_bit
    ((crc ^^^ (oct % 256)) % 4294967296))))))))

/-- Modelled from the spec: `crc32_calc(crc, buf, len)`, the checksum service "CRC-32 over
arbitrary byte ranges" (its code is not part of the sources): the CRC-32 of the GPT
format, seed and result complemented. The theorems on the layout writer hold for any
checksum function; this one is their concrete instance. -/
def crc32_calc (crc : Nat) (buf : List Nat) : Nat :=
  (buf.foldl crc32_byte ((crc % 4294967296) ^^^ 0xFFFFFFFF)) ^^^ 0xFFFFFFFF

/-! ## Partition locator (`_get_available_android_partition`, lines 786-815) -/

/-- The loop of lines 798-809 from index `i` on: whether an entry with a non-zero
`lba_start` whose name starts with `LNX` is reached. `fuel` bounds the number of
iterations; the loop leaves at `i > 126` at the latest, so 128 is enough from index 0. -/
def android_gpt_scan (gpt : gpt_t) : Nat → Nat → Bool
  | _, 0 => false
  | i, fuel + 1 =>
    if i < gpt.header.num_part_ents then
      if (gpt.entries i).lba_start ≠ 0 ∧ (gpt.entries i).name.take 6 = utf16le "LNX" then true
      else if i > 126 then false
      else android_gpt_scan gpt (i + 1) fuel
    else false

/-- Lines 793-814 of `_get_available_android_partition` on the GPT read at line 791. -/
def android_partition_search (gpt : gpt_t) : Bool :=
  if gpt.header.signature ≠ ascii "EFI PART" ∨ gpt.header.num_part_ents > 128 then false
  else android_gpt_scan gpt 0 128

/-- Function `_get_available_android_partition` (lines 786-815) on a card with contents
`dev`. -/
def _get_available_android_partition (dev : Nat → Nat) : Bool :=
  android_partition_search (gpt_of_bytes (sdmmc_storage_read dev 1))

/-! ## Linux image check (`_action_check_flash_linux`, lines 817-921) -/

/-- The path of image part `idx` as lines 865-871 build it (and lines 878-884, 631-637):
`switchroot/install/l4t.` followed by `idx` in decimal, with a leading `0` below 10. -/
def l4t_part_path (idx : Nat) : String :=
  "switchroot/install/l4t." ++ (if idx < 10 then "0" ++ toString idx else toString idx)

/-- Modelled from the spec: the macro `ALIGN(x, a)` (its header is not part of the source at
hand) for a power of two `a`, "Align size to LBA (512 bytes)": `x` rounded up to a multiple
of `a`. -/
def ALIGN (x a : Nat) : Nat := (x + (a - 1)) / a * a

/-- The status message `_action_check_flash_linux` ends with. -/
inductive l4t_check_status
  | no_files
  | no_partition
  | not_aligned
  | too_large
  | offer_flash
deriving DecidableEq

/-- What `_action_check_flash_linux` leaves: the status shown (with `offer_flash` the
message box gets the button that starts `_action_flash_linux_data`), the global
`l4t_flash_ctxt`, and the block writes issued to the card. -/
structure l4t_check_result where
  status : l4t_check_status
  ctxt : l4t_flasher_ctxt_t
  writes : List sd_write

/-- The loop of lines 862-903 from part `idx` on, with `image_size_sct` the sum so far.
`f_stat path` is `some fsize` when `f_stat` finds the file and `none` otherwise (modelled
from the spec: the filesystem service). The result is `some (false, _)` when the alignment
error is reached, `some (true, image_size_sct)` when the loop is left at the first missing
part, and `none` when `fuel` iterations were not enough. The index is far from 32 bits
and is not wrapped. -/
def l4t_check_parts (f_stat : String → Option Nat) : Nat → Nat → Nat → Option (Bool × Nat)
  | _, _, 0 => none
  | idx, image_size_sct, fuel + 1 =>
    match f_stat (l4t_part_path idx) with
    | some fsize =>
      if fsize % 0x400000 ≠ 0 then
        -- `idx++`, look for the next part, `idx--`
        if (f_stat (l4t_part_path (idx + 1))).isSome then some (false, image_size_sct)
        else
          l4t_check_parts f_stat (idx + 1 - 1 + 1) (u32 (image_size_sct + ALIGN fsize 512 / 512))
            fuel
      else l4t_check_parts f_stat (idx + 1) (u32 (image_size_sct + fsize / 512)) fuel
    | none => some (true, image_size_sct)

/-- Function `_action_check_flash_linux` (lines 817-921): `l4t_flash_ctxt` is the global
before the call, `dev` the contents of the card; `none` when `fuel` iterations of the
loop over the parts were not enough. -/
def _action_check_flash_linux (f_stat : String → Option Nat) (l4t_flash_ctxt : l4t_flasher_ctxt_t)
    (dev : Nat → Nat) (fuel : Nat) : Option l4t_check_result :=
  if (f_stat "switchroot/install/l4t.00").isNone then
    some { status := .no_files, ctxt := l4t_flash_ctxt, writes := [] }
  else
    let found := _get_available_l4t_partition dev
    let size_sct := found.2
    if found.1.offset_sct = 0 ∨ size_sct = 0 ∨ size_sct < 0x800000 then
      some { status := .no_partition, ctxt := found.1, writes := [] }
    else
      match l4t_check_parts f_stat 0 found.1.image_size_sct fuel with
      | none => none
      | some (false, image_size_sct) =>
        some { status := .not_aligned,
               ctxt := { found.1 with image_size_sct := image_size_sct }, writes := [] }
      | some (true, image_size_sct) =>
        if image_size_sct > size_sct then
          some { status := .too_large,
                 ctxt := { found.1 with image_size_sct := image_size_sct }, writes := [] }
        else
          some { status := .offer_flash,
                 ctxt := { found.1 with image_size_sct := image_size_sct }, writes := [] }

/-- The size in sectors of an image given by the lengths of its parts, in the words of the
specification: the sum of `length / 512` over the parts, the length of the last part first
rounded up to a multiple of 512. -/
def l4t_image_sectors : List Nat → Nat
  | [] => 0
  | [s] => ALIGN s 512 / 512
  | s :: rest => s / 512 + l4t_image_sectors rest

/-- The files of an image whose parts have the lengths `sizes`: part `idx` is found with
its length for `idx` below the number of parts, and the next one is missing. -/
def l4t_image_files (f_stat : String → Option Nat) (sizes : List Nat) : Prop :=
  ∀ idx, idx ≤ sizes.length → f_stat (l4t_part_path idx) = sizes[idx]?

/-- Some part other than the last has a length that is not a multiple of `0x400000`. -/
def l4t_image_misaligned (sizes : List Nat) : Prop :=
  ∃ i, i + 1 < sizes.length ∧ sizes.getD i 0 % 0x400000 ≠ 0

/-! ## Linux image flasher (`_action_flash_linux_data`, lines 547-728) -/

/-- Modelled from the spec: the sector size `NX_EMMC_BLOCKSIZE` (its header is not part of
the source at hand); sectors are 512 bytes, as in `num << 9` at line 664. -/
def NX_EMMC_BLOCKSIZE : Nat := 512

/-- One call of `sdmmc_storage_write` by the flasher: `num` sectors at `sector`, the
buffer filled by the `f_read_fast` that started at byte `pos` of image part `part`;
`ok` is what the call returned. -/
structure l4t_write where
  sector : Nat
  num : Nat
  part : Nat
  pos : Nat
  ok : Bool
deriving DecidableEq

/-- How `_action_flash_linux_data` ends. -/
inductive l4t_flash_status
  | open_first_failed
  | open_part_failed
  | read_failed
  | write_failed
  | succeeded
deriving DecidableEq

/-- The local variables of the streaming loop: `fptr` is the read pointer of `fp`,
`reads` the number of `f_read_fast` calls so far, `writes` the `sdmmc_storage_write` calls
so far. -/
structure l4t_flash_state where
  currPartIdx : Nat
  fileSize : Nat
  bytesWritten : Nat
  lba_curr : Nat
  total_size_sct : Nat
  fptr : Nat
  reads : Nat
  writes : List l4t_write
deriving DecidableEq

/-- Lines 626-646: when `bytesWritten >= fileSize` the next part is opened; `none` when
that `f_open` fails. `f_open path` is `some size` when the file opens (modelled from the
spec: the filesystem service). -/
def l4t_next_part (f_open : String → Option Nat) (st : l4t_flash_state) : Option l4t_flash_state :=
  if st.bytesWritten ≥ st.fileSize then
    match f_open (l4t_part_path (st.currPartIdx + 1)) with
    | none => none
    | some size =>
      some { st with currPartIdx := st.currPartIdx + 1, fileSize := size, bytesWritten := 0,
                     fptr := 0 }
  else some st

/-- The loop `while (res)` of lines 668-685, entered after a failed write of `w`:
`retryCount` is the variable set to 0 at line 649, which the loop compares with 3 and does
not change. `write_ok k` is whether the `k`-th `sdmmc_storage_write` call succeeds. The
result is `some (false, _)` when the loop gives up, `some (true, _)` when a write
succeeded, `none` when `fuel` iterations were not enough. -/
def l4t_write_retry (write_ok : Nat → Bool) (retryCount : Nat) (w : l4t_write) :
    List l4t_write → Nat → Option (Bool × List l4t_write)
  | _, 0 => none
  | writes, fuel + 1 =>
    if retryCount ≥ 3 then some (false, writes)
    else
      let ok := write_ok writes.length
      if ok then some (true, writes ++ [{ w with ok := ok }])
      else l4t_write_retry write_ok retryCount w (writes ++ [{ w with ok := ok }]) fuel

/-- The loop `while (total_size_sct > 0)` of lines 623-711. `read_ok k` is whether the
`k`-th `f_read_fast` call succeeds; a read moves the pointer of `fp` by the bytes asked
for, up to the end of the file. `none` when `fuel` iterations were not enough. -/
def l4t_flash_loop (f_open : String → Option Nat) (read_ok write_ok : Nat → Bool)
    (offset_sct : Nat) : l4t_flash_state → Nat → Option (l4t_flash_status × l4t_flash_state)
  | _, 0 => none
  | st, fuel + 1 =>
    if st.total_size_sct > 0 then
      match l4t_next_part f_open st with
      | none => some (.open_part_failed, { st with currPartIdx := st.currPartIdx + 1 })
      | some st1 =>
        let retryCount := 0
        let num := min st1.total_size_sct 8192
        if read_ok st1.reads = false then
          some (.read_failed, { st1 with reads := st1.reads + 1 })
        else
          let w : l4t_write :=
            { sector := u32 (st1.lba_curr + offset_sct), num := num, part := st1.currPartIdx,
              pos := st1.fptr, ok := write_ok st1.writes.length }
          let st2 : l4t_flash_state :=
            { st1 with reads := st1.reads + 1,
                       fptr := min (st1.fptr + num * 512) st1.fileSize,
                       writes := st1.writes ++ [w] }
          match (if w.ok then some (true, st2.writes)
                 else l4t_write_retry write_ok retryCount w st2.writes fuel) with
          | none => none
          | some (false, writes) => some (.write_failed, { st2 with writes := writes })
          | some (true, writes) =>
            l4t_flash_loop f_open read_ok write_ok offset_sct
              { st2 with writes := writes,
                         lba_curr := u32 (st2.lba_curr + num),
                         total_size_sct := st2.total_size_sct - num,
                         bytesWritten := u32 (st2.bytesWritten + num * NX_EMMC_BLOCKSIZE) }
              fuel
    else some (.succeeded, st)

/-- Function `_action_flash_linux_data` (lines 547-728) when the first button was pressed:
how it ends and the `sdmmc_storage_write` calls it made, in order; `none` when `fuel`
iterations were not enough. -/
def _action_flash_linux_data (f_open : String → Option Nat) (read_ok write_ok : Nat → Bool)
    (l4t_flash_ctxt : l4t_flasher_ctxt_t) (fuel : Nat) :
    Option (l4t_flash_status × List l4t_write) :=
  match f_open "switchroot/install/l4t.00" with
  | none => some (.open_first_failed, [])
  | some fileSize =>
    (l4t_flash_loop f_open read_ok write_ok l4t_flash_ctxt.offset_sct
      { currPartIdx := 0, fileSize := fileSize, bytesWritten := 0, lba_curr := 0,
        total_size_sct := l4t_flash_ctxt.image_size_sct, fptr := 0, reads := 0, writes := [] }
      fuel).map (fun r => (r.1, r.2.writes))

/-- Chunk `j` of a part of `nsect` sectors whose first sector on the card is `first`. -/
def l4t_chunk (first part nsect j : Nat) : l4t_write :=
  { sector := first + 8192 * j, num := min (nsect - 8192 * j) 8192, part := part,
    pos := 0x400000 * j, ok := true }

/-- The writes that put a part of `nsect` sectors on the card from sector `first` on, in
chunks of 8192 sectors taken from that part. -/
def l4t_part_chunks (first part nsect : Nat) : List l4t_write :=
  (List.range ((nsect + 8191) / 8192)).map (l4t_chunk first part nsect)

/-- The sectors a part of `s` bytes adds to the image: `s / 512`, and for the last part
`s` first rounded up to a multiple of 512. -/
def l4t_part_sectors (s : Nat) : List Nat → Nat
  | [] => ALIGN s 512 / 512
  | _ :: _ => s / 512

/-- The writes that put an image on the card in the words of the specification: part after
part from sector `first` on, each part in chunks of at most 8192 sectors taken from that
part alone. -/
def l4t_image_chunks : Nat → Nat → List Nat → List l4t_write
  | _, _, [] => []
  | first, part, s :: rest =>
    l4t_part_chunks first part (l4t_part_sectors s rest)
      ++ l4t_image_chunks (first + l4t_part_sectors s rest) (part + 1) rest

/-- The writes `ws` cover the sectors `first .. last - 1` once each in ascending order, in
successful chunks of 1 to 8192 sectors. -/
def l4t_writes_cover : Nat → Nat → List l4t_write → Prop
  | first, last, [] => first = last
  | first, last, w :: ws =>
    w.sector = first ∧ 0 < w.num ∧ w.num ≤ 8192 ∧ w.ok = true ∧
      l4t_writes_cover (first + w.num) last ws

/-- The remaining chunks of a part from chunk `j` on. -/
def l4t_chunks_from (first part nsect j : Nat) : List l4t_write :=
  (List.range' j ((nsect + 8191) / 8192 - j)).map (l4t_chunk first part nsect)

/-- The parts of an image as the pre-flight check accepts them: at least one part, every
part but the last a multiple of 4 MiB. -/
def l4t_image_accepted (sizes : List Nat) : Prop :=
  sizes ≠ [] ∧ ¬ l4t_image_misaligned sizes

/-- Every part but the last is not empty and shorter than 4 GiB. -/
def l4t_parts_sized : List Nat → Prop
  | [] => True
  | [_] => True
  | s :: rest => 0 < s ∧ s < 4294967296 ∧ l4t_parts_sized rest

/-- The state after one iteration of the streaming loop whose read and write succeed at
once, from the state `st1` that the opening of the next part left. -/
def l4t_flash_step (offset_sct : Nat) (st1 : l4t_flash_state) : l4t_flash_state :=
  { st1 with
    reads := st1.reads + 1,
    fptr := min (st1.fptr + min st1.total_size_sct 8192 * 512) st1.fileSize,
    writes := st1.writes ++
      [{ sector := u32 (st1.lba_curr + offset_sct), num := min st1.total_size_sct 8192,
         part := st1.currPartIdx, pos := st1.fptr, ok := true }],
    lba_curr := u32 (st1.lba_curr + min st1.total_size_sct 8192),
    total_size_sct := st1.total_size_sct - min st1.total_size_sct 8192,
    bytesWritten := u32 (st1.bytesWritten + min st1.total_size_sct 8192 * NX_EMMC_BLOCKSIZE) }

/-- The streaming loop is about to handle chunk `j` of part `idx`, a file of `s` bytes whose
first sector on the card is `first`; `rest` are the lengths of the parts after it. -/
structure l4t_stream_inv (f_open : String → Option Nat) (offset_sct : Nat)
    (st : l4t_flash_state) (j s idx first : Nat) (rest : List Nat) : Prop where
  hidx : st.currPartIdx = idx
  hsize : st.fileSize = s
  hptr : st.fptr = 0x400000 * j
  hbw : st.bytesWritten = u32 (0x400000 * j)
  hj : 8192 * j ≤ l4t_part_sectors s rest
  htot : st.total_size_sct = l4t_part_sectors s rest - 8192 * j + l4t_image_sectors rest
  hlba : st.lba_curr + offset_sct = first + 8192 * j
  hfit : st.lba_curr + st.total_size_sct < 4294967296
  hend : first + l4t_part_sectors s rest + l4t_image_sectors rest ≤ 4294967296
  hopen : ∀ i, i < rest.length → f_open (l4t_part_path (idx + 1 + i)) = rest[i]?
  hal : ¬ l4t_image_misaligned (s :: rest)
  hsz : l4t_parts_sized (s :: rest)

/-! ## Backup and restore (`_backup_and_restore_files`, lines 89-221) -/

/-- Modelled from the spec: the filesystem service, a "hierarchical directory listing". The
entries of a directory in the order `f_readdir` returns them, each directory with the
entries below it. `nil` is the end of the directory (`f_readdir` returns `FR_OK` and an
empty name), `read_error res` a failing `f_readdir`; `open_res` is what `f_opendir`
returns for the directory (`FR_OK` is 0). Of the attributes only the directory bit is
modelled, as the constructor. A name is a `String` whose characters stand for the bytes of
`fno.fname`. -/
inductive fs_items
  | nil : fs_items
  | read_error (res : Int) : fs_items
  | file (fname : String) (data : List Nat) (next : fs_items) : fs_items
  | dir (fname : String) (open_res : Int) (items : fs_items) (next : fs_items) : fs_items
deriving DecidableEq

/-- Modelled from the spec: the entries `e` added after the last entry of a directory, as
the filesystem service does for a new name. -/
def fs_items.append : fs_items → fs_items → fs_items
  | .nil, e => e
  | .read_error res, _ => .read_error res
  | .file fname data next, e => .file fname data (next.append e)
  | .dir fname open_res items next, e => .dir fname open_res items (next.append e)

/-- Modelled from the spec: whether a directory has an entry called `name`. -/
def items_has_name (name : String) : fs_items → Bool
  | .nil => false
  | .read_error _ => false
  | .file fname _ next => fname = name || items_has_name name next
  | .dir fname _ _ next => fname = name || items_has_name name next

/-- Modelled from the spec: the service `f_mkdir` in the directory it names: a new empty
directory after the last entry, unless the name exists. -/
def items_mkdir (name : String) (items : fs_items) : fs_items :=
  if items_has_name name items then items else items.append (.dir name 0 .nil .nil)

/-- Modelled from the spec: the file `name` created or replaced (`FA_CREATE_ALWAYS`) with
contents `data`, as it is in its directory once it is closed; no change when a directory
has that name. -/
def items_put_file (name : String) (data : List Nat) : fs_items → fs_items
  | .nil => .file name data .nil
  | .read_error res => .read_error res
  | .file fname d next =>
    if fname = name then .file fname data next else .file fname d (items_put_file name data next)
  | .dir fname open_res items next =>
    if fname = name then .dir fname open_res items next
    else .dir fname open_res items (items_put_file name data next)

/-- Modelled from the spec: a change `f` made to the entries of the sub-directory `name` of a
directory, as the filesystem service resolves one component of a path; no change when
there is no such sub-directory. -/
def items_in_dir (name : String) (f : fs_items → fs_items) : fs_items → fs_items
  | .nil => .nil
  | .read_error res => .read_error res
  | .file fname data next =>
    if fname = name then .file fname data next else .file fname data (items_in_dir name f next)
  | .dir fname open_res items next =>
    if fname = name then .dir fname open_res (f items) next
    else .dir fname open_res items (items_in_dir name f next)

/-- Modelled from the spec: a change `f` made to the entries of the directory at `path` of a
volume. The path buffer of the walk, `dir/sub/...`, is kept as the list of its
components. -/
def fs_at (f : fs_items → fs_items) : List String → fs_items → fs_items
  | [] => f
  | d :: rest => items_in_dir d (fs_at f rest)

/-- Modelled from the spec: what the walk takes from outside the source file. The constants
`RAMDISK_CLUSTER_SZ` and `RAM_DISK_SZ` (their headers are not part of the source at hand,
so they are parameters), which calls of the filesystem service fail, and the bytes `stale`
that clusters hold when `f_lseek` allocates them. -/
structure backup_env where
  RAMDISK_CLUSTER_SZ : Nat
  RAM_DISK_SZ : Nat
  open_dst_fails : List String → Bool
  open_src_fails : List String → Bool
  read_fails : List String → Nat → Bool
  write_fails : List String → Nat → Bool
  stale : Nat → Nat

/-- The state of the copy of one file: the buffer `SDXC_BUF_ALIGNED`, the pointers of
`fp_src` and `fp_dst`, and the contents of the destination file. -/
structure copy_state where
  buf : Nat → Nat
  src_pos : Nat
  dst_pos : Nat
  dst_data : List Nat

/-- Modelled from the spec: the service `f_write`, the bytes `chunk` written at `pos` of a
file with contents `data`. -/
def file_write_at (data : List Nat) (pos : Nat) (chunk : List Nat) : List Nat :=
  data.take pos ++ chunk ++ data.drop (pos + chunk.length)

/-- The loop `while (file_size)` of lines 163-174: `src` is the contents of the source file
when it could be opened, `dst_open` whether the destination file could be opened,
`read_fails k` / `write_fails k` whether the `f_read` / `f_write` of chunk `k` fails. A
failing read leaves the buffer as it is, a failing write leaves the file as it is; the
return values are not looked at. `none` when `fuel` iterations were not enough. -/
def copy_chunks (src : Option (List Nat)) (dst_open : Bool) (read_fails write_fails : Nat → Bool) :
    Nat → Nat → Nat → copy_state → Option copy_state
  | 0, _, _, _ => none
  | fuel + 1, file_size, k, st =>
    if file_size = 0 then some st
    else
      let chunk_size := min file_size 0x400000
      let st1 : copy_state :=
        match src with
        | some data =>
          if read_fails k then st
          else
            { st with
              buf := fun i => if i < chunk_size then data.getD (st.src_pos + i) (st.buf i)
                              else st.buf i,
              src_pos := st.src_pos + chunk_size }
        | none => st
      let st2 : copy_state :=
        if dst_open = true ∧ write_fails k = false then
          { st1 with
            dst_data := file_write_at st1.dst_data st1.dst_pos
              ((List.range chunk_size).map st1.buf),
            dst_pos := st1.dst_pos + chunk_size }
        else st1
      copy_chunks src dst_open read_fails write_fails fuel (file_size - chunk_size) (k + 1) st2

/-- The variables the walk changes: `*total_files`, `*total_size`, the volume of the drive
`dst`, and the buffer `SDXC_BUF_ALIGNED`. -/
structure backup_state where
  total_files : Nat
  total_size : Nat
  dst : fs_items
  buf : Nat → Nat

/-- Lines 150-182: the copy of the file `fname` with contents `data` of the directory at
`path`. The destination file gets its contents in its directory when it is closed. -/
def backup_copy_file (env : backup_env) (path : List String) (fname : String) (data : List Nat)
    (st : backup_state) : Option backup_state :=
  let dst_open := !env.open_dst_fails (path ++ [fname])
  let src := if env.open_src_fails (path ++ [fname]) then none else some data
  -- `f_lseek(&fp_dst, fno.fsize); f_lseek(&fp_dst, 0);`
  let cs0 : copy_state :=
    { buf := st.buf, src_pos := 0, dst_pos := 0, dst_data := (List.range data.length).map env.stale }
  match copy_chunks src dst_open (env.read_fails (path ++ [fname]))
      (env.write_fails (path ++ [fname])) (data.length + 1) (u32 data.length) 0 cs0 with
  | none => none
  | some cs =>
    some { st with
           buf := cs.buf,
           dst := if dst_open then fs_at (items_put_file fname cs.dst_data) path st.dst
                  else st.dst }

/-- The test of line 195, `!memcmp("System Volume Information", fno.fname, 25)`: the first
25 characters of the name are those of `System Volume Information`. -/
def is_system_volume_information (fname : String) : Bool :=
  fname.toList.take 25 = "System Volume Information".toList

/-- The size in bytes of the buffer `path` that the walk writes the names to: its callers
allocate it with `malloc(1024)` (lines 1370 and 1909). -/
def path_buf_size : Nat := 1024

/-- The length of the string that a caller leaves in `path` for the directory of the
components `path`: the components with a `/` between them, as in `path[0] = 0` for the
root (lines 1394, 1409, 1497, 1912) and `strcpy(path, "bootloader")` (lines 1389, 1407,
1492). -/
def path_strlen : List String → Nat
  | [] => 0
  | [d] => d.length
  | d :: rest => d.length + 1 + path_strlen rest

/-- The loop `for (;;)` of lines 109-216 over the entries `items` of the directory at
`path`, with `dirLength = strlen(path)` (line 108). `copy` says whether `dst` and `src` are
given (the callers give both or none, lines 1398-1499 and 1915). For every entry read,
lines 123-124 put `/` at `path[dirLength]` and copy the name with its final 0 after it,
without a look at the size of the buffer: the last byte written is
`path[dirLength + 1 + strlen(fno.fname)]`. The call of line 205 on a sub-directory is the
test of its `open_res` (lines 100-103) followed by the loop over its entries, with the
`dirLength` of the longer string. The result is the state and the value returned. It is
`none` when the code has no defined result: a name that does not fit in the buffer (the
`strcpy` of line 124 writes past its end), or a copy that ran out of fuel (there is none,
see `backup_copy_file_totals`). `*total_files` counts files of at least one cluster each
and is not wrapped. -/
def backup_walk (env : backup_env) (copy : Bool) :
    fs_items → List String → Nat → backup_state → Option (backup_state × Int)
  | .nil, _, _, st => some (st, 0)
  | .read_error res, _, _, st => some (st, res)
  | .file fname data next, path, dirLength, st =>
    if path_buf_size < dirLength + 1 + fname.length + 1 then none
    else
      let file_size :=
        u32 (if data.length > env.RAMDISK_CLUSTER_SZ then data.length
             else env.RAMDISK_CLUSTER_SZ)
      if u32 (file_size + st.total_size) < st.total_size then
        some ({ st with total_size := 0x80000000 }, -1)
      else
        let st1 : backup_state :=
          { st with total_size := u32 (st.total_size + file_size),
                    total_files := st.total_files + 1 }
        match (if copy then backup_copy_file env path fname data st1 else some st1) with
        | none => none
        | some st2 =>
          if st2.total_size > env.RAM_DISK_SZ - 0x1000000 then some (st2, -1)
          else backup_walk env copy next path dirLength st2
  | .dir fname open_res items next, path, dirLength, st =>
    if path_buf_size < dirLength + 1 + fname.length + 1 then none
    else if is_system_volume_information fname then backup_walk env copy next path dirLength st
    else
      let st1 : backup_state :=
        if copy then { st with dst := fs_at (items_mkdir fname) path st.dst } else st
      match (if open_res ≠ 0 then some (st1, open_res)
             else backup_walk env copy items (path ++ [fname]) (dirLength + 1 + fname.length)
               st1) with
      | none => none
      | some (st2, res) =>
        if res ≠ 0 then some (st2, res) else backup_walk env copy next path dirLength st2

/-- Function `_backup_and_restore_files` (lines 89-221) on the directory at `path` of the
source drive, whose `f_opendir` returns `open_res` and whose entries are `items`; the
buffer `path` is the one of `path_buf_size` bytes of the callers. -/
def _backup_and_restore_files (env : backup_env) (copy : Bool) (open_res : Int)
    (items : fs_items) (path : List String) (st : backup_state) : Option (backup_state × Int) :=
  if open_res ≠ 0 then some (st, open_res)
  else backup_walk env copy items path (path_strlen path) st

/-- What a walk meets, in order: a regular file of `fsize` bytes, or a directory that
cannot be opened or read, with the result of the failing call. -/
inductive backup_event
  | file (fsize : Nat)
  | stop (res : Int)
deriving DecidableEq

/-- The regular files and the failing directories of a tree in the order of the walk, in
the words of the specification; `skip` tells the names of the directories that are left
out with everything under them. -/
def backup_events (skip : String → Bool) : fs_items → List backup_event
  | .nil => []
  | .read_error res => [.stop res]
  | .file _ data next => .file data.length :: backup_events skip next
  | .dir fname open_res items next =>
    if skip fname then backup_events skip next
    else if open_res ≠ 0 then [.stop open_res]
    else backup_events skip items ++ backup_events skip next

/-- The accounting of a walk in the words of the specification, from the totals
`(total_files, total_size)`: every file adds `max(fsize, RAMDISK_CLUSTER_SZ)` and 1; the
walk stops at once with a non-zero result when that addition would overflow 32 bits
(`total_size` is then `0x80000000`), when the new total exceeds `RAM_DISK_SZ - 0x1000000`,
or at a directory that cannot be opened or read (a call with a non-zero result); otherwise
the result is 0. The value is `(total_files, total_size, result)`. -/
def backup_account (env : backup_env) : List backup_event → Nat → Nat → Nat × Nat × Int
  | [], total_files, total_size => (total_files, total_size, 0)
  | .stop res :: rest, total_files, total_size =>
    if res ≠ 0 then (total_files, total_size, res)
    else backup_account env rest total_files total_size
  | .file fsize :: rest, total_files, total_size =>
    if 4294967296 ≤ total_size + max fsize env.RAMDISK_CLUSTER_SZ then
      (total_files, 0x80000000, -1)
    else if total_size + max fsize env.RAMDISK_CLUSTER_SZ > env.RAM_DISK_SZ - 0x1000000 then
      (total_files + 1, total_size + max fsize env.RAMDISK_CLUSTER_SZ, -1)
    else
      backup_account env rest (total_files + 1) (total_size + max fsize env.RAMDISK_CLUSTER_SZ)

/-- Every regular file of the tree is shorter than 4 GiB. -/
def fs_files_32bit : fs_items → Prop
  | .nil => True
  | .read_error _ => True
  | .file _ data next => data.length < 4294967296 ∧ fs_files_32bit next
  | .dir _ _ items next => fs_files_32bit items ∧ fs_files_32bit next

/-- The directory named exactly `System Volume Information`. -/
def is_named_system_volume_information (fname : String) : Bool :=
  fname = "System Volume Information"

/-- A tree without the directories whose name `skip` tells, and what is under them. -/
def fs_prune (skip : String → Bool) : fs_items → fs_items
  | .nil => .nil
  | .read_error res => .read_error res
  | .file fname data next => .file fname data (fs_prune skip next)
  | .dir fname open_res items next =>
    if skip fname then fs_prune skip next
    else .dir fname open_res (fs_prune skip items) (fs_prune skip next)

/-- A tree as a file system holds it when every call succeeds: every directory can be
opened and read, and no two entries of a directory have the same name. -/
def fs_wf : fs_items → Prop
  | .nil => True
  | .read_error _ => False
  | .file fname _ next => items_has_name fname next = false ∧ fs_wf next
  | .dir fname open_res items next =>
    open_res = 0 ∧ items_has_name fname next = false ∧ fs_wf items ∧ fs_wf next

/-- The accounted size of a tree in the words of the specification:
`max(fsize, RAMDISK_CLUSTER_SZ)` summed over the files that are not under a directory
whose name `skip` tells. -/
def backup_accounted (env : backup_env) (skip : String → Bool) : fs_items → Nat
  | .nil => 0
  | .read_error _ => 0
  | .file _ data next =>
    max data.length env.RAMDISK_CLUSTER_SZ + backup_accounted env skip next
  | .dir fname _ items next =>
    if skip fname then backup_accounted env skip next
    else backup_accounted env skip items + backup_accounted env skip next

/-- The number of files of a tree that are not under a directory whose name `skip`
tells. -/
def backup_counted (skip : String → Bool) : fs_items → Nat
  | .nil => 0
  | .read_error _ => 0
  | .file _ _ next => 1 + backup_counted skip next
  | .dir fname _ items next =>
    if skip fname then backup_counted skip next
    else backup_counted skip items + backup_counted skip next

/-- Every path of the tree under a directory whose string has `dirLength` bytes fits in the
buffer `path`: for every entry, the string of the directory, `/`, the name and the final 0
take at most `path_buf_size` bytes. -/
def fs_paths_fit : fs_items → Nat → Prop
  | .nil, _ => True
  | .read_error _, _ => True
  | .file fname _ next, dirLength =>
    dirLength + 1 + fname.length + 1 ≤ path_buf_size ∧ fs_paths_fit next dirLength
  | .dir fname _ items next, dirLength =>
    dirLength + 1 + fname.length + 1 ≤ path_buf_size ∧
      fs_paths_fit items (dirLength + 1 + fname.length) ∧ fs_paths_fit next dirLength

/-- No directory of the tree has a longer name that starts with
`System Volume Information`: the directories that pass the test of line 195 are those named
`System Volume Information`. -/
def fs_no_longer_names : fs_items → Prop
  | .nil => True
  | .read_error _ => True
  | .file _ _ next => fs_no_longer_names next
  | .dir fname _ items next =>
    (is_system_volume_information fname = true → fname = "System Volume Information") ∧
      fs_no_longer_names items ∧ fs_no_longer_names next

/-- What a copying walk over the entries `items` makes of the entries `e` of the
directory it mirrors them into, when every call succeeds. -/
def mirror_into : fs_items → fs_items → fs_items
  | .nil, e => e
  | .read_error _, e => e
  | .file fname data next, e => mirror_into next (items_put_file fname data e)
  | .dir fname _ items next, e =>
    if is_system_volume_information fname then mirror_into next e
    else mirror_into next (items_in_dir fname (mirror_into items) (items_mkdir fname e))

/-- No file call fails. -/
def backup_env.no_faults (env : backup_env) : Prop :=
  (∀ p, env.open_dst_fails p = false) ∧ (∀ p, env.open_src_fails p = false) ∧
  (∀ p k, env.read_fails p k = false) ∧ (∀ p k, env.write_fails p k = false)

/-- The listing of a directory ends without a read error. -/
def items_ends_well : fs_items → Prop
  | .nil => True
  | .read_error _ => False
  | .file _ _ next => items_ends_well next
  | .dir _ _ _ next => items_ends_well next

/-! ## Layout writer: the emuMMC entries and the results of the write calls -/

/-- The index of the `emummc` entry of the GPT: after `hos_data`, `l4t` if sized, and the
nine Android entries; `emummc2` follows it in doubled mode. -/
def gpt_emummc_idx (p : partition_ctxt_t) : Nat := if p.l4t_size ≠ 0 then 11 else 10

/-- Modelled from the spec: the value `sdmmc_storage_write` returns, the block I/O service
telling whether the write was done (its code is not part of the sources). The calls `ws` of
a run, each with the value it returns, on a card where call number `k` of the run (counted
from 0) fails when `wr_fails k`. -/
def sd_write_results (wr_fails : Nat → Bool) (ws : List sd_write) : List (sd_write × Bool) :=
  ws.zip ((List.range ws.length).map (fun k => !wr_fails k))

/-- Function `_prepare_and_flash_mbr_gpt` (lines 223-484) on a card where write calls can
fail: the calls it issues, in order, each with the value it returns. Every call of
`sdmmc_storage_write` in the function (lines 237, 249, 322, 335, 346, 357, 368, 379, 390,
401, 412, 426, 471, 474, 477 and 483) is an expression statement, the value is dropped and
the function is `void`: what follows a call is the same whether it failed or not. -/
def flash_write_calls (wr_fails : Nat → Bool) (part_info : partition_ctxt_t) (sec_cnt : Nat)
    (dev_mbr : mbr_t) (upper : Nat → Nat) (prng : Nat → Nat → Nat)
    (crc32_calc : Nat → List Nat → Nat) : List (sd_write × Bool) :=
  sd_write_results wr_fails
    (_prepare_and_flash_mbr_gpt part_info sec_cnt dev_mbr upper prng crc32_calc)

/-! ## Hybrid MBR repair (`_action_fix_mbr`, lines 2029-2212) -/

/-- Modelled from the spec: `emmc_part_t`, the parsed form of a GPT entry kept in the list
`gpt_parsed` (declared in a storage header that is not part of the sources): the index of
the entry, its first and last LBA, and its name as an array of characters. The two LBAs are
kept as read from the GPT; every use in `_action_fix_mbr` assigns to a `u32` field of the
MBR, and the reduction to `u32` is done there. -/
structure emmc_part_t where
  index : Nat
  lba_start : Nat
  lba_end : Nat
  name : List Nat
deriving DecidableEq

/-- Lines 2081-2084 of `_action_fix_mbr`: the low byte of each of the 36 UTF-16LE code
units of the name of a GPT entry, then `name[35] = 0`. -/
def gpt_entry_ascii_name (e : gpt_entry_t) : List Nat :=
  ((List.range 36).map (fun j => e.name.getD (2 * j) 0 % 256)).set 35 0

/-- The test `!strcmp(name, s)` for a character array `name` and a string literal `s`: the
characters of `name` before its first NUL are those of `s`. -/
def strcmp_eq (name : List Nat) (s : String) : Bool :=
  name.takeWhile (fun c => c != 0) == ascii s

/-- Lines 2068-2087 of `_action_fix_mbr`: the list `gpt_parsed`, one element per entry of
index below `num_part_ents` whose `lba_start` is not below `first_use_lba`, in the order of
the GPT. -/
def fix_mbr_parse (gpt : gpt_t) : List emmc_part_t :=
  (List.range gpt.header.num_part_ents).filterMap (fun i =>
    if (gpt.entries i).lba_start < gpt.header.first_use_lba then none
    else some { index := i
                lba_start := (gpt.entries i).lba_start
                lba_end := (gpt.entries i).lba_end
                name := gpt_entry_ascii_name (gpt.entries i) })

/-- The locals of the loop of lines 2093-2124: the new MBR `mbr[1]`, `mbr_idx` and
`found_hos_data`. -/
structure fix_mbr_state where
  mbr : mbr_t
  mbr_idx : Nat
  found_hos_data : Bool

/-- The assignment of lines 2098-2100, 2106-2108 and 2115-2117: type, `start_sct` and
`size_sct = lba_end - lba_start + 1` of slot `idx`, in `u32`. -/
def fix_mbr_set_slot (m : mbr_t) (idx type : Nat) (part : emmc_part_t) : mbr_t :=
  mbr_set_partition m idx (fun e =>
    { e with type := type, start_sct := u32 part.lba_start,
             size_sct := to_u32 ((part.lba_end : Int) - (part.lba_start : Int) + 1) })

/-- One pass of the body of the loop of lines 2093-2124, up to the test of line 2122.
`sd_fs_part_type` is `sd_fs.part_type`, `sd_fs_exfat` the test `sd_fs.fs_type == FS_EXFAT`. -/
def fix_mbr_set_part (sd_fs_part_type : Nat) (sd_fs_exfat : Bool) (st : fix_mbr_state)
    (part : emmc_part_t) : fix_mbr_state :=
  -- 2096-2101: FatFS simple GPT found a fat partition, set it.
  let st : fix_mbr_state :=
    if sd_fs_part_type ≠ 0 ∧ part.index = 0 then
      { st with mbr := fix_mbr_set_slot st.mbr 0 (if sd_fs_exfat then 0x7 else 0xC) part }
    else st
  -- 2104-2110: FatFS simple GPT didn't find a fat partition as the first one.
  let st : fix_mbr_state :=
    if sd_fs_part_type = 0 ∧ st.found_hos_data = false ∧ strcmp_eq part.name "hos_data" then
      { st with mbr := fix_mbr_set_slot st.mbr 0 0xC part, found_hos_data := true }
    else st
  -- 2113-2119: set up to max 2 emuMMC partitions.
  if strcmp_eq part.name "emummc" ∨ strcmp_eq part.name "emummc2" then
    { st with mbr := fix_mbr_set_slot st.mbr st.mbr_idx 0xE0 part, mbr_idx := st.mbr_idx + 1 }
  else st

/-- The loop of lines 2093-2124 over the elements of `gpt_parsed` that are left; it is left
at line 2123 once `mbr_idx >= 3`. -/
def fix_mbr_set_parts (sd_fs_part_type : Nat) (sd_fs_exfat : Bool) :
    List emmc_part_t → fix_mbr_state → fix_mbr_state
  | [], st => st
  | part :: rest, st =>
    let st := fix_mbr_set_part sd_fs_part_type sd_fs_exfat st part
    if st.mbr_idx ≥ 3 then st else fix_mbr_set_parts sd_fs_part_type sd_fs_exfat rest st

/-- Lines 2068-2131 of `_action_fix_mbr`: the state after the loop, with the protective
partition set in slot `mbr_idx`. `mbr_old` is `mbr[0]`, of which `mbr[1]` starts as a copy
(line 2058). -/
def fix_mbr_regenerate (sd_fs_part_type : Nat) (sd_fs_exfat : Bool) (sec_cnt : Nat)
    (mbr_old : mbr_t) (gpt : gpt_t) : fix_mbr_state :=
  let st := fix_mbr_set_parts sd_fs_part_type sd_fs_exfat (fix_mbr_parse gpt)
    { mbr := mbr_old, mbr_idx := 1, found_hos_data := false }
  -- 2129-2131: set GPT protective partition.
  { st with mbr := mbr_set_partition st.mbr st.mbr_idx (fun e =>
      { e with type := 0xEE, start_sct := 1, size_sct := u32_sub sec_cnt 1 }) }

/-- The test of lines 2137-2139 for one slot. -/
def fix_mbr_slot_differs (a b : mbr_part_t) : Bool :=
  a.type != b.type || a.start_sct != b.start_sct || a.size_sct != b.size_sct

/-- Lines 2134-2144 of `_action_fix_mbr`: whether slot 1, 2 or 3 differs. -/
def fix_mbr_changed (mbr_old mbr_new : mbr_t) : Bool :=
  [1, 2, 3].any (fun i => fix_mbr_slot_differs (mbr_old.partitions i) (mbr_new.partitions i))

/-- The message `_action_fix_mbr` ends with. -/
inductive fix_mbr_status where
  /-- Line 2048: the card could not be initialised. -/
  | sd_init_failed
  /-- Line 2064: no valid GPT was found. -/
  | no_valid_gpt
  /-- Line 2148: the hybrid MBR needs no change. -/
  | no_changes
  /-- Line 2200: the new hybrid MBR was written. -/
  | written
  /-- Line 2203: the repair was cancelled. -/
  | cancelled
deriving DecidableEq

/-- What `_action_fix_mbr` leaves: the message, the new MBR `mbr[1]` and the block writes
issued. -/
structure fix_mbr_result where
  status : fix_mbr_status
  mbr_new : mbr_t
  writes : List sd_write

/-- Function `_action_fix_mbr` (lines 2029-2212) on a card with contents `dev`.
`sd_init_ok` tells whether the test of line 2046 lets the function go on, `sec_cnt` is
`sd_storage.sec_cnt`, `power` tells whether `btn_wait` reports the power button at line
2194. -/
def _action_fix_mbr (sd_init_ok : Bool) (sd_fs_part_type : Nat) (sd_fs_exfat : Bool)
    (sec_cnt : Nat) (dev : Nat → Nat) (power : Bool) : fix_mbr_result :=
  if sd_init_ok = false then { status := .sd_init_failed, mbr_new := mbr_zero, writes := [] }
  else
    -- 2052-2058
    let mbr_old := mbr_of_bytes (sdmmc_storage_read dev 0)
    let gpt := gpt_of_bytes (sdmmc_storage_read dev 1)
    -- 2062-2066
    if gpt.header.signature ≠ ascii "EFI PART" ∨ gpt.header.num_part_ents > 128 then
      { status := .no_valid_gpt, mbr_new := mbr_old, writes := [] }
    else
      let mbr_new := (fix_mbr_regenerate sd_fs_part_type sd_fs_exfat sec_cnt mbr_old gpt).mbr
      -- 2134-2150
      if fix_mbr_changed mbr_old mbr_new = false then
        { status := .no_changes, mbr_new := mbr_new, writes := [] }
      else if power then
        -- 2196-2200
        { status := .written, mbr_new := mbr_new, writes := [⟨0, 1, .mbr mbr_new⟩] }
      else { status := .cancelled, mbr_new := mbr_new, writes := [] }

/-- Type, start and size of a slot of the MBR, the three fields `_action_fix_mbr` sets,
compares and shows. -/
def mbr_slot_fields (e : mbr_part_t) : Nat × Nat × Nat := (e.type, e.start_sct, e.size_sct)

/-! ## Concrete plans used as examples -/

/-- A 29 GiB card (61,071,360 sectors) right after the window is created. -/
def plan_29g : partition_ctxt_t := create_window_partition_manager 61071360

/-- The 29 GiB plan after the Linux slider was moved to 8 GiB. -/
def plan_29g_l4t8 : partition_ctxt_t :=
  { total_sct := 61071360, hos_size := 21612, emu_size := 0, l4t_size := 8192, and_size := 0,
    emu_double := false, mbr_old := mbr_zero }

/-- The 29 GiB plan after the emuMMC slider was moved to position 11 (2 x 4 GiB). -/
def plan_29g_emu11 : partition_ctxt_t := (_action_slider_emu plan_29g 11).1

/-- The MBR of a 29 GiB card freshly formatted for `plan_29g_emu11`: the FAT32 partition in
slot 0, the other slots empty. -/
def mbr_fresh_29g : mbr_t :=
  { mbr_zero with
    partitions := Function.update mbr_zero.partitions 0
      { mbr_part_zero with type := 0x0C, start_sct := 0x8000, size_sct := 21548 * 2048 },
    boot_signature := 0xAA55 }

/-- A 29 GiB card planned with 8 GiB of Android (4 GiB of user data) and nothing else. -/
def plan_29g_and8 : partition_ctxt_t :=
  { total_sct := 61071360, hos_size := 21612, emu_size := 0, l4t_size := 0, and_size := 8192,
    emu_double := false, mbr_old := mbr_zero }

/-- A 29 GiB card planned with two emuMMC of 4 GiB, 8 GiB of Linux and 8 GiB of Android. -/
def plan_29g_full : partition_ctxt_t :=
  { total_sct := 61071360, hos_size := 5164, emu_size := 8256, l4t_size := 8192,
    and_size := 8192, emu_double := true, mbr_old := mbr_zero }

/-- A 29 GiB card planned with 8 GiB of Linux and nothing else. -/
def plan_29g_linux : partition_ctxt_t :=
  { total_sct := 61071360, hos_size := 21612, emu_size := 0, l4t_size := 8192, and_size := 0,
    emu_double := false, mbr_old := mbr_zero }

/-- An upper buffer that holds stale data, `0xFF` in every byte. -/
def upper_stale : Nat → Nat := fun _ => 0xFF

/-- An entropy source for the examples: byte `j` of call `k` is `16 * k + j` modulo 256. -/
def prng_seq : Nat → Nat → Nat := fun k j => (16 * k + j) % 256

/-- A card for the examples whose sectors all hold `0xFF`. -/
def card_stale : Nat → Nat := fun _ => 0xFF

/-- A card whose sector 0 holds the bytes of `m`, whose sectors 1-33 hold the bytes of `g`
and whose other sectors are zero. -/
def card_of_tables (m : mbr_t) (g : gpt_t) : Nat → Nat :=
  fun a => if a < 512 then m.byte a else if a < 17408 then g.byte (a - 512) else 0

/-- A GPT entry named `s` that spans the sectors `first .. last`. -/
def gpt_entry_named (s : String) (first last : Nat) : gpt_entry_t :=
  { gpt_entry_zero with lba_start := first, lba_end := last, name := gpt_name s }

/-- A GPT header with the `EFI PART` signature that declares `n` entries. -/
def gpt_header_signed (n : Nat) : gpt_header_t :=
  { gpt_header_zero with signature := ascii "EFI PART", num_part_ents := n }

/-- A GPT of three entries: `hos_data`, `l4tboot` (8 GiB from sector 0x1000000) and `l4t`. -/
def gpt_three : gpt_t :=
  { header := gpt_header_signed 3,
    entries := fun i =>
      if i = 0 then gpt_entry_named "hos_data" 0x8000 0xFFFFFF
      else if i = 1 then gpt_entry_named "l4tboot" 0x1000000 0x1FFFFFF
      else if i = 2 then gpt_entry_named "l4t" 0x2000000 0x2FFFFFF
      else gpt_entry_zero }

/-- An MBR with a FAT32 partition in slot 0, an emuMMC in slot 1 and Linux partitions
in slots 2 and 3. -/
def mbr_linux_slot2 : mbr_t :=
  { mbr_zero with
    partitions := fun i =>
      if i = 0 then { mbr_part_zero with type := 0x0C, start_sct := 0x8000, size_sct := 0x1000000 }
      else if i = 1 then
        { mbr_part_zero with type := 0xE0, start_sct := 0x1008000, size_sct := 0x1000000 }
      else if i = 2 then
        { mbr_part_zero with type := 0x83, start_sct := 0x2008000, size_sct := 0x1000000 }
      else if i = 3 then
        { mbr_part_zero with type := 0x83, start_sct := 0x3008000, size_sct := 0x800000 }
      else mbr_part_zero,
    boot_signature := 0xAA55 }

/-- A GPT without signature that declares 129 entries, the first one named `l4t`. -/
def gpt_unsigned_129 : gpt_t :=
  { header := { gpt_header_zero with num_part_ents := 129 },
    entries := fun i =>
      if i = 0 then gpt_entry_named "l4t" 0x4000000 0x4FFFFFF else gpt_entry_zero }

/-- A GPT of one entry named `l4t` that starts beyond sector `2^32` and has more than
`2^32` sectors. -/
def gpt_l4t_high : gpt_t :=
  { header := gpt_header_signed 1,
    entries := fun i =>
      if i = 0 then gpt_entry_named "l4t" 0x104000000 0x204FFFFFF else gpt_entry_zero }

/-- A GPT with signature and 128 declared entries, of which only the last one, index 127,
is named `l4t`. -/
def gpt_l4t_last : gpt_t :=
  { header := gpt_header_signed 128,
    entries := fun i =>
      if i = 127 then gpt_entry_named "l4t" 0x2000000 0x2FFFFFF else gpt_entry_zero }

/-- A card with a signed GPT that declares 200 entries, none of the 128 entries of
sectors 2-33 named, and with the bytes of an entry named `l4t` right after them, where
entry 128 would be. -/
def card_l4t_beyond : Nat → Nat :=
  fun a =>
    if a < 17408 then card_of_tables mbr_zero { gpt_zero with header := gpt_header_signed 200 } a
    else if a < 17536 then (gpt_entry_named "l4t" 0x2000000 0x2FFFFFF).byte (a - 17408)
    else 0

/-- An SD card file system that holds the image parts `l4t.00`, `l4t.01` of 4 MiB each and
a last part `l4t.02` of 1000 bytes. -/
def f_stat_three_parts : String → Option Nat :=
  fun path =>
    if path = "switchroot/install/l4t.00" then some 0x400000
    else if path = "switchroot/install/l4t.01" then some 0x400000
    else if path = "switchroot/install/l4t.02" then some 1000
    else none

/-- An SD card file system whose first image part `l4t.00` has 1000 bytes and is followed by
a part `l4t.01` of 4 MiB. -/
def f_stat_short_first : String → Option Nat :=
  fun path =>
    if path = "switchroot/install/l4t.00" then some 1000
    else if path = "switchroot/install/l4t.01" then some 0x400000
    else none

/-- A card whose MBR has a Linux partition of 8 GiB in slot 2 and no GPT. -/
def card_linux_slot2 : Nat → Nat := card_of_tables mbr_linux_slot2 gpt_zero

/-- An SD card file system that holds image parts `l4t.00` of 4 MiB, an empty `l4t.01`
and `l4t.02` of 4 MiB. -/
def f_stat_empty_middle : String → Option Nat :=
  fun path =>
    if path = "switchroot/install/l4t.00" then some 0x400000
    else if path = "switchroot/install/l4t.01" then some 0
    else if path = "switchroot/install/l4t.02" then some 0x400000
    else none

/-- An SD card file system that holds the single image part `l4t.00` of 4 MiB. -/
def f_stat_one_part : String → Option Nat :=
  fun path => if path = "switchroot/install/l4t.00" then some 0x400000 else none

/-- An image of the single part `l4t.00` of `0x1FFFFFFFFFF` bytes. -/
def f_stat_huge_part : String → Option Nat :=
  fun path => if path = "switchroot/install/l4t.00" then some 0x1FFFFFFFFFF else none

/-- An environment without failing calls, with a cluster of 32 KiB and a RAM disk of
`0x41000000` bytes; newly allocated clusters hold `0xEE`. -/
def env_ok : backup_env :=
  { RAMDISK_CLUSTER_SZ := 32768, RAM_DISK_SZ := 0x41000000,
    open_dst_fails := fun _ => false, open_src_fails := fun _ => false,
    read_fails := fun _ _ => false, write_fails := fun _ _ => false,
    stale := fun _ => 0xEE }

/-- The totals and the staging volume before a walk: nothing counted, `dst` empty, the
buffer full of `0xFF`. -/
def backup_state_zero : backup_state :=
  { total_files := 0, total_size := 0, dst := .nil, buf := fun _ => 0xFF }

/-- A small SD card: `boot.ini`, a directory `switch` with `a.nro` and an empty
sub-directory `saves`, and a last file `z.bin`. -/
def tree_small : fs_items :=
  .file "boot.ini" [1, 2, 3]
    (.dir "switch" 0 (.file "a.nro" [4, 5] (.dir "saves" 0 .nil .nil))
      (.file "z.bin" [] .nil))

/-- An SD card with the directory `System Volume Information` of a card formatted on
Windows, and one file. -/
def tree_windows : fs_items :=
  .dir "System Volume Information" 0 (.file "IndexerVolumeGuid" [7, 7] .nil)
    (.file "boot.ini" [1, 2, 3] .nil)

/-- An SD card with a directory whose name goes on after `System Volume Information`. -/
def tree_longer_name : fs_items :=
  .dir "System Volume Information2" 0 (.file "a" [1, 2, 3] .nil) (.file "b" [4] .nil)

/-- A name of 255 bytes, the longest that a directory entry can have. -/
def name_255 : String := String.mk (List.replicate 255 'a')

/-- An SD card with a file four levels deep, every name of 255 bytes: the path of the
file has 1024 bytes, 1025 with its final 0. -/
def tree_deep : fs_items :=
  .dir name_255 0
    (.dir name_255 0 (.dir name_255 0 (.file name_255 [1, 2, 3] .nil) .nil) .nil) .nil

/-- The environment `env_ok` in which every `f_open` of a destination file fails. -/
def env_open_dst_fails : backup_env := { env_ok with open_dst_fails := fun _ => true }

/-- The environment `env_ok` in which every `f_open` of a source file fails. -/
def env_open_src_fails : backup_env := { env_ok with open_src_fails := fun _ => true }

/-- The environment `env_ok` in which every `f_read` fails. -/
def env_read_fails : backup_env := { env_ok with read_fails := fun _ _ => true }

/-- The environment `env_ok` in which every `f_write` fails. -/
def env_write_fails : backup_env := { env_ok with write_fails := fun _ _ => true }

/-- An SD card with the single file `boot.ini`. -/
def tree_one_file : fs_items := .file "boot.ini" [1, 2, 3] .nil

/-- The MBR of a 29 GiB card freshly formatted for `plan_29g_full`: the FAT32 partition in
slot 0, the other slots empty. -/
def mbr_fresh_full : mbr_t :=
  { mbr_zero with
    partitions := Function.update mbr_zero.partitions 0
      { mbr_part_zero with type := 0x0C, start_sct := 0x8000, size_sct := 5164 * 2048 },
    boot_signature := 0xAA55 }

/-- A card whose sector 0 holds `mbr_fresh_full` and whose other sectors are zero. -/
def card_fresh_zero : Nat → Nat := card_of_tables mbr_fresh_full gpt_zero

/-- A card whose sector 0 holds `mbr_fresh_full` and whose other sectors hold old data,
`0xFF` in every byte. -/
def card_fresh_old : Nat → Nat := fun a => if a < 512 then mbr_fresh_full.byte a else 0xFF

/-- An upper buffer that holds zero in every byte. -/
def upper_zero : Nat → Nat := fun _ => 0

/-- An old MBR with metadata in the 304 bytes at bootstrap offset `0x80`: `0x4E` in each of
them, and `0x11` in every other byte of the bootstrap. -/
def mbr_old_metadata : mbr_t :=
  { mbr_zero with bootstrap := fun j => if 0x80 ≤ j ∧ j < 0x80 + 304 then 0x4E else 0x11 }

/-- An old MBR whose 304 bytes at bootstrap offset `0x80` start with four zero bytes and
hold `0x4E` at offset `0x84`. -/
def mbr_old_late_metadata : mbr_t :=
  { mbr_zero with bootstrap := fun j => if j = 0x84 then 0x4E else 0 }

/-- The plan `plan_29g_and8` with `mbr_old_metadata` as old MBR. -/
def plan_29g_and8_metadata : partition_ctxt_t :=
  { plan_29g_and8 with mbr_old := mbr_old_metadata }

/-- The plan `plan_29g_and8` with `mbr_old_late_metadata` as old MBR. -/
def plan_29g_and8_late : partition_ctxt_t :=
  { plan_29g_and8 with mbr_old := mbr_old_late_metadata }

/-- A GPT of two entries on a 29 GiB card, `hos_data` and one `emummc` that ends at the
last usable sector, with `first_use_lba = 34` and 128 entries declared. -/
def gpt_one_emummc : gpt_t :=
  { header := { gpt_header_signed 128 with first_use_lba := 34, last_use_lba := 61069311 },
    entries := fun i =>
      if i = 0 then gpt_entry_named "hos_data" 0x8000 44163071
      else if i = 1 then gpt_entry_named "emummc" 44163072 61069311
      else gpt_entry_zero }

/-- An MBR with the FAT32 partition in slot 0 and the hybrid entries of a layout with two
emuMMC: `emummc` in slot 1, `emummc2` in slot 2, the protective entry in slot 3. -/
def mbr_hybrid_two_emummc : mbr_t :=
  { mbr_zero with
    partitions := fun i =>
      if i = 0 then { mbr_part_zero with type := 0x0C, start_sct := 0x8000, size_sct := 44130304 }
      else if i = 1 then
        { mbr_part_zero with type := 0xE0, start_sct := 44163072, size_sct := 8454144 }
      else if i = 2 then
        { mbr_part_zero with type := 0xE0, start_sct := 52617216, size_sct := 8452096 }
      else if i = 3 then { mbr_part_zero with type := 0xEE, start_sct := 1, size_sct := 61071359 }
      else mbr_part_zero,
    boot_signature := 0xAA55 }

/-- An MBR with the same FAT32 partition in slot 0 and the slots 1-3 empty. -/
def mbr_hybrid_none : mbr_t :=
  { mbr_zero with
    partitions := Function.update mbr_zero.partitions 0
      { mbr_part_zero with type := 0x0C, start_sct := 0x8000, size_sct := 44130304 },
    boot_signature := 0xAA55 }

/-! # Theorems -/

/-! ## Size planner -/

theorem emu_slider_size_range (v : Int) (hv : slider_value v) :
    ((emu_slider_size v).1 = 0 ∨ 4128 ≤ (emu_slider_size v).1) ∧
      (emu_slider_size v).1 < 2147483648 := by
  obtain ⟨h0, h1⟩ := hv
  simp only [emu_slider_size, to_u32, rsvd_mb]
  split_ifs <;> omega

theorem l4t_slider_size_range (v : Int) (hv : slider_value v) :
    (l4t_slider_size v = 0 ∨ 8192 ≤ l4t_slider_size v) ∧ l4t_slider_size v < 2147483648 := by
  obtain ⟨h0, h1⟩ := hv
  simp only [l4t_slider_size, to_u32]
  split_ifs <;> omega

theorem and_slider_size_range (v : Int) (hv : slider_value v) :
    (and_slider_size v = 0 ∨ 8192 ≤ and_slider_size v) ∧ and_slider_size v < 2147483648 := by
  obtain ⟨h0, h1⟩ := hv
  simp only [and_slider_size, and_slider_user_size, to_u32]
  split_ifs <;> omega

theorem planner_inv_emu (p : partition_ctxt_t) (v : Int) (hp : planner_inv p)
    (hv : slider_value v) : planner_inv (_action_slider_emu p v).1 := by
  obtain ⟨ht, hh, hs, he, hl, ha⟩ := hp
  obtain ⟨hz, hb⟩ := emu_slider_size_range v hv
  unfold _action_slider_emu
  by_cases hfit : emu_request_hos p v > 2048
  · simp only [hfit, if_true]
    unfold emu_request_hos to_s32 at hfit ⊢
    refine ⟨ht, ?_, ?_, hz, hl, ha⟩ <;> simp only [] <;> omega
  · simp only [hfit, if_false]
    exact ⟨ht, hh, hs, he, hl, ha⟩

theorem planner_inv_l4t (p : partition_ctxt_t) (v : Int) (hp : planner_inv p)
    (hv : slider_value v) : planner_inv (_action_slider_l4t p v).1 := by
  obtain ⟨ht, hh, hs, he, hl, ha⟩ := hp
  obtain ⟨hz, hb⟩ := l4t_slider_size_range v hv
  unfold _action_slider_l4t
  by_cases hfit : l4t_request_hos p v > 2048
  · simp only [hfit, if_true]
    unfold l4t_request_hos to_s32 at hfit ⊢
    refine ⟨ht, ?_, ?_, he, hz, ha⟩ <;> simp only [] <;> omega
  · simp only [hfit, if_false]
    split_ifs with hrev
    · exact ⟨ht, hh, hs, he, hl, ha⟩
    · unfold to_s32 to_u32 at hrev ⊢
      refine ⟨ht, ?_, ?_, he, ?_, ha⟩ <;> simp only [] <;> omega

theorem planner_inv_and (p : partition_ctxt_t) (v : Int) (hp : planner_inv p)
    (hv : slider_value v) : planner_inv (_action_slider_and p v).1 := by
  obtain ⟨ht, hh, hs, he, hl, ha⟩ := hp
  obtain ⟨hz, hb⟩ := and_slider_size_range v hv
  unfold _action_slider_and
  by_cases hfit : and_request_hos p v > 2048
  · simp only [hfit, if_true]
    unfold and_request_hos to_s32 at hfit ⊢
    refine ⟨ht, ?_, ?_, he, hl, hz⟩ <;> simp only [] <;> omega
  · simp only [hfit, if_false]
    split_ifs with hrev
    · exact ⟨ht, hh, hs, he, hl, ha⟩
    · unfold to_s32 to_u32 at hrev ⊢
      refine ⟨ht, ?_, ?_, he, hl, ?_⟩ <;> simp only [] <;> omega

theorem planner_inv_step (p : partition_ctxt_t) (a : slider_action) (hp : planner_inv p)
    (hv : slider_value a.value) : planner_inv (slider_step p a) := by
  cases a with
  | emu v => exact planner_inv_emu p v hp hv
  | l4t v => exact planner_inv_l4t p v hp hv
  | and v => exact planner_inv_and p v hp hv

theorem planner_inv_run (acts : List slider_action) (p : partition_ctxt_t) (hp : planner_inv p)
    (hv : ∀ a ∈ acts, slider_value a.value) : planner_inv (slider_run p acts) := by
  induction acts generalizing p with
  | nil => exact hp
  | cons a rest ih =>
    have h1 := planner_inv_step p a hp (hv a (List.mem_cons_self a rest))
    exact ih (slider_step p a) h1 (fun b hb => hv b (List.mem_cons_of_mem a hb))

theorem slider_run_total_sct (acts : List slider_action) (p : partition_ctxt_t) :
    (slider_run p acts).total_sct = p.total_sct := by
  induction acts generalizing p with
  | nil => rfl
  | cons a rest ih =>
    have h1 : (slider_step p a).total_sct = p.total_sct := by
      cases a <;>
        simp only [slider_step, _action_slider_emu, _action_slider_l4t, _action_slider_and] <;>
        split_ifs <;> rfl
    exact (ih (slider_step p a)).trans h1

theorem planner_inv_initial (sec_cnt : Nat) (hsec : sec_cnt < 4294967296)
    (hinit : (create_window_partition_manager sec_cnt).hos_size ≥ 2048) :
    planner_inv (create_window_partition_manager sec_cnt) := by
  unfold create_window_partition_manager to_s32 at hinit
  simp only [] at hinit
  unfold planner_inv create_window_partition_manager to_s32
  refine ⟨hsec, ?_, ?_, Or.inl rfl, Or.inl rfl, Or.inl rfl⟩ <;> simp only [] <;> omega

/-- C1: from the initial plan of `create_window_partition_manager` with `hos_size >= 2048`,
after every finite sequence of `_action_slider_emu` / `_action_slider_l4t` /
`_action_slider_and` callbacks (each with a slider value, a non-negative number of steps),
`hos_size + emu_size + l4t_size + and_size <= (total_sct >> 11) - 16` and
`hos_size >= 2048`. -/
theorem C1_planner_sum_and_floor (sec_cnt : Nat) (acts : List slider_action)
    (hsec : sec_cnt < 4294967296)
    (hinit : (create_window_partition_manager sec_cnt).hos_size ≥ 2048)
    (hval : ∀ a ∈ acts, slider_value a.value) :
    (slider_run (create_window_partition_manager sec_cnt) acts).hos_size
        + (slider_run (create_window_partition_manager sec_cnt) acts).emu_size
        + (slider_run (create_window_partition_manager sec_cnt) acts).l4t_size
        + (slider_run (create_window_partition_manager sec_cnt) acts).and_size
      ≤ ((sec_cnt / 2048 : Nat) : Int) - 16 ∧
    (slider_run (create_window_partition_manager sec_cnt) acts).hos_size ≥ 2048 := by
  have hinv := planner_inv_run acts _ (planner_inv_initial sec_cnt hsec hinit) hval
  have htot := slider_run_total_sct acts (create_window_partition_manager sec_cnt)
  obtain ⟨_, hh, hs, _, _, _⟩ := hinv
  rw [htot] at hs
  have : (create_window_partition_manager sec_cnt).total_sct = sec_cnt := rfl
  rw [this] at hs
  exact ⟨le_of_eq hs, hh⟩

/-- C1 at a concrete input: a 29 GiB card and the moves Linux 8, emuMMC 20, Android 4,
emuMMC 11, Linux 500. -/
theorem C1_planner_sum_and_floor_witness :
    (61071360 < 4294967296 ∧ (create_window_partition_manager 61071360).hos_size ≥ 2048) ∧
    ((slider_run (create_window_partition_manager 61071360)
        [.l4t 8, .emu 20, .and 4, .emu 11, .l4t 500]).hos_size
      + (slider_run (create_window_partition_manager 61071360)
        [.l4t 8, .emu 20, .and 4, .emu 11, .l4t 500]).emu_size
      + (slider_run (create_window_partition_manager 61071360)
        [.l4t 8, .emu 20, .and 4, .emu 11, .l4t 500]).l4t_size
      + (slider_run (create_window_partition_manager 61071360)
        [.l4t 8, .emu 20, .and 4, .emu 11, .l4t 500]).and_size
      ≤ ((61071360 / 2048 : Nat) : Int) - 16 ∧
    (slider_run (create_window_partition_manager 61071360)
        [.l4t 8, .emu 20, .and 4, .emu 11, .l4t 500]).hos_size ≥ 2048) :=
  ⟨⟨by decide, by decide⟩,
    C1_planner_sum_and_floor 61071360 [.l4t 8, .emu 20, .and 4, .emu 11, .l4t 500]
      (by decide) (by decide) (by decide)⟩

/-- C2: for a plan with `hos + emu + l4t + and = (total_sct >> 11) - 16` and `hos >= 2048`,
a Linux (resp. Android) request whose `hos_size` candidate is `<= 2048` is reduced to
`(total_sct >> 11) - 16 - 2048` minus the other two sizes, with `hos_size = 2048`, when that
reduced size is at least 8192; otherwise `l4t_size` (resp. `and_size`) and `hos_size` keep
their values and the slider is set to the previous size (in GiB, `size >> 10`). -/
theorem C2_reduce_to_floor_or_revert (p : partition_ctxt_t) (v : Int)
    (ht : p.total_sct < 4294967296)
    (hsum : p.hos_size + p.emu_size + p.l4t_size + p.and_size
      = ((p.total_sct / 2048 : Nat) : Int) - 16)
    (hhos : p.hos_size ≥ 2048) :
    (l4t_request_hos p v ≤ 2048 →
      (8192 ≤ ((p.total_sct / 2048 : Nat) : Int) - 16 - 2048 - p.emu_size - p.and_size →
        ((_action_slider_l4t p v).1.l4t_size : Int)
            = ((p.total_sct / 2048 : Nat) : Int) - 16 - 2048 - p.emu_size - p.and_size ∧
          (_action_slider_l4t p v).1.hos_size = 2048) ∧
      (((p.total_sct / 2048 : Nat) : Int) - 16 - 2048 - p.emu_size - p.and_size < 8192 →
        (_action_slider_l4t p v).1.l4t_size = p.l4t_size ∧
          (_action_slider_l4t p v).1.hos_size = p.hos_size ∧
          (_action_slider_l4t p v).2 = some ((p.l4t_size / 1024 : Nat) : Int))) ∧
    (and_request_hos p v ≤ 2048 →
      (8192 ≤ ((p.total_sct / 2048 : Nat) : Int) - 16 - 2048 - p.emu_size - p.l4t_size →
        ((_action_slider_and p v).1.and_size : Int)
            = ((p.total_sct / 2048 : Nat) : Int) - 16 - 2048 - p.emu_size - p.l4t_size ∧
          (_action_slider_and p v).1.hos_size = 2048) ∧
      (((p.total_sct / 2048 : Nat) : Int) - 16 - 2048 - p.emu_size - p.l4t_size < 8192 →
        (_action_slider_and p v).1.and_size = p.and_size ∧
          (_action_slider_and p v).1.hos_size = p.hos_size ∧
          (_action_slider_and p v).2 = some ((p.and_size / 1024 : Nat) : Int))) := by
  refine ⟨fun hreq => ⟨fun hbig => ?_, fun hsmall => ?_⟩,
    fun hreq => ⟨fun hbig => ?_, fun hsmall => ?_⟩⟩
  · have hfit : ¬ l4t_request_hos p v > 2048 := not_lt.mpr hreq
    have hrev : ¬ (to_s32 (((p.total_sct / 2048 : Nat) : Int) - 16 - p.emu_size - p.and_size
        - (to_u32 (((p.total_sct / 2048 : Nat) : Int) - 16 - p.emu_size - p.and_size - 2048) : Nat))
          < 2048 ∨
        to_u32 (((p.total_sct / 2048 : Nat) : Int) - 16 - p.emu_size - p.and_size - 2048) < 8192) := by
      unfold to_s32 to_u32; omega
    simp only [_action_slider_l4t, hfit, if_false, hrev]
    unfold to_s32 to_u32
    constructor <;> omega
  · have hfit : ¬ l4t_request_hos p v > 2048 := not_lt.mpr hreq
    have hrev : (to_s32 (((p.total_sct / 2048 : Nat) : Int) - 16 - p.emu_size - p.and_size
        - (to_u32 (((p.total_sct / 2048 : Nat) : Int) - 16 - p.emu_size - p.and_size - 2048) : Nat))
          < 2048 ∨
        to_u32 (((p.total_sct / 2048 : Nat) : Int) - 16 - p.emu_size - p.and_size - 2048) < 8192) := by
      right; unfold to_u32; omega
    simp only [_action_slider_l4t, hfit, if_false, hrev, if_true, and_self]
  · have hfit : ¬ and_request_hos p v > 2048 := not_lt.mpr hreq
    have hrev : ¬ (to_s32 (((p.total_sct / 2048 : Nat) : Int) - 16 - p.emu_size - p.l4t_size
        - (to_u32 (((p.total_sct / 2048 : Nat) : Int) - 16 - p.emu_size - p.l4t_size - 2048) : Nat))
          < 2048 ∨
        to_u32 (((p.total_sct / 2048 : Nat) : Int) - 16 - p.emu_size - p.l4t_size - 2048) < 8192) := by
      unfold to_s32 to_u32; omega
    simp only [_action_slider_and, hfit, if_false, hrev]
    unfold to_s32 to_u32
    constructor <;> omega
  · have hfit : ¬ and_request_hos p v > 2048 := not_lt.mpr hreq
    have hrev : (to_s32 (((p.total_sct / 2048 : Nat) : Int) - 16 - p.emu_size - p.l4t_size
        - (to_u32 (((p.total_sct / 2048 : Nat) : Int) - 16 - p.emu_size - p.l4t_size - 2048) : Nat))
          < 2048 ∨
        to_u32 (((p.total_sct / 2048 : Nat) : Int) - 16 - p.emu_size - p.l4t_size - 2048) < 8192) := by
      right; unfold to_u32; omega
    simp only [_action_slider_and, hfit, if_false, hrev, if_true, and_self]

/-- C2 at a concrete input: 29 GiB card, Linux at 8 GiB, then a Linux request of 500 GiB:
the request is cut to 27756 MiB and the primary is left with 2048 MiB. -/
theorem C2_reduce_to_floor_or_revert_witness :
    (plan_29g_l4t8.total_sct < 4294967296 ∧
      plan_29g_l4t8.hos_size + plan_29g_l4t8.emu_size + plan_29g_l4t8.l4t_size
        + plan_29g_l4t8.and_size = ((plan_29g_l4t8.total_sct / 2048 : Nat) : Int) - 16 ∧
      plan_29g_l4t8.hos_size ≥ 2048 ∧ l4t_request_hos plan_29g_l4t8 500 ≤ 2048 ∧
      8192 ≤ ((plan_29g_l4t8.total_sct / 2048 : Nat) : Int) - 16 - 2048
        - plan_29g_l4t8.emu_size - plan_29g_l4t8.and_size) ∧
    (((_action_slider_l4t plan_29g_l4t8 500).1.l4t_size : Int)
        = ((plan_29g_l4t8.total_sct / 2048 : Nat) : Int) - 16 - 2048
          - plan_29g_l4t8.emu_size - plan_29g_l4t8.and_size ∧
      (_action_slider_l4t plan_29g_l4t8 500).1.hos_size = 2048) :=
  ⟨by decide,
    ((C2_reduce_to_floor_or_revert plan_29g_l4t8 500 (by decide) (by decide) (by decide)).1
      (by decide)).1 (by decide)⟩

/-- The reject branch of `_action_slider_emu` recovers the position of a single-emuMMC
size and of the two full sizes, and is one step too high for a doubled size. -/
theorem emu_slider_restore_position (s : Int) (h0 : 0 ≤ s) (h1 : s ≤ 20) :
    emu_slider_restore (emu_slider_size s).1 (emu_slider_size s).2
      = if 11 ≤ s ∧ s ≤ 19 then s + 1 else s := by
  interval_cases s <;> decide

/-- C3, the code at a failing input: on a 29 GiB card position 11 is accepted
(`emu_size = 8256`, doubled); the next request, position 20, does not fit; `emu_size`,
`emu_double` and `hos_size` are kept, but the slider is set to 12, not back to 11. -/
theorem C3_emu_restore_off_by_one :
    emu_request_hos plan_29g 11 > 2048 ∧
    plan_29g_emu11.emu_size = (emu_slider_size 11).1 ∧
    plan_29g_emu11.emu_double = (emu_slider_size 11).2 ∧
    plan_29g_emu11.emu_size = 8256 ∧ plan_29g_emu11.emu_double = true ∧
    emu_request_hos plan_29g_emu11 20 ≤ 2048 ∧
    (_action_slider_emu plan_29g_emu11 20).1.emu_size = plan_29g_emu11.emu_size ∧
    (_action_slider_emu plan_29g_emu11 20).1.emu_double = plan_29g_emu11.emu_double ∧
    (_action_slider_emu plan_29g_emu11 20).1.hos_size = plan_29g_emu11.hos_size ∧
    (_action_slider_emu plan_29g_emu11 20).2 = some 12 := by
  decide

/-- C4: when the request fits (`hos_size` candidate `> 2048`), `_action_slider_l4t` with
slider value `g` sets `l4t_size` to 0 if `g < 4`, to 8192 if `4 <= g < 8`, to `g * 1024`
otherwise; `_action_slider_and` sets `and_size` to 0 if `g < 2` and to
`max g 4 * 1024 + 4096` otherwise; `hos_size` becomes
`(total_sct >> 11) - 16 - emu_size - l4t_size - and_size`, as computed in 32 bits and, on a
plan of the planner, as an exact integer. -/
theorem C4_fitting_request (p : partition_ctxt_t) (g : Int) (hg : slider_value g) :
    (l4t_request_hos p g > 2048 →
      ((_action_slider_l4t p g).1.l4t_size : Int)
          = (if g < 4 then 0 else if g < 8 then 8192 else g * 1024) ∧
      (_action_slider_l4t p g).1.hos_size
          = to_s32 (((p.total_sct / 2048 : Nat) : Int) - 16 - (_action_slider_l4t p g).1.emu_size
              - (_action_slider_l4t p g).1.l4t_size - (_action_slider_l4t p g).1.and_size) ∧
      (planner_inv p →
        (_action_slider_l4t p g).1.hos_size
          = ((p.total_sct / 2048 : Nat) : Int) - 16 - (_action_slider_l4t p g).1.emu_size
              - (_action_slider_l4t p g).1.l4t_size - (_action_slider_l4t p g).1.and_size)) ∧
    (and_request_hos p g > 2048 →
      ((_action_slider_and p g).1.and_size : Int)
          = (if g < 2 then 0 else max g 4 * 1024 + 4096) ∧
      (_action_slider_and p g).1.hos_size
          = to_s32 (((p.total_sct / 2048 : Nat) : Int) - 16 - (_action_slider_and p g).1.emu_size
              - (_action_slider_and p g).1.l4t_size - (_action_slider_and p g).1.and_size) ∧
      (planner_inv p →
        (_action_slider_and p g).1.hos_size
          = ((p.total_sct / 2048 : Nat) : Int) - 16 - (_action_slider_and p g).1.emu_size
              - (_action_slider_and p g).1.l4t_size - (_action_slider_and p g).1.and_size)) := by
  obtain ⟨h0, h1⟩ := hg
  constructor
  · intro hfit
    have hsz : ((l4t_slider_size g : Nat) : Int)
        = (if g < 4 then 0 else if g < 8 then 8192 else g * 1024) := by
      simp only [l4t_slider_size, to_u32]
      split_ifs <;> omega
    simp only [_action_slider_l4t, hfit, if_true]
    refine ⟨hsz, rfl, ?_⟩
    rintro ⟨ht, hh, hs, he, hl, ha⟩
    unfold l4t_request_hos to_s32 at hfit ⊢
    split_ifs at hsz <;> omega
  · intro hfit
    have hsz : ((and_slider_size g : Nat) : Int)
        = (if g < 2 then 0 else max g 4 * 1024 + 4096) := by
      simp only [and_slider_size, and_slider_user_size, to_u32]
      rcases le_total g 4 with h4 | h4
      · rw [max_eq_right h4]; split_ifs <;> omega
      · rw [max_eq_left h4]; split_ifs <;> omega
    simp only [_action_slider_and, hfit, if_true]
    refine ⟨hsz, rfl, ?_⟩
    rintro ⟨ht, hh, hs, he, hl, ha⟩
    unfold and_request_hos to_s32 at hfit ⊢
    have hb := (and_slider_size_range g ⟨h0, h1⟩).2
    omega

/-- C4 at the input of the claim: `total_sct = 61,071,360`, no emuMMC, no Android, Linux
slider at 8 gives `l4t_size = 8192` MiB and `hos_size = 21612` MiB, which in sectors is
the capacity minus `0x8000` minus 8 GiB. -/
theorem C4_fitting_request_witness :
    (slider_value 8 ∧ l4t_request_hos plan_29g 8 > 2048) ∧
    (((_action_slider_l4t plan_29g 8).1.l4t_size : Int)
          = (if (8 : Int) < 4 then 0 else if (8 : Int) < 8 then 8192 else 8 * 1024) ∧
      (_action_slider_l4t plan_29g 8).1.hos_size
          = to_s32 (((plan_29g.total_sct / 2048 : Nat) : Int) - 16
              - (_action_slider_l4t plan_29g 8).1.emu_size
              - (_action_slider_l4t plan_29g 8).1.l4t_size
              - (_action_slider_l4t plan_29g 8).1.and_size) ∧
      (planner_inv plan_29g →
        (_action_slider_l4t plan_29g 8).1.hos_size
          = ((plan_29g.total_sct / 2048 : Nat) : Int) - 16
              - (_action_slider_l4t plan_29g 8).1.emu_size
              - (_action_slider_l4t plan_29g 8).1.l4t_size
              - (_action_slider_l4t plan_29g 8).1.and_size)) ∧
    (_action_slider_l4t plan_29g 8).1.l4t_size = 8192 ∧
    (_action_slider_l4t plan_29g 8).1.hos_size = 21612 ∧
    (_action_slider_l4t plan_29g 8).1.hos_size * 2048 = 61071360 - 0x8000 - 8 * 2097152 :=
  ⟨⟨by decide, by decide⟩,
    (C4_fitting_request plan_29g 8 (by decide)).1 (by decide), by decide, by decide, by decide⟩

/-! ## Layout writer: the partition table of the MBR -/

theorem flash_gpt_part_mbr (prng : Nat → Nat → Nat) (st : flash_state) (name : List Nat)
    (name_len size wipe : Nat) : (flash_gpt_part prng st name name_len size wipe).mbr = st.mbr := rfl

theorem flash_gpt_entries_mbr (p : partition_ctxt_t) (sec_cnt : Nat) (prng : Nat → Nat → Nat)
    (st : flash_state) :
    (flash_gpt_entries p sec_cnt prng st).mbr
      = mbr_set_partition st.mbr st.mbr_idx (fun e =>
          { e with type := 0xEE, start_sct := 1, size_sct := u32_sub sec_cnt 1 }) := by
  unfold flash_gpt_entries flash_gpt_emummc flash_gpt_android flash_gpt_l4t
  split_ifs <;> rfl

theorem flashed_mbr_eq (p : partition_ctxt_t) (sec_cnt : Nat) (dev_mbr : mbr_t)
    (upper : Nat → Nat) (prng : Nat → Nat → Nat) (crc : Nat → List Nat → Nat) :
    flashed_mbr p sec_cnt dev_mbr upper prng crc
      = if p.and_size ≠ 0 then
          mbr_set_partition (flash_mbr_slots p dev_mbr upper prng).mbr
            (flash_mbr_slots p dev_mbr upper prng).mbr_idx (fun e =>
              { e with type := 0xEE, start_sct := 1, size_sct := u32_sub sec_cnt 1 })
        else (flash_mbr_slots p dev_mbr upper prng).mbr := by
  unfold flashed_mbr flash_state_final
  split_ifs
  · exact flash_gpt_entries_mbr p sec_cnt prng _
  · rfl

theorem flash_mbr_slots_mbr_idx (p : partition_ctxt_t) (dev_mbr : mbr_t)
    (upper : Nat → Nat) (prng : Nat → Nat → Nat) :
    (flash_mbr_slots p dev_mbr upper prng).mbr_idx = mbr_protective_idx p := by
  unfold flash_mbr_slots mbr_protective_idx mbr_emu_idx
  split_ifs <;> simp_all

/-- What `_prepare_and_flash_mbr_gpt` puts in the partition table of the MBR, for a plan of
the planner. -/
theorem flashed_mbr_slots_of_plan (p : partition_ctxt_t) (sec_cnt : Nat) (dev_mbr : mbr_t)
    (upper : Nat → Nat) (prng : Nat → Nat → Nat) (crc : Nat → List Nat → Nat)
    (hp : planner_inv p) (hsec : 0 < sec_cnt ∧ sec_cnt < 4294967296) :
    (flashed_mbr p sec_cnt dev_mbr upper prng crc).partitions 0 = dev_mbr.partitions 0 ∧
    (p.l4t_size ≠ 0 ∧ p.and_size = 0 →
      ((flashed_mbr p sec_cnt dev_mbr upper prng crc).partitions 1).type = 0x83 ∧
      (((flashed_mbr p sec_cnt dev_mbr upper prng crc).partitions 1).start_sct : Int)
        = 0x8000 + p.hos_size * 2048 ∧
      ((flashed_mbr p sec_cnt dev_mbr upper prng crc).partitions 1).size_sct
        = p.l4t_size * 2048) ∧
    (p.emu_size ≠ 0 →
      ((flashed_mbr p sec_cnt dev_mbr upper prng crc).partitions (mbr_emu_idx p)).type = 0xE0 ∧
      (((flashed_mbr p sec_cnt dev_mbr upper prng crc).partitions (mbr_emu_idx p)).start_sct : Int)
        = 0x8000 + (p.hos_size + p.l4t_size + p.and_size) * 2048 ∧
      (p.emu_double = false →
        ((flashed_mbr p sec_cnt dev_mbr upper prng crc).partitions (mbr_emu_idx p)).size_sct
          = p.emu_size * 2048 - 0x800) ∧
      (p.emu_double = true →
        ((flashed_mbr p sec_cnt dev_mbr upper prng crc).partitions (mbr_emu_idx p)).size_sct
          = p.emu_size * 1024 ∧
        ((flashed_mbr p sec_cnt dev_mbr upper prng crc).partitions (mbr_emu_idx p + 1)).type
          = (dev_mbr.partitions (mbr_emu_idx p + 1)).type ∧
        ((flashed_mbr p sec_cnt dev_mbr upper prng crc).partitions (mbr_emu_idx p + 1)).start_sct
          = ((flashed_mbr p sec_cnt dev_mbr upper prng crc).partitions (mbr_emu_idx p)).start_sct
            + p.emu_size * 1024 ∧
        ((flashed_mbr p sec_cnt dev_mbr upper prng crc).partitions (mbr_emu_idx p + 1)).size_sct
          = p.emu_size * 1024 - 0x800)) ∧
    (p.and_size ≠ 0 →
      ((flashed_mbr p sec_cnt dev_mbr upper prng crc).partitions (mbr_protective_idx p)).type
        = 0xEE ∧
      ((flashed_mbr p sec_cnt dev_mbr upper prng crc).partitions (mbr_protective_idx p)).start_sct
        = 1 ∧
      ((flashed_mbr p sec_cnt dev_mbr upper prng crc).partitions (mbr_protective_idx p)).size_sct
        = sec_cnt - 1) ∧
    (∀ i, mbr_protective_idx p + (if p.and_size ≠ 0 then 1 else 0) ≤ i →
      (flashed_mbr p sec_cnt dev_mbr upper prng crc).partitions i = dev_mbr.partitions i) := by
  obtain ⟨ht, hh, hs, he, hl, ha⟩ := hp
  obtain ⟨hs0, hs1⟩ := hsec
  rw [flashed_mbr_eq, flash_mbr_slots_mbr_idx]
  unfold flash_mbr_slots mbr_protective_idx mbr_emu_idx mbr_set_partition
  by_cases hl0 : p.l4t_size = 0 <;> by_cases ha0 : p.and_size = 0 <;>
    by_cases he0 : p.emu_size = 0 <;> cases hd : p.emu_double <;>
    simp [hl0, ha0, he0, hd, Function.update_apply] <;>
    (try simp only [u32, u32_sub, to_u32, hos_sct]) <;>
    (repeat' apply And.intro) <;>
    first
      | omega
      | rfl
      | (intro i hi; split_ifs <;> first | rfl | omega)

/-- C5, the code at a failing input: a 29 GiB card, emuMMC slider at 11 (doubled mode,
`emu_size = 8256`), freshly formatted card (slots 1-3 of the MBR empty). Slot 1 is the
first emuMMC entry, type `0xE0`; slot 2 gets the start and the size of the second emuMMC
entry, `emu_size * 1024` sectors after the first, but its type byte is never assigned and
stays `0` as read from the card, not `0xE0`. -/
theorem C5_second_emummc_type_not_set (upper : Nat → Nat) (prng : Nat → Nat → Nat)
    (crc : Nat → List Nat → Nat) :
    planner_inv plan_29g_emu11 ∧ plan_29g_emu11.emu_size = 8256 ∧
    plan_29g_emu11.emu_double = true ∧ plan_29g_emu11.l4t_size = 0 ∧
    plan_29g_emu11.and_size = 0 ∧
    ((flashed_mbr plan_29g_emu11 61071360 mbr_fresh_29g upper prng crc).partitions 1).type
      = 0xE0 ∧
    ((flashed_mbr plan_29g_emu11 61071360 mbr_fresh_29g upper prng crc).partitions 2).start_sct
      = ((flashed_mbr plan_29g_emu11 61071360 mbr_fresh_29g upper prng crc).partitions 1).start_sct
        + 8256 * 1024 ∧
    ((flashed_mbr plan_29g_emu11 61071360 mbr_fresh_29g upper prng crc).partitions 2).size_sct
      = 8256 * 1024 - 0x800 ∧
    ((flashed_mbr plan_29g_emu11 61071360 mbr_fresh_29g upper prng crc).partitions 2).type = 0 ∧
    ((flashed_mbr plan_29g_emu11 61071360 mbr_fresh_29g upper prng crc).partitions 2).type
      ≠ 0xE0 := by
  have hinv : planner_inv plan_29g_emu11 := by decide
  have hidx : mbr_emu_idx plan_29g_emu11 = 1 := by decide
  have hemu : plan_29g_emu11.emu_size = 8256 := by decide
  have h := (flashed_mbr_slots_of_plan plan_29g_emu11 61071360 mbr_fresh_29g upper prng crc
    hinv (by decide)).2.2.1 (by decide)
  rw [hidx, hemu] at h
  obtain ⟨h1, _, _, h2⟩ := h
  obtain ⟨_, h3, h4, h5⟩ := h2 (by decide)
  have h6 : (mbr_fresh_29g.partitions (1 + 1)).type = 0 := by decide
  rw [h6] at h3
  refine ⟨hinv, hemu, by decide, by decide, by decide, h1, h4, h5, h3, ?_⟩
  rw [h3]; decide

/-! ## Layout writer: the entries of the GPT -/

theorem flash_gpt_rows_cons (prng : Nat → Nat → Nat) (st : flash_state) (r : gpt_part_row)
    (rows : List gpt_part_row) :
    flash_gpt_rows prng st (r :: rows)
      = flash_gpt_rows prng (flash_gpt_part prng st r.name r.name_len r.size r.wipe) rows := rfl

theorem u32_eq_self (x : Nat) (h : x < 4294967296) : u32 x = x := by
  unfold u32; omega

theorem u32_sub_eq (a b : Nat) (h : b ≤ a) (ha : a < 4294967296) : u32_sub a b = a - b := by
  unfold u32_sub to_u32; omega

theorem flash_gpt_rows_spec (prng : Nat → Nat → Nat) (rows : List gpt_part_row) :
    ∀ (st : flash_state),
      st.curr_part_lba + (rows.map (fun r => r.size)).sum < 4294967296 →
      (∀ r ∈ rows, 0 < r.size) →
      (flash_gpt_rows prng st rows).gpt_idx = st.gpt_idx + rows.length ∧
      (flash_gpt_rows prng st rows).curr_part_lba
        = st.curr_part_lba + (rows.map (fun r => r.size)).sum ∧
      (flash_gpt_rows prng st rows).prng_calls = st.prng_calls + rows.length ∧
      (flash_gpt_rows prng st rows).mbr = st.mbr ∧
      (flash_gpt_rows prng st rows).mbr_idx = st.mbr_idx ∧
      (flash_gpt_rows prng st rows).upper_buf = st.upper_buf ∧
      (flash_gpt_rows prng st rows).gpt.header = st.gpt.header ∧
      (∀ i, i < st.gpt_idx ∨ st.gpt_idx + rows.length ≤ i →
        (flash_gpt_rows prng st rows).gpt.entries i = st.gpt.entries i) ∧
      (∀ k (hk : k < rows.length),
        (flash_gpt_rows prng st rows).gpt.entries (st.gpt_idx + k)
          = gpt_part_entry prng (st.gpt.entries (st.gpt_idx + k)) (st.prng_calls + k)
              (rows_start st.curr_part_lba rows k) (rows.get ⟨k, hk⟩)) := by
  induction rows with
  | nil =>
    intro st _ _
    refine ⟨rfl, rfl, rfl, rfl, rfl, rfl, rfl, fun _ _ => rfl, fun k hk => ?_⟩
    exact absurd hk (Nat.not_lt_zero k)
  | cons r rows ih =>
    intro st hfit hpos
    simp only [List.map_cons, List.sum_cons] at hfit
    have hr : 0 < r.size := hpos r (List.mem_cons_self r rows)
    have hcurr : (flash_gpt_part prng st r.name r.name_len r.size r.wipe).curr_part_lba
        = st.curr_part_lba + r.size := u32_eq_self _ (by omega)
    have hidx : (flash_gpt_part prng st r.name r.name_len r.size r.wipe).gpt_idx
        = st.gpt_idx + 1 := rfl
    have hcalls : (flash_gpt_part prng st r.name r.name_len r.size r.wipe).prng_calls
        = st.prng_calls + 1 := rfl
    have hent : ∀ i, (flash_gpt_part prng st r.name r.name_len r.size r.wipe).gpt.entries i
        = if i = st.gpt_idx then
            gpt_part_entry prng (st.gpt.entries st.gpt_idx) st.prng_calls st.curr_part_lba r
          else st.gpt.entries i := by
      intro i
      have hend : u32_sub (u32 (st.curr_part_lba + r.size)) 1 = st.curr_part_lba + r.size - 1 := by
        rw [u32_eq_self _ (by omega), u32_sub_eq _ _ (by omega) (by omega)]
      simp only [flash_gpt_part, gpt_set_entry, Function.update_apply, hend, gpt_part_entry]
    obtain ⟨h1, h2, h3, h4, h5, h6, h7, h8, h9⟩ :=
      ih (flash_gpt_part prng st r.name r.name_len r.size r.wipe)
        (by rw [hcurr]; omega) (fun x hx => hpos x (List.mem_cons_of_mem r hx))
    rw [flash_gpt_rows_cons]
    refine ⟨?_, ?_, ?_, ?_, ?_, ?_, ?_, ?_, ?_⟩
    · rw [h1, hidx, List.length_cons]; omega
    · rw [h2, hcurr, List.map_cons, List.sum_cons]; omega
    · rw [h3, hcalls, List.length_cons]; omega
    · rw [h4]; rfl
    · rw [h5]; rfl
    · rw [h6]; rfl
    · rw [h7]; rfl
    · intro i hi
      rw [List.length_cons] at hi
      rw [h8 i (by rw [hidx]; omega), hent i, if_neg (by omega)]
    · intro k hk
      cases k with
      | zero =>
        rw [h8 _ (by rw [hidx]; omega), hent]
        simp [rows_start]
      | succ k =>
        have hk' : k < rows.length := by simpa using hk
        have := h9 k hk'
        rw [hidx, hcurr, hcalls] at this
        have e1 : st.gpt_idx + (k + 1) = st.gpt_idx + 1 + k := by omega
        rw [e1, this, hent, if_neg (by omega)]
        have e2 : rows_start (st.curr_part_lba + r.size) rows k
            = rows_start st.curr_part_lba (r :: rows) (k + 1) := by
          simp only [rows_start, List.take_succ_cons, List.map_cons, List.sum_cons]; omega
        have e3 : st.prng_calls + 1 + k = st.prng_calls + (k + 1) := by omega
        rw [e2, e3]
        rfl

theorem flash_mbr_slots_gpt (p : partition_ctxt_t) (dev_mbr : mbr_t)
    (upper : Nat → Nat) (prng : Nat → Nat → Nat) :
    (flash_mbr_slots p dev_mbr upper prng).gpt = gpt_zero ∧
    (flash_mbr_slots p dev_mbr upper prng).prng_calls = 1 ∧
    (flash_mbr_slots p dev_mbr upper prng).upper_buf = (fun j => if j < 0x8000 then 0 else upper j) := by
  unfold flash_mbr_slots
  split_ifs <;> exact ⟨rfl, rfl, rfl⟩

theorem flash_gpt_rows_append (prng : Nat → Nat → Nat) (st : flash_state)
    (r1 r2 : List gpt_part_row) :
    flash_gpt_rows prng st (r1 ++ r2) = flash_gpt_rows prng (flash_gpt_rows prng st r1) r2 := by
  unfold flash_gpt_rows; rw [List.foldl_append]

theorem flash_gpt_l4t_android_eq_rows (p : partition_ctxt_t) (prng : Nat → Nat → Nat)
    (st : flash_state) :
    flash_gpt_android p prng (flash_gpt_l4t p prng st)
      = flash_gpt_rows prng st (l4t_rows p ++ android_rows p) := by
  unfold l4t_rows flash_gpt_l4t
  split_ifs <;> rfl

/-- The sizes of the Linux and Android blocks add up to the Linux and Android sizes of the
plan, less the 1 MiB kept free at the end of the card when there is no emuMMC. -/
theorem rows_size_sum (p : partition_ctxt_t) (hp : planner_inv p) (hand : p.and_size ≠ 0) :
    ((l4t_rows p ++ android_rows p).map (fun r => r.size)).sum
        = p.l4t_size * 2048 + p.and_size * 2048 - (if p.emu_size = 0 then 0x800 else 0) ∧
    (∀ r ∈ l4t_rows p ++ android_rows p, 0 < r.size) ∧
    (l4t_rows p ++ android_rows p).length = (if p.l4t_size ≠ 0 then 10 else 9) := by
  obtain ⟨ht, hh, hs, he, hl, ha⟩ := hp
  have hu : and_user_size p = p.and_size * 2048 - 0x798000 - (if p.emu_size = 0 then 0x800 else 0) := by
    unfold and_user_size u32_sub u32 to_u32
    split_ifs <;> simp only [] <;> omega
  have hl4 : u32 (p.l4t_size * 2048) = p.l4t_size * 2048 := by unfold u32; omega
  unfold l4t_rows android_rows
  by_cases hl0 : p.l4t_size = 0
  · simp only [hl0, ne_eq, not_true_eq_false, if_false, List.nil_append, List.map_cons,
      List.map_nil, List.sum_cons, List.sum_nil, List.mem_cons, List.length_cons,
      List.length_nil, List.mem_nil_iff, or_false]
    refine ⟨?_, ?_, trivial⟩
    · rw [hu]; split_ifs <;> omega
    · rintro r (rfl | rfl | rfl | rfl | rfl | rfl | rfl | rfl | rfl) <;>
        simp only [] <;> first | omega | (rw [hu]; split_ifs <;> omega)
  · simp only [hl0, ne_eq, not_false_eq_true, if_true, List.cons_append, List.nil_append,
      List.map_cons, List.map_nil, List.sum_cons, List.sum_nil, List.mem_cons, List.length_cons,
      List.length_nil, List.mem_nil_iff, or_false]
    refine ⟨?_, ?_, trivial⟩
    · rw [hu, hl4]; split_ifs <;> omega
    · rintro r (rfl | rfl | rfl | rfl | rfl | rfl | rfl | rfl | rfl | rfl) <;>
        simp only [] <;> first | omega | (rw [hu]; split_ifs <;> omega)

theorem flash_gpt_head_fields (p : partition_ctxt_t) (sec_cnt : Nat) (prng : Nat → Nat → Nat)
    (st : flash_state) :
    (flash_gpt_head p sec_cnt prng st).gpt_idx = 1 ∧
    (flash_gpt_head p sec_cnt prng st).curr_part_lba = u32 (0x8000 + hos_sct p) ∧
    (flash_gpt_head p sec_cnt prng st).prng_calls = st.prng_calls + 2 ∧
    (flash_gpt_head p sec_cnt prng st).upper_buf = st.upper_buf ∧
    (flash_gpt_head p sec_cnt prng st).writes = st.writes :=
  ⟨rfl, rfl, rfl, rfl, rfl⟩

theorem flash_gpt_head_entries (p : partition_ctxt_t) (sec_cnt : Nat) (prng : Nat → Nat → Nat)
    (st : flash_state) (hg : st.gpt = gpt_zero) (hidx : st.mbr_idx ≠ 0) (i : Nat) :
    (flash_gpt_head p sec_cnt prng st).gpt.entries i
      = if i = 0 then gpt_hos_data_entry prng (st.prng_calls + 1) (st.mbr.partitions 0)
        else gpt_entry_zero := by
  simp only [flash_gpt_head, gpt_set_entry, mbr_set_partition, hg, gpt_zero,
    Function.update_apply, gpt_hos_data_entry]
  split_ifs with hi h1
  · exact absurd h1.symm hidx
  · rfl
  · rfl

theorem flash_mbr_slots_mbr_idx_pos (p : partition_ctxt_t) (dev_mbr : mbr_t)
    (upper : Nat → Nat) (prng : Nat → Nat → Nat) :
    (flash_mbr_slots p dev_mbr upper prng).mbr_idx ≠ 0 := by
  rw [flash_mbr_slots_mbr_idx]
  unfold mbr_protective_idx mbr_emu_idx
  split_ifs <;> omega

theorem flash_mbr_slots_slot0 (p : partition_ctxt_t) (dev_mbr : mbr_t)
    (upper : Nat → Nat) (prng : Nat → Nat → Nat) :
    (flash_mbr_slots p dev_mbr upper prng).mbr.partitions 0 = dev_mbr.partitions 0 := by
  unfold flash_mbr_slots mbr_set_partition
  split_ifs <;> simp [Function.update_apply]

/-- The entries after the emuMMC stage (lines 430-455), when nothing wraps. -/
theorem flash_gpt_emummc_entries (p : partition_ctxt_t) (prng : Nat → Nat → Nat)
    (st : flash_state) (hz : ∀ i, st.gpt_idx ≤ i → st.gpt.entries i = gpt_entry_zero)
    (hfit : st.curr_part_lba + p.emu_size * 2048 < 4294967296)
    (hemu : p.emu_size = 0 ∨ 4128 ≤ p.emu_size) (i : Nat) :
    (flash_gpt_emummc p prng st).gpt.entries i
      = if p.emu_size ≠ 0 ∧ i = st.gpt_idx then
          gpt_emummc_entry prng st.prng_calls (utf16le "emummc") 12 st.curr_part_lba
            (if p.emu_double then p.emu_size * 1024 else p.emu_size * 2048 - 0x800)
        else if p.emu_size ≠ 0 ∧ p.emu_double = true ∧ i = st.gpt_idx + 1 then
          gpt_emummc_entry prng (st.prng_calls + 1) (utf16le "emummc2") 14
            (st.curr_part_lba + p.emu_size * 1024) (p.emu_size * 1024 - 0x800)
        else st.gpt.entries i := by
  have hz0 := hz st.gpt_idx (Nat.le_refl _)
  have hz1 := hz (st.gpt_idx + 1) (Nat.le_succ _)
  by_cases he0 : p.emu_size = 0
  · simp [flash_gpt_emummc, he0]
  · have e1 : u32_sub (u32_sub (u32 (st.curr_part_lba + u32 (p.emu_size * 2048))) 0x800) 1
        = st.curr_part_lba + (p.emu_size * 2048 - 0x800) - 1 := by
      unfold u32_sub u32 to_u32; omega
    have e2 : u32_sub (u32 (st.curr_part_lba + u32 (p.emu_size * 1024))) 1
        = st.curr_part_lba + p.emu_size * 1024 - 1 := by
      unfold u32_sub u32 to_u32; omega
    have e2' : u32_sub (st.curr_part_lba + p.emu_size * 1024) 1
        = st.curr_part_lba + p.emu_size * 1024 - 1 := by
      unfold u32_sub to_u32; omega
    have e3 : u32 (st.curr_part_lba + u32 (p.emu_size * 1024))
        = st.curr_part_lba + p.emu_size * 1024 := by
      unfold u32; omega
    have e4 : u32_sub (u32_sub (u32 (st.curr_part_lba + p.emu_size * 1024
          + u32 (p.emu_size * 1024))) 0x800) 1
        = st.curr_part_lba + p.emu_size * 1024 + (p.emu_size * 1024 - 0x800) - 1 := by
      unfold u32_sub u32 to_u32; omega
    cases hd : p.emu_double
    · simp only [flash_gpt_emummc, he0, hd, gpt_set_entry, Function.update_apply, hz0, e1,
        gpt_emummc_entry, ne_eq, not_false_eq_true, if_true, true_and, Bool.false_eq_true,
        not_true_eq_false, if_false, false_and, and_false]
    · simp only [flash_gpt_emummc, he0, hd, gpt_set_entry, Function.update_apply, hz0, e2, e2', e3,
        e4, gpt_emummc_entry, ne_eq, not_false_eq_true, if_true, true_and,
        not_true_eq_false, if_false, Nat.add_eq_left, one_ne_zero, hz1]
      split_ifs <;> first | rfl | omega

theorem gpt_first_lba_eq (p : partition_ctxt_t) (hp : planner_inv p) :
    u32 (0x8000 + hos_sct p) = gpt_first_lba p ∧
    ((gpt_first_lba p : Nat) : Int) = 0x8000 + p.hos_size * 2048 ∧
    gpt_first_lba p + (p.l4t_size + p.and_size + p.emu_size) * 2048 < 4294967296 := by
  obtain ⟨ht, hh, hs, he, hl, ha⟩ := hp
  unfold gpt_first_lba hos_sct u32 to_u32
  refine ⟨?_, ?_, ?_⟩ <;> omega

/-- The entries of the GPT that `_prepare_and_flash_mbr_gpt` builds, for a plan of the
planner with Android: entry 0 from slot 0 of the MBR, one entry per Linux / Android block,
the emuMMC entries, and zero entries after them. -/
theorem flashed_gpt_entries_of_plan (p : partition_ctxt_t) (sec_cnt : Nat) (dev_mbr : mbr_t)
    (upper : Nat → Nat) (prng : Nat → Nat → Nat) (crc : Nat → List Nat → Nat)
    (hp : planner_inv p) (hand : p.and_size ≠ 0) :
    (flashed_gpt p sec_cnt dev_mbr upper prng crc).entries 0
      = gpt_hos_data_entry prng 2 (dev_mbr.partitions 0) ∧
    (∀ k, k < (l4t_rows p ++ android_rows p).length →
      (flashed_gpt p sec_cnt dev_mbr upper prng crc).entries (k + 1)
        = gpt_part_entry prng gpt_entry_zero (k + 3)
            (rows_start (gpt_first_lba p) (l4t_rows p ++ android_rows p) k)
            ((l4t_rows p ++ android_rows p).getD k gpt_part_row_zero)) ∧
    (p.emu_size ≠ 0 →
      (flashed_gpt p sec_cnt dev_mbr upper prng crc).entries
          ((l4t_rows p ++ android_rows p).length + 1)
        = gpt_emummc_entry prng ((l4t_rows p ++ android_rows p).length + 3) (utf16le "emummc") 12
            (gpt_first_lba p + (p.l4t_size + p.and_size) * 2048)
            (if p.emu_double then p.emu_size * 1024 else p.emu_size * 2048 - 0x800)) ∧
    (p.emu_size ≠ 0 → p.emu_double = true →
      (flashed_gpt p sec_cnt dev_mbr upper prng crc).entries
          ((l4t_rows p ++ android_rows p).length + 2)
        = gpt_emummc_entry prng ((l4t_rows p ++ android_rows p).length + 4) (utf16le "emummc2") 14
            (gpt_first_lba p + (p.l4t_size + p.and_size) * 2048 + p.emu_size * 1024)
            (p.emu_size * 1024 - 0x800)) ∧
    (∀ i, (l4t_rows p ++ android_rows p).length + emu_count p + 1 ≤ i →
      (flashed_gpt p sec_cnt dev_mbr upper prng crc).entries i = gpt_entry_zero) := by
  obtain ⟨hfirst, -, hfit⟩ := gpt_first_lba_eq p hp
  obtain ⟨hsum, hpos, hlen⟩ := rows_size_sum p hp hand
  obtain ⟨hg0, hc0, -⟩ := flash_mbr_slots_gpt p dev_mbr upper prng
  have hemu : p.emu_size = 0 ∨ 4128 ≤ p.emu_size := hp.2.2.2.1
  have hand8 : 8192 ≤ p.and_size := by
    rcases hp.2.2.2.2.2 with h | h
    · exact absurd h hand
    · exact h
  generalize hst0 : flash_mbr_slots p dev_mbr upper prng = st0 at hg0 hc0
  have hidx0 : st0.mbr_idx ≠ 0 := by
    rw [← hst0]; exact flash_mbr_slots_mbr_idx_pos p dev_mbr upper prng
  have hslot0 : st0.mbr.partitions 0 = dev_mbr.partitions 0 := by
    rw [← hst0]; exact flash_mbr_slots_slot0 p dev_mbr upper prng
  obtain ⟨hhi, hhc, hhp, -, -⟩ := flash_gpt_head_fields p sec_cnt prng st0
  have hhe := flash_gpt_head_entries p sec_cnt prng st0 hg0 hidx0
  generalize hhead : flash_gpt_head p sec_cnt prng st0 = head at hhi hhc hhp hhe
  rw [hfirst] at hhc
  rw [hc0] at hhp hhe
  rw [hslot0] at hhe
  have hE : (flashed_gpt p sec_cnt dev_mbr upper prng crc).entries
      = (flash_gpt_emummc p prng
          (flash_gpt_rows prng head (l4t_rows p ++ android_rows p))).gpt.entries := by
    unfold flashed_gpt flash_state_final
    rw [if_pos hand, hst0]
    unfold flash_gpt_finish flash_gpt_entries
    rw [flash_gpt_l4t_android_eq_rows, hhead]
  have hfitr : head.curr_part_lba
      + ((l4t_rows p ++ android_rows p).map (fun r => r.size)).sum < 4294967296 := by
    rw [hhc, hsum]; split_ifs <;> omega
  obtain ⟨s1, s2, s3, -, -, -, -, s8, s9⟩ :=
    flash_gpt_rows_spec prng (l4t_rows p ++ android_rows p) head hfitr hpos
  rw [hhi] at s1 s8 s9
  rw [hhc] at s2 s9
  rw [hhp] at s3 s9
  generalize hS : flash_gpt_rows prng head (l4t_rows p ++ android_rows p) = S at s1 s2 s3 s8 s9 hE
  generalize hrows : l4t_rows p ++ android_rows p = rows at *
  have hz : ∀ i, S.gpt_idx ≤ i → S.gpt.entries i = gpt_entry_zero := by
    intro i hi
    rw [s8 i (Or.inr (by omega)), hhe i, if_neg (by omega)]
  have hfite : S.curr_part_lba + p.emu_size * 2048 < 4294967296 := by
    rw [s2, hsum]; split_ifs <;> omega
  have hem := flash_gpt_emummc_entries p prng S hz hfite hemu
  have hcurr : p.emu_size ≠ 0 →
      S.curr_part_lba = gpt_first_lba p + (p.l4t_size + p.and_size) * 2048 := by
    intro he0
    rw [s2, hsum, if_neg he0]; omega
  rw [hE]
  refine ⟨?_, ?_, ?_, ?_, ?_⟩
  · rw [hem 0, if_neg (by omega), if_neg (by omega), s8 0 (Or.inl (by omega)), hhe 0, if_pos rfl]
  · intro k hk
    have e1 : k + 1 = 1 + k := by omega
    have e3 : k + 3 = 1 + 2 + k := by omega
    rw [e1, e3, hem (1 + k), if_neg (by omega), if_neg (by omega), s9 k hk, hhe (1 + k),
      if_neg (by omega), List.get_eq_getElem, List.getD_eq_getElem _ _ hk]
  · intro he0
    have e1 : rows.length + 1 = 1 + rows.length := by omega
    have e3 : rows.length + 3 = 1 + 2 + rows.length := by omega
    rw [e1, e3, hem, if_pos ⟨he0, by omega⟩, s3, hcurr he0]
  · intro he0 hd
    have e2 : rows.length + 2 = 1 + rows.length + 1 := by omega
    have e4 : rows.length + 4 = 1 + 2 + rows.length + 1 := by omega
    rw [e2, e4, hem, if_neg (by omega), if_pos ⟨he0, hd, by omega⟩, s3, hcurr he0]
  · intro i hi
    unfold emu_count at hi
    rw [hem i]
    by_cases he0 : p.emu_size = 0
    · rw [if_neg (by simp [he0]), if_neg (by simp [he0])]
      exact hz i (by rw [if_neg (by simp [he0])] at hi; omega)
    · cases hd : p.emu_double
      · rw [if_pos he0, hd] at hi
        simp only [Bool.false_eq_true, if_false] at hi
        rw [if_neg (by omega), if_neg (by simp), hz i (by omega)]
      · rw [if_pos he0, hd] at hi
        simp only [if_true] at hi
        rw [if_neg (by omega), if_neg (by omega), hz i (by omega)]

theorem gpt_layout_index_lt (L : List (String × Option Nat)) (i : Nat) (x : String × Option Nat)
    (h : L[i]? = some x) : i < L.length := by
  by_contra hcon
  rw [List.getElem?_eq_none (by omega)] at h
  exact absurd h (by simp)

theorem rows_start_zero (start : Nat) (rows : List gpt_part_row) :
    rows_start start rows 0 = start := by
  simp [rows_start]

theorem rows_start_cons_succ (start : Nat) (r : gpt_part_row) (rows : List gpt_part_row)
    (k : Nat) : rows_start start (r :: rows) (k + 1) = rows_start (start + r.size) rows k := by
  simp only [rows_start, List.take_succ_cons, List.map_cons, List.sum_cons]
  omega

/-- C6: for a plan of the planner with `and_size != 0`, the GPT written by
`_prepare_and_flash_mbr_gpt` holds, from index 0 without a gap, the entries `hos_data`
(the range of MBR slot 0), `l4t` of `l4t_size * 2048` sectors if and only if
`l4t_size != 0`, `vendor` (0x200000 sectors), `APP` (0x400000), `LNX` (0x10000), `SOS`
(0x20000), `DTB` (0x800), `MDA` (0x8000), `CAC` (0x15E000), `MSC` (0x1800), `UDA`, then
`emummc` (and `emummc2` in doubled mode) if and only if `emu_size != 0`; every later entry
is zero; entry 1 starts at `0x8000 + hos_size * 2048` and each later entry starts at the
sector after the `lba_end` of the entry before it. -/
theorem C6_gpt_entries_in_order (p : partition_ctxt_t) (sec_cnt : Nat) (dev_mbr : mbr_t)
    (upper : Nat → Nat) (prng : Nat → Nat → Nat) (crc : Nat → List Nat → Nat)
    (hp : planner_inv p) (hand : p.and_size ≠ 0) :
    (∀ i name size, (gpt_layout_expected p)[i]? = some (name, size) →
      ((flashed_gpt p sec_cnt dev_mbr upper prng crc).entries i).name = gpt_name name ∧
      ∀ sz, size = some sz →
        ((flashed_gpt p sec_cnt dev_mbr upper prng crc).entries i).lba_end + 1
          = ((flashed_gpt p sec_cnt dev_mbr upper prng crc).entries i).lba_start + sz) ∧
    (∀ i, (gpt_layout_expected p).length ≤ i →
      (flashed_gpt p sec_cnt dev_mbr upper prng crc).entries i = gpt_entry_zero) ∧
    ((flashed_gpt p sec_cnt dev_mbr upper prng crc).entries 0).lba_start
      = (dev_mbr.partitions 0).start_sct ∧
    ((dev_mbr.partitions 0).size_sct ≠ 0 →
      (dev_mbr.partitions 0).start_sct + (dev_mbr.partitions 0).size_sct ≤ 4294967296 →
      ((flashed_gpt p sec_cnt dev_mbr upper prng crc).entries 0).lba_end + 1
        = (dev_mbr.partitions 0).start_sct + (dev_mbr.partitions 0).size_sct) ∧
    (((flashed_gpt p sec_cnt dev_mbr upper prng crc).entries 1).lba_start : Int)
      = 0x8000 + p.hos_size * 2048 ∧
    (∀ i, 1 ≤ i → i + 1 < (gpt_layout_expected p).length →
      ((flashed_gpt p sec_cnt dev_mbr upper prng crc).entries (i + 1)).lba_start
        = ((flashed_gpt p sec_cnt dev_mbr upper prng crc).entries i).lba_end + 1) := by
  obtain ⟨c0, c1, c2, c3, c4⟩ :=
    flashed_gpt_entries_of_plan p sec_cnt dev_mbr upper prng crc hp hand
  obtain ⟨-, hfirst, hfit⟩ := gpt_first_lba_eq p hp
  obtain ⟨ht, hh, hs, he, hl, ha⟩ := hp
  have hu : and_user_size p
      = p.and_size * 2048 - 0x798000 - (if p.emu_size = 0 then 0x800 else 0) := by
    unfold and_user_size u32_sub u32 to_u32
    split_ifs <;> simp only [] <;> omega
  have hl4 : u32 (p.l4t_size * 2048) = p.l4t_size * 2048 := by unfold u32; omega
  generalize hes : (flashed_gpt p sec_cnt dev_mbr upper prng crc).entries = es at *
  have hidx : ∀ i name size, (gpt_layout_expected p)[i]? = some (name, size) →
      i < (gpt_layout_expected p).length := fun i name size h =>
    gpt_layout_index_lt _ i _ h
  by_cases hl0 : p.l4t_size = 0 <;> by_cases he0 : p.emu_size = 0 <;> cases hd : p.emu_double <;>
    simp only [he0, if_true, if_false] at hu <;>
    simp only [l4t_rows, android_rows, emu_count, gpt_layout_expected, hl0, he0, hd, hl4,
      ne_eq, not_true_eq_false, not_false_eq_true, if_true, if_false, List.nil_append,
      List.cons_append, List.append_nil, List.length_cons, List.length_nil,
      Bool.false_eq_true, forall_true_left, Nat.reduceAdd, Nat.zero_add] at c1 c2 c3 c4 hidx ⊢
  all_goals
    refine ⟨?_, c4, ?_, ?_, ?_, ?_⟩
    · intro i name size h
      have hi := hidx i name size h
      interval_cases i <;> simp only [List.getElem?_cons_succ, List.getElem?_cons_zero,
        Option.some.injEq, Prod.mk.injEq] at h <;> obtain ⟨rfl, rfl⟩ := h <;>
        (try rw [c0]) <;> (try rw [c2]) <;> (try rw [c3]) <;>
        (try rw [c1 _ (by norm_num)]) <;>
        simp only [gpt_part_entry, gpt_emummc_entry, gpt_hos_data_entry,
          List.getD_cons_succ, List.getD_cons_zero, rows_start_cons_succ, rows_start_zero] <;>
        refine ⟨by decide, ?_⟩ <;> intro sz hsz <;>
        simp only [Option.some.injEq, reduceCtorEq] at hsz <;> omega
    · rw [c0]; rfl
    · intro h1 h2
      rw [c0]
      simp only [gpt_hos_data_entry, u32_sub, u32, to_u32]
      omega
    · rw [c1 0 (by norm_num)]
      simp only [gpt_part_entry, rows_start_zero]
      omega
    · intro i h1 h2
      have h3 := Nat.lt_sub_of_add_lt h2
      simp only [Nat.reduceSub] at h3
      interval_cases i <;>
        (try rw [c2]) <;> (try rw [c3]) <;>
        (try rw [c1 _ (by norm_num)]) <;> (try rw [c1 _ (by norm_num)]) <;>
        (try simp only [gpt_part_entry, gpt_emummc_entry,
          List.getD_cons_succ, List.getD_cons_zero, rows_start_cons_succ, rows_start_zero]) <;>
        omega

/-- The span of the Android userdata entry and of the nine Android entries together. -/
theorem flashed_gpt_userdata (p : partition_ctxt_t) (sec_cnt : Nat) (dev_mbr : mbr_t)
    (upper : Nat → Nat) (prng : Nat → Nat → Nat) (crc : Nat → List Nat → Nat)
    (hp : planner_inv p) (hand : p.and_size ≠ 0) :
    ((flashed_gpt p sec_cnt dev_mbr upper prng crc).entries (gpt_uda_idx p)).name
      = gpt_name "UDA" ∧
    ((flashed_gpt p sec_cnt dev_mbr upper prng crc).entries (gpt_vendor_idx p)).name
      = gpt_name "vendor" ∧
    ((flashed_gpt p sec_cnt dev_mbr upper prng crc).entries (gpt_uda_idx p)).lba_end + 1
      = ((flashed_gpt p sec_cnt dev_mbr upper prng crc).entries (gpt_uda_idx p)).lba_start
        + (p.and_size * 2048 - 0x798000 - (if p.emu_size = 0 then 0x800 else 0)) ∧
    0x798000 + (if p.emu_size = 0 then 0x800 else 0) < p.and_size * 2048 ∧
    ((flashed_gpt p sec_cnt dev_mbr upper prng crc).entries (gpt_uda_idx p)).lba_end + 1
      = ((flashed_gpt p sec_cnt dev_mbr upper prng crc).entries (gpt_vendor_idx p)).lba_start
        + (p.and_size * 2048 - (if p.emu_size = 0 then 0x800 else 0)) := by
  obtain ⟨-, c1, -, -, -⟩ :=
    flashed_gpt_entries_of_plan p sec_cnt dev_mbr upper prng crc hp hand
  obtain ⟨ht, hh, hs, he, hl, ha⟩ := hp
  have hu : and_user_size p
      = p.and_size * 2048 - 0x798000 - (if p.emu_size = 0 then 0x800 else 0) := by
    unfold and_user_size u32_sub u32 to_u32
    split_ifs <;> simp only [] <;> omega
  have hl4 : u32 (p.l4t_size * 2048) = p.l4t_size * 2048 := by unfold u32; omega
  generalize hes : (flashed_gpt p sec_cnt dev_mbr upper prng crc).entries = es at *
  by_cases hl0 : p.l4t_size = 0 <;> by_cases he0 : p.emu_size = 0 <;>
    simp only [he0, if_true, if_false] at hu <;>
    simp only [l4t_rows, android_rows, gpt_uda_idx, gpt_vendor_idx, hl0, he0, hl4,
      ne_eq, not_true_eq_false, not_false_eq_true, if_true, if_false, List.nil_append,
      List.cons_append, List.append_nil, List.length_cons, List.length_nil,
      Nat.reduceAdd, Nat.zero_add] at c1 ⊢
  · rw [c1 8 (by norm_num), c1 0 (by norm_num)]
    simp only [gpt_part_entry, List.getD_cons_succ, List.getD_cons_zero, rows_start_cons_succ,
      rows_start_zero]
    refine ⟨by decide, by decide, ?_, ?_, ?_⟩ <;> omega
  · rw [c1 8 (by norm_num), c1 0 (by norm_num)]
    simp only [gpt_part_entry, List.getD_cons_succ, List.getD_cons_zero, rows_start_cons_succ,
      rows_start_zero]
    refine ⟨by decide, by decide, ?_, ?_, ?_⟩ <;> omega
  · rw [c1 9 (by norm_num), c1 1 (by norm_num)]
    simp only [gpt_part_entry, List.getD_cons_succ, List.getD_cons_zero, rows_start_cons_succ,
      rows_start_zero]
    refine ⟨by decide, by decide, ?_, ?_, ?_⟩ <;> omega
  · rw [c1 9 (by norm_num), c1 1 (by norm_num)]
    simp only [gpt_part_entry, List.getD_cons_succ, List.getD_cons_zero, rows_start_cons_succ,
      rows_start_zero]
    refine ⟨by decide, by decide, ?_, ?_, ?_⟩ <;> omega

/-- C7 as amended: for a plan of the planner with `and_size != 0`, the `UDA` entry spans
`and_size * 2048 - 0x798000` sectors when there is an emuMMC, and `0x800` sectors (the 1 MiB
kept free at the end of the card) fewer when `emu_size = 0`; from the first sector of
`vendor` to the last of `UDA` the nine Android entries occupy `and_size * 2048` sectors,
respectively `and_size * 2048 - 0x800`. -/
theorem C7_userdata_size (p : partition_ctxt_t) (sec_cnt : Nat) (dev_mbr : mbr_t)
    (upper : Nat → Nat) (prng : Nat → Nat → Nat) (crc : Nat → List Nat → Nat)
    (hp : planner_inv p) (hand : p.and_size ≠ 0) :
    ((flashed_gpt p sec_cnt dev_mbr upper prng crc).entries (gpt_uda_idx p)).name
      = gpt_name "UDA" ∧
    ((flashed_gpt p sec_cnt dev_mbr upper prng crc).entries (gpt_vendor_idx p)).name
      = gpt_name "vendor" ∧
    ((flashed_gpt p sec_cnt dev_mbr upper prng crc).entries (gpt_uda_idx p)).lba_end + 1
      = ((flashed_gpt p sec_cnt dev_mbr upper prng crc).entries (gpt_uda_idx p)).lba_start
        + (p.and_size * 2048 - 0x798000 - (if p.emu_size = 0 then 0x800 else 0)) ∧
    0x798000 + (if p.emu_size = 0 then 0x800 else 0) < p.and_size * 2048 ∧
    ((flashed_gpt p sec_cnt dev_mbr upper prng crc).entries (gpt_uda_idx p)).lba_end + 1
      = ((flashed_gpt p sec_cnt dev_mbr upper prng crc).entries (gpt_vendor_idx p)).lba_start
        + (p.and_size * 2048 - (if p.emu_size = 0 then 0x800 else 0)) :=
  flashed_gpt_userdata p sec_cnt dev_mbr upper prng crc hp hand

/-- C7 as amended, at a concrete input: 8 GiB of Android with two emuMMC of 4 GiB and
8 GiB of Linux on a 29 GiB card; `UDA` is entry 10 and spans `8192 * 2048 - 0x798000`
sectors. -/
theorem C7_userdata_size_witness :
    (planner_inv plan_29g_full ∧ plan_29g_full.and_size ≠ 0) ∧
    (((flashed_gpt plan_29g_full 61071360 mbr_fresh_29g upper_stale prng_seq crc32_calc).entries
        (gpt_uda_idx plan_29g_full)).name = gpt_name "UDA" ∧
    ((flashed_gpt plan_29g_full 61071360 mbr_fresh_29g upper_stale prng_seq crc32_calc).entries
        (gpt_vendor_idx plan_29g_full)).name = gpt_name "vendor" ∧
    ((flashed_gpt plan_29g_full 61071360 mbr_fresh_29g upper_stale prng_seq crc32_calc).entries
        (gpt_uda_idx plan_29g_full)).lba_end + 1
      = ((flashed_gpt plan_29g_full 61071360 mbr_fresh_29g upper_stale prng_seq
          crc32_calc).entries (gpt_uda_idx plan_29g_full)).lba_start
        + (plan_29g_full.and_size * 2048 - 0x798000
            - (if plan_29g_full.emu_size = 0 then 0x800 else 0)) ∧
    0x798000 + (if plan_29g_full.emu_size = 0 then 0x800 else 0)
      < plan_29g_full.and_size * 2048 ∧
    ((flashed_gpt plan_29g_full 61071360 mbr_fresh_29g upper_stale prng_seq crc32_calc).entries
        (gpt_uda_idx plan_29g_full)).lba_end + 1
      = ((flashed_gpt plan_29g_full 61071360 mbr_fresh_29g upper_stale prng_seq
          crc32_calc).entries (gpt_vendor_idx plan_29g_full)).lba_start
        + (plan_29g_full.and_size * 2048
            - (if plan_29g_full.emu_size = 0 then 0x800 else 0))) :=
  ⟨⟨by decide, by decide⟩,
    C7_userdata_size plan_29g_full 61071360 mbr_fresh_29g upper_stale prng_seq crc32_calc
      (by decide) (by decide)⟩

/-- C7 as stated fails without emuMMC: for 8 GiB of Android alone on a 29 GiB card the
`UDA` entry (entry 9) spans 8812544 sectors, `0x800` fewer than
`and_size * 2048 - 0x798000 = 8814592`, and the nine Android entries occupy 16775168
sectors, not `and_size * 2048 = 16777216`. -/
theorem C7_userdata_size_counterexample :
    planner_inv plan_29g_and8 ∧ plan_29g_and8.and_size ≠ 0 ∧
    ((flashed_gpt plan_29g_and8 61071360 mbr_fresh_29g upper_stale prng_seq crc32_calc).entries
        9).name = gpt_name "UDA" ∧
    ((flashed_gpt plan_29g_and8 61071360 mbr_fresh_29g upper_stale prng_seq crc32_calc).entries
        9).lba_end + 1
      - ((flashed_gpt plan_29g_and8 61071360 mbr_fresh_29g upper_stale prng_seq
          crc32_calc).entries 9).lba_start = 8812544 ∧
    ((flashed_gpt plan_29g_and8 61071360 mbr_fresh_29g upper_stale prng_seq crc32_calc).entries
        9).lba_end + 1
      - ((flashed_gpt plan_29g_and8 61071360 mbr_fresh_29g upper_stale prng_seq
          crc32_calc).entries 9).lba_start ≠ plan_29g_and8.and_size * 2048 - 0x798000 ∧
    ((flashed_gpt plan_29g_and8 61071360 mbr_fresh_29g upper_stale prng_seq crc32_calc).entries
        9).lba_end + 1
      - ((flashed_gpt plan_29g_and8 61071360 mbr_fresh_29g upper_stale prng_seq
          crc32_calc).entries 1).lba_start ≠ plan_29g_and8.and_size * 2048 := by
  have hinv : planner_inv plan_29g_and8 := by decide
  have hand : plan_29g_and8.and_size ≠ 0 := by decide
  obtain ⟨h1, -, h3, -, h5⟩ := flashed_gpt_userdata plan_29g_and8 61071360 mbr_fresh_29g
    upper_stale prng_seq crc32_calc hinv hand
  have hu : gpt_uda_idx plan_29g_and8 = 9 := by decide
  have hv : gpt_vendor_idx plan_29g_and8 = 1 := by decide
  have ha : plan_29g_and8.and_size = 8192 := rfl
  have he : plan_29g_and8.emu_size = 0 := rfl
  rw [hu] at h1 h3 h5
  rw [hv] at h5
  rw [ha, he] at h3 h5
  simp only [if_true] at h3 h5
  refine ⟨hinv, hand, h1, ?_, ?_, ?_⟩
  · rw [h3]; omega
  · rw [h3, ha]; omega
  · rw [h5, ha]; omega

/-- C6 at a concrete input: two emuMMC of 4 GiB, 8 GiB of Linux and 8 GiB of Android on a
29 GiB card: entry 3 is `APP` with 0x400000 sectors, entry 4 starts right after it, entry 1
starts at `0x8000 + hos_size * 2048`, entry 13 (after `emummc2`) is zero. -/
theorem C6_gpt_entries_in_order_witness :
    (planner_inv plan_29g_full ∧ plan_29g_full.and_size ≠ 0) ∧
    (((flashed_gpt plan_29g_full 61071360 mbr_fresh_29g upper_stale prng_seq
        crc32_calc).entries 3).name = gpt_name "APP" ∧
      ((flashed_gpt plan_29g_full 61071360 mbr_fresh_29g upper_stale prng_seq
        crc32_calc).entries 3).lba_end + 1
        = ((flashed_gpt plan_29g_full 61071360 mbr_fresh_29g upper_stale prng_seq
            crc32_calc).entries 3).lba_start + 4194304) ∧
    (flashed_gpt plan_29g_full 61071360 mbr_fresh_29g upper_stale prng_seq
        crc32_calc).entries 13 = gpt_entry_zero ∧
    (((flashed_gpt plan_29g_full 61071360 mbr_fresh_29g upper_stale prng_seq
        crc32_calc).entries 1).lba_start : Int) = 0x8000 + plan_29g_full.hos_size * 2048 ∧
    ((flashed_gpt plan_29g_full 61071360 mbr_fresh_29g upper_stale prng_seq
        crc32_calc).entries (3 + 1)).lba_start
      = ((flashed_gpt plan_29g_full 61071360 mbr_fresh_29g upper_stale prng_seq
          crc32_calc).entries 3).lba_end + 1 :=
  have h := C6_gpt_entries_in_order plan_29g_full 61071360 mbr_fresh_29g upper_stale prng_seq
    crc32_calc (by decide) (by decide)
  ⟨⟨by decide, by decide⟩,
    ⟨(h.1 3 "APP" (some 4194304) (by decide)).1,
      (h.1 3 "APP" (some 4194304) (by decide)).2 4194304 rfl⟩,
    h.2.1 13 (by decide), h.2.2.2.2.1, h.2.2.2.2.2 3 (by decide) (by decide)⟩

/-! ## Layout writer: checksums and order of the writes -/

theorem crc32_bit_lt (rem : Nat) (h : rem < 4294967296) : crc32_bit rem < 4294967296 := by
  unfold crc32_bit
  split_ifs
  · exact Nat.xor_lt_two_pow (n := 32) (by omega) (by norm_num)
  · omega

theorem crc32_byte_lt (crc oct : Nat) : crc32_byte crc oct < 4294967296 := by
  unfold crc32_byte
  have h0 : (crc ^^^ (oct % 256)) % 4294967296 < 4294967296 := Nat.mod_lt _ (by norm_num)
  exact crc32_bit_lt _ (crc32_bit_lt _ (crc32_bit_lt _ (crc32_bit_lt _ (crc32_bit_lt _
    (crc32_bit_lt _ (crc32_bit_lt _ (crc32_bit_lt _ h0)))))))

theorem crc32_foldl_lt (buf : List Nat) (c : Nat) (h : c < 4294967296) :
    buf.foldl crc32_byte c < 4294967296 := by
  induction buf generalizing c with
  | nil => exact h
  | cons b rest ih => exact ih _ (crc32_byte_lt c b)

/-- The checksum service returns a `u32`. -/
theorem crc32_calc_lt (crc : Nat) (buf : List Nat) : crc32_calc crc buf < 4294967296 := by
  unfold crc32_calc
  have h1 : (crc % 4294967296) ^^^ 0xFFFFFFFF < 4294967296 :=
    Nat.xor_lt_two_pow (n := 32) (Nat.mod_lt _ (by norm_num)) (by norm_num)
  exact Nat.xor_lt_two_pow (n := 32) (crc32_foldl_lt buf _ h1) (by norm_num)

theorem bytes_at_congr (f g : Nat → Nat) (off n : Nat)
    (h : ∀ k, k < n → f (off + k) = g (off + k)) : bytes_at f off n = bytes_at g off n := by
  unfold bytes_at
  apply List.map_congr_left
  intro k hk
  exact h k (List.mem_range.mp hk)

/-- Setting the `crc32` field of a header to zero zeroes bytes 16-19 of its sector. -/
theorem gpt_header_crc_zero_byte (h : gpt_header_t) (j : Nat) :
    ({ h with crc32 := 0 } : gpt_header_t).byte j
      = if 16 ≤ j ∧ j < 20 then 0 else h.byte j := by
  unfold gpt_header_t.byte
  by_cases h1 : 16 ≤ j ∧ j < 20
  · rw [if_pos h1, if_neg (by omega), if_neg (by omega), if_neg (by omega), if_pos (by omega)]
    show le_byte 0 (j - 16) = 0
    unfold le_byte
    rw [Nat.zero_div]
  · rw [if_neg h1]
    rcases Nat.lt_or_ge j 16 with hlt | hge
    · by_cases h8 : j < 8
      · simp only [h8, if_true]
      · by_cases h12 : j < 12
        · simp only [h8, h12, if_true, if_false]
        · simp only [h8, h12, hlt, if_true, if_false]
    · have h8 : ¬ j < 8 := by omega
      have h12 : ¬ j < 12 := by omega
      have h16 : ¬ j < 16 := by omega
      have h20 : ¬ j < 20 := by omega
      simp only [h8, h12, h16, h20, if_false]

/-- The state after lines 457-477: the final header, the backup header and the writes. -/
theorem flash_gpt_finish_fields (sec_cnt : Nat) (crc : Nat → List Nat → Nat) (st : flash_state) :
    (flash_gpt_finish sec_cnt crc st).gpt.entries = st.gpt.entries ∧
    (flash_gpt_finish sec_cnt crc st).mbr = st.mbr ∧
    (flash_gpt_finish sec_cnt crc st).gpt.header
      = { st.gpt.header with
          num_part_ents := 128,
          part_ents_crc32 := u32 (crc 0 (gpt_entries_bytes st.gpt.entries)),
          crc32 := u32 (crc 0 (gpt_header_bytes
            { st.gpt.header with
              num_part_ents := 128,
              part_ents_crc32 := u32 (crc 0 (gpt_entries_bytes st.gpt.entries)),
              crc32 := 0 })) } ∧
    (flash_gpt_finish sec_cnt crc st).gpt_hdr_backup
      = { (flash_gpt_finish sec_cnt crc st).gpt.header with
          my_lba := u32_sub sec_cnt 1,
          alt_lba := 1,
          part_ent_lba := u32_sub sec_cnt 33,
          crc32 := u32 (crc 0 (gpt_header_bytes
            { (flash_gpt_finish sec_cnt crc st).gpt.header with
              my_lba := u32_sub sec_cnt 1,
              alt_lba := 1,
              part_ent_lba := u32_sub sec_cnt 33,
              crc32 := 0 })) } ∧
    (flash_gpt_finish sec_cnt crc st).writes
      = st.writes ++
          [⟨u32 (flash_gpt_finish sec_cnt crc st).gpt.header.my_lba, sizeof_gpt_t / 512,
              .gpt (flash_gpt_finish sec_cnt crc st).gpt⟩,
           ⟨u32 (flash_gpt_finish sec_cnt crc st).gpt_hdr_backup.part_ent_lba,
              sizeof_gpt_entry_t * 128 / 512,
              .gpt_entries (flash_gpt_finish sec_cnt crc st).gpt.entries⟩,
           ⟨u32 (flash_gpt_finish sec_cnt crc st).gpt_hdr_backup.my_lba, 1,
              .gpt_header (flash_gpt_finish sec_cnt crc st).gpt_hdr_backup⟩] :=
  ⟨rfl, rfl, rfl, rfl, rfl⟩

/-- The header fields that lines 285-296 set stay as set up to the end of the entries. -/
theorem flash_gpt_entries_header (p : partition_ctxt_t) (sec_cnt : Nat)
    (prng : Nat → Nat → Nat) (st : flash_state) :
    (flash_gpt_entries p sec_cnt prng st).gpt.header.size = 92 ∧
    (flash_gpt_entries p sec_cnt prng st).gpt.header.my_lba = 1 ∧
    (flash_gpt_entries p sec_cnt prng st).gpt.header.signature
      = memcpy_list st.gpt.header.signature (ascii "EFI PART") 8 := by
  unfold flash_gpt_entries flash_gpt_emummc flash_gpt_android flash_gpt_l4t
  split_ifs <;> exact ⟨rfl, rfl, rfl⟩

theorem bytes_at_congr_off (f g : Nat → Nat) (off1 off2 n : Nat)
    (h : ∀ k, k < n → f (off1 + k) = g (off2 + k)) : bytes_at f off1 n = bytes_at g off2 n := by
  unfold bytes_at
  apply List.map_congr_left
  intro k hk
  exact h k (List.mem_range.mp hk)

theorem gpt_entries_bytes_eq (es : Nat → gpt_entry_t) :
    gpt_entries_bytes es = bytes_at (gpt_entries_byte es) 0 16384 := by
  unfold gpt_entries_bytes sizeof_gpt_entry_t
  norm_num

/-- The bytes the header checksum is taken over are the first `size` bytes of the header
with bytes 16-19 (the `crc32` field) zero. -/
theorem gpt_header_bytes_crc_zero (h : gpt_header_t) :
    gpt_header_bytes { h with crc32 := 0 }
      = bytes_at (fun j => if 16 ≤ j ∧ j < 20 then 0 else h.byte j) 0 h.size := by
  unfold gpt_header_bytes
  apply bytes_at_congr_off
  intro k _
  exact gpt_header_crc_zero_byte h (0 + k)

/-- The checksum fields after lines 457-468. -/
theorem flash_gpt_finish_crcs (sec_cnt : Nat) (crc : Nat → List Nat → Nat) (st : flash_state) :
    (flash_gpt_finish sec_cnt crc st).gpt.header.size = st.gpt.header.size ∧
    (flash_gpt_finish sec_cnt crc st).gpt.header.part_ents_crc32
      = u32 (crc 0 (gpt_entries_bytes st.gpt.entries)) ∧
    (flash_gpt_finish sec_cnt crc st).gpt.header.crc32
      = u32 (crc 0 (gpt_header_bytes
          { (flash_gpt_finish sec_cnt crc st).gpt.header with crc32 := 0 })) ∧
    (flash_gpt_finish sec_cnt crc st).gpt_hdr_backup.size = st.gpt.header.size ∧
    (flash_gpt_finish sec_cnt crc st).gpt_hdr_backup.part_ents_crc32
      = u32 (crc 0 (gpt_entries_bytes st.gpt.entries)) ∧
    (flash_gpt_finish sec_cnt crc st).gpt_hdr_backup.crc32
      = u32 (crc 0 (gpt_header_bytes
          { (flash_gpt_finish sec_cnt crc st).gpt_hdr_backup with crc32 := 0 })) :=
  ⟨rfl, rfl, rfl, rfl, rfl, rfl⟩

/-- The checksums of the primary and of the backup header, for any checksum service that
returns a `u32`. -/
theorem flashed_gpt_checksums (p : partition_ctxt_t) (sec_cnt : Nat) (dev_mbr : mbr_t)
    (upper : Nat → Nat) (prng : Nat → Nat → Nat) (crc : Nat → List Nat → Nat)
    (hand : p.and_size ≠ 0) (hcrc : ∀ seed buf, crc seed buf < 4294967296) :
    (flashed_gpt p sec_cnt dev_mbr upper prng crc).header.part_ents_crc32
      = crc 0 (bytes_at (sd_payload.gpt (flashed_gpt p sec_cnt dev_mbr upper prng crc)).byte
          512 16384) ∧
    (flashed_gpt p sec_cnt dev_mbr upper prng crc).header.crc32
      = crc 0 (bytes_at (fun j => if 16 ≤ j ∧ j < 20 then 0
          else (sd_payload.gpt (flashed_gpt p sec_cnt dev_mbr upper prng crc)).byte j) 0 92) ∧
    (flashed_gpt_hdr_backup p sec_cnt dev_mbr upper prng crc).part_ents_crc32
      = crc 0 (bytes_at (sd_payload.gpt_entries
          (flashed_gpt p sec_cnt dev_mbr upper prng crc).entries).byte 0 16384) ∧
    (flashed_gpt_hdr_backup p sec_cnt dev_mbr upper prng crc).crc32
      = crc 0 (bytes_at (fun j => if 16 ≤ j ∧ j < 20 then 0
          else (sd_payload.gpt_header
            (flashed_gpt_hdr_backup p sec_cnt dev_mbr upper prng crc)).byte j) 0 92) := by
  have hu : ∀ seed buf, u32 (crc seed buf) = crc seed buf := fun seed buf =>
    u32_eq_self _ (hcrc seed buf)
  unfold flashed_gpt flashed_gpt_hdr_backup flash_state_final
  rw [if_pos hand]
  obtain ⟨hsize, -, -⟩ :=
    flash_gpt_entries_header p sec_cnt prng (flash_mbr_slots p dev_mbr upper prng)
  generalize flash_gpt_entries p sec_cnt prng (flash_mbr_slots p dev_mbr upper prng) = S at hsize
  obtain ⟨f1, -, -, -, -⟩ := flash_gpt_finish_fields sec_cnt crc S
  obtain ⟨g1, g2, g3, g4, g5, g6⟩ := flash_gpt_finish_crcs sec_cnt crc S
  rw [hsize] at g1 g4
  rw [hu] at g2 g3 g5 g6
  rw [gpt_header_bytes_crc_zero, g1] at g3
  rw [gpt_header_bytes_crc_zero, g4] at g6
  rw [gpt_entries_bytes_eq] at g2 g5
  generalize flash_gpt_finish sec_cnt crc S = F at *
  have e1 : bytes_at (sd_payload.gpt F.gpt).byte 512 16384
      = bytes_at (gpt_entries_byte S.gpt.entries) 0 16384 := by
    refine bytes_at_congr_off (sd_payload.gpt F.gpt).byte (gpt_entries_byte S.gpt.entries)
      512 0 16384 ?_
    intro k hk
    show F.gpt.byte (512 + k) = _
    unfold gpt_t.byte sizeof_gpt_t sizeof_gpt_header_t sizeof_gpt_entry_t
    have e : 512 + k - 512 = 0 + k := by omega
    rw [if_neg (by omega), if_pos (by omega), f1, e]
  have e2 : bytes_at (fun j => if 16 ≤ j ∧ j < 20 then 0 else (sd_payload.gpt F.gpt).byte j) 0 92
      = bytes_at (fun j => if 16 ≤ j ∧ j < 20 then 0 else F.gpt.header.byte j) 0 92 := by
    refine bytes_at_congr_off _ _ 0 0 92 ?_
    intro k hk
    show (if 16 ≤ 0 + k ∧ 0 + k < 20 then 0 else F.gpt.byte (0 + k)) = _
    unfold gpt_t.byte sizeof_gpt_header_t
    rw [if_pos (show 0 + k < 512 by omega)]
  refine ⟨?_, ?_, ?_, ?_⟩
  · rw [e1]; exact g2
  · rw [e2]; exact g3
  · rw [f1]; exact g5
  · exact g6

/-- C8: when `and_size != 0`, in the primary and in the backup GPT header written by
`_prepare_and_flash_mbr_gpt`, `part_ents_crc32` is `crc32_calc` over the 128 x 128 bytes of
the entries array as written (bytes 512.. of the primary GPT write, the whole backup entries
write), and `crc32` is `crc32_calc` over the first 92 bytes of that header as written with
bytes 16-19, its `crc32` field, set to zero. `crc` is any checksum service returning a
`u32`. -/
theorem C8_gpt_checksums (p : partition_ctxt_t) (sec_cnt : Nat) (dev_mbr : mbr_t)
    (upper : Nat → Nat) (prng : Nat → Nat → Nat) (crc : Nat → List Nat → Nat)
    (hand : p.and_size ≠ 0) (hcrc : ∀ seed buf, crc seed buf < 4294967296) :
    (flashed_gpt p sec_cnt dev_mbr upper prng crc).header.part_ents_crc32
      = crc 0 (bytes_at (sd_payload.gpt (flashed_gpt p sec_cnt dev_mbr upper prng crc)).byte
          512 16384) ∧
    (flashed_gpt p sec_cnt dev_mbr upper prng crc).header.crc32
      = crc 0 (bytes_at (fun j => if 16 ≤ j ∧ j < 20 then 0
          else (sd_payload.gpt (flashed_gpt p sec_cnt dev_mbr upper prng crc)).byte j) 0 92) ∧
    (flashed_gpt_hdr_backup p sec_cnt dev_mbr upper prng crc).part_ents_crc32
      = crc 0 (bytes_at (sd_payload.gpt_entries
          (flashed_gpt p sec_cnt dev_mbr upper prng crc).entries).byte 0 16384) ∧
    (flashed_gpt_hdr_backup p sec_cnt dev_mbr upper prng crc).crc32
      = crc 0 (bytes_at (fun j => if 16 ≤ j ∧ j < 20 then 0
          else (sd_payload.gpt_header
            (flashed_gpt_hdr_backup p sec_cnt dev_mbr upper prng crc)).byte j) 0 92) :=
  flashed_gpt_checksums p sec_cnt dev_mbr upper prng crc hand hcrc

/-- C8 at a concrete input: 8 GiB of Android on a 29 GiB card, with the CRC-32 of the GPT
format as checksum service. -/
theorem C8_gpt_checksums_witness :
    (plan_29g_and8.and_size ≠ 0 ∧ ∀ seed buf, crc32_calc seed buf < 4294967296) ∧
    ((flashed_gpt plan_29g_and8 61071360 mbr_fresh_29g upper_stale prng_seq
        crc32_calc).header.part_ents_crc32
      = crc32_calc 0 (bytes_at (sd_payload.gpt (flashed_gpt plan_29g_and8 61071360 mbr_fresh_29g
          upper_stale prng_seq crc32_calc)).byte 512 16384) ∧
    (flashed_gpt plan_29g_and8 61071360 mbr_fresh_29g upper_stale prng_seq
        crc32_calc).header.crc32
      = crc32_calc 0 (bytes_at (fun j => if 16 ≤ j ∧ j < 20 then 0
          else (sd_payload.gpt (flashed_gpt plan_29g_and8 61071360 mbr_fresh_29g upper_stale
            prng_seq crc32_calc)).byte j) 0 92) ∧
    (flashed_gpt_hdr_backup plan_29g_and8 61071360 mbr_fresh_29g upper_stale prng_seq
        crc32_calc).part_ents_crc32
      = crc32_calc 0 (bytes_at (sd_payload.gpt_entries
          (flashed_gpt plan_29g_and8 61071360 mbr_fresh_29g upper_stale prng_seq
            crc32_calc).entries).byte 0 16384) ∧
    (flashed_gpt_hdr_backup plan_29g_and8 61071360 mbr_fresh_29g upper_stale prng_seq
        crc32_calc).crc32
      = crc32_calc 0 (bytes_at (fun j => if 16 ≤ j ∧ j < 20 then 0
          else (sd_payload.gpt_header
            (flashed_gpt_hdr_backup plan_29g_and8 61071360 mbr_fresh_29g upper_stale prng_seq
              crc32_calc)).byte j) 0 92)) :=
  ⟨⟨by decide, crc32_calc_lt⟩,
    C8_gpt_checksums plan_29g_and8 61071360 mbr_fresh_29g upper_stale prng_seq crc32_calc
      (by decide) crc32_calc_lt⟩

/-- The block writes of `_prepare_and_flash_mbr_gpt` when there is Android: the writes up
to the end of the GPT entries, the primary GPT, the backup entries, the backup header and
the MBR. -/
theorem flashed_writes_with_gpt (p : partition_ctxt_t) (sec_cnt : Nat) (dev_mbr : mbr_t)
    (upper : Nat → Nat) (prng : Nat → Nat → Nat) (crc : Nat → List Nat → Nat)
    (hand : p.and_size ≠ 0) (h33 : 33 ≤ sec_cnt) (hsec : sec_cnt < 4294967296) :
    _prepare_and_flash_mbr_gpt p sec_cnt dev_mbr upper prng crc
      = (flash_gpt_entries p sec_cnt prng (flash_mbr_slots p dev_mbr upper prng)).writes ++
          [⟨1, 33, .gpt (flashed_gpt p sec_cnt dev_mbr upper prng crc)⟩,
           ⟨sec_cnt - 33, 32, .gpt_entries (flashed_gpt p sec_cnt dev_mbr upper prng crc).entries⟩,
           ⟨sec_cnt - 1, 1, .gpt_header (flashed_gpt_hdr_backup p sec_cnt dev_mbr upper prng crc)⟩,
           ⟨0, 1, .mbr (flashed_mbr p sec_cnt dev_mbr upper prng crc)⟩] ∧
    flashed_gpt_hdr_backup p sec_cnt dev_mbr upper prng crc
      = { (flashed_gpt p sec_cnt dev_mbr upper prng crc).header with
          my_lba := sec_cnt - 1,
          alt_lba := 1,
          part_ent_lba := sec_cnt - 33,
          crc32 := (flashed_gpt_hdr_backup p sec_cnt dev_mbr upper prng crc).crc32 } := by
  obtain ⟨-, hmy, -⟩ :=
    flash_gpt_entries_header p sec_cnt prng (flash_mbr_slots p dev_mbr upper prng)
  unfold _prepare_and_flash_mbr_gpt flashed_gpt flashed_gpt_hdr_backup flashed_mbr
    flash_state_final
  rw [if_pos hand]
  generalize flash_gpt_entries p sec_cnt prng (flash_mbr_slots p dev_mbr upper prng) = S at hmy
  obtain ⟨-, -, f3, f4, f5⟩ := flash_gpt_finish_fields sec_cnt crc S
  have hmy' : (flash_gpt_finish sec_cnt crc S).gpt.header.my_lba = 1 := by rw [f3]; exact hmy
  have e1 : u32_sub sec_cnt 1 = sec_cnt - 1 := u32_sub_eq _ _ (by omega) hsec
  have e33 : u32_sub sec_cnt 33 = sec_cnt - 33 := u32_sub_eq _ _ h33 hsec
  have hb1 : (flash_gpt_finish sec_cnt crc S).gpt_hdr_backup.my_lba = sec_cnt - 1 := by
    rw [f4]; exact e1
  have hb2 : (flash_gpt_finish sec_cnt crc S).gpt_hdr_backup.part_ent_lba = sec_cnt - 33 := by
    rw [f4]; exact e33
  constructor
  · show (flash_gpt_finish sec_cnt crc S).writes ++
        [⟨0, 1, .mbr (flash_gpt_finish sec_cnt crc S).mbr⟩] = _
    rw [f5, hmy', hb1, hb2, u32_eq_self 1 (by norm_num), u32_eq_self (sec_cnt - 1) (by omega),
      u32_eq_self (sec_cnt - 33) (by omega)]
    have s1 : sizeof_gpt_t / 512 = 33 := by decide
    have s2 : sizeof_gpt_entry_t * 128 / 512 = 32 := by decide
    rw [s1, s2, List.append_assoc]
    rfl
  · rw [← e1, ← e33]
    exact f4

theorem flashed_writes_last (p : partition_ctxt_t) (sec_cnt : Nat) (dev_mbr : mbr_t)
    (upper : Nat → Nat) (prng : Nat → Nat → Nat) (crc : Nat → List Nat → Nat) :
    (_prepare_and_flash_mbr_gpt p sec_cnt dev_mbr upper prng crc).getLast?
      = some ⟨0, 1, .mbr (flashed_mbr p sec_cnt dev_mbr upper prng crc)⟩ := by
  unfold _prepare_and_flash_mbr_gpt flashed_mbr
  simp

/-- C9: when `and_size != 0` the writes of `_prepare_and_flash_mbr_gpt` end with, in this
order, the primary GPT at LBA 1 (33 sectors: header, then the entries array from LBA 2), the
backup entries array at `sec_cnt - 33`, the backup header at `sec_cnt - 1` and the MBR at
LBA 0; the backup header is the primary header with `my_lba = sec_cnt - 1`, `alt_lba = 1`,
`part_ent_lba = sec_cnt - 33` and its own `crc32`. For every plan the last write is the MBR
at LBA 0. -/
theorem C9_order_of_writes (p : partition_ctxt_t) (sec_cnt : Nat) (dev_mbr : mbr_t)
    (upper : Nat → Nat) (prng : Nat → Nat → Nat) (crc : Nat → List Nat → Nat) :
    (_prepare_and_flash_mbr_gpt p sec_cnt dev_mbr upper prng crc).getLast?
      = some ⟨0, 1, .mbr (flashed_mbr p sec_cnt dev_mbr upper prng crc)⟩ ∧
    (p.and_size ≠ 0 → 33 ≤ sec_cnt → sec_cnt < 4294967296 →
      (∃ ws, _prepare_and_flash_mbr_gpt p sec_cnt dev_mbr upper prng crc
        = ws ++
          [⟨1, 33, .gpt (flashed_gpt p sec_cnt dev_mbr upper prng crc)⟩,
           ⟨sec_cnt - 33, 32, .gpt_entries (flashed_gpt p sec_cnt dev_mbr upper prng crc).entries⟩,
           ⟨sec_cnt - 1, 1, .gpt_header (flashed_gpt_hdr_backup p sec_cnt dev_mbr upper prng crc)⟩,
           ⟨0, 1, .mbr (flashed_mbr p sec_cnt dev_mbr upper prng crc)⟩]) ∧
      (∀ j, j < 512 → (sd_payload.gpt (flashed_gpt p sec_cnt dev_mbr upper prng crc)).byte j
        = (flashed_gpt p sec_cnt dev_mbr upper prng crc).header.byte j) ∧
      (∀ j, j < 16384 →
        (sd_payload.gpt (flashed_gpt p sec_cnt dev_mbr upper prng crc)).byte (512 + j)
          = gpt_entries_byte (flashed_gpt p sec_cnt dev_mbr upper prng crc).entries j) ∧
      flashed_gpt_hdr_backup p sec_cnt dev_mbr upper prng crc
        = { (flashed_gpt p sec_cnt dev_mbr upper prng crc).header with
            my_lba := sec_cnt - 1,
            alt_lba := 1,
            part_ent_lba := sec_cnt - 33,
            crc32 := (flashed_gpt_hdr_backup p sec_cnt dev_mbr upper prng crc).crc32 }) := by
  refine ⟨flashed_writes_last p sec_cnt dev_mbr upper prng crc, fun hand h33 hsec => ?_⟩
  obtain ⟨h1, h2⟩ := flashed_writes_with_gpt p sec_cnt dev_mbr upper prng crc hand h33 hsec
  refine ⟨⟨_, h1⟩, ?_, ?_, h2⟩
  · intro j hj
    show (flashed_gpt p sec_cnt dev_mbr upper prng crc).byte j = _
    unfold gpt_t.byte sizeof_gpt_header_t
    rw [if_pos hj]
  · intro j hj
    show (flashed_gpt p sec_cnt dev_mbr upper prng crc).byte (512 + j) = _
    unfold gpt_t.byte sizeof_gpt_t sizeof_gpt_header_t sizeof_gpt_entry_t
    have e : 512 + j - 512 = j := by omega
    rw [if_neg (by omega), if_pos (by omega), e]

/-- C9 at a concrete input: 8 GiB of Android on a 29 GiB card. -/
theorem C9_order_of_writes_witness :
    (plan_29g_and8.and_size ≠ 0 ∧ 33 ≤ 61071360 ∧ 61071360 < 4294967296) ∧
    (∃ ws, _prepare_and_flash_mbr_gpt plan_29g_and8 61071360 mbr_fresh_29g upper_stale prng_seq
        crc32_calc
      = ws ++
        [⟨1, 33, .gpt (flashed_gpt plan_29g_and8 61071360 mbr_fresh_29g upper_stale prng_seq
            crc32_calc)⟩,
         ⟨61071360 - 33, 32, .gpt_entries (flashed_gpt plan_29g_and8 61071360 mbr_fresh_29g
            upper_stale prng_seq crc32_calc).entries⟩,
         ⟨61071360 - 1, 1, .gpt_header (flashed_gpt_hdr_backup plan_29g_and8 61071360
            mbr_fresh_29g upper_stale prng_seq crc32_calc)⟩,
         ⟨0, 1, .mbr (flashed_mbr plan_29g_and8 61071360 mbr_fresh_29g upper_stale prng_seq
            crc32_calc)⟩]) ∧
    flashed_gpt_hdr_backup plan_29g_and8 61071360 mbr_fresh_29g upper_stale prng_seq crc32_calc
      = { (flashed_gpt plan_29g_and8 61071360 mbr_fresh_29g upper_stale prng_seq
            crc32_calc).header with
          my_lba := 61071360 - 1,
          alt_lba := 1,
          part_ent_lba := 61071360 - 33,
          crc32 := (flashed_gpt_hdr_backup plan_29g_and8 61071360 mbr_fresh_29g upper_stale
            prng_seq crc32_calc).crc32 } :=
  have h := (C9_order_of_writes plan_29g_and8 61071360 mbr_fresh_29g upper_stale prng_seq
    crc32_calc).2 (by decide) (by decide) (by decide)
  ⟨⟨by decide, by decide, by decide⟩, h.1, h.2.2.2⟩

/-! ## Reading the written sectors back -/

theorem le32_le_byte (x : Nat) (b : Nat → Nat) (off : Nat)
    (h : ∀ k, k < 4 → b (off + k) = le_byte x k) : le32 b off = x % 4294967296 := by
  have h0 := h 0 (by norm_num)
  have h1 := h 1 (by norm_num)
  have h2 := h 2 (by norm_num)
  have h3 := h 3 (by norm_num)
  simp only [le_byte, Nat.add_zero, Nat.reducePow, Nat.div_one] at h0 h1 h2 h3
  unfold le32
  rw [h0, h1, h2, h3]
  omega

theorem le64_le_byte (x : Nat) (b : Nat → Nat) (off : Nat)
    (h : ∀ k, k < 8 → b (off + k) = le_byte x k) : le64 b off = x % 18446744073709551616 := by
  have h0 := h 0 (by norm_num)
  have h1 := h 1 (by norm_num)
  have h2 := h 2 (by norm_num)
  have h3 := h 3 (by norm_num)
  have h4 := h 4 (by norm_num)
  have h5 := h 5 (by norm_num)
  have h6 := h 6 (by norm_num)
  have h7 := h 7 (by norm_num)
  simp only [le_byte, Nat.add_zero, Nat.reducePow, Nat.div_one] at h0 h1 h2 h3 h4 h5 h6 h7
  unfold le64 le32
  have e5 : off + 4 + 1 = off + 5 := by omega
  have e6 : off + 4 + 2 = off + 6 := by omega
  have e7 : off + 4 + 3 = off + 7 := by omega
  rw [e5, e6, e7, h0, h1, h2, h3, h4, h5, h6, h7]
  omega

theorem bytes_at_eq_list (l : List Nat) (f : Nat → Nat) (off n : Nat) (hl : l.length = n)
    (hf : ∀ k, k < n → f (off + k) = l.getD k 0) : bytes_at f off n = l := by
  apply List.ext_getElem
  · simp [bytes_at, hl]
  · intro k h1 h2
    have hk : k < n := by simpa [bytes_at] using h1
    simp only [bytes_at, List.getElem_map, List.getElem_range]
    rw [hf k hk, List.getD_eq_getElem _ _ h2]

theorem mbr_byte_partition (m : mbr_t) (i k : Nat) (hi : i < 4) (hk : k < 16) :
    m.byte (446 + 16 * i + k) = (m.partitions i).byte k := by
  unfold mbr_t.byte
  have e1 : (446 + 16 * i + k - 446) / 16 = i := by omega
  have e2 : (446 + 16 * i + k - 446) % 16 = k := by omega
  rw [if_neg (by omega), if_neg (by omega), if_neg (by omega), if_pos (by omega), e1, e2]

/-- Type, start and size of a slot of the MBR read back from a sector that holds the bytes
of `m`. -/
theorem mbr_of_bytes_partition (m : mbr_t) (b : Nat → Nat)
    (hb : ∀ j, j < 512 → b j = m.byte j) (i : Nat) (hi : i < 4) :
    ((mbr_of_bytes b).partitions i).type = (m.partitions i).type % 256 ∧
    ((mbr_of_bytes b).partitions i).start_sct = (m.partitions i).start_sct % 4294967296 ∧
    ((mbr_of_bytes b).partitions i).size_sct = (m.partitions i).size_sct % 4294967296 := by
  refine ⟨?_, ?_, ?_⟩
  · show b (446 + 16 * i + 4) % 256 = _
    rw [hb _ (by omega), mbr_byte_partition m i 4 hi (by norm_num)]
    unfold mbr_part_t.byte le_byte
    rw [if_neg (by norm_num), if_neg (by norm_num), if_pos (by norm_num)]
    simp
  · show le32 b (446 + 16 * i + 8) = _
    apply le32_le_byte
    intro k hk
    have e : 446 + 16 * i + 8 + k = 446 + 16 * i + (8 + k) := by omega
    rw [hb _ (by omega), e, mbr_byte_partition m i (8 + k) hi (by omega)]
    unfold mbr_part_t.byte
    have e2 : 8 + k - 8 = k := by omega
    rw [if_neg (by omega), if_neg (by omega), if_neg (by omega), if_neg (by omega),
      if_pos (by omega), e2]
  · show le32 b (446 + 16 * i + 12) = _
    apply le32_le_byte
    intro k hk
    have e : 446 + 16 * i + 12 + k = 446 + 16 * i + (12 + k) := by omega
    rw [hb _ (by omega), e, mbr_byte_partition m i (12 + k) hi (by omega)]
    unfold mbr_part_t.byte
    have e2 : 12 + k - 12 = k := by omega
    rw [if_neg (by omega), if_neg (by omega), if_neg (by omega), if_neg (by omega),
      if_neg (by omega), if_pos (by omega), e2]

theorem gpt_byte_header (g : gpt_t) (j : Nat) (hj : j < 512) : g.byte j = g.header.byte j := by
  unfold gpt_t.byte sizeof_gpt_header_t
  rw [if_pos hj]

theorem gpt_byte_entry (g : gpt_t) (i k : Nat) (hi : i < 128) (hk : k < 128) :
    g.byte (512 + 128 * i + k) = (g.entries i).byte k := by
  unfold gpt_t.byte gpt_entries_byte sizeof_gpt_t sizeof_gpt_header_t sizeof_gpt_entry_t
  have e1 : (512 + 128 * i + k - 512) / 128 = i := by omega
  have e2 : (512 + 128 * i + k - 512) % 128 = k := by omega
  rw [if_neg (by omega), if_pos (by omega), e1, e2]

/-- Signature and entry count of the GPT header, and name and range of the entries, read
back from sectors that hold the bytes of `g`. -/
theorem gpt_of_bytes_fields (g : gpt_t) (b : Nat → Nat)
    (hb : ∀ j, j < 16896 → b j = g.byte j) :
    (g.header.signature.length = 8 → (gpt_of_bytes b).header.signature = g.header.signature) ∧
    (gpt_of_bytes b).header.num_part_ents = g.header.num_part_ents % 4294967296 ∧
    (∀ i, i < 128 →
      ((g.entries i).name.length = 72 → ((gpt_of_bytes b).entries i).name = (g.entries i).name) ∧
      ((gpt_of_bytes b).entries i).lba_start = (g.entries i).lba_start % 18446744073709551616 ∧
      ((gpt_of_bytes b).entries i).lba_end = (g.entries i).lba_end % 18446744073709551616) := by
  refine ⟨?_, ?_, ?_⟩
  · intro hlen
    show bytes_at b 0 8 = _
    apply bytes_at_eq_list _ _ _ _ hlen
    intro k hk
    rw [hb _ (by omega), gpt_byte_header g _ (by omega)]
    unfold gpt_header_t.byte
    rw [if_pos (by omega), Nat.zero_add]
  · show le32 b 80 = _
    apply le32_le_byte
    intro k hk
    rw [hb _ (by omega), gpt_byte_header g _ (by omega)]
    unfold gpt_header_t.byte
    have e : 80 + k - 80 = k := by omega
    iterate 11 rw [if_neg (by omega)]
    rw [if_pos (by omega), e]
  · intro i hi
    refine ⟨?_, ?_, ?_⟩
    · intro hlen
      show bytes_at b (sizeof_gpt_header_t + sizeof_gpt_entry_t * i + 56) 72 = _
      apply bytes_at_eq_list _ _ _ _ hlen
      intro k hk
      unfold sizeof_gpt_header_t sizeof_gpt_entry_t
      have e : 512 + 128 * i + 56 + k = 512 + 128 * i + (56 + k) := by omega
      rw [hb _ (by omega), e, gpt_byte_entry g i (56 + k) hi (by omega)]
      unfold gpt_entry_t.byte
      have e2 : 56 + k - 56 = k := by omega
      rw [if_neg (by omega), if_neg (by omega), if_neg (by omega), if_neg (by omega),
        if_neg (by omega), if_pos (by omega), e2]
    · show le64 b (sizeof_gpt_header_t + sizeof_gpt_entry_t * i + 32) = _
      apply le64_le_byte
      intro k hk
      unfold sizeof_gpt_header_t sizeof_gpt_entry_t
      have e : 512 + 128 * i + 32 + k = 512 + 128 * i + (32 + k) := by omega
      rw [hb _ (by omega), e, gpt_byte_entry g i (32 + k) hi (by omega)]
      unfold gpt_entry_t.byte
      have e2 : 32 + k - 32 = k := by omega
      rw [if_neg (by omega), if_neg (by omega), if_pos (by omega), e2]
    · show le64 b (sizeof_gpt_header_t + sizeof_gpt_entry_t * i + 40) = _
      apply le64_le_byte
      intro k hk
      unfold sizeof_gpt_header_t sizeof_gpt_entry_t
      have e : 512 + 128 * i + 40 + k = 512 + 128 * i + (40 + k) := by omega
      rw [hb _ (by omega), e, gpt_byte_entry g i (40 + k) hi (by omega)]
      unfold gpt_entry_t.byte
      have e2 : 40 + k - 40 = k := by omega
      rw [if_neg (by omega), if_neg (by omega), if_neg (by omega), if_pos (by omega), e2]

theorem sd_apply_writes_append (dev : Nat → Nat) (ws vs : List sd_write) :
    sd_apply_writes dev (ws ++ vs) = sd_apply_writes (sd_apply_writes dev ws) vs := by
  unfold sd_apply_writes; rw [List.foldl_append]

theorem l4t_gpt_scan_succ (gpt : gpt_t) (i fuel : Nat) :
    l4t_gpt_scan gpt i (fuel + 1)
      = if i < gpt.header.num_part_ents then
          if (gpt.entries i).name.take 6 = utf16le "l4t" then
            some (to_u32 (gpt.entries i).lba_start,
              to_u32 (((gpt.entries i).lba_end : Int) + 1 - ((gpt.entries i).lba_start : Int)))
          else if i > 126 then none
          else l4t_gpt_scan gpt (i + 1) fuel
        else none := rfl

theorem l4t_mbr_scan_succ (mbr : mbr_t) (i fuel : Nat) :
    l4t_mbr_scan mbr i (fuel + 1)
      = if i < 4 then
          if (mbr.partitions i).type = 0x83 then
            some ((mbr.partitions i).start_sct, (mbr.partitions i).size_sct)
          else l4t_mbr_scan mbr (i + 1) fuel
        else none := rfl

/-- The header fields of the GPT that `_prepare_and_flash_mbr_gpt` writes which the
partition locator looks at. -/
theorem flashed_gpt_header_id (p : partition_ctxt_t) (sec_cnt : Nat) (dev_mbr : mbr_t)
    (upper : Nat → Nat) (prng : Nat → Nat → Nat) (crc : Nat → List Nat → Nat)
    (hand : p.and_size ≠ 0) :
    (flashed_gpt p sec_cnt dev_mbr upper prng crc).header.signature = ascii "EFI PART" ∧
    (flashed_gpt p sec_cnt dev_mbr upper prng crc).header.num_part_ents = 128 := by
  obtain ⟨hg0, -, -⟩ := flash_mbr_slots_gpt p dev_mbr upper prng
  obtain ⟨-, -, hsig⟩ :=
    flash_gpt_entries_header p sec_cnt prng (flash_mbr_slots p dev_mbr upper prng)
  rw [hg0] at hsig
  unfold flashed_gpt flash_state_final
  rw [if_pos hand]
  obtain ⟨-, -, f3, -, -⟩ := flash_gpt_finish_fields sec_cnt crc
    (flash_gpt_entries p sec_cnt prng (flash_mbr_slots p dev_mbr upper prng))
  rw [f3]
  refine ⟨?_, rfl⟩
  show (flash_gpt_entries p sec_cnt prng
    (flash_mbr_slots p dev_mbr upper prng)).gpt.header.signature = _
  rw [hsig]
  decide

/-- The card after the layout writer, GPT scheme: sector 0 holds the MBR written last,
sectors 1-33 hold the primary GPT. -/
theorem flashed_card_gpt_scheme (p : partition_ctxt_t) (sec_cnt : Nat) (dev : Nat → Nat)
    (upper : Nat → Nat) (prng : Nat → Nat → Nat) (crc : Nat → List Nat → Nat)
    (hand : p.and_size ≠ 0) (h67 : 67 ≤ sec_cnt) (hsec : sec_cnt < 4294967296) :
    (∀ j, j < 512 → sdmmc_storage_read (flashed_card p sec_cnt dev upper prng crc) 0 j
      = (flashed_mbr p sec_cnt (mbr_of_bytes (sdmmc_storage_read dev 0)) upper prng crc).byte j) ∧
    (∀ j, j < 16896 → sdmmc_storage_read (flashed_card p sec_cnt dev upper prng crc) 1 j
      = (flashed_gpt p sec_cnt (mbr_of_bytes (sdmmc_storage_read dev 0)) upper prng crc).byte j) := by
  obtain ⟨hW, -⟩ := flashed_writes_with_gpt p sec_cnt (mbr_of_bytes (sdmmc_storage_read dev 0))
    upper prng crc hand (by omega) hsec
  unfold flashed_card
  rw [hW, sd_apply_writes_append]
  generalize sd_apply_writes dev _ = X
  constructor
  · intro j hj
    simp only [sdmmc_storage_read, sd_apply_writes, List.foldl_cons, List.foldl_nil,
      sdmmc_storage_write]
    rw [if_pos (by omega)]
    simp only [Nat.mul_zero, Nat.zero_add, Nat.sub_zero]
    rfl
  · intro j hj
    simp only [sdmmc_storage_read, sd_apply_writes, List.foldl_cons, List.foldl_nil,
      sdmmc_storage_write]
    rw [if_neg (by omega), if_neg (by omega), if_neg (by omega), if_pos (by omega)]
    have e : 512 * 1 + j - 512 * 1 = j := by omega
    rw [e]
    rfl

/-- The writes of lines 225-272 when there is Linux and no Android: the clearing of the
first 16MB and the clearing of the head of the Linux partition. -/
theorem flash_mbr_slots_writes_linux (p : partition_ctxt_t) (dev_mbr : mbr_t)
    (upper : Nat → Nat) (prng : Nat → Nat → Nat) (hl : p.l4t_size ≠ 0) (ha : p.and_size = 0) :
    (flash_mbr_slots p dev_mbr upper prng).writes
      = [⟨0, 0x8000, .upper_buffer (fun j => if j < 0x8000 then 0 else upper j)⟩,
         ⟨u32 (0x8000 + hos_sct p), 0x800,
           .upper_buffer (fun j => if j < 0x8000 then 0 else upper j)⟩] := by
  unfold flash_mbr_slots
  simp only [hl, ha, ne_eq, not_false_eq_true, and_self, if_true, mbr_set_partition,
    Function.update_same]
  split_ifs <;> rfl

/-- The card after the layout writer, MBR scheme with Linux: sector 0 holds the MBR written
last, sectors 1-33 are zero. -/
theorem flashed_card_mbr_scheme (p : partition_ctxt_t) (sec_cnt : Nat) (dev : Nat → Nat)
    (upper : Nat → Nat) (prng : Nat → Nat → Nat) (crc : Nat → List Nat → Nat)
    (hp : planner_inv p) (hl : p.l4t_size ≠ 0) (ha : p.and_size = 0) :
    (∀ j, j < 512 → sdmmc_storage_read (flashed_card p sec_cnt dev upper prng crc) 0 j
      = (flashed_mbr p sec_cnt (mbr_of_bytes (sdmmc_storage_read dev 0)) upper prng crc).byte j) ∧
    (∀ j, j < 16896 → sdmmc_storage_read (flashed_card p sec_cnt dev upper prng crc) 1 j = 0) := by
  obtain ⟨hfirst, -, -⟩ := gpt_first_lba_eq p hp
  have hge : 0x8000 ≤ gpt_first_lba p := by unfold gpt_first_lba; omega
  have hW := flash_mbr_slots_writes_linux p (mbr_of_bytes (sdmmc_storage_read dev 0)) upper prng
    hl ha
  rw [hfirst] at hW
  unfold flashed_card _prepare_and_flash_mbr_gpt flashed_mbr flash_state_final
  rw [if_neg (by simp [ha])]
  simp only []
  rw [hW]
  constructor
  · intro j hj
    simp only [sdmmc_storage_read, sd_apply_writes, List.cons_append, List.nil_append,
      List.foldl_cons, List.foldl_nil, sdmmc_storage_write]
    rw [if_pos (by omega)]
    simp only [Nat.mul_zero, Nat.zero_add, Nat.sub_zero]
    rfl
  · intro j hj
    simp only [sdmmc_storage_read, sd_apply_writes, List.cons_append, List.nil_append,
      List.foldl_cons, List.foldl_nil, sdmmc_storage_write]
    rw [if_neg (by omega), if_neg (by omega), if_pos (by omega)]
    show (if 512 * 1 + j - 512 * 0 < 0x8000 then 0 else upper (512 * 1 + j - 512 * 0)) = 0
    rw [if_pos (by omega)]

/-- Sectors 1-33 that read as zero hold no GPT: no signature and no declared entry. -/
theorem gpt_of_bytes_zero (b : Nat → Nat) (hb : ∀ j, j < 16896 → b j = 0) :
    (gpt_of_bytes b).header.signature = List.replicate 8 0 ∧
    (gpt_of_bytes b).header.num_part_ents = 0 := by
  constructor
  · show bytes_at b 0 8 = _
    apply bytes_at_eq_list _ _ _ _ (by simp)
    intro k hk
    rw [hb _ (by omega)]
    interval_cases k <;> rfl
  · show le32 b 80 = 0
    unfold le32
    rw [hb _ (by norm_num), hb _ (by norm_num), hb _ (by norm_num), hb _ (by norm_num)]

/-- The partition locator on the card the layout writer leaves, GPT scheme: the entry
after `hos_data` is the Linux partition of the plan. -/
theorem l4t_partition_after_flash_gpt (p : partition_ctxt_t) (sec_cnt : Nat) (dev : Nat → Nat)
    (upper : Nat → Nat) (prng : Nat → Nat → Nat) (crc : Nat → List Nat → Nat)
    (hp : planner_inv p) (hl : p.l4t_size ≠ 0) (hand : p.and_size ≠ 0)
    (h67 : 67 ≤ sec_cnt) (hsec : sec_cnt < 4294967296) :
    _get_available_l4t_partition (flashed_card p sec_cnt dev upper prng crc)
      = ({ offset_sct := gpt_first_lba p, image_size_sct := 0 }, p.l4t_size * 2048) := by
  obtain ⟨-, -, hfit⟩ := gpt_first_lba_eq p hp
  obtain ⟨-, hg⟩ := flashed_card_gpt_scheme p sec_cnt dev upper prng crc hand h67 hsec
  obtain ⟨hsig, hnum⟩ := flashed_gpt_header_id p sec_cnt
    (mbr_of_bytes (sdmmc_storage_read dev 0)) upper prng crc hand
  obtain ⟨c0, c1, -⟩ := flashed_gpt_entries_of_plan p sec_cnt
    (mbr_of_bytes (sdmmc_storage_read dev 0)) upper prng crc hp hand
  obtain ⟨fsig, fnum, fent⟩ := gpt_of_bytes_fields _ _ hg
  obtain ⟨fn0, -, -⟩ := fent 0 (by norm_num)
  obtain ⟨fn1, fs1, fe1⟩ := fent 1 (by norm_num)
  have hrows : l4t_rows p ++ android_rows p
      = ⟨utf16le "l4t", 6, u32 (p.l4t_size * 2048), 0x800⟩ :: android_rows p := by
    unfold l4t_rows; rw [if_pos hl]; rfl
  have c1' := c1 0 (by rw [hrows]; simp)
  rw [hrows, rows_start_zero] at c1'
  simp only [Nat.zero_add, List.getD_cons_zero] at c1'
  have hu : u32 (p.l4t_size * 2048) = p.l4t_size * 2048 := by unfold u32; omega
  rw [hu] at c1'
  unfold _get_available_l4t_partition l4t_partition_search
  generalize gpt_of_bytes (sdmmc_storage_read (flashed_card p sec_cnt dev upper prng crc) 1)
    = gp at fsig fnum fn0 fn1 fs1 fe1
  have e_sig : gp.header.signature = ascii "EFI PART" := by
    rw [fsig (by rw [hsig]; decide), hsig]
  have e_num : gp.header.num_part_ents = 128 := by rw [fnum, hnum]
  have e_n0 : (gp.entries 0).name = memcpy_list gpt_entry_zero.name (utf16le "hos_data") 16 := by
    rw [fn0 (by
      rw [c0]
      show (memcpy_list gpt_entry_zero.name (utf16le "hos_data") 16).length = 72
      decide), c0]
    rfl
  have e_n1 : (gp.entries 1).name = memcpy_list gpt_entry_zero.name (utf16le "l4t") 6 := by
    rw [fn1 (by
      rw [c1']
      show (memcpy_list gpt_entry_zero.name (utf16le "l4t") 6).length = 72
      decide), c1']
    rfl
  have e_s1 : (gp.entries 1).lba_start = gpt_first_lba p := by
    rw [fs1, c1']; show gpt_first_lba p % 18446744073709551616 = _; omega
  have e_e1 : (gp.entries 1).lba_end = gpt_first_lba p + p.l4t_size * 2048 - 1 := by
    rw [fe1, c1']
    show (gpt_first_lba p + p.l4t_size * 2048 - 1) % 18446744073709551616 = _
    omega
  simp only [e_sig, true_or, if_true]
  rw [show (128 : Nat) = 127 + 1 from rfl, l4t_gpt_scan_succ, e_num, if_pos (by norm_num), e_n0,
    if_neg (by decide), if_neg (by norm_num), show (127 : Nat) = 126 + 1 from rfl,
    l4t_gpt_scan_succ, e_num, if_pos (by norm_num), e_n1, if_pos (by decide), e_s1, e_e1]
  have r1 : to_u32 ((gpt_first_lba p : Nat) : Int) = gpt_first_lba p := by
    unfold to_u32; omega
  have r2 : to_u32 (((gpt_first_lba p + p.l4t_size * 2048 - 1 : Nat) : Int) + 1
      - ((gpt_first_lba p : Nat) : Int)) = p.l4t_size * 2048 := by
    unfold to_u32; omega
  rw [r1, r2]

/-- The partition locator on the card the layout writer leaves, MBR scheme: no GPT is
found and slot 1 of the MBR is the Linux partition of the plan. -/
theorem l4t_partition_after_flash_mbr (p : partition_ctxt_t) (sec_cnt : Nat) (dev : Nat → Nat)
    (upper : Nat → Nat) (prng : Nat → Nat → Nat) (crc : Nat → List Nat → Nat)
    (hp : planner_inv p) (hl : p.l4t_size ≠ 0) (ha : p.and_size = 0)
    (h0 : 0 < sec_cnt) (hsec : sec_cnt < 4294967296) :
    _get_available_l4t_partition (flashed_card p sec_cnt dev upper prng crc)
      = ({ offset_sct := gpt_first_lba p, image_size_sct := 0 }, p.l4t_size * 2048) := by
  obtain ⟨-, hfirst, hfit⟩ := gpt_first_lba_eq p hp
  obtain ⟨hm, hz⟩ := flashed_card_mbr_scheme p sec_cnt dev upper prng crc hp hl ha
  obtain ⟨-, hslot1, -⟩ := flashed_mbr_slots_of_plan p sec_cnt
    (mbr_of_bytes (sdmmc_storage_read dev 0)) upper prng crc hp ⟨h0, hsec⟩
  obtain ⟨t1, s1, z1⟩ := hslot1 ⟨hl, ha⟩
  obtain ⟨mt, ms, mz⟩ := mbr_of_bytes_partition _ _ hm 1 (by norm_num)
  obtain ⟨gs, gn⟩ := gpt_of_bytes_zero _ hz
  rw [t1] at mt
  rw [z1] at mz
  have ms' : ((mbr_of_bytes (sdmmc_storage_read
      (flashed_card p sec_cnt dev upper prng crc) 0)).partitions 1).start_sct
      = gpt_first_lba p := by
    rw [ms]; omega
  have mz' : ((mbr_of_bytes (sdmmc_storage_read
      (flashed_card p sec_cnt dev upper prng crc) 0)).partitions 1).size_sct
      = p.l4t_size * 2048 := by
    rw [mz]; omega
  unfold _get_available_l4t_partition l4t_partition_search
  rw [gs, gn, if_neg (by decide), show (3 : Nat) = 2 + 1 from rfl, l4t_mbr_scan_succ,
    if_pos (by norm_num), mt, if_pos (by norm_num), ms', mz']

/-- C10: for every plan of the planner with a Linux partition, on a card of `total_sct`
sectors, `_get_available_l4t_partition` run on the card as `_prepare_and_flash_mbr_gpt`
leaves it (MBR scheme when `and_size = 0`, GPT scheme otherwise) returns the Linux
partition of the plan: `offset_sct = 0x8000 + hos_size * 2048` and size
`l4t_size * 2048`, whatever the card, the staging buffer, the entropy and the checksum
function were. -/
theorem C10_l4t_partition_round_trip (p : partition_ctxt_t) (sec_cnt : Nat) (dev : Nat → Nat)
    (upper : Nat → Nat) (prng : Nat → Nat → Nat) (crc : Nat → List Nat → Nat)
    (hp : planner_inv p) (hl : p.l4t_size ≠ 0) (hsec : sec_cnt = p.total_sct) :
    (((_get_available_l4t_partition
        (flashed_card p sec_cnt dev upper prng crc)).1.offset_sct : Nat) : Int)
      = 0x8000 + p.hos_size * 2048 ∧
    (_get_available_l4t_partition (flashed_card p sec_cnt dev upper prng crc)).2
      = p.l4t_size * 2048 := by
  obtain ⟨-, hfirst, -⟩ := gpt_first_lba_eq p hp
  have hb : 67 ≤ sec_cnt ∧ sec_cnt < 4294967296 := by
    obtain ⟨ht, hh, hs, -, -, -⟩ := hp
    rw [hsec]
    omega
  by_cases ha : p.and_size = 0
  · rw [l4t_partition_after_flash_mbr p sec_cnt dev upper prng crc hp hl ha (by omega) hb.2]
    exact ⟨hfirst, rfl⟩
  · rw [l4t_partition_after_flash_gpt p sec_cnt dev upper prng crc hp hl ha hb.1 hb.2]
    exact ⟨hfirst, rfl⟩

theorem C10_l4t_partition_round_trip_witness :
    (planner_inv plan_29g_linux ∧ plan_29g_linux.l4t_size ≠ 0 ∧ plan_29g_linux.and_size = 0 ∧
      planner_inv plan_29g_full ∧ plan_29g_full.l4t_size ≠ 0 ∧ plan_29g_full.and_size ≠ 0) ∧
    ((((_get_available_l4t_partition (flashed_card plan_29g_linux 61071360 card_stale
        upper_stale prng_seq crc32_calc)).1.offset_sct : Nat) : Int) = 0x8000 + 21612 * 2048 ∧
      (_get_available_l4t_partition (flashed_card plan_29g_linux 61071360 card_stale
        upper_stale prng_seq crc32_calc)).2 = 8192 * 2048) ∧
    ((((_get_available_l4t_partition (flashed_card plan_29g_full 61071360 card_stale
        upper_stale prng_seq crc32_calc)).1.offset_sct : Nat) : Int) = 0x8000 + 5164 * 2048 ∧
      (_get_available_l4t_partition (flashed_card plan_29g_full 61071360 card_stale
        upper_stale prng_seq crc32_calc)).2 = 8192 * 2048) :=
  ⟨by decide,
   C10_l4t_partition_round_trip plan_29g_linux 61071360 card_stale upper_stale prng_seq
     crc32_calc (by decide) (by decide) rfl,
   C10_l4t_partition_round_trip plan_29g_full 61071360 card_stale upper_stale prng_seq
     crc32_calc (by decide) (by decide) rfl⟩

/-! ## Partition locator -/

/-- From an index up to 127 the GPT scan never runs out of fuel when `128 ≤ i + fuel`:
more fuel gives the same answer. -/
theorem l4t_gpt_scan_fuel (gpt : gpt_t) : ∀ (fuel fuel' i : Nat), i ≤ 127 → 128 ≤ i + fuel →
    128 ≤ i + fuel' → l4t_gpt_scan gpt i fuel = l4t_gpt_scan gpt i fuel' := by
  intro fuel
  induction fuel with
  | zero => intro fuel' i hi h h'; omega
  | succ f ih =>
    intro fuel' i hi h h'
    obtain ⟨f', rfl⟩ : ∃ f', fuel' = f' + 1 := ⟨fuel' - 1, by omega⟩
    rw [l4t_gpt_scan_succ, l4t_gpt_scan_succ]
    by_cases h126 : i > 126
    · simp only [h126, if_true]
    · simp only [h126, if_false]
      rw [ih f' (i + 1) (by omega) (by omega) (by omega)]

/-- The GPT scan returns the first declared entry whose name starts with `l4t`, if its
index is at most 127. The range is cut to 32 bits. -/
theorem l4t_gpt_scan_found (gpt : gpt_t) (k : Nat) (hk : k < gpt.header.num_part_ents)
    (hk127 : k ≤ 127) (hmatch : (gpt.entries k).name.take 6 = utf16le "l4t") :
    ∀ (d i fuel : Nat), i + d = k → d < fuel →
      (∀ j, i ≤ j → j < k → (gpt.entries j).name.take 6 ≠ utf16le "l4t") →
      l4t_gpt_scan gpt i fuel
        = some (to_u32 (gpt.entries k).lba_start,
            to_u32 (((gpt.entries k).lba_end : Int) + 1 - ((gpt.entries k).lba_start : Int))) := by
  intro d
  induction d with
  | zero =>
    intro i fuel hi hf _
    obtain ⟨f, rfl⟩ : ∃ f, fuel = f + 1 := ⟨fuel - 1, by omega⟩
    have e : i = k := by omega
    subst e
    rw [l4t_gpt_scan_succ, if_pos hk, if_pos hmatch]
  | succ d ih =>
    intro i fuel hi hf hno
    obtain ⟨f, rfl⟩ : ∃ f, fuel = f + 1 := ⟨fuel - 1, by omega⟩
    rw [l4t_gpt_scan_succ, if_pos (by omega), if_neg (hno i (le_refl i) (by omega)),
      if_neg (by omega)]
    exact ih (i + 1) f (by omega) (by omega) (fun j h1 h2 => hno j (by omega) h2)

/-- The GPT scan from an index up to 127 finds nothing when no declared entry of index at
most 127 from `i` on has a name that starts with `l4t`. -/
theorem l4t_gpt_scan_none (gpt : gpt_t) : ∀ (fuel i : Nat), i ≤ 127 →
    (∀ j, i ≤ j → j < gpt.header.num_part_ents → j ≤ 127 →
      (gpt.entries j).name.take 6 ≠ utf16le "l4t") →
    l4t_gpt_scan gpt i fuel = none := by
  intro fuel
  induction fuel with
  | zero => intro i _ _; rfl
  | succ f ih =>
    intro i hi hno
    rw [l4t_gpt_scan_succ]
    by_cases h1 : i < gpt.header.num_part_ents
    · rw [if_pos h1, if_neg (hno i (le_refl i) h1 hi)]
      by_cases h126 : i > 126
      · rw [if_pos h126]
      · rw [if_neg h126]
        exact ih (i + 1) (by omega) (fun j h2 h3 h4 => hno j (by omega) h3 h4)
    · rw [if_neg h1]

theorem l4t_mbr_scan_slots (mbr : mbr_t) :
    l4t_mbr_scan mbr 1 3
      = if (mbr.partitions 1).type = 0x83 then
          some ((mbr.partitions 1).start_sct, (mbr.partitions 1).size_sct)
        else if (mbr.partitions 2).type = 0x83 then
          some ((mbr.partitions 2).start_sct, (mbr.partitions 2).size_sct)
        else if (mbr.partitions 3).type = 0x83 then
          some ((mbr.partitions 3).start_sct, (mbr.partitions 3).size_sct)
        else none := by
  simp only [l4t_mbr_scan, Nat.reduceAdd, Nat.reduceLT, if_true]

/-- The result of `_get_available_l4t_partition` when the GPT is scanned: the range, cut to
32 bits, of the first declared entry of index at most 127 whose name starts with `l4t`. -/
theorem l4t_partition_search_gpt_found (mbr : mbr_t) (gpt : gpt_t)
    (hgpt : gpt.header.signature = ascii "EFI PART" ∨ gpt.header.num_part_ents > 128)
    (k : Nat) (hk : k < gpt.header.num_part_ents) (hk127 : k ≤ 127)
    (hmatch : (gpt.entries k).name.take 6 = utf16le "l4t")
    (hno : ∀ j, j < k → (gpt.entries j).name.take 6 ≠ utf16le "l4t") :
    l4t_partition_search mbr gpt
      = ({ offset_sct := to_u32 (gpt.entries k).lba_start, image_size_sct := 0 },
          to_u32 (((gpt.entries k).lba_end : Int) + 1 - ((gpt.entries k).lba_start : Int))) := by
  unfold l4t_partition_search
  rw [if_pos hgpt, l4t_gpt_scan_found gpt k hk hk127 hmatch k 0 128 (by omega) (by omega)
    (fun j _ h => hno j h)]

/-- The result of `_get_available_l4t_partition` when the GPT is scanned and no declared
entry of index at most 127 has a name that starts with `l4t`: not found. -/
theorem l4t_partition_search_gpt_none (mbr : mbr_t) (gpt : gpt_t)
    (hgpt : gpt.header.signature = ascii "EFI PART" ∨ gpt.header.num_part_ents > 128)
    (hno : ∀ j, j < gpt.header.num_part_ents → j ≤ 127 →
      (gpt.entries j).name.take 6 ≠ utf16le "l4t") :
    l4t_partition_search mbr gpt = ({ offset_sct := 0, image_size_sct := 0 }, 0) := by
  unfold l4t_partition_search
  rw [if_pos hgpt, l4t_gpt_scan_none gpt 128 0 (by omega) (fun j _ h1 h2 => hno j h1 h2)]

/-- The result of `_get_available_l4t_partition` when the GPT is not scanned: the first of
the slots 1, 2, 3 of the MBR whose type is `0x83`. -/
theorem l4t_partition_search_mbr (mbr : mbr_t) (gpt : gpt_t)
    (hsig : gpt.header.signature ≠ ascii "EFI PART") (hnum : gpt.header.num_part_ents ≤ 128) :
    (∀ k, 1 ≤ k → k < 4 → (mbr.partitions k).type = 0x83 →
      (∀ j, 1 ≤ j → j < k → (mbr.partitions j).type ≠ 0x83) →
      l4t_partition_search mbr gpt
        = ({ offset_sct := (mbr.partitions k).start_sct, image_size_sct := 0 },
            (mbr.partitions k).size_sct)) ∧
    ((∀ j, 1 ≤ j → j < 4 → (mbr.partitions j).type ≠ 0x83) →
      l4t_partition_search mbr gpt = ({ offset_sct := 0, image_size_sct := 0 }, 0)) := by
  have hb : ¬ (gpt.header.signature = ascii "EFI PART" ∨ gpt.header.num_part_ents > 128) := by
    rintro (h | h)
    · exact hsig h
    · omega
  unfold l4t_partition_search
  rw [if_neg hb, l4t_mbr_scan_slots]
  constructor
  · intro k h1 h4 ht hno
    interval_cases k
    · rw [if_pos ht]
    · rw [if_neg (hno 1 (by norm_num) (by norm_num)), if_pos ht]
    · rw [if_neg (hno 1 (by norm_num) (by norm_num)), if_neg (hno 2 (by norm_num) (by norm_num)),
        if_pos ht]
  · intro hno
    rw [if_neg (hno 1 (by norm_num) (by norm_num)), if_neg (hno 2 (by norm_num) (by norm_num)),
      if_neg (hno 3 (by norm_num) (by norm_num))]

/-- C11 as amended: on a card whose GPT header has the `EFI PART` signature and declares 1 to
128 entries, `_get_available_l4t_partition` returns the range of the declared entry of lowest
index whose name starts with the UTF-16LE units `l`, `4`, `t`, offset `lba_start` and size
`lba_end + 1 - lba_start` each reduced modulo `2^32` (the exact values when they fit in 32
bits), and not found (offset 0, size 0) when no declared entry has such a name; on a card
without that signature that declares at most 128 entries it returns start and size of the
lowest of the MBR slots 1, 2, 3 whose type is `0x83`, and not found when there is none. -/
theorem C11_locator_lowest_match (dev : Nat → Nat) (mbr : mbr_t) (gpt : gpt_t)
    (hm : mbr_of_bytes (sdmmc_storage_read dev 0) = mbr)
    (hg : gpt_of_bytes (sdmmc_storage_read dev 1) = gpt) :
    (gpt.header.signature = ascii "EFI PART" → 1 ≤ gpt.header.num_part_ents →
      gpt.header.num_part_ents ≤ 128 →
      (∀ k, k < gpt.header.num_part_ents → (gpt.entries k).name.take 6 = utf16le "l4t" →
        (∀ j, j < k → (gpt.entries j).name.take 6 ≠ utf16le "l4t") →
        _get_available_l4t_partition dev
            = ({ offset_sct := (gpt.entries k).lba_start % 4294967296, image_size_sct := 0 },
                to_u32 (((gpt.entries k).lba_end : Int) + 1 - ((gpt.entries k).lba_start : Int))) ∧
          ((gpt.entries k).lba_start < 4294967296 →
            (gpt.entries k).lba_start ≤ (gpt.entries k).lba_end + 1 →
            (gpt.entries k).lba_end + 1 - (gpt.entries k).lba_start < 4294967296 →
            _get_available_l4t_partition dev
              = ({ offset_sct := (gpt.entries k).lba_start, image_size_sct := 0 },
                  (gpt.entries k).lba_end + 1 - (gpt.entries k).lba_start))) ∧
      ((∀ j, j < gpt.header.num_part_ents → (gpt.entries j).name.take 6 ≠ utf16le "l4t") →
        _get_available_l4t_partition dev = ({ offset_sct := 0, image_size_sct := 0 }, 0))) ∧
    (gpt.header.signature ≠ ascii "EFI PART" → gpt.header.num_part_ents ≤ 128 →
      (∀ k, 1 ≤ k → k < 4 → (mbr.partitions k).type = 0x83 →
        (∀ j, 1 ≤ j → j < k → (mbr.partitions j).type ≠ 0x83) →
        _get_available_l4t_partition dev
          = ({ offset_sct := (mbr.partitions k).start_sct, image_size_sct := 0 },
              (mbr.partitions k).size_sct)) ∧
      ((∀ j, 1 ≤ j → j < 4 → (mbr.partitions j).type ≠ 0x83) →
        _get_available_l4t_partition dev = ({ offset_sct := 0, image_size_sct := 0 }, 0))) := by
  unfold _get_available_l4t_partition
  rw [hm, hg]
  refine ⟨fun hsig h1 h128 => ⟨?_, ?_⟩, fun hsig h128 => l4t_partition_search_mbr mbr gpt hsig h128⟩
  · intro k hk hmatch hno
    rw [l4t_partition_search_gpt_found mbr gpt (Or.inl hsig) k hk (by omega) hmatch hno]
    have r0 : to_u32 (((gpt.entries k).lba_start : Nat) : Int)
        = (gpt.entries k).lba_start % 4294967296 := by
      unfold to_u32; omega
    rw [r0]
    refine ⟨rfl, fun hs hle hsz => ?_⟩
    have r1 : (gpt.entries k).lba_start % 4294967296 = (gpt.entries k).lba_start := by omega
    have r2 : to_u32 (((gpt.entries k).lba_end : Int) + 1 - ((gpt.entries k).lba_start : Int))
        = (gpt.entries k).lba_end + 1 - (gpt.entries k).lba_start := by
      unfold to_u32; omega
    rw [r1, r2]
  · intro hno
    exact l4t_partition_search_gpt_none mbr gpt (Or.inl hsig) (fun j hj _ => hno j hj)

/-- C11 as amended, at two concrete cards: a GPT of three entries `hos_data`, `l4tboot`,
`l4t` gives the range of `l4tboot`, entry 1; a card without GPT whose MBR has type `0xE0`
in slot 1 and `0x83` in slots 2 and 3 gives slot 2. -/
theorem C11_locator_lowest_match_witness :
    _get_available_l4t_partition (card_of_tables mbr_linux_slot2 gpt_three)
      = ({ offset_sct := 0x1000000, image_size_sct := 0 }, 0x1000000) ∧
    _get_available_l4t_partition (card_of_tables mbr_linux_slot2 gpt_zero)
      = ({ offset_sct := 0x2008000, image_size_sct := 0 }, 0x1000000) := by
  constructor
  · exact ((((C11_locator_lowest_match (card_of_tables mbr_linux_slot2 gpt_three) _ _ rfl rfl).1
      (by set_option maxRecDepth 100000 in decide) (by set_option maxRecDepth 100000 in decide)
      (by set_option maxRecDepth 100000 in decide)).1 1
      (by set_option maxRecDepth 100000 in decide) (by set_option maxRecDepth 100000 in decide)
      (by set_option maxRecDepth 100000 in decide)).2
      (by set_option maxRecDepth 100000 in decide)
      (by set_option maxRecDepth 100000 in decide) (by set_option maxRecDepth 100000 in decide)).trans
      (by set_option maxRecDepth 100000 in decide)
  · exact (((C11_locator_lowest_match (card_of_tables mbr_linux_slot2 gpt_zero) _ _ rfl rfl).2
      (by set_option maxRecDepth 100000 in decide)
      (by set_option maxRecDepth 100000 in decide)).1 2 (by decide) (by decide)
      (by set_option maxRecDepth 100000 in decide)
      (by set_option maxRecDepth 100000 in decide)).trans
      (by set_option maxRecDepth 100000 in decide)

/-- C11 as stated fails: (1) the card `gpt_l4t_high` has the signature and declares one
entry, named `l4t`, with `lba_start = 0x104000000` and `lba_end = 0x204FFFFFF`; the offset
returned is `0x4000000`, not `lba_start`, and the size `0x1000000`, not
`lba_end + 1 - lba_start = 0x101000000`. (2) A card without the signature whose sector 1
declares 129 entries, the first named `l4t`, and whose MBR has type `0x83` in slot 2: the
range returned is that of the GPT entry, not of MBR slot 2. -/
theorem C11_locator_lowest_match_counterexample :
    (gpt_of_bytes (sdmmc_storage_read (card_of_tables mbr_linux_slot2 gpt_l4t_high)
      1)).header.signature = ascii "EFI PART" ∧
    (gpt_of_bytes (sdmmc_storage_read (card_of_tables mbr_linux_slot2 gpt_l4t_high)
      1)).header.num_part_ents = 1 ∧
    ((gpt_of_bytes (sdmmc_storage_read (card_of_tables mbr_linux_slot2 gpt_l4t_high)
      1)).entries 0).name.take 6 = utf16le "l4t" ∧
    ((gpt_of_bytes (sdmmc_storage_read (card_of_tables mbr_linux_slot2 gpt_l4t_high)
      1)).entries 0).lba_start = 0x104000000 ∧
    ((gpt_of_bytes (sdmmc_storage_read (card_of_tables mbr_linux_slot2 gpt_l4t_high)
      1)).entries 0).lba_end = 0x204FFFFFF ∧
    _get_available_l4t_partition (card_of_tables mbr_linux_slot2 gpt_l4t_high)
      = ({ offset_sct := 0x4000000, image_size_sct := 0 }, 0x1000000) ∧
    (gpt_of_bytes (sdmmc_storage_read (card_of_tables mbr_linux_slot2 gpt_unsigned_129)
      1)).header.signature ≠ ascii "EFI PART" ∧
    ((mbr_of_bytes (sdmmc_storage_read (card_of_tables mbr_linux_slot2 gpt_unsigned_129)
      0)).partitions 1).type ≠ 0x83 ∧
    ((mbr_of_bytes (sdmmc_storage_read (card_of_tables mbr_linux_slot2 gpt_unsigned_129)
      0)).partitions 2).type = 0x83 ∧
    ((mbr_of_bytes (sdmmc_storage_read (card_of_tables mbr_linux_slot2 gpt_unsigned_129)
      0)).partitions 2).start_sct = 0x2008000 ∧
    _get_available_l4t_partition (card_of_tables mbr_linux_slot2 gpt_unsigned_129)
      = ({ offset_sct := 0x4000000, image_size_sct := 0 }, 0x1000000) := by
  refine ⟨?_, ?_, ?_, ?_, ?_, ?_, ?_, ?_, ?_, ?_, ?_⟩ <;> decide!

/-- C12, the code at a failing input: sector 1 of the card has no `EFI PART` signature
but declares 129 entries, the first of them named `l4t`; the MBR has a type `0x83`
partition in slot 2. `_get_available_l4t_partition` takes the GPT branch and returns the
range of the GPT entry, not the MBR slot; it ignores the MBR whenever more than 128 entries
are declared. `_get_available_android_partition` does return false without signature or
with more than 128 entries. -/
theorem C12_gpt_scanned_when_too_many_entries :
    (gpt_of_bytes (sdmmc_storage_read (card_of_tables mbr_linux_slot2 gpt_unsigned_129)
      1)).header.signature ≠ ascii "EFI PART" ∧
    (gpt_of_bytes (sdmmc_storage_read (card_of_tables mbr_linux_slot2 gpt_unsigned_129)
      1)).header.num_part_ents = 129 ∧
    ((mbr_of_bytes (sdmmc_storage_read (card_of_tables mbr_linux_slot2 gpt_unsigned_129)
      0)).partitions 1).type = 0xE0 ∧
    ((mbr_of_bytes (sdmmc_storage_read (card_of_tables mbr_linux_slot2 gpt_unsigned_129)
      0)).partitions 2).type = 0x83 ∧
    ((mbr_of_bytes (sdmmc_storage_read (card_of_tables mbr_linux_slot2 gpt_unsigned_129)
      0)).partitions 2).start_sct = 0x2008000 ∧
    _get_available_l4t_partition (card_of_tables mbr_linux_slot2 gpt_unsigned_129)
      = ({ offset_sct := 0x4000000, image_size_sct := 0 }, 0x1000000) ∧
    (∀ (mbr mbr2 : mbr_t) (gpt : gpt_t), gpt.header.num_part_ents > 128 →
      l4t_partition_search mbr gpt = l4t_partition_search mbr2 gpt) ∧
    (∀ dev : Nat → Nat,
      (gpt_of_bytes (sdmmc_storage_read dev 1)).header.signature ≠ ascii "EFI PART" ∨
        (gpt_of_bytes (sdmmc_storage_read dev 1)).header.num_part_ents > 128 →
      _get_available_android_partition dev = false) := by
  refine ⟨by set_option maxRecDepth 100000 in decide, by set_option maxRecDepth 100000 in decide,
    by set_option maxRecDepth 100000 in decide, by set_option maxRecDepth 100000 in decide,
    by set_option maxRecDepth 100000 in decide, by set_option maxRecDepth 100000 in decide,
    ?_, ?_⟩
  · intro mbr mbr2 gpt h
    unfold l4t_partition_search
    rw [if_pos (Or.inr h), if_pos (Or.inr h)]
  · intro dev h
    unfold _get_available_android_partition android_partition_search
    rw [if_pos h]

/-- C13 as amended: whenever the GPT is scanned (signature present, or more than 128
entries declared) and none of the declared entries among the first 128 (indexes 0..127)
has a name that starts with `l4t`, `_get_available_l4t_partition` returns not found,
whatever the entries from index 128 on hold. The scan itself needs no more than the 128
iterations it is given. -/
theorem C13_scan_covers_128_entries (dev : Nat → Nat) (gpt : gpt_t)
    (hg : gpt_of_bytes (sdmmc_storage_read dev 1) = gpt)
    (hgpt : gpt.header.signature = ascii "EFI PART" ∨ gpt.header.num_part_ents > 128)
    (hno : ∀ j, j < 128 → j < gpt.header.num_part_ents →
      (gpt.entries j).name.take 6 ≠ utf16le "l4t") :
    _get_available_l4t_partition dev = ({ offset_sct := 0, image_size_sct := 0 }, 0) ∧
    (∀ fuel, 128 ≤ fuel → l4t_gpt_scan gpt 0 fuel = l4t_gpt_scan gpt 0 128) := by
  constructor
  · unfold _get_available_l4t_partition
    rw [hg]
    exact l4t_partition_search_gpt_none _ gpt hgpt (fun j h1 h2 => hno j (by omega) h1)
  · intro fuel hf
    exact l4t_gpt_scan_fuel gpt fuel 128 0 (by omega) (by omega) (by omega)

/-- C13 as amended, at a concrete card: the GPT is signed and declares 200 entries, none
of the first 128 is named, and the bytes where entry 128 would be hold an entry named
`l4t`. -/
theorem C13_scan_covers_128_entries_witness :
    ((gpt_of_bytes (sdmmc_storage_read card_l4t_beyond 1)).entries 128).name.take 6
      = utf16le "l4t" ∧
    (gpt_of_bytes (sdmmc_storage_read card_l4t_beyond 1)).header.num_part_ents = 200 ∧
    _get_available_l4t_partition card_l4t_beyond = ({ offset_sct := 0, image_size_sct := 0 }, 0) :=
  ⟨by set_option maxRecDepth 100000 in decide, by set_option maxRecDepth 100000 in decide,
    (C13_scan_covers_128_entries card_l4t_beyond _ rfl
      (Or.inl (by set_option maxRecDepth 100000 in decide))
      (by set_option maxRecDepth 1000000 in decide)).1⟩

/-- C13 as stated fails: on a card whose signed GPT declares 128 entries of which only the
last one, index 127, is named `l4t`, none of the entries 0..126 has such a name, yet
`_get_available_l4t_partition` returns the range of entry 127. -/
theorem C13_scan_covers_128_entries_counterexample :
    (gpt_of_bytes (sdmmc_storage_read (card_of_tables mbr_zero gpt_l4t_last) 1)).header.signature
      = ascii "EFI PART" ∧
    (∀ j, j < 127 →
      ((gpt_of_bytes (sdmmc_storage_read (card_of_tables mbr_zero gpt_l4t_last) 1)).entries
        j).name.take 6 ≠ utf16le "l4t") ∧
    _get_available_l4t_partition (card_of_tables mbr_zero gpt_l4t_last)
      = ({ offset_sct := 0x2000000, image_size_sct := 0 }, 0x1000000) ∧
    _get_available_l4t_partition (card_of_tables mbr_zero gpt_l4t_last)
      ≠ ({ offset_sct := 0, image_size_sct := 0 }, 0) := by
  refine ⟨by set_option maxRecDepth 100000 in decide,
    by set_option maxRecDepth 1000000 in decide,
    by set_option maxRecDepth 1000000 in decide,
    by set_option maxRecDepth 1000000 in decide⟩

/-! ## Linux image check -/

theorem l4t_check_parts_succ (f_stat : String → Option Nat) (idx image_size_sct fuel : Nat) :
    l4t_check_parts f_stat idx image_size_sct (fuel + 1)
      = match f_stat (l4t_part_path idx) with
        | some fsize =>
          if fsize % 0x400000 ≠ 0 then
            if (f_stat (l4t_part_path (idx + 1))).isSome then some (false, image_size_sct)
            else
              l4t_check_parts f_stat (idx + 1 - 1 + 1)
                (u32 (image_size_sct + ALIGN fsize 512 / 512)) fuel
          else l4t_check_parts f_stat (idx + 1) (u32 (image_size_sct + fsize / 512)) fuel
        | none => some (true, image_size_sct) := rfl

theorem ALIGN_512_aligned (s : Nat) (h : s % 0x400000 = 0) : ALIGN s 512 / 512 = s / 512 := by
  unfold ALIGN
  omega

theorem u32_add_u32 (a b : Nat) : u32 (u32 a + b) = u32 (a + b) := by
  unfold u32
  omega

theorem l4t_image_misaligned_nil : ¬ l4t_image_misaligned [] := by
  rintro ⟨i, h, -⟩
  simp at h

theorem l4t_image_misaligned_single (s : Nat) : ¬ l4t_image_misaligned [s] := by
  rintro ⟨i, h, -⟩
  simp at h

theorem l4t_image_misaligned_cons_aligned (s : Nat) (rest : List Nat) (h : s % 0x400000 = 0) :
    l4t_image_misaligned (s :: rest) ↔ l4t_image_misaligned rest := by
  constructor
  · rintro ⟨i, h1, h2⟩
    cases i with
    | zero => exact absurd h h2
    | succ i =>
      refine ⟨i, ?_, ?_⟩
      · simp only [List.length_cons] at h1; omega
      · simpa using h2
  · rintro ⟨i, h1, h2⟩
    refine ⟨i + 1, ?_, ?_⟩
    · simp only [List.length_cons]; omega
    · simpa using h2

theorem l4t_image_misaligned_cons_cons (s s2 : Nat) (rest : List Nat) (h : s % 0x400000 ≠ 0) :
    l4t_image_misaligned (s :: s2 :: rest) :=
  ⟨0, by simp, by simpa using h⟩

theorem l4t_image_sectors_cons_aligned (s : Nat) (rest : List Nat) (h : s % 0x400000 = 0) :
    l4t_image_sectors (s :: rest) = s / 512 + l4t_image_sectors rest := by
  cases rest with
  | nil => simp only [l4t_image_sectors, Nat.add_zero]; exact ALIGN_512_aligned s h
  | cons s2 rest => rfl

/-- The loop over the parts of an image whose parts from `idx` on have the lengths `rest`:
it returns, with the alignment error exactly when a part other than the last is not a
multiple of 4 MiB, and otherwise with the sum of the sectors added. -/
theorem l4t_check_parts_spec (f_stat : String → Option Nat) :
    ∀ (rest : List Nat) (idx img fuel : Nat),
      (∀ j, j ≤ rest.length → f_stat (l4t_part_path (idx + j)) = rest[j]?) →
      rest.length < fuel → img < 4294967296 →
      ∃ r, l4t_check_parts f_stat idx img fuel = some r ∧
        (r.1 = false ↔ l4t_image_misaligned rest) ∧
        (r.1 = true → r.2 = u32 (img + l4t_image_sectors rest)) := by
  intro rest
  induction rest with
  | nil =>
    intro idx img fuel hfs hfuel himg
    obtain ⟨f, rfl⟩ : ∃ f, fuel = f + 1 := ⟨fuel - 1, by simp at hfuel; omega⟩
    have h0 := hfs 0 (by simp)
    simp only [Nat.add_zero, List.getElem?_nil] at h0
    rw [l4t_check_parts_succ, h0]
    refine ⟨(true, img), rfl, ?_, ?_⟩
    · simp [l4t_image_misaligned_nil]
    · intro _
      simp only [l4t_image_sectors, Nat.add_zero, u32]
      omega
  | cons s rest ih =>
    intro idx img fuel hfs hfuel himg
    obtain ⟨f, rfl⟩ : ∃ f, fuel = f + 1 := ⟨fuel - 1, by simp at hfuel; omega⟩
    have h0 := hfs 0 (by simp)
    simp only [Nat.add_zero, List.getElem?_cons_zero] at h0
    have hfs2 : ∀ j, j ≤ rest.length → f_stat (l4t_part_path (idx + 1 + j)) = rest[j]? := by
      intro j hj
      have := hfs (j + 1) (by simp only [List.length_cons]; omega)
      rw [List.getElem?_cons_succ] at this
      rw [← this]
      congr 2
      omega
    have hf2 : rest.length < f := by simp only [List.length_cons] at hfuel; omega
    rw [l4t_check_parts_succ, h0]
    by_cases hal : s % 0x400000 = 0
    · simp only [hal, ne_eq, not_true_eq_false, if_false]
      obtain ⟨r, hr, h1, h2⟩ := ih (idx + 1) (u32 (img + s / 512)) f hfs2 hf2
        (by unfold u32; omega)
      refine ⟨r, hr, ?_, ?_⟩
      · rw [l4t_image_misaligned_cons_aligned s rest hal]; exact h1
      · intro ht
        rw [h2 ht, u32_add_u32, l4t_image_sectors_cons_aligned s rest hal, Nat.add_assoc]
    · simp only [hal, ne_eq, not_false_eq_true, if_true]
      cases rest with
      | nil =>
        have h1 := hfs 1 (by simp)
        simp only [List.getElem?_cons_succ, List.getElem?_nil] at h1
        rw [h1]
        simp only [Option.isSome_none, Bool.false_eq_true, if_false, Nat.add_sub_cancel]
        obtain ⟨r, hr, h1, h2⟩ := ih (idx + 1) (u32 (img + ALIGN s 512 / 512)) f hfs2 hf2
          (by unfold u32; omega)
        refine ⟨r, hr, ?_, ?_⟩
        · rw [h1]
          simp [l4t_image_misaligned_nil, l4t_image_misaligned_single]
        · intro ht
          rw [h2 ht, u32_add_u32]
          rfl
      | cons s2 rest =>
        have h1 := hfs 1 (by simp)
        simp only [List.getElem?_cons_succ, List.getElem?_cons_zero] at h1
        rw [h1]
        simp only [Option.isSome_some, if_true]
        refine ⟨(false, img), rfl, ?_, ?_⟩
        · simp [l4t_image_misaligned_cons_cons s s2 rest hal]
        · intro h; simp at h

theorem l4t_partition_search_image_size (mbr : mbr_t) (gpt : gpt_t) :
    (l4t_partition_search mbr gpt).1.image_size_sct = 0 := by
  unfold l4t_partition_search
  simp only []
  split <;> rfl

/-- More fuel does not change what the loop over the parts returns. -/
theorem l4t_check_parts_mono (f_stat : String → Option Nat) :
    ∀ (fuel fuel2 idx img : Nat) (r : Bool × Nat), fuel ≤ fuel2 →
      l4t_check_parts f_stat idx img fuel = some r →
      l4t_check_parts f_stat idx img fuel2 = some r := by
  intro fuel
  induction fuel with
  | zero => intro fuel2 idx img r _ h; simp [l4t_check_parts] at h
  | succ f ih =>
    intro fuel2 idx img r hle h
    obtain ⟨f2, rfl⟩ : ∃ f2, fuel2 = f2 + 1 := ⟨fuel2 - 1, by omega⟩
    rw [l4t_check_parts_succ] at h ⊢
    cases hs : f_stat (l4t_part_path idx) with
    | none => rw [hs] at h; exact h
    | some fsize =>
      rw [hs] at h
      simp only [] at h ⊢
      by_cases hal : fsize % 0x400000 ≠ 0
      · rw [if_pos hal] at h ⊢
        by_cases hn : (f_stat (l4t_part_path (idx + 1))).isSome
        · rw [if_pos hn] at h ⊢; exact h
        · rw [if_neg hn] at h ⊢
          exact ih f2 _ _ r (by omega) h
      · rw [if_neg hal] at h ⊢
        exact ih f2 _ _ r (by omega) h

/-- What `_action_check_flash_linux` does for an image whose parts have the lengths `sizes`,
once a partition of at least `0x800000` sectors was located. -/
theorem check_flash_linux_of_parts (f_stat : String → Option Nat) (ctxt : l4t_flasher_ctxt_t)
    (dev : Nat → Nat) (fuel : Nat) (sizes : List Nat) (hn : 1 ≤ sizes.length)
    (hfs : l4t_image_files f_stat sizes) (hfuel : sizes.length < fuel)
    (hoff : (_get_available_l4t_partition dev).1.offset_sct ≠ 0)
    (hsize : 0x800000 ≤ (_get_available_l4t_partition dev).2) :
    ∃ r, _action_check_flash_linux f_stat ctxt dev fuel = some r ∧ r.writes = [] ∧
      r.ctxt.offset_sct = (_get_available_l4t_partition dev).1.offset_sct ∧
      (l4t_image_misaligned sizes → r.status = .not_aligned) ∧
      (¬ l4t_image_misaligned sizes →
        r.ctxt.image_size_sct = u32 (l4t_image_sectors sizes) ∧
        (u32 (l4t_image_sectors sizes) ≤ (_get_available_l4t_partition dev).2 →
          r.status = .offer_flash) ∧
        ((_get_available_l4t_partition dev).2 < u32 (l4t_image_sectors sizes) →
          r.status = .too_large)) := by
  have h00 : f_stat "switchroot/install/l4t.00" = sizes[0]? := hfs 0 (by omega)
  have hsome : (f_stat "switchroot/install/l4t.00").isNone = false := by
    rw [h00]
    cases sizes with
    | nil => simp at hn
    | cons s rest => simp
  have himg : (_get_available_l4t_partition dev).1.image_size_sct = 0 :=
    l4t_partition_search_image_size _ _
  obtain ⟨r, hr, h1, h2⟩ := l4t_check_parts_spec f_stat sizes 0 0 fuel
    (fun j hj => by rw [Nat.zero_add]; exact hfs j hj) hfuel (by norm_num)
  rw [Nat.zero_add] at h2
  unfold _action_check_flash_linux
  simp only [hsome, Bool.false_eq_true, if_false, himg]
  rw [if_neg (by omega), hr]
  obtain ⟨b, img⟩ := r
  cases b with
  | false =>
    refine ⟨_, rfl, rfl, rfl, fun _ => rfl, fun hna => ?_⟩
    exact absurd (h1.1 rfl) hna
  | true =>
    have hna : ¬ l4t_image_misaligned sizes := fun hm => by
      have := h1.2 hm
      simp at this
    have e : img = u32 (l4t_image_sectors sizes) := h2 rfl
    simp only [] at e
    subst e
    by_cases hgt : u32 (l4t_image_sectors sizes) > (_get_available_l4t_partition dev).2
    · simp only [hgt, if_true]
      refine ⟨_, rfl, rfl, rfl, fun hm => absurd hm hna, fun _ => ⟨rfl, fun h => ?_, fun _ => rfl⟩⟩
      exact absurd h (Nat.not_le.mpr hgt)
    · simp only [hgt, if_false]
      refine ⟨_, rfl, rfl, rfl, fun hm => absurd hm hna, fun _ => ⟨rfl, fun _ => rfl, fun h => ?_⟩⟩
      exact h.elim

/-- C14: for an image of `n >= 1` consecutively numbered parts with the lengths `sizes`
and a located partition of at least `0x800000` sectors that the image fits in,
`_action_check_flash_linux` returns (with more fuel than parts), ends with the alignment
error exactly when some part other than the last has a length that is not a multiple of
`0x400000`, offers flashing exactly when there is no such part, and issues no write to
the card. -/
theorem C14_alignment_error_iff (f_stat : String → Option Nat) (ctxt : l4t_flasher_ctxt_t)
    (dev : Nat → Nat) (fuel : Nat) (sizes : List Nat) (hn : 1 ≤ sizes.length)
    (hfs : l4t_image_files f_stat sizes) (hfuel : sizes.length < fuel)
    (hoff : (_get_available_l4t_partition dev).1.offset_sct ≠ 0)
    (hsize : 0x800000 ≤ (_get_available_l4t_partition dev).2)
    (hfit : l4t_image_sectors sizes ≤ (_get_available_l4t_partition dev).2) :
    ∃ r, _action_check_flash_linux f_stat ctxt dev fuel = some r ∧
      (r.status = .not_aligned ↔ l4t_image_misaligned sizes) ∧
      (r.status = .offer_flash ↔ ¬ l4t_image_misaligned sizes) ∧
      r.writes = [] := by
  obtain ⟨r, hr, hw, -, h1, h2⟩ :=
    check_flash_linux_of_parts f_stat ctxt dev fuel sizes hn hfs hfuel hoff hsize
  have hu : u32 (l4t_image_sectors sizes) ≤ (_get_available_l4t_partition dev).2 := by
    unfold u32
    omega
  refine ⟨r, hr, ?_, ?_, hw⟩
  · constructor
    · intro hs
      by_contra hna
      have := (h2 hna).2.1 hu
      rw [this] at hs
      exact absurd hs (by decide)
    · exact h1
  · constructor
    · intro hs hm
      have := h1 hm
      rw [this] at hs
      exact absurd hs (by decide)
    · intro hna
      exact (h2 hna).2.1 hu

/-- C14 at two concrete images on a card with a Linux partition of `0x1000000` sectors:
parts of 4 MiB, 4 MiB and 1000 bytes are aligned and flashing is offered; parts of 1000
bytes and 4 MiB give the alignment error. -/
theorem C14_alignment_error_iff_witness :
    (¬ l4t_image_misaligned [0x400000, 0x400000, 1000] ∧ l4t_image_misaligned [1000, 0x400000]) ∧
    (∃ r, _action_check_flash_linux f_stat_three_parts ⟨0, 0⟩ card_linux_slot2 4 = some r ∧
      (r.status = .not_aligned ↔ l4t_image_misaligned [0x400000, 0x400000, 1000]) ∧
      (r.status = .offer_flash ↔ ¬ l4t_image_misaligned [0x400000, 0x400000, 1000]) ∧
      r.writes = []) ∧
    (∃ r, _action_check_flash_linux f_stat_short_first ⟨0, 0⟩ card_linux_slot2 3 = some r ∧
      (r.status = .not_aligned ↔ l4t_image_misaligned [1000, 0x400000]) ∧
      (r.status = .offer_flash ↔ ¬ l4t_image_misaligned [1000, 0x400000]) ∧
      r.writes = []) := by
  refine ⟨⟨?_, ⟨0, by decide, by decide⟩⟩, ?_, ?_⟩
  · rintro ⟨i, h1, h2⟩
    simp only [List.length_cons, List.length_nil] at h1
    have hi : i < 2 := by omega
    interval_cases i <;> simp at h2
  · exact C14_alignment_error_iff f_stat_three_parts ⟨0, 0⟩ card_linux_slot2 4
      [0x400000, 0x400000, 1000] (by decide) (by unfold l4t_image_files; decide) (by decide)
      (by set_option maxRecDepth 100000 in decide) (by set_option maxRecDepth 100000 in decide)
      (by set_option maxRecDepth 100000 in decide)
  · exact C14_alignment_error_iff f_stat_short_first ⟨0, 0⟩ card_linux_slot2 3
      [1000, 0x400000] (by decide) (by unfold l4t_image_files; decide) (by decide)
      (by set_option maxRecDepth 100000 in decide) (by set_option maxRecDepth 100000 in decide)
      (by set_option maxRecDepth 100000 in decide)

/-- C15 as amended: whenever `_action_check_flash_linux` offers to start flashing, part
`l4t.00` exists, the partition located has a non-zero offset and at least `0x800000`
sectors, and `image_size_sct` does not exceed the sector count of the partition; and for
every image of parts with the lengths `sizes`, `image_size_sct` is the sum over the parts
of `length / 512`, the last length first rounded up to a multiple of 512, reduced modulo
`2^32`. -/
theorem C15_offer_only_if_image_fits (f_stat : String → Option Nat) (ctxt : l4t_flasher_ctxt_t)
    (dev : Nat → Nat) (fuel : Nat) (r : l4t_check_result)
    (hr : _action_check_flash_linux f_stat ctxt dev fuel = some r)
    (hoffer : r.status = .offer_flash) :
    (f_stat "switchroot/install/l4t.00").isSome ∧
    r.ctxt.offset_sct = (_get_available_l4t_partition dev).1.offset_sct ∧
    r.ctxt.offset_sct ≠ 0 ∧
    0x800000 ≤ (_get_available_l4t_partition dev).2 ∧
    r.ctxt.image_size_sct ≤ (_get_available_l4t_partition dev).2 ∧
    (∀ sizes : List Nat, l4t_image_files f_stat sizes →
      r.ctxt.image_size_sct = l4t_image_sectors sizes % 4294967296) := by
  have himg : (_get_available_l4t_partition dev).1.image_size_sct = 0 :=
    l4t_partition_search_image_size _ _
  unfold _action_check_flash_linux at hr
  by_cases h0 : (f_stat "switchroot/install/l4t.00").isNone
  · rw [if_pos h0] at hr
    simp only [Option.some.injEq] at hr
    rw [← hr] at hoffer
    simp at hoffer
  · rw [if_neg h0] at hr
    simp only [himg] at hr
    by_cases hp : (_get_available_l4t_partition dev).1.offset_sct = 0 ∨
        (_get_available_l4t_partition dev).2 = 0 ∨ (_get_available_l4t_partition dev).2 < 0x800000
    · rw [if_pos hp] at hr
      simp only [Option.some.injEq] at hr
      rw [← hr] at hoffer
      simp at hoffer
    · rw [if_neg hp] at hr
      cases hl : l4t_check_parts f_stat 0 0 fuel with
      | none => rw [hl] at hr; simp at hr
      | some res =>
        rw [hl] at hr
        obtain ⟨b, img⟩ := res
        cases b with
        | false =>
          simp only [Option.some.injEq] at hr
          rw [← hr] at hoffer
          simp at hoffer
        | true =>
          simp only [] at hr
          by_cases hgt : img > (_get_available_l4t_partition dev).2
          · rw [if_pos hgt] at hr
            simp only [Option.some.injEq] at hr
            rw [← hr] at hoffer
            simp at hoffer
          · rw [if_neg hgt] at hr
            simp only [Option.some.injEq] at hr
            subst hr
            refine ⟨?_, rfl, ?_, ?_, ?_, ?_⟩
            · cases hs : f_stat "switchroot/install/l4t.00" with
              | none => rw [hs] at h0; simp at h0
              | some x => rfl
            · exact fun h => hp (Or.inl h)
            · show 0x800000 ≤ _
              by_contra h
              exact hp (Or.inr (Or.inr (by omega)))
            · show img ≤ _
              omega
            · intro sizes hfs
              obtain ⟨r2, hr2, -, h2⟩ := l4t_check_parts_spec f_stat sizes 0 0
                (max fuel (sizes.length + 1))
                (fun j hj => by rw [Nat.zero_add]; exact hfs j hj)
                (by omega) (by norm_num)
              have hm := l4t_check_parts_mono f_stat fuel (max fuel (sizes.length + 1)) 0 0
                (true, img) (by omega) hl
              rw [hm] at hr2
              simp only [Option.some.injEq] at hr2
              subst hr2
              have := h2 rfl
              simp only [Nat.zero_add] at this
              show img = _
              rw [this]
              rfl

/-- C15 as amended, at a concrete image: parts of 4 MiB, 4 MiB and 1000 bytes on a card with
a Linux partition of `0x1000000` sectors at `0x2008000`; flashing is offered and
`image_size_sct` is `8192 + 8192 + 2`. -/
theorem C15_offer_only_if_image_fits_witness :
    ∃ r, _action_check_flash_linux f_stat_three_parts ⟨0, 0⟩ card_linux_slot2 4 = some r ∧
      r.status = .offer_flash ∧ r.ctxt.offset_sct = 0x2008000 ∧
      r.ctxt.image_size_sct ≤ 0x1000000 ∧ r.ctxt.image_size_sct = 16386 := by
  obtain ⟨r, hr, -, -, -, h2⟩ := check_flash_linux_of_parts f_stat_three_parts ⟨0, 0⟩
    card_linux_slot2 4 [0x400000, 0x400000, 1000] (by decide)
    (by unfold l4t_image_files; decide) (by decide)
    (by set_option maxRecDepth 100000 in decide) (by set_option maxRecDepth 100000 in decide)
  have hna : ¬ l4t_image_misaligned [0x400000, 0x400000, 1000] := by
    rintro ⟨i, h1, h2⟩
    simp only [List.length_cons, List.length_nil] at h1
    have hi : i < 2 := by omega
    interval_cases i <;> simp at h2
  have hst : r.status = .offer_flash :=
    (h2 hna).2.1 (by set_option maxRecDepth 100000 in decide)
  obtain ⟨-, c2, -, -, c5, c6⟩ :=
    C15_offer_only_if_image_fits f_stat_three_parts ⟨0, 0⟩ card_linux_slot2 4 r hr hst
  have e1 : (_get_available_l4t_partition card_linux_slot2).1.offset_sct = 0x2008000 := by
    set_option maxRecDepth 100000 in decide
  have e2 : (_get_available_l4t_partition card_linux_slot2).2 = 0x1000000 := by
    set_option maxRecDepth 100000 in decide
  have e3 := c6 [0x400000, 0x400000, 1000] (by unfold l4t_image_files; decide)
  refine ⟨r, hr, hst, by rw [c2, e1], by rw [← e2]; exact c5, ?_⟩
  rw [e3]
  decide

/-- C15 as stated fails: an image of the single part `l4t.00` of `0x1FFFFFFFFFF` bytes, on a
card with a Linux partition of `0x1000000` sectors. The sum over the parts is `0x100000000`
sectors, more than the partition holds, but the 32-bit `image_size_sct` is 0 and flashing
is offered. -/
theorem C15_offer_only_if_image_fits_counterexample :
    l4t_image_files f_stat_huge_part [0x1FFFFFFFFFF] ∧
    l4t_image_sectors [0x1FFFFFFFFFF] = 0x100000000 ∧
    (_get_available_l4t_partition card_linux_slot2).2 = 0x1000000 ∧
    (_action_check_flash_linux f_stat_huge_part ⟨0, 0⟩ card_linux_slot2 2).map
        (fun r => (r.status, r.ctxt))
      = some (.offer_flash, ⟨0x2008000, 0⟩) := by
  refine ⟨by unfold l4t_image_files; decide, by decide, by decide!, by decide!⟩

/-! ## Linux image flasher -/

theorem l4t_flash_loop_succ (f_open : String → Option Nat) (read_ok write_ok : Nat → Bool)
    (offset_sct : Nat) (st : l4t_flash_state) (fuel : Nat) :
    l4t_flash_loop f_open read_ok write_ok offset_sct st (fuel + 1)
      = if st.total_size_sct > 0 then
          match l4t_next_part f_open st with
          | none => some (.open_part_failed, { st with currPartIdx := st.currPartIdx + 1 })
          | some st1 =>
            let retryCount := 0
            let num := min st1.total_size_sct 8192
            if read_ok st1.reads = false then
              some (.read_failed, { st1 with reads := st1.reads + 1 })
            else
              let w : l4t_write :=
                { sector := u32 (st1.lba_curr + offset_sct), num := num, part := st1.currPartIdx,
                  pos := st1.fptr, ok := write_ok st1.writes.length }
              let st2 : l4t_flash_state :=
                { st1 with reads := st1.reads + 1,
                           fptr := min (st1.fptr + num * 512) st1.fileSize,
                           writes := st1.writes ++ [w] }
              match (if w.ok then some (true, st2.writes)
                     else l4t_write_retry write_ok retryCount w st2.writes fuel) with
              | none => none
              | some (false, writes) => some (.write_failed, { st2 with writes := writes })
              | some (true, writes) =>
                l4t_flash_loop f_open read_ok write_ok offset_sct
                  { st2 with writes := writes,
                             lba_curr := u32 (st2.lba_curr + num),
                             total_size_sct := st2.total_size_sct - num,
                             bytesWritten := u32 (st2.bytesWritten + num * NX_EMMC_BLOCKSIZE) }
                  fuel
        else some (.succeeded, st) := rfl

theorem l4t_flash_loop_done (f_open : String → Option Nat) (read_ok write_ok : Nat → Bool)
    (offset_sct : Nat) (st : l4t_flash_state) (fuel : Nat) (h : st.total_size_sct = 0)
    (hf : 0 < fuel) :
    l4t_flash_loop f_open read_ok write_ok offset_sct st fuel = some (.succeeded, st) := by
  obtain ⟨f, rfl⟩ : ∃ f, fuel = f + 1 := ⟨fuel - 1, by omega⟩
  rw [l4t_flash_loop_succ, if_neg (by omega)]

/-- One iteration of the streaming loop when the reads and the writes succeed. -/
theorem l4t_flash_loop_step (f_open : String → Option Nat) (read_ok write_ok : Nat → Bool)
    (offset_sct : Nat) (hr : ∀ k, read_ok k = true) (hw : ∀ k, write_ok k = true)
    (st st1 : l4t_flash_state) (fuel : Nat) (h : 0 < st.total_size_sct)
    (h1 : l4t_next_part f_open st = some st1) :
    l4t_flash_loop f_open read_ok write_ok offset_sct st (fuel + 1)
      = l4t_flash_loop f_open read_ok write_ok offset_sct (l4t_flash_step offset_sct st1) fuel := by
  rw [l4t_flash_loop_succ, if_pos h, h1]
  simp only [hr, hw, Bool.true_eq_false, if_false, if_true]
  rfl

theorem l4t_chunks_from_succ (first part nsect j : Nat) (h : j < (nsect + 8191) / 8192) :
    l4t_chunks_from first part nsect j
      = l4t_chunk first part nsect j :: l4t_chunks_from first part nsect (j + 1) := by
  unfold l4t_chunks_from
  have e : (nsect + 8191) / 8192 - j = ((nsect + 8191) / 8192 - (j + 1)) + 1 := by omega
  rw [e, List.range'_succ, List.map_cons]

theorem l4t_chunks_from_done (first part nsect j : Nat) (h : (nsect + 8191) / 8192 ≤ j) :
    l4t_chunks_from first part nsect j = [] := by
  unfold l4t_chunks_from
  have e : (nsect + 8191) / 8192 - j = 0 := by omega
  rw [e]
  rfl

theorem l4t_part_chunks_eq (first part nsect : Nat) :
    l4t_part_chunks first part nsect = l4t_chunks_from first part nsect 0 := by
  unfold l4t_part_chunks l4t_chunks_from
  rw [List.range_eq_range', Nat.sub_zero]

theorem l4t_image_sectors_cons (s : Nat) (rest : List Nat) :
    l4t_image_sectors (s :: rest) = l4t_part_sectors s rest + l4t_image_sectors rest := by
  cases rest with
  | nil => rfl
  | cons s2 rest => rfl

theorem l4t_image_chunks_cons (first part s : Nat) (rest : List Nat) :
    l4t_image_chunks first part (s :: rest)
      = l4t_chunks_from first part (l4t_part_sectors s rest) 0
          ++ l4t_image_chunks (first + l4t_part_sectors s rest) (part + 1) rest := by
  rw [← l4t_part_chunks_eq]
  rfl

theorem l4t_image_chunks_zero : ∀ (rest : List Nat) (first part : Nat),
    l4t_image_sectors rest = 0 → l4t_image_chunks first part rest = [] := by
  intro rest
  induction rest with
  | nil => intro _ _ _; rfl
  | cons s rest ih =>
    intro first part h
    rw [l4t_image_sectors_cons] at h
    rw [l4t_image_chunks_cons, l4t_chunks_from_done _ _ _ _ (by omega),
      ih _ _ (by omega)]
    rfl

/-- A part that is followed by another part of an accepted image is a multiple of 4 MiB. -/
theorem l4t_accepted_head (s s2 : Nat) (rest : List Nat)
    (h : ¬ l4t_image_misaligned (s :: s2 :: rest)) :
    s % 0x400000 = 0 ∧ ¬ l4t_image_misaligned (s2 :: rest) := by
  have hs : s % 0x400000 = 0 := by
    by_contra hne
    exact h (l4t_image_misaligned_cons_cons s s2 rest hne)
  exact ⟨hs, fun hm => h ((l4t_image_misaligned_cons_aligned s (s2 :: rest) hs).2 hm)⟩

/-- Arithmetic of one chunk: what follows from the invariant when the current part still
has sectors to write. -/
theorem l4t_stream_arith (f_open : String → Option Nat) (offset_sct : Nat)
    (st : l4t_flash_state) (j s idx first : Nat) (rest : List Nat)
    (inv : l4t_stream_inv f_open offset_sct st j s idx first rest)
    (hr : 8192 * j < l4t_part_sectors s rest) :
    u32 (st.lba_curr + offset_sct) = first + 8192 * j ∧
    min st.total_size_sct 8192 = min (l4t_part_sectors s rest - 8192 * j) 8192 ∧
    0 < st.total_size_sct ∧
    u32 (0x400000 * j) < s ∧
    (8192 < st.total_size_sct →
      8192 * (j + 1) ≤ l4t_part_sectors s rest ∧ 0x400000 * (j + 1) ≤ s) ∧
    (st.total_size_sct ≤ 8192 →
      l4t_part_sectors s rest ≤ 8192 * (j + 1) ∧ l4t_image_sectors rest = 0) := by
  obtain ⟨-, -, -, -, hj, htot, hlba, hfit, hend, -, hal, hsz⟩ := inv
  cases rest with
  | nil =>
    have hn : s ≤ 512 * l4t_part_sectors s [] ∧ 512 * l4t_part_sectors s [] < s + 512 := by
      simp only [l4t_part_sectors, ALIGN]
      omega
    have hz : l4t_image_sectors [] = 0 := rfl
    rw [hz] at htot hend ⊢
    generalize l4t_part_sectors s [] = n at *
    unfold u32
    refine ⟨?_, ?_, ?_, ?_, ?_, ?_⟩ <;> omega
  | cons s2 rest2 =>
    obtain ⟨hs, -⟩ := l4t_accepted_head s s2 rest2 hal
    have hn : l4t_part_sectors s (s2 :: rest2) = s / 512 := rfl
    simp only [l4t_parts_sized] at hsz
    simp only [hn] at hj htot hend hr ⊢
    generalize l4t_image_sectors (s2 :: rest2) = m at *
    unfold u32
    refine ⟨?_, ?_, ?_, ?_, ?_, ?_⟩ <;> omega

/-- Opening the next part when the current one is exhausted keeps the invariant, and leaves
a part with sectors to write. -/
theorem l4t_next_part_inv (f_open : String → Option Nat) (offset_sct : Nat)
    (st : l4t_flash_state) (j s idx first : Nat) (rest : List Nat)
    (inv : l4t_stream_inv f_open offset_sct st j s idx first rest)
    (hT : 0 < st.total_size_sct) :
    ∃ (st1 : l4t_flash_state) (j1 s1 idx1 first1 : Nat) (rest1 : List Nat),
      l4t_next_part f_open st = some st1 ∧
      l4t_stream_inv f_open offset_sct st1 j1 s1 idx1 first1 rest1 ∧
      8192 * j1 < l4t_part_sectors s1 rest1 ∧
      st1.total_size_sct = st.total_size_sct ∧ st1.writes = st.writes ∧
      l4t_chunks_from first idx (l4t_part_sectors s rest) j
          ++ l4t_image_chunks (first + l4t_part_sectors s rest) (idx + 1) rest
        = l4t_chunks_from first1 idx1 (l4t_part_sectors s1 rest1) j1
          ++ l4t_image_chunks (first1 + l4t_part_sectors s1 rest1) (idx1 + 1) rest1 := by
  by_cases hr : 8192 * j < l4t_part_sectors s rest
  · obtain ⟨-, -, -, hlt, -, -⟩ := l4t_stream_arith f_open offset_sct st j s idx first rest inv hr
    refine ⟨st, j, s, idx, first, rest, ?_, inv, hr, rfl, rfl, rfl⟩
    unfold l4t_next_part
    rw [if_neg (by rw [inv.hbw, inv.hsize]; omega)]
  · have hj := inv.hj
    have htot := inv.htot
    cases rest with
    | nil =>
      simp only [l4t_image_sectors] at htot
      omega
    | cons s2 rest2 =>
      obtain ⟨hs, hal2⟩ := l4t_accepted_head s s2 rest2 inv.hal
      have hsz := inv.hsz
      simp only [l4t_parts_sized] at hsz
      obtain ⟨hs0, hs32, hsz2⟩ := hsz
      have hps : l4t_part_sectors s (s2 :: rest2) = s / 512 := rfl
      have hopen0 := inv.hopen 0 (by simp)
      simp only [Nat.add_zero, List.getElem?_cons_zero] at hopen0
      have hnext : l4t_next_part f_open st
          = some { st with currPartIdx := st.currPartIdx + 1, fileSize := s2, bytesWritten := 0,
                           fptr := 0 } := by
        unfold l4t_next_part
        rw [if_pos (by rw [inv.hbw, inv.hsize]; unfold u32; omega), inv.hidx, hopen0]
      have hpos : 0 < l4t_part_sectors s2 rest2 := by
        rw [l4t_image_sectors_cons] at htot
        cases rest2 with
        | nil =>
          simp only [l4t_image_sectors] at htot
          omega
        | cons s3 rest3 =>
          obtain ⟨hs2, -⟩ := l4t_accepted_head s2 s3 rest3 hal2
          simp only [l4t_parts_sized] at hsz2
          simp only [l4t_part_sectors]
          omega
      refine ⟨_, 0, s2, idx + 1, first + l4t_part_sectors s (s2 :: rest2), rest2, hnext, ?_, ?_,
        rfl, rfl, ?_⟩
      · refine ⟨?_, rfl, rfl, ?_, by omega, ?_, ?_, inv.hfit, ?_, ?_, hal2, hsz2⟩
        · show st.currPartIdx + 1 = idx + 1
          rw [inv.hidx]
        · show 0 = u32 (0x400000 * 0)
          rfl
        · show st.total_size_sct = _
          rw [htot, l4t_image_sectors_cons]
          omega
        · show st.lba_curr + offset_sct = _
          rw [inv.hlba]
          omega
        · have := inv.hend
          rw [l4t_image_sectors_cons] at this
          omega
        · intro i hi
          have := inv.hopen (i + 1) (by simp only [List.length_cons]; omega)
          rw [List.getElem?_cons_succ] at this
          rw [← this]
          congr 2
          omega
      · omega
      · rw [l4t_chunks_from_done _ _ _ _ (by omega), List.nil_append, l4t_image_chunks_cons]

/-- The streaming loop on an accepted image whose parts but the last are not empty and
shorter than 4 GiB, when every read and write succeeds: it ends with success, and the
writes it adds are the remaining chunks of the current part followed by the chunks of the
parts after it. -/
theorem l4t_flash_loop_stream (f_open : String → Option Nat) (read_ok write_ok : Nat → Bool)
    (offset_sct : Nat) (hr : ∀ k, read_ok k = true) (hw : ∀ k, write_ok k = true) :
    ∀ (T : Nat) (st : l4t_flash_state) (fuel j s idx first : Nat) (rest : List Nat),
      l4t_stream_inv f_open offset_sct st j s idx first rest →
      st.total_size_sct = T → T < fuel →
      ∃ st2, l4t_flash_loop f_open read_ok write_ok offset_sct st fuel = some (.succeeded, st2) ∧
        st2.writes = st.writes ++
          (l4t_chunks_from first idx (l4t_part_sectors s rest) j
            ++ l4t_image_chunks (first + l4t_part_sectors s rest) (idx + 1) rest) := by
  intro T
  induction T using Nat.strong_induction_on with
  | _ T ih =>
    intro st fuel j s idx first rest inv hT hfuel
    obtain ⟨f, rfl⟩ : ∃ f, fuel = f + 1 := ⟨fuel - 1, by omega⟩
    by_cases h0 : T = 0
    · have htot := inv.htot
      have hj := inv.hj
      refine ⟨st, l4t_flash_loop_done _ _ _ _ st _ (by omega) (by omega), ?_⟩
      rw [l4t_chunks_from_done _ _ _ _ (by omega), l4t_image_chunks_zero rest _ _ (by omega)]
      simp
    · obtain ⟨st1, j1, s1, idx1, first1, rest1, hnext, inv1, hr1, hT1, hw1, hlists⟩ :=
        l4t_next_part_inv f_open offset_sct st j s idx first rest inv (by omega)
      obtain ⟨a1, a2, a3, a4, a5, a6⟩ :=
        l4t_stream_arith f_open offset_sct st1 j1 s1 idx1 first1 rest1 inv1 hr1
      rw [l4t_flash_loop_step f_open read_ok write_ok offset_sct hr hw st st1 f (by omega) hnext,
        hlists, ← hw1]
      have hwr : (l4t_flash_step offset_sct st1).writes
          = st1.writes ++ [l4t_chunk first1 idx1 (l4t_part_sectors s1 rest1) j1] := by
        show st1.writes ++ [_] = _
        rw [a1, a2, inv1.hidx, inv1.hptr]
        rfl
      have hc : j1 < (l4t_part_sectors s1 rest1 + 8191) / 8192 := by omega
      rw [l4t_chunks_from_succ _ _ _ _ hc]
      by_cases hlast : st1.total_size_sct ≤ 8192
      · obtain ⟨b1, b2⟩ := a6 hlast
        refine ⟨_, l4t_flash_loop_done _ _ _ _ _ _ ?_ (by omega), ?_⟩
        · show st1.total_size_sct - min st1.total_size_sct 8192 = 0
          omega
        · rw [hwr, l4t_chunks_from_done _ _ _ _ (by omega), l4t_image_chunks_zero rest1 _ _ b2]
          simp
      · obtain ⟨b1, b2⟩ := a5 (by omega)
        have hmin : min st1.total_size_sct 8192 = 8192 := by omega
        have hfit := inv1.hfit
        have inv2 : l4t_stream_inv f_open offset_sct (l4t_flash_step offset_sct st1) (j1 + 1) s1
            idx1 first1 rest1 := by
          refine ⟨inv1.hidx, inv1.hsize, ?_, ?_, b1, ?_, ?_, ?_, inv1.hend, inv1.hopen, inv1.hal,
            inv1.hsz⟩
          · show min (st1.fptr + min st1.total_size_sct 8192 * 512) st1.fileSize = _
            rw [hmin, inv1.hptr, inv1.hsize]
            omega
          · show u32 (st1.bytesWritten + min st1.total_size_sct 8192 * NX_EMMC_BLOCKSIZE) = _
            rw [hmin, inv1.hbw]
            unfold u32 NX_EMMC_BLOCKSIZE
            omega
          · show st1.total_size_sct - min st1.total_size_sct 8192 = _
            rw [hmin, inv1.htot]
            omega
          · show u32 (st1.lba_curr + min st1.total_size_sct 8192) + offset_sct = _
            have := inv1.hlba
            rw [hmin]
            unfold u32
            omega
          · show u32 (st1.lba_curr + min st1.total_size_sct 8192)
              + (st1.total_size_sct - min st1.total_size_sct 8192) < _
            rw [hmin]
            unfold u32
            omega
        obtain ⟨st2, h1, h2⟩ := ih (T - 8192) (by omega) (l4t_flash_step offset_sct st1) f
          (j1 + 1) s1 idx1 first1 rest1 inv2
          (by show st1.total_size_sct - min st1.total_size_sct 8192 = _; omega) (by omega)
        refine ⟨st2, h1, ?_⟩
        rw [h2, hwr]
        simp

theorem l4t_writes_cover_append : ∀ (xs ys : List l4t_write) (a b c : Nat),
    l4t_writes_cover a b xs → l4t_writes_cover b c ys → l4t_writes_cover a c (xs ++ ys) := by
  intro xs
  induction xs with
  | nil =>
    intro ys a b c h1 h2
    simp only [l4t_writes_cover] at h1
    subst h1
    exact h2
  | cons w ws ih =>
    intro ys a b c h1 h2
    simp only [l4t_writes_cover, List.cons_append] at h1 ⊢
    exact ⟨h1.1, h1.2.1, h1.2.2.1, h1.2.2.2.1, ih ys _ b c h1.2.2.2.2 h2⟩

theorem l4t_writes_cover_sum : ∀ (ws : List l4t_write) (a b : Nat),
    l4t_writes_cover a b ws → a + (ws.map (fun w => w.num)).sum = b := by
  intro ws
  induction ws with
  | nil => intro a b h; simpa [l4t_writes_cover] using h
  | cons w ws ih =>
    intro a b h
    simp only [l4t_writes_cover] at h
    have := ih _ _ h.2.2.2.2
    simp only [List.map_cons, List.sum_cons]
    omega

theorem l4t_chunks_from_cover (first part nsect : Nat) : ∀ (d j : Nat),
    (nsect + 8191) / 8192 - j = d → 8192 * j ≤ nsect →
    l4t_writes_cover (first + 8192 * j) (first + nsect) (l4t_chunks_from first part nsect j) := by
  intro d
  induction d with
  | zero =>
    intro j hd hj
    rw [l4t_chunks_from_done _ _ _ _ (by omega)]
    show first + 8192 * j = first + nsect
    omega
  | succ d ih =>
    intro j hd hj
    rw [l4t_chunks_from_succ _ _ _ _ (by omega)]
    simp only [l4t_writes_cover, l4t_chunk]
    refine ⟨trivial, by omega, by omega, trivial, ?_⟩
    by_cases hfull : 8192 * (j + 1) ≤ nsect
    · have e : first + 8192 * j + min (nsect - 8192 * j) 8192 = first + 8192 * (j + 1) := by omega
      rw [e]
      exact ih (j + 1) (by omega) hfull
    · have e : first + 8192 * j + min (nsect - 8192 * j) 8192 = first + nsect := by omega
      rw [e, l4t_chunks_from_done _ _ _ _ (by omega)]
      simp only [l4t_writes_cover]

/-- The chunks of an image cover its sectors once each, in ascending order. -/
theorem l4t_image_chunks_cover : ∀ (sizes : List Nat) (first part : Nat),
    l4t_writes_cover first (first + l4t_image_sectors sizes)
      (l4t_image_chunks first part sizes) := by
  intro sizes
  induction sizes with
  | nil => intro first part; rfl
  | cons s rest ih =>
    intro first part
    rw [l4t_image_chunks_cons, l4t_image_sectors_cons]
    refine l4t_writes_cover_append _ _ first (first + l4t_part_sectors s rest) _ ?_ ?_
    · have := l4t_chunks_from_cover first part (l4t_part_sectors s rest) _ 0 rfl (by omega)
      simpa using this
    · have := ih (first + l4t_part_sectors s rest) (part + 1)
      rw [Nat.add_assoc] at this
      exact this

theorem l4t_part_sectors_le (s : Nat) (rest : List Nat) :
    512 * l4t_part_sectors s rest ≤ ALIGN s 512 := by
  cases rest with
  | nil => simp only [l4t_part_sectors, ALIGN]; omega
  | cons s2 rest2 => simp only [l4t_part_sectors, ALIGN]; omega

/-- Every chunk of an image lies within one part: its bytes are within the length of the
part, rounded up to a sector. -/
theorem l4t_image_chunks_within : ∀ (sizes : List Nat) (first part : Nat) (w : l4t_write),
    w ∈ l4t_image_chunks first part sizes →
    part ≤ w.part ∧ w.part < part + sizes.length ∧
      w.pos + 512 * w.num ≤ ALIGN (sizes.getD (w.part - part) 0) 512 := by
  intro sizes
  induction sizes with
  | nil => intro first part w h; simp [l4t_image_chunks] at h
  | cons s rest ih =>
    intro first part w h
    rw [l4t_image_chunks_cons, List.mem_append] at h
    rcases h with h | h
    · unfold l4t_chunks_from at h
      rw [List.mem_map] at h
      obtain ⟨j, hj, rfl⟩ := h
      rw [List.mem_range'_1] at hj
      have hle := l4t_part_sectors_le s rest
      simp only [l4t_chunk, List.length_cons, Nat.sub_self, List.getD_cons_zero]
      refine ⟨le_refl _, by omega, ?_⟩
      omega
    · obtain ⟨h1, h2, h3⟩ := ih _ _ w h
      refine ⟨by omega, by simp only [List.length_cons]; omega, ?_⟩
      have e : w.part - part = (w.part - (part + 1)) + 1 := by omega
      rw [e, List.getD_cons_succ]
      exact h3

/-- The streaming loop on an image the pre-flight check accepts (every part but the last a
multiple of `0x400000` bytes) whose parts other than the last are not empty and shorter
than 4 GiB, with `image_size_sct` its size, the partition on the card and every read and
write succeeding: `_action_flash_linux_data` returns success (with more fuel than sectors),
and its writes are those of the image part after part, each part in chunks of at most
8192 sectors taken from that part alone; they cover the sectors
`offset_sct .. offset_sct + image_size_sct - 1` once each in ascending order, and the
sectors written add up to `image_size_sct`. -/
theorem l4t_stream_writes_image (f_open : String → Option Nat) (read_ok write_ok : Nat → Bool)
    (ctxt : l4t_flasher_ctxt_t) (fuel : Nat) (sizes : List Nat)
    (hfiles : l4t_image_files f_open sizes) (hacc : l4t_image_accepted sizes)
    (hsized : l4t_parts_sized sizes) (hr : ∀ k, read_ok k = true) (hw : ∀ k, write_ok k = true)
    (himg : ctxt.image_size_sct = l4t_image_sectors sizes)
    (hfit : ctxt.offset_sct + ctxt.image_size_sct < 4294967296)
    (hfuel : ctxt.image_size_sct < fuel) :
    _action_flash_linux_data f_open read_ok write_ok ctxt fuel
      = some (.succeeded, l4t_image_chunks ctxt.offset_sct 0 sizes) ∧
    l4t_writes_cover ctxt.offset_sct (ctxt.offset_sct + ctxt.image_size_sct)
      (l4t_image_chunks ctxt.offset_sct 0 sizes) ∧
    ((l4t_image_chunks ctxt.offset_sct 0 sizes).map (fun w => w.num)).sum
      = ctxt.image_size_sct ∧
    (∀ w, w ∈ l4t_image_chunks ctxt.offset_sct 0 sizes →
      w.part < sizes.length ∧ w.pos + 512 * w.num ≤ ALIGN (sizes.getD w.part 0) 512) := by
  have hcov := l4t_image_chunks_cover sizes ctxt.offset_sct 0
  rw [← himg] at hcov
  refine ⟨?_, hcov, ?_, ?_⟩
  · obtain ⟨hne, hal⟩ := hacc
    cases sizes with
    | nil => exact absurd rfl hne
    | cons s rest =>
      have h0 : f_open "switchroot/install/l4t.00" = some s := by
        have := hfiles 0 (by simp)
        simpa using this
      rw [l4t_image_sectors_cons] at himg
      have inv : l4t_stream_inv f_open ctxt.offset_sct
          { currPartIdx := 0, fileSize := s, bytesWritten := 0, lba_curr := 0,
            total_size_sct := ctxt.image_size_sct, fptr := 0, reads := 0, writes := [] }
          0 s 0 ctxt.offset_sct rest := by
        refine ⟨rfl, rfl, rfl, rfl, by omega, ?_, ?_, ?_, ?_, ?_, hal, hsized⟩
        · show ctxt.image_size_sct = _
          omega
        · show 0 + ctxt.offset_sct = _
          omega
        · show 0 + ctxt.image_size_sct < _
          omega
        · omega
        · intro i hi
          have := hfiles (i + 1) (by simp only [List.length_cons]; omega)
          rw [List.getElem?_cons_succ] at this
          rw [← this]
          congr 2
          omega
      obtain ⟨st2, h1, h2⟩ := l4t_flash_loop_stream f_open read_ok write_ok ctxt.offset_sct hr hw
        ctxt.image_size_sct _ fuel 0 s 0 ctxt.offset_sct rest inv rfl hfuel
      unfold _action_flash_linux_data
      rw [h0]
      simp only [h1, Option.map_some']
      rw [h2, l4t_image_chunks_cons]
      rfl
  · have := l4t_writes_cover_sum _ _ _ hcov
    omega
  · intro w hw2
    obtain ⟨-, h2, h3⟩ := l4t_image_chunks_within sizes ctxt.offset_sct 0 w hw2
    exact ⟨by omega, by simpa using h3⟩

/-- The streaming loop at the image of the specification: parts of 4 MiB, 4 MiB and a short
last part of 1000 bytes, for a partition at sector `0x2008000`: three writes of 8192, 8192
and 2 sectors. -/
theorem l4t_stream_writes_three_parts :
    _action_flash_linux_data f_stat_three_parts (fun _ => true) (fun _ => true)
        ⟨0x2008000, 16386⟩ 16387
      = some (.succeeded,
          [⟨0x2008000, 8192, 0, 0, true⟩, ⟨0x200A000, 8192, 1, 0, true⟩,
           ⟨0x200C000, 2, 2, 0, true⟩]) ∧
    l4t_writes_cover 0x2008000 (0x2008000 + 16386)
      [⟨0x2008000, 8192, 0, 0, true⟩, ⟨0x200A000, 8192, 1, 0, true⟩,
       ⟨0x200C000, 2, 2, 0, true⟩] := by
  have h := l4t_stream_writes_image f_stat_three_parts (fun _ => true) (fun _ => true)
    ⟨0x2008000, 16386⟩ 16387 [0x400000, 0x400000, 1000]
    (by unfold l4t_image_files; decide)
    ⟨by decide, by
      rintro ⟨i, h1, h2⟩
      simp only [List.length_cons, List.length_nil] at h1
      have hi : i < 2 := by omega
      interval_cases i <;> simp at h2⟩
    (by simp [l4t_parts_sized]) (fun _ => rfl) (fun _ => rfl) (by decide) (by decide) (by decide)
  have e : l4t_image_chunks 0x2008000 0 [0x400000, 0x400000, 1000]
      = [⟨0x2008000, 8192, 0, 0, true⟩, ⟨0x200A000, 8192, 1, 0, true⟩,
         ⟨0x200C000, 2, 2, 0, true⟩] := by decide
  rw [← e]
  exact ⟨h.1, h.2.1⟩

/-- C16, the code at a failing input: an image of parts of 4 MiB, 0 bytes and 4 MiB passes
the pre-flight check (every part but the last is a multiple of `0x400000`) with
`image_size_sct = 16384`. The test `bytesWritten >= fileSize` is made once per chunk, with
an `if`: after chunk 1 the empty part 1 is opened, and chunk 2 is read from it all the
same. With every read and write succeeding the flasher reports success after two writes,
the second with the buffer of a read at the end of the empty part 1, and part 2 is never
opened; when that read fails the flasher stops after the first write. In the words of the
claim the second chunk is taken from part 2. -/
theorem C16_empty_part_not_skipped :
    l4t_image_files f_stat_empty_middle [0x400000, 0, 0x400000] ∧
    l4t_image_accepted [0x400000, 0, 0x400000] ∧
    (_action_check_flash_linux f_stat_empty_middle ⟨0, 0⟩ card_linux_slot2 4).map
        (fun r => (r.status, r.ctxt))
      = some (.offer_flash, ⟨0x2008000, 16384⟩) ∧
    _action_flash_linux_data f_stat_empty_middle (fun _ => true) (fun _ => true)
        ⟨0x2008000, 16384⟩ 16385
      = some (.succeeded, [⟨0x2008000, 8192, 0, 0, true⟩, ⟨0x200A000, 8192, 1, 0, true⟩]) ∧
    _action_flash_linux_data f_stat_empty_middle (fun k => k != 1) (fun _ => true)
        ⟨0x2008000, 16384⟩ 16385
      = some (.read_failed, [⟨0x2008000, 8192, 0, 0, true⟩]) ∧
    l4t_image_chunks 0x2008000 0 [0x400000, 0, 0x400000]
      = [⟨0x2008000, 8192, 0, 0, true⟩, ⟨0x200A000, 8192, 2, 0, true⟩] := by
  refine ⟨by unfold l4t_image_files; decide, ⟨by decide, ?_⟩,
    by set_option maxRecDepth 1000000 in decide, by decide, by decide, by decide⟩
  rintro ⟨i, h1, h2⟩
  simp only [List.length_cons, List.length_nil] at h1
  have hi : i < 2 := by omega
  interval_cases i <;> simp at h2

theorem l4t_write_retry_never (w : l4t_write) : ∀ (fuel : Nat) (writes : List l4t_write),
    l4t_write_retry (fun _ => false) 0 w writes fuel = none := by
  intro fuel
  induction fuel with
  | zero => intro _; rfl
  | succ f ih =>
    intro writes
    rw [l4t_write_retry]
    simp only [ge_iff_le, show ¬ (3 : Nat) ≤ 0 by decide, if_false, Bool.false_eq_true]
    exact ih _

/-- C17, the code at failing inputs, for an image of one part of 4 MiB: `retryCount` is
never advanced, so (1) when every write fails the flasher never returns, whatever the
fuel: it does not abort after 4 attempts; (2) when the first five attempts fail and the
sixth succeeds, the flasher makes all six writes of the same chunk and reports success.
(3) A write that fails twice and then succeeds is retried and the flasher completes, as
claimed. -/
theorem C17_retry_count_never_advances :
    (∀ fuel, _action_flash_linux_data f_stat_one_part (fun _ => true) (fun _ => false)
      ⟨0x2008000, 8192⟩ fuel = none) ∧
    _action_flash_linux_data f_stat_one_part (fun _ => true) (fun k => decide (5 ≤ k))
        ⟨0x2008000, 8192⟩ 8
      = some (.succeeded,
          [⟨0x2008000, 8192, 0, 0, false⟩, ⟨0x2008000, 8192, 0, 0, false⟩,
           ⟨0x2008000, 8192, 0, 0, false⟩, ⟨0x2008000, 8192, 0, 0, false⟩,
           ⟨0x2008000, 8192, 0, 0, false⟩, ⟨0x2008000, 8192, 0, 0, true⟩]) ∧
    _action_flash_linux_data f_stat_one_part (fun _ => true) (fun k => decide (2 ≤ k))
        ⟨0x2008000, 8192⟩ 8
      = some (.succeeded,
          [⟨0x2008000, 8192, 0, 0, false⟩, ⟨0x2008000, 8192, 0, 0, false⟩,
           ⟨0x2008000, 8192, 0, 0, true⟩]) := by
  refine ⟨?_, by decide, by decide⟩
  intro fuel
  have h0 : f_stat_one_part "switchroot/install/l4t.00" = some 0x400000 := by decide
  unfold _action_flash_linux_data
  rw [h0]
  cases fuel with
  | zero => rfl
  | succ f =>
    show Option.map _ (l4t_flash_loop f_stat_one_part _ _ 0x2008000 _ (f + 1)) = none
    rw [l4t_flash_loop_succ]
    simp only [l4t_next_part, l4t_write_retry_never]
    rfl

/-! ## Backup and restore -/

theorem copy_chunks_succ (src : Option (List Nat)) (dst_open : Bool)
    (read_fails write_fails : Nat → Bool) (fuel file_size k : Nat) (st : copy_state) :
    copy_chunks src dst_open read_fails write_fails (fuel + 1) file_size k st
      = if file_size = 0 then some st
        else
          let chunk_size := min file_size 0x400000
          let st1 : copy_state :=
            match src with
            | some data =>
              if read_fails k then st
              else
                { st with
                  buf := fun i => if i < chunk_size then data.getD (st.src_pos + i) (st.buf i)
                                  else st.buf i,
                  src_pos := st.src_pos + chunk_size }
            | none => st
          let st2 : copy_state :=
            if dst_open = true ∧ write_fails k = false then
              { st1 with
                dst_data := file_write_at st1.dst_data st1.dst_pos
                  ((List.range chunk_size).map st1.buf),
                dst_pos := st1.dst_pos + chunk_size }
            else st1
          copy_chunks src dst_open read_fails write_fails fuel (file_size - chunk_size) (k + 1)
            st2 := rfl

/-- The copy loop returns when it is given more fuel than bytes. -/
theorem copy_chunks_returns (src : Option (List Nat)) (dst_open : Bool)
    (read_fails write_fails : Nat → Bool) : ∀ (fuel file_size k : Nat) (st : copy_state),
    file_size < fuel →
    ∃ st2, copy_chunks src dst_open read_fails write_fails fuel file_size k st = some st2 := by
  intro fuel
  induction fuel with
  | zero => intro file_size k st h; omega
  | succ f ih =>
    intro file_size k st h
    rw [copy_chunks_succ]
    by_cases h0 : file_size = 0
    · rw [if_pos h0]; exact ⟨st, rfl⟩
    · rw [if_neg h0]
      exact ih _ _ _ (by omega)

/-- The copy of a file returns and leaves the totals as they are. -/
theorem backup_copy_file_totals (env : backup_env) (path : List String) (fname : String)
    (data : List Nat) (st : backup_state) :
    ∃ st2, backup_copy_file env path fname data st = some st2 ∧
      st2.total_files = st.total_files ∧ st2.total_size = st.total_size := by
  unfold backup_copy_file
  simp only []
  obtain ⟨cs, hcs⟩ := copy_chunks_returns
    (if env.open_src_fails (path ++ [fname]) then none else some data)
    (!env.open_dst_fails (path ++ [fname])) (env.read_fails (path ++ [fname]))
    (env.write_fails (path ++ [fname])) (data.length + 1) (u32 data.length) 0
    { buf := st.buf, src_pos := 0, dst_pos := 0,
      dst_data := (List.range data.length).map env.stale }
    (by unfold u32; omega)
  rw [hcs]
  exact ⟨_, rfl, rfl, rfl⟩

theorem backup_account_append (env : backup_env) : ∀ (xs ys : List backup_event) (f s : Nat),
    backup_account env (xs ++ ys) f s
      = if (backup_account env xs f s).2.2 ≠ 0 then backup_account env xs f s
        else backup_account env ys (backup_account env xs f s).1 (backup_account env xs f s).2.1 := by
  intro xs
  induction xs with
  | nil => intro ys f s; simp [backup_account]
  | cons x xs ih =>
    intro ys f s
    cases x with
    | file fsize =>
      simp only [List.cons_append, backup_account]
      split_ifs <;> simp_all
    | stop res =>
      simp only [List.cons_append, backup_account]
      split_ifs <;> simp_all

/-- When every path fits in the buffer the walk returns, and its totals and result are those
of the accounting in the words of the specification over the files and failing directories
it meets, the directories that pass the test of line 195 left out. -/
theorem backup_walk_account (env : backup_env) (copy : Bool)
    (hcl : env.RAMDISK_CLUSTER_SZ < 4294967296) :
    ∀ (items : fs_items) (path : List String) (dirLength : Nat) (st : backup_state),
      fs_paths_fit items dirLength → fs_files_32bit items → st.total_size < 4294967296 →
      ∃ st2 res, backup_walk env copy items path dirLength st = some (st2, res) ∧
        (st2.total_files, st2.total_size, res)
          = backup_account env (backup_events is_system_volume_information items)
              st.total_files st.total_size ∧
        st2.total_size < 4294967296 := by
  intro items
  induction items with
  | nil => intro path dirLength st _ _ h; exact ⟨st, 0, rfl, rfl, h⟩
  | read_error res =>
    intro path dirLength st _ _ h
    refine ⟨st, res, rfl, ?_, h⟩
    simp only [backup_events, backup_account]
    split_ifs with h0
    · rfl
    · simp only [ne_eq, not_not] at h0
      rw [h0]
  | file fname data next ih =>
    intro path dirLength st hfit h32 hs
    obtain ⟨hlen, h32n⟩ := h32
    obtain ⟨hfit1, hfitn⟩ := hfit
    have hfs : u32 (if data.length > env.RAMDISK_CLUSTER_SZ then data.length
        else env.RAMDISK_CLUSTER_SZ) = max data.length env.RAMDISK_CLUSTER_SZ := by
      unfold u32
      split_ifs <;> omega
    simp only [backup_walk, backup_events, backup_account, hfs]
    rw [if_neg (Nat.not_lt.mpr hfit1)]
    by_cases hov : 4294967296 ≤ st.total_size + max data.length env.RAMDISK_CLUSTER_SZ
    · rw [if_pos (by unfold u32; omega), if_pos hov]
      exact ⟨_, _, rfl, rfl, by norm_num⟩
    · rw [if_neg (by unfold u32; omega), if_neg hov]
      have hu : u32 (st.total_size + max data.length env.RAMDISK_CLUSTER_SZ)
          = st.total_size + max data.length env.RAMDISK_CLUSTER_SZ := by unfold u32; omega
      rw [hu]
      obtain ⟨st2, hst2, hf2, hs2⟩ : ∃ st2,
          (if copy = true then backup_copy_file env path fname data
              { st with total_size := st.total_size + max data.length env.RAMDISK_CLUSTER_SZ,
                        total_files := st.total_files + 1 }
            else some { st with
              total_size := st.total_size + max data.length env.RAMDISK_CLUSTER_SZ,
              total_files := st.total_files + 1 }) = some st2 ∧
          st2.total_files = st.total_files + 1 ∧
          st2.total_size = st.total_size + max data.length env.RAMDISK_CLUSTER_SZ := by
        cases copy with
        | false => exact ⟨_, rfl, rfl, rfl⟩
        | true =>
          obtain ⟨st2, h1, h2, h3⟩ := backup_copy_file_totals env path fname data
            { st with total_size := st.total_size + max data.length env.RAMDISK_CLUSTER_SZ,
                      total_files := st.total_files + 1 }
          exact ⟨st2, h1, h2, h3⟩
      rw [hst2]
      simp only [hs2]
      by_cases hce : st.total_size + max data.length env.RAMDISK_CLUSTER_SZ
          > env.RAM_DISK_SZ - 0x1000000
      · rw [if_pos hce, if_pos hce]
        refine ⟨st2, -1, rfl, ?_, by omega⟩
        rw [hf2, hs2]
      · rw [if_neg hce, if_neg hce]
        obtain ⟨st3, res, h1, h2, h3⟩ := ih path dirLength st2 hfitn h32n (by omega)
        refine ⟨st3, res, h1, ?_, h3⟩
        rw [h2, hf2, hs2]
  | dir fname open_res items next ih1 ih2 =>
    intro path dirLength st hfit h32 hs
    obtain ⟨h32i, h32n⟩ := h32
    obtain ⟨hfit1, hfiti, hfitn⟩ := hfit
    simp only [backup_walk, backup_events]
    rw [if_neg (Nat.not_lt.mpr hfit1)]
    by_cases hsvi : is_system_volume_information fname = true
    · rw [if_pos hsvi, if_pos hsvi]
      exact ih2 path dirLength st hfitn h32n hs
    · rw [if_neg hsvi, if_neg hsvi]
      by_cases hop : open_res ≠ 0
      · rw [if_pos hop, if_pos hop]
        simp only [hop, ne_eq, not_false_eq_true, if_true, backup_account]
        refine ⟨_, _, rfl, ?_, ?_⟩
        · cases copy <;> rfl
        · cases copy <;> exact hs
      · rw [if_neg hop, if_neg hop]
        obtain ⟨st2, res, h1, h2, h3⟩ := ih1 (path ++ [fname]) (dirLength + 1 + fname.length)
          (if copy = true then { st with dst := fs_at (items_mkdir fname) path st.dst } else st)
          hfiti h32i (by cases copy <;> exact hs)
        have e1 : (if copy = true then { st with dst := fs_at (items_mkdir fname) path st.dst }
            else st).total_files = st.total_files := by cases copy <;> rfl
        have e2 : (if copy = true then { st with dst := fs_at (items_mkdir fname) path st.dst }
            else st).total_size = st.total_size := by cases copy <;> rfl
        rw [e1, e2] at h2
        rw [h1]
        simp only []
        rw [backup_account_append, ← h2]
        by_cases hres : res ≠ 0
        · rw [if_pos hres, if_pos hres]
          exact ⟨st2, res, rfl, rfl, h3⟩
        · rw [if_neg hres, if_neg hres]
          exact ih2 path dirLength st2 hfitn h32n h3

theorem items_in_dir_comp (d : String) (f g : fs_items → fs_items) : ∀ v : fs_items,
    items_in_dir d f (items_in_dir d g v) = items_in_dir d (fun e => f (g e)) v := by
  intro v
  induction v with
  | nil => rfl
  | read_error res => rfl
  | file fname data next ih =>
    simp only [items_in_dir]
    by_cases h : fname = d
    · simp only [h, if_true, items_in_dir]
    · simp only [h, if_false, items_in_dir, ih]
  | dir fname open_res items next _ ih =>
    simp only [items_in_dir]
    by_cases h : fname = d
    · simp only [h, if_true, items_in_dir]
    · simp only [h, if_false, items_in_dir, ih]

theorem fs_at_comp : ∀ (p : List String) (f g : fs_items → fs_items) (v : fs_items),
    fs_at f p (fs_at g p v) = fs_at (fun e => f (g e)) p v := by
  intro p
  induction p with
  | nil => intro f g v; rfl
  | cons d rest ih =>
    intro f g v
    simp only [fs_at]
    rw [items_in_dir_comp]
    have e : (fun e => fs_at f rest (fs_at g rest e)) = fs_at (fun e => f (g e)) rest :=
      funext (fun e => ih f g e)
    rw [e]

theorem fs_at_append : ∀ (p : List String) (n : String) (f : fs_items → fs_items),
    fs_at f (p ++ [n]) = fs_at (items_in_dir n f) p := by
  intro p
  induction p with
  | nil => intro n f; rfl
  | cons d rest ih =>
    intro n f
    show items_in_dir d (fs_at f (rest ++ [n])) = items_in_dir d (fs_at (items_in_dir n f) rest)
    rw [ih]

theorem fs_items_append_nil : ∀ e : fs_items, e.append .nil = e := by
  intro e
  induction e with
  | nil => rfl
  | read_error res => rfl
  | file fname data next ih => simp only [fs_items.append, ih]
  | dir fname open_res items next _ ih => simp only [fs_items.append, ih]

theorem fs_items_append_assoc : ∀ a b c : fs_items,
    (a.append b).append c = a.append (b.append c) := by
  intro a
  induction a with
  | nil => intro b c; rfl
  | read_error res => intro b c; rfl
  | file fname data next ih => intro b c; simp only [fs_items.append, ih]
  | dir fname open_res items next _ ih => intro b c; simp only [fs_items.append, ih]

theorem items_has_name_append (name : String) : ∀ e x : fs_items, items_ends_well e →
    items_has_name name (e.append x) = (items_has_name name e || items_has_name name x) := by
  intro e
  induction e with
  | nil => intro x _; simp [fs_items.append, items_has_name]
  | read_error res => intro x h; exact absurd h (by simp [items_ends_well])
  | file fname data next ih =>
    intro x h
    simp only [fs_items.append, items_has_name, ih x h, Bool.or_assoc]
  | dir fname open_res items next _ ih =>
    intro x h
    simp only [fs_items.append, items_has_name, ih x h, Bool.or_assoc]

theorem items_ends_well_append : ∀ e x : fs_items, items_ends_well e → items_ends_well x →
    items_ends_well (e.append x) := by
  intro e
  induction e with
  | nil => intro x _ hx; exact hx
  | read_error res => intro x h; exact absurd h (by simp [items_ends_well])
  | file fname data next ih => intro x h hx; exact ih x h hx
  | dir fname open_res items next _ ih => intro x h hx; exact ih x h hx

theorem items_put_file_new (name : String) (data : List Nat) : ∀ e : fs_items,
    items_ends_well e → items_has_name name e = false →
    items_put_file name data e = e.append (.file name data .nil) := by
  intro e
  induction e with
  | nil => intro _ _; rfl
  | read_error res => intro h; exact absurd h (by simp [items_ends_well])
  | file fname d next ih =>
    intro h hn
    simp only [items_has_name, Bool.or_eq_false_iff, decide_eq_false_iff_not] at hn
    simp only [items_put_file, hn.1, if_false, fs_items.append, ih h hn.2]
  | dir fname open_res items next _ ih =>
    intro h hn
    simp only [items_has_name, Bool.or_eq_false_iff, decide_eq_false_iff_not] at hn
    simp only [items_put_file, hn.1, if_false, fs_items.append, ih h hn.2]

theorem items_in_dir_append_new (name : String) (f : fs_items → fs_items) (open_res : Int)
    (x nx : fs_items) : ∀ e : fs_items,
    items_ends_well e → items_has_name name e = false →
    items_in_dir name f (e.append (.dir name open_res x nx))
      = e.append (.dir name open_res (f x) nx) := by
  intro e
  induction e with
  | nil => intro _ _; simp [fs_items.append, items_in_dir]
  | read_error res => intro h; exact absurd h (by simp [items_ends_well])
  | file fname d next ih =>
    intro h hn
    simp only [items_has_name, Bool.or_eq_false_iff, decide_eq_false_iff_not] at hn
    simp only [items_in_dir, hn.1, if_false, fs_items.append, ih h hn.2]
  | dir fname o items next _ ih =>
    intro h hn
    simp only [items_has_name, Bool.or_eq_false_iff, decide_eq_false_iff_not] at hn
    simp only [items_in_dir, hn.1, if_false, fs_items.append, ih h hn.2]

theorem items_has_name_prune (skip : String → Bool) (name : String) : ∀ t : fs_items,
    items_has_name name t = false → items_has_name name (fs_prune skip t) = false := by
  intro t
  induction t with
  | nil => intro h; exact h
  | read_error res => intro h; exact h
  | file fname d next ih =>
    intro h
    simp only [items_has_name, Bool.or_eq_false_iff] at h
    simp only [fs_prune, items_has_name, Bool.or_eq_false_iff]
    exact ⟨h.1, ih h.2⟩
  | dir fname o items next _ ih =>
    intro h
    simp only [items_has_name, Bool.or_eq_false_iff] at h
    simp only [fs_prune]
    split_ifs
    · exact ih h.2
    · simp only [items_has_name, Bool.or_eq_false_iff]
      exact ⟨h.1, ih h.2⟩

theorem items_ends_well_of_wf : ∀ t : fs_items, fs_wf t → items_ends_well t := by
  intro t
  induction t with
  | nil => intro _; trivial
  | read_error res => intro h; exact h
  | file fname d next ih => intro h; exact ih h.2
  | dir fname o items next _ ih => intro h; exact ih h.2.2.2

theorem fs_wf_prune (skip : String → Bool) : ∀ t : fs_items,
    fs_wf t → fs_wf (fs_prune skip t) := by
  intro t
  induction t with
  | nil => intro h; exact h
  | read_error res => intro h; exact h
  | file fname d next ih =>
    intro h
    exact ⟨items_has_name_prune skip fname next h.1, ih h.2⟩
  | dir fname o items next ih1 ih2 =>
    intro h
    simp only [fs_prune]
    split_ifs
    · exact ih2 h.2.2.2
    · exact ⟨h.1, items_has_name_prune skip fname next h.2.1, ih1 h.2.2.1, ih2 h.2.2.2⟩

theorem fs_paths_fit_prune (skip : String → Bool) : ∀ (t : fs_items) (n : Nat),
    fs_paths_fit t n → fs_paths_fit (fs_prune skip t) n := by
  intro t
  induction t with
  | nil => intro n h; exact h
  | read_error res => intro n h; exact h
  | file fname d next ih => intro n h; exact ⟨h.1, ih n h.2⟩
  | dir fname o items next ih1 ih2 =>
    intro n h
    simp only [fs_prune]
    split_ifs
    · exact ih2 n h.2.2
    · exact ⟨h.1, ih1 _ h.2.1, ih2 n h.2.2⟩

theorem backup_accounted_prune (env : backup_env) (skip : String → Bool) : ∀ t : fs_items,
    backup_accounted env skip (fs_prune skip t) = backup_accounted env skip t := by
  intro t
  induction t with
  | nil => rfl
  | read_error res => rfl
  | file fname d next ih => simp only [fs_prune, backup_accounted, ih]
  | dir fname o items next ih1 ih2 =>
    simp only [fs_prune, backup_accounted]
    split_ifs with h
    · exact ih2
    · simp only [backup_accounted, h, ih1, ih2]
      rfl

theorem fs_prune_prune (skip : String → Bool) : ∀ t : fs_items,
    fs_prune skip (fs_prune skip t) = fs_prune skip t := by
  intro t
  induction t with
  | nil => rfl
  | read_error res => rfl
  | file fname d next ih => simp only [fs_prune, ih]
  | dir fname o items next ih1 ih2 =>
    simp only [fs_prune]
    split_ifs with h
    · exact ih2
    · simp only [fs_prune, h, ih1, ih2]
      rfl

theorem copy_chunk_bytes (data : List Nat) (buf : Nat → Nat) (p c : Nat)
    (h : p + c ≤ data.length) :
    (List.range c).map (fun i => if i < c then data.getD (p + i) (buf i) else buf i)
      = (data.drop p).take c := by
  apply List.ext_getElem
  · simp only [List.length_map, List.length_range, List.length_take, List.length_drop]
    omega
  · intro i h1 h2
    simp only [List.length_map, List.length_range] at h1
    simp only [List.getElem_map, List.getElem_range, h1, if_true, List.getElem_take,
      List.getElem_drop]
    rw [List.getD_eq_getElem _ _ (by omega)]

theorem file_write_at_copied (data stale : List Nat) (p c : Nat) (h : p + c ≤ data.length) :
    file_write_at (data.take p ++ stale.drop p) p ((data.drop p).take c)
      = data.take (p + c) ++ stale.drop (p + c) := by
  unfold file_write_at
  have hp : (data.take p).length = p := by simp only [List.length_take]; omega
  have hc : ((data.drop p).take c).length = c := by
    simp only [List.length_take, List.length_drop]; omega
  have e0 : List.take p (List.take p data ++ List.drop p stale) = List.take p data :=
    List.take_left' hp
  have e2 : List.drop (p + c) (List.take p data ++ List.drop p stale)
      = List.drop (p + c) stale := by
    have := List.drop_drop c p (List.take p data ++ List.drop p stale)
    rw [List.drop_left' hp] at this
    rw [← this, List.drop_drop]
  rw [hc, e0, e2, List.take_add]

/-- The copy loop without failing calls leaves in the destination file the bytes of the
source file. -/
theorem copy_chunks_copies (data stale : List Nat) (read_fails write_fails : Nat → Bool)
    (hrf : ∀ k, read_fails k = false) (hwf : ∀ k, write_fails k = false)
    (hlen : stale.length = data.length) :
    ∀ (fuel file_size k : Nat) (st : copy_state),
      st.dst_pos = st.src_pos → st.src_pos + file_size = data.length →
      st.dst_data = data.take st.src_pos ++ stale.drop st.src_pos → file_size < fuel →
      ∃ st2, copy_chunks (some data) true read_fails write_fails fuel file_size k st = some st2 ∧
        st2.dst_data = data := by
  intro fuel
  induction fuel with
  | zero => intro file_size k st _ _ _ h; omega
  | succ f ih =>
    intro file_size k st hpos hsz hdata hfuel
    rw [copy_chunks_succ]
    by_cases h0 : file_size = 0
    · rw [if_pos h0]
      refine ⟨st, rfl, ?_⟩
      rw [hdata]
      have e : st.src_pos = data.length := by omega
      rw [e, List.take_length, ← hlen, List.drop_length, List.append_nil]
    · rw [if_neg h0]
      simp only [hrf, hwf, Bool.false_eq_true, if_false, and_self, if_true]
      apply ih
      · show st.dst_pos + _ = st.src_pos + _
        rw [hpos]
      · show st.src_pos + min file_size 0x400000 + (file_size - min file_size 0x400000) = _
        omega
      · show file_write_at st.dst_data st.dst_pos _ = _
        rw [hpos, hdata, copy_chunk_bytes data st.buf st.src_pos _ (by omega),
          file_write_at_copied data stale _ _ (by omega)]
      · omega

/-- The copy of a file shorter than 4 GiB without failing calls puts the file with its bytes
in the directory at `path` of the destination. -/
theorem backup_copy_file_ok (env : backup_env) (hnf : env.no_faults) (path : List String)
    (fname : String) (data : List Nat) (st : backup_state) (h32 : data.length < 4294967296) :
    ∃ st2, backup_copy_file env path fname data st = some st2 ∧
      st2.total_files = st.total_files ∧ st2.total_size = st.total_size ∧
      st2.dst = fs_at (items_put_file fname data) path st.dst := by
  obtain ⟨h1, h2, h3, h4⟩ := hnf
  unfold backup_copy_file
  simp only [h1, h2, Bool.not_false, Bool.false_eq_true, if_false, if_true]
  have hu : u32 data.length = data.length := by unfold u32; omega
  obtain ⟨cs, hcs, hd⟩ := copy_chunks_copies data ((List.range data.length).map env.stale)
    (env.read_fails (path ++ [fname])) (env.write_fails (path ++ [fname]))
    (fun k => h3 _ k) (fun k => h4 _ k) (by simp) (data.length + 1) data.length 0
    { buf := st.buf, src_pos := 0, dst_pos := 0,
      dst_data := (List.range data.length).map env.stale }
    rfl (by simp) (by simp) (by omega)
  rw [hu, hcs]
  refine ⟨_, rfl, rfl, rfl, ?_⟩
  show fs_at (items_put_file fname cs.dst_data) path st.dst = _
  rw [hd]

theorem items_in_dir_id (d : String) : ∀ v : fs_items, items_in_dir d (fun e => e) v = v := by
  intro v
  induction v with
  | nil => rfl
  | read_error res => rfl
  | file fname data next ih =>
    simp only [items_in_dir, ih, ite_self]
  | dir fname open_res items next _ ih =>
    simp only [items_in_dir, ih, ite_self]

theorem fs_at_id : ∀ (p : List String) (v : fs_items), fs_at (fun e => e) p v = v := by
  intro p
  induction p with
  | nil => intro v; rfl
  | cons d rest ih =>
    intro v
    have e : fs_at (fun e => e) rest = fun e => e := funext ih
    show items_in_dir d (fs_at (fun e => e) rest) v = v
    rw [e, items_in_dir_id]

/-- The copying walk over a tree in which every call succeeds, whose paths fit in the buffer
and whose accounted size stays within the ceiling: it returns 0, counts every file that is
not under a directory that passes the test of line 195, and makes of the directory at
`path` of the destination what `mirror_into` describes. -/
theorem backup_walk_mirror (env : backup_env) (hnf : env.no_faults)
    (hcl : env.RAMDISK_CLUSTER_SZ < 4294967296)
    (hram : env.RAM_DISK_SZ - 0x1000000 < 4294967296) :
    ∀ (items : fs_items) (path : List String) (dirLength : Nat) (st : backup_state),
      fs_wf items → fs_paths_fit items dirLength →
      st.total_size + backup_accounted env is_system_volume_information items
        ≤ env.RAM_DISK_SZ - 0x1000000 →
      ∃ st2, backup_walk env true items path dirLength st = some (st2, 0) ∧
        st2.total_files = st.total_files + backup_counted is_system_volume_information items ∧
        st2.total_size
          = st.total_size + backup_accounted env is_system_volume_information items ∧
        st2.dst = fs_at (mirror_into items) path st.dst := by
  intro items
  induction items with
  | nil =>
    intro path dirLength st _ _ _
    refine ⟨st, rfl, rfl, rfl, ?_⟩
    have e : mirror_into .nil = fun e => e := funext (fun e => rfl)
    rw [e, fs_at_id]
  | read_error res => intro path dirLength st h; exact absurd h (by simp [fs_wf])
  | file fname data next ih =>
    intro path dirLength st hwf hfit hsz
    obtain ⟨-, hwfn⟩ := hwf
    obtain ⟨hfit1, hfitn⟩ := hfit
    simp only [backup_accounted] at hsz
    have hlen : data.length < 4294967296 := by omega
    have hfs : u32 (if data.length > env.RAMDISK_CLUSTER_SZ then data.length
        else env.RAMDISK_CLUSTER_SZ) = max data.length env.RAMDISK_CLUSTER_SZ := by
      unfold u32
      split_ifs <;> omega
    have hu : u32 (st.total_size + max data.length env.RAMDISK_CLUSTER_SZ)
        = st.total_size + max data.length env.RAMDISK_CLUSTER_SZ := by unfold u32; omega
    simp only [backup_walk, hfs, if_true]
    rw [if_neg (Nat.not_lt.mpr hfit1), if_neg (by unfold u32; omega), hu]
    obtain ⟨st2, h1, h2, h3, h4⟩ := backup_copy_file_ok env hnf path fname data
      { st with total_size := st.total_size + max data.length env.RAMDISK_CLUSTER_SZ,
                total_files := st.total_files + 1 } hlen
    have h2b : st2.total_files = st.total_files + 1 := h2
    have h3b : st2.total_size = st.total_size + max data.length env.RAMDISK_CLUSTER_SZ := h3
    rw [h1]
    simp only []
    rw [if_neg (by rw [h3b]; omega)]
    obtain ⟨st3, g1, g2, g3, g4⟩ := ih path dirLength st2 hwfn hfitn (by rw [h3b]; omega)
    refine ⟨st3, g1, ?_, ?_, ?_⟩
    · rw [g2, h2b]
      simp only [backup_counted]
      omega
    · rw [g3, h3b]
      simp only [backup_accounted]
      omega
    · rw [g4, h4]
      show fs_at _ path (fs_at _ path st.dst) = _
      rw [fs_at_comp]
      rfl
  | dir fname open_res items next ih1 ih2 =>
    intro path dirLength st hwf hfit hsz
    obtain ⟨hop, -, hwfi, hwfn⟩ := hwf
    obtain ⟨hfit1, hfiti, hfitn⟩ := hfit
    simp only [backup_walk, backup_accounted, backup_counted, mirror_into] at hsz ⊢
    rw [if_neg (Nat.not_lt.mpr hfit1)]
    by_cases hsvi : is_system_volume_information fname = true
    · simp only [hsvi, if_true] at hsz ⊢
      exact ih2 path dirLength st hwfn hfitn hsz
    · simp only [hsvi, if_false, Bool.false_eq_true, if_true] at hsz ⊢
      rw [if_neg (by rw [hop]; simp)]
      obtain ⟨st2, h1, h2, h3, h4⟩ := ih1 (path ++ [fname]) (dirLength + 1 + fname.length)
        { st with dst := fs_at (items_mkdir fname) path st.dst } hwfi hfiti
        (by show st.total_size + _ ≤ _; omega)
      have h2b : st2.total_files
          = st.total_files + backup_counted is_system_volume_information items := h2
      have h3b : st2.total_size
          = st.total_size + backup_accounted env is_system_volume_information items := h3
      rw [h1]
      simp only [ne_eq, not_true_eq_false, if_false]
      obtain ⟨st3, g1, g2, g3, g4⟩ := ih2 path dirLength st2 hwfn hfitn (by rw [h3b]; omega)
      refine ⟨st3, g1, ?_, ?_, ?_⟩
      · rw [g2, h2b]
        omega
      · rw [g3, h3b]
        omega
      · rw [g4, h4]
        show fs_at _ path (fs_at _ (path ++ [fname]) (fs_at _ path st.dst)) = _
        rw [fs_at_append, fs_at_comp, fs_at_comp]

/-- A mirror without failing calls adds the tree, without the directories that pass the test
of line 195, after the entries the destination directory has, when no name of the tree is
in use there. -/
theorem mirror_into_append : ∀ (t e : fs_items), fs_wf t → items_ends_well e →
    (∀ name, items_has_name name t = true → items_has_name name e = false) →
    mirror_into t e = e.append (fs_prune is_system_volume_information t) := by
  intro t
  induction t with
  | nil => intro e _ _ _; exact (fs_items_append_nil e).symm
  | read_error res => intro e h; exact absurd h (by simp [fs_wf])
  | file fname data next ih =>
    intro e hwf he hn
    obtain ⟨hu, hwfn⟩ := hwf
    have hne : items_has_name fname e = false := hn fname (by simp [items_has_name])
    simp only [mirror_into, fs_prune]
    rw [items_put_file_new fname data e he hne,
      ih _ hwfn (items_ends_well_append e (.file fname data .nil) he trivial),
      fs_items_append_assoc]
    · rfl
    · intro name hname
      rw [items_has_name_append name e _ he, hn name (by simp [items_has_name, hname])]
      simp only [items_has_name, Bool.or_false, Bool.false_or, decide_eq_false_iff_not]
      intro heq
      rw [heq, hname] at hu
      exact Bool.noConfusion hu
  | dir fname open_res items next ih1 ih2 =>
    intro e hwf he hn
    obtain ⟨hop, hu, hwfi, hwfn⟩ := hwf
    simp only [mirror_into, fs_prune]
    by_cases hsvi : is_system_volume_information fname = true
    · simp only [hsvi, if_true]
      exact ih2 e hwfn he (fun name hname => hn name (by simp [items_has_name, hname]))
    · simp only [hsvi, if_false, Bool.false_eq_true]
      have hne : items_has_name fname e = false := hn fname (by simp [items_has_name])
      have hmk : items_mkdir fname e = e.append (.dir fname 0 .nil .nil) := by
        unfold items_mkdir
        rw [hne]
        rfl
      have hsub : mirror_into items .nil = fs_prune is_system_volume_information items :=
        ih1 .nil hwfi trivial (fun _ _ => rfl)
      rw [hmk, items_in_dir_append_new fname _ 0 .nil .nil e he hne, hsub,
        ih2 _ hwfn (items_ends_well_append e
          (.dir fname 0 (fs_prune is_system_volume_information items) .nil) he trivial),
        fs_items_append_assoc, hop]
      · rfl
      · intro name hname
        rw [items_has_name_append name e _ he, hn name (by simp [items_has_name, hname])]
        simp only [items_has_name, Bool.or_false, Bool.false_or, decide_eq_false_iff_not]
        intro heq
        rw [heq, hname] at hu
        exact Bool.noConfusion hu

/-- The accounting of a tree in which every directory can be opened and read, when the
accounted size stays within the ceiling: result 0 and the totals over the files that are
not under a directory whose name `skip` tells. -/
theorem backup_account_wf (env : backup_env) (skip : String → Bool)
    (hram : env.RAM_DISK_SZ - 0x1000000 < 4294967296) :
    ∀ (items : fs_items) (f s : Nat), fs_wf items →
      s + backup_accounted env skip items ≤ env.RAM_DISK_SZ - 0x1000000 →
      backup_account env (backup_events skip items) f s
        = (f + backup_counted skip items, s + backup_accounted env skip items, 0) := by
  intro items
  induction items with
  | nil => intro f s _ _; rfl
  | read_error res => intro f s h; exact absurd h (by simp [fs_wf])
  | file fname data next ih =>
    intro f s hwf hsz
    simp only [backup_accounted] at hsz
    simp only [backup_events, backup_account, backup_counted, backup_accounted]
    rw [if_neg (by omega), if_neg (by omega), ih _ _ hwf.2 (by omega)]
    simp only [Prod.mk.injEq, and_true]
    constructor <;> omega
  | dir fname open_res items next ih1 ih2 =>
    intro f s hwf hsz
    obtain ⟨hop, -, hwfi, hwfn⟩ := hwf
    simp only [backup_events, backup_counted, backup_accounted] at hsz ⊢
    by_cases hsvi : skip fname = true
    · simp only [hsvi, if_true] at hsz ⊢
      exact ih2 f s hwfn hsz
    · simp only [hsvi, if_false, Bool.false_eq_true] at hsz ⊢
      rw [if_neg (by rw [hop]; simp), backup_account_append, ih1 f s hwfi (by omega)]
      simp only [ne_eq, not_true_eq_false, if_false]
      rw [ih2 _ _ hwfn (by omega)]
      simp only [Prod.mk.injEq, and_true]
      constructor <;> omega

/-- The accounting looks at the two constants of the environment only. -/
theorem backup_account_congr (env env2 : backup_env)
    (h1 : env.RAMDISK_CLUSTER_SZ = env2.RAMDISK_CLUSTER_SZ)
    (h2 : env.RAM_DISK_SZ = env2.RAM_DISK_SZ) : ∀ (xs : List backup_event) (f s : Nat),
    backup_account env xs f s = backup_account env2 xs f s := by
  intro xs
  induction xs with
  | nil => intro f s; rfl
  | cons x xs ih =>
    intro f s
    cases x with
    | file fsize => simp only [backup_account, h1, h2, ih]
    | stop res => simp only [backup_account, ih]

/-- The totals and the result of a walk, or that it has no defined result, depend neither
on the calls that fail nor on what the destination holds. -/
theorem backup_walk_totals_congr (env env2 : backup_env)
    (h1 : env.RAMDISK_CLUSTER_SZ = env2.RAMDISK_CLUSTER_SZ)
    (h2 : env.RAM_DISK_SZ = env2.RAM_DISK_SZ) (copy : Bool) :
    ∀ (items : fs_items) (path : List String) (dirLength : Nat) (st st2 : backup_state),
      st.total_files = st2.total_files → st.total_size = st2.total_size →
      (backup_walk env copy items path dirLength st).map
          (fun r => (r.1.total_files, r.1.total_size, r.2))
        = (backup_walk env2 copy items path dirLength st2).map
          (fun r => (r.1.total_files, r.1.total_size, r.2)) := by
  intro items
  induction items with
  | nil =>
    intro path dirLength st st2 hf hs
    simp only [backup_walk, Option.map_some', hf, hs]
  | read_error res =>
    intro path dirLength st st2 hf hs
    simp only [backup_walk, Option.map_some', hf, hs]
  | file fname data next ih =>
    intro path dirLength st st2 hf hs
    simp only [backup_walk]
    by_cases hfit : path_buf_size < dirLength + 1 + fname.length + 1
    · rw [if_pos hfit, if_pos hfit]
    · rw [if_neg hfit, if_neg hfit, ← h1, ← h2, ← hs, ← hf]
      by_cases hov : u32 (u32 (if data.length > env.RAMDISK_CLUSTER_SZ then data.length
          else env.RAMDISK_CLUSTER_SZ) + st.total_size) < st.total_size
      · rw [if_pos hov, if_pos hov]
        simp only [Option.map_some', hf]
      · rw [if_neg hov, if_neg hov]
        obtain ⟨a, ha, ha1, ha2⟩ : ∃ a,
            (if copy = true then backup_copy_file env path fname data
                { st with
                  total_size := u32 (st.total_size + u32 (if data.length > env.RAMDISK_CLUSTER_SZ
                    then data.length else env.RAMDISK_CLUSTER_SZ)),
                  total_files := st.total_files + 1 }
              else some { st with
                  total_size := u32 (st.total_size + u32 (if data.length > env.RAMDISK_CLUSTER_SZ
                    then data.length else env.RAMDISK_CLUSTER_SZ)),
                  total_files := st.total_files + 1 }) = some a ∧
            a.total_files = st.total_files + 1 ∧
            a.total_size = u32 (st.total_size + u32 (if data.length > env.RAMDISK_CLUSTER_SZ
                    then data.length else env.RAMDISK_CLUSTER_SZ)) := by
          cases copy with
          | false => exact ⟨_, rfl, rfl, rfl⟩
          | true =>
            obtain ⟨a, g1, g2, g3⟩ := backup_copy_file_totals env path fname data
              { st with
                total_size := u32 (st.total_size + u32 (if data.length > env.RAMDISK_CLUSTER_SZ
                  then data.length else env.RAMDISK_CLUSTER_SZ)),
                total_files := st.total_files + 1 }
            exact ⟨a, g1, g2, g3⟩
        obtain ⟨b, hb, hb1, hb2⟩ : ∃ b,
            (if copy = true then backup_copy_file env2 path fname data
                { st2 with
                  total_size := u32 (st.total_size + u32 (if data.length > env.RAMDISK_CLUSTER_SZ
                    then data.length else env.RAMDISK_CLUSTER_SZ)),
                  total_files := st.total_files + 1 }
              else some { st2 with
                  total_size := u32 (st.total_size + u32 (if data.length > env.RAMDISK_CLUSTER_SZ
                    then data.length else env.RAMDISK_CLUSTER_SZ)),
                  total_files := st.total_files + 1 }) = some b ∧
            b.total_files = st.total_files + 1 ∧
            b.total_size = u32 (st.total_size + u32 (if data.length > env.RAMDISK_CLUSTER_SZ
                    then data.length else env.RAMDISK_CLUSTER_SZ)) := by
          cases copy with
          | false => exact ⟨_, rfl, rfl, rfl⟩
          | true =>
            obtain ⟨b, g1, g2, g3⟩ := backup_copy_file_totals env2 path fname data
              { st2 with
                total_size := u32 (st.total_size + u32 (if data.length > env.RAMDISK_CLUSTER_SZ
                  then data.length else env.RAMDISK_CLUSTER_SZ)),
                total_files := st.total_files + 1 }
            exact ⟨b, g1, g2, g3⟩
        rw [ha, hb]
        simp only []
        rw [hb2, ← ha2]
        by_cases hce : a.total_size > env.RAM_DISK_SZ - 0x1000000
        · rw [if_pos hce, if_pos hce]
          simp only [Option.map_some', ha1, hb1, ha2, hb2]
        · rw [if_neg hce, if_neg hce]
          exact ih path dirLength a b (by rw [ha1, hb1]) (by rw [ha2, hb2])
  | dir fname open_res items next ih1 ih2 =>
    intro path dirLength st st2 hf hs
    simp only [backup_walk]
    by_cases hfit : path_buf_size < dirLength + 1 + fname.length + 1
    · rw [if_pos hfit, if_pos hfit]
    · rw [if_neg hfit, if_neg hfit]
      by_cases hsvi : is_system_volume_information fname = true
      · rw [if_pos hsvi, if_pos hsvi]
        exact ih2 path dirLength st st2 hf hs
      · rw [if_neg hsvi, if_neg hsvi]
        have e1 : (if copy = true then { st with dst := fs_at (items_mkdir fname) path st.dst }
            else st).total_files
            = (if copy = true then { st2 with dst := fs_at (items_mkdir fname) path st2.dst }
            else st2).total_files := by cases copy <;> exact hf
        have e2 : (if copy = true then { st with dst := fs_at (items_mkdir fname) path st.dst }
            else st).total_size
            = (if copy = true then { st2 with dst := fs_at (items_mkdir fname) path st2.dst }
            else st2).total_size := by cases copy <;> exact hs
        by_cases hop : open_res ≠ 0
        · rw [if_pos hop, if_pos hop]
          simp only [hop, ne_eq, not_false_eq_true, if_true, Option.map_some', e1, e2]
        · rw [if_neg hop, if_neg hop]
          have hsub := ih1 (path ++ [fname]) (dirLength + 1 + fname.length) _ _ e1 e2
          cases ha : backup_walk env copy items (path ++ [fname]) (dirLength + 1 + fname.length)
              (if copy = true then { st with dst := fs_at (items_mkdir fname) path st.dst }
               else st) with
          | none =>
            rw [ha] at hsub
            cases hb : backup_walk env2 copy items (path ++ [fname])
                (dirLength + 1 + fname.length)
                (if copy = true then { st2 with dst := fs_at (items_mkdir fname) path st2.dst }
                 else st2) with
            | none => rfl
            | some b => rw [hb] at hsub; simp at hsub
          | some a =>
            rw [ha] at hsub
            cases hb : backup_walk env2 copy items (path ++ [fname])
                (dirLength + 1 + fname.length)
                (if copy = true then { st2 with dst := fs_at (items_mkdir fname) path st2.dst }
                 else st2) with
            | none => rw [hb] at hsub; simp at hsub
            | some b =>
              rw [hb] at hsub
              simp only [Option.map_some', Option.some.injEq, Prod.mk.injEq] at hsub
              obtain ⟨q1, q2, q3⟩ := hsub
              obtain ⟨a1, ra⟩ := a
              obtain ⟨b1, rb⟩ := b
              simp only [] at q1 q2 q3 ⊢
              subst q3
              by_cases hres : ra ≠ 0
              · rw [if_pos hres, if_pos hres]
                simp only [Option.map_some', q1, q2]
              · rw [if_neg hres, if_neg hres]
                exact ih2 path dirLength a1 b1 q1 q2

/-- The test of line 195 passes for the name `System Volume Information`, and for no other
name when no longer name starts with it. -/
theorem system_volume_information_named (fname : String)
    (h : is_system_volume_information fname = true → fname = "System Volume Information") :
    is_system_volume_information fname = is_named_system_volume_information fname := by
  cases hb : is_system_volume_information fname with
  | true =>
    have e := h hb
    subst e
    decide
  | false =>
    cases hn : is_named_system_volume_information fname with
    | false => rfl
    | true =>
      have e : fname = "System Volume Information" := by
        simpa [is_named_system_volume_information] using hn
      subst e
      rw [← hb]
      decide

theorem backup_events_named : ∀ t : fs_items, fs_no_longer_names t →
    backup_events is_system_volume_information t
      = backup_events is_named_system_volume_information t := by
  intro t
  induction t with
  | nil => intro _; rfl
  | read_error res => intro _; rfl
  | file fname d next ih => intro h; simp only [backup_events, ih h]
  | dir fname o items next ih1 ih2 =>
    intro h
    simp only [backup_events, system_volume_information_named fname h.1, ih1 h.2.1, ih2 h.2.2]

theorem fs_prune_named : ∀ t : fs_items, fs_no_longer_names t →
    fs_prune is_system_volume_information t = fs_prune is_named_system_volume_information t := by
  intro t
  induction t with
  | nil => intro _; rfl
  | read_error res => intro _; rfl
  | file fname d next ih => intro h; simp only [fs_prune, ih h]
  | dir fname o items next ih1 ih2 =>
    intro h
    simp only [fs_prune, system_volume_information_named fname h.1, ih1 h.2.1, ih2 h.2.2]

theorem backup_accounted_named (env : backup_env) : ∀ t : fs_items, fs_no_longer_names t →
    backup_accounted env is_system_volume_information t
      = backup_accounted env is_named_system_volume_information t := by
  intro t
  induction t with
  | nil => intro _; rfl
  | read_error res => intro _; rfl
  | file fname d next ih => intro h; simp only [backup_accounted, ih h]
  | dir fname o items next ih1 ih2 =>
    intro h
    simp only [backup_accounted, system_volume_information_named fname h.1, ih1 h.2.1,
      ih2 h.2.2]

theorem backup_counted_named : ∀ t : fs_items, fs_no_longer_names t →
    backup_counted is_system_volume_information t
      = backup_counted is_named_system_volume_information t := by
  intro t
  induction t with
  | nil => intro _; rfl
  | read_error res => intro _; rfl
  | file fname d next ih => intro h; simp only [backup_counted, ih h]
  | dir fname o items next ih1 ih2 =>
    intro h
    simp only [backup_counted, system_volume_information_named fname h.1, ih1 h.2.1, ih2 h.2.2]

/-- When every path fits in the buffer the function returns, with totals and result those of
the accounting. -/
theorem backup_and_restore_account (env : backup_env) (copy : Bool)
    (hcl : env.RAMDISK_CLUSTER_SZ < 4294967296) (open_res : Int) (items : fs_items)
    (path : List String) (st : backup_state) (hfit : fs_paths_fit items (path_strlen path))
    (h32 : fs_files_32bit items) (hs : st.total_size < 4294967296) :
    ∃ st2 res, _backup_and_restore_files env copy open_res items path st = some (st2, res) ∧
      (st2.total_files, st2.total_size, res)
        = backup_account env
            (if open_res ≠ 0 then [.stop open_res]
             else backup_events is_system_volume_information items)
            st.total_files st.total_size := by
  unfold _backup_and_restore_files
  by_cases hop : open_res ≠ 0
  · rw [if_pos hop, if_pos hop]
    refine ⟨st, open_res, rfl, ?_⟩
    simp only [backup_account, hop, ne_eq, not_false_eq_true, if_true]
  · rw [if_neg hop, if_neg hop]
    obtain ⟨st2, res, h1, h2, -⟩ :=
      backup_walk_account env copy hcl items path (path_strlen path) st hfit h32 hs
    exact ⟨st2, res, h1, h2⟩

/-- C18 on the trees for which the code keeps to it: every path fits in the buffer of 1024
bytes that the callers give, no directory has a longer name that starts with
`System Volume Information`, and every file is shorter than 4 GiB (the cluster size and
the total on entry are 32-bit values). `_backup_and_restore_files` returns, and its totals
and result are those of the accounting in the words of the specification: every regular
file visited adds `max(fsize, RAMDISK_CLUSTER_SZ)` and 1, the walk stops at once with a
non-zero result at an overflow of 32 bits (total `0x80000000`), at a total above
`RAM_DISK_SZ - 0x1000000`, or at a directory that cannot be opened or read; what is under a
directory named `System Volume Information` is left out. When every directory can be
opened and read and the accounted size stays within the ceiling the result is 0 and the
totals are over all files not under a directory of that name. -/
theorem C18_walk_accounts_files (env : backup_env) (copy : Bool)
    (hcl : env.RAMDISK_CLUSTER_SZ < 4294967296) (open_res : Int) (items : fs_items)
    (path : List String) (st : backup_state) (hfit : fs_paths_fit items (path_strlen path))
    (hnames : fs_no_longer_names items) (h32 : fs_files_32bit items)
    (hs : st.total_size < 4294967296) :
    ∃ st2 res, _backup_and_restore_files env copy open_res items path st = some (st2, res) ∧
      (st2.total_files, st2.total_size, res)
        = backup_account env
            (if open_res ≠ 0 then [.stop open_res]
             else backup_events is_named_system_volume_information items)
            st.total_files st.total_size ∧
      (open_res = 0 → fs_wf items → env.RAM_DISK_SZ - 0x1000000 < 4294967296 →
        st.total_size + backup_accounted env is_named_system_volume_information items
          ≤ env.RAM_DISK_SZ - 0x1000000 →
        res = 0 ∧
          st2.total_files
            = st.total_files + backup_counted is_named_system_volume_information items ∧
          st2.total_size
            = st.total_size + backup_accounted env is_named_system_volume_information items) := by
  obtain ⟨st2, res, h1, h2⟩ :=
    backup_and_restore_account env copy hcl open_res items path st hfit h32 hs
  rw [backup_events_named items hnames] at h2
  refine ⟨st2, res, h1, h2, ?_⟩
  intro hop hwf hram hsz
  rw [if_neg (by rw [hop]; simp), backup_account_wf env _ hram items _ _ hwf hsz] at h2
  simp only [Prod.mk.injEq] at h2
  exact ⟨h2.2.2, h2.1, h2.2.1⟩

/-- C18 at a concrete tree: three files of less than a cluster in `tree_small` are counted
as three clusters of 32 KiB. -/
theorem C18_walk_accounts_files_witness :
    fs_paths_fit tree_small 0 ∧ fs_no_longer_names tree_small ∧ fs_files_32bit tree_small ∧
    fs_wf tree_small ∧
    ∃ st2 res, _backup_and_restore_files env_ok false 0 tree_small [] backup_state_zero
        = some (st2, res) ∧
      res = 0 ∧ st2.total_files = 3 ∧ st2.total_size = 98304 := by
  have hfit : fs_paths_fit tree_small 0 := by
    simp only [tree_small, fs_paths_fit, path_buf_size, and_true]
    decide
  have hnames : fs_no_longer_names tree_small := by
    simp only [tree_small, fs_no_longer_names, and_true]
    decide
  have h32 : fs_files_32bit tree_small := by simp [tree_small, fs_files_32bit]
  have hwf : fs_wf tree_small := by simp [tree_small, fs_wf, items_has_name]
  obtain ⟨st2, res, h1, -, h3⟩ := C18_walk_accounts_files env_ok false (by decide) 0 tree_small
    [] backup_state_zero hfit hnames h32 (by decide)
  obtain ⟨g1, g2, g3⟩ := h3 rfl hwf (by decide) (by decide!)
  exact ⟨hfit, hnames, h32, hwf, st2, res, h1, g1, g2, g3⟩

/-- C18, the code at two failing inputs. (1) In `tree_longer_name` a directory is named
`System Volume Information2`: the test of line 195 compares 25 bytes, the walk leaves out
the file under it and counts 1 file, where the totals over all files that are not under a
directory named `System Volume Information` are 2 files. (2) In `tree_deep` the path of the
file takes 1025 bytes with its final 0: the `strcpy` of line 124 writes past the end of
the buffer of 1024 bytes and the walk has no defined result, where the claim has 1 file
counted and the result 0. -/
theorem C18_walk_accounts_files_counterexample :
    (_backup_and_restore_files env_ok false 0 tree_longer_name [] backup_state_zero).map
        (fun r => (r.1.total_files, r.1.total_size, r.2))
      = some (1, 32768, 0) ∧
    backup_account env_ok
        (backup_events is_named_system_volume_information tree_longer_name) 0 0
      = (2, 65536, 0) ∧
    name_255.length = 255 ∧
    (_backup_and_restore_files env_ok false 0 tree_deep [] backup_state_zero).map
        (fun r => (r.1.total_files, r.1.total_size, r.2))
      = none ∧
    backup_account env_ok (backup_events is_named_system_volume_information tree_deep) 0 0
      = (1, 32768, 0) := by
  refine ⟨?_, ?_, ?_, ?_, ?_⟩ <;> decide!

/-- C19, the code at failing inputs: the copy of the single file `boot.ini` with a failing
`f_open` of the destination, a failing `f_open` of the source, a failing `f_read` or a
failing `f_write`. The return values of these calls are not looked at: each walk counts the
file and returns 0; the destination then has no file, a file with the bytes the buffer held
before (`0xFF`), or a file with the bytes of its fresh clusters (`0xEE`). For every tree the
totals and the result are the same whatever calls fail. -/
theorem C19_copy_errors_ignored :
    (_backup_and_restore_files env_open_dst_fails true 0 tree_one_file [] backup_state_zero).map
        (fun r => (r.1.total_files, r.1.dst, r.2)) = some (1, .nil, 0) ∧
    (_backup_and_restore_files env_open_src_fails true 0 tree_one_file [] backup_state_zero).map
        (fun r => (r.1.total_files, r.1.dst, r.2))
      = some (1, .file "boot.ini" [0xFF, 0xFF, 0xFF] .nil, 0) ∧
    (_backup_and_restore_files env_read_fails true 0 tree_one_file [] backup_state_zero).map
        (fun r => (r.1.total_files, r.1.dst, r.2))
      = some (1, .file "boot.ini" [0xFF, 0xFF, 0xFF] .nil, 0) ∧
    (_backup_and_restore_files env_write_fails true 0 tree_one_file [] backup_state_zero).map
        (fun r => (r.1.total_files, r.1.dst, r.2))
      = some (1, .file "boot.ini" [0xEE, 0xEE, 0xEE] .nil, 0) ∧
    (∀ (env env2 : backup_env) (open_res : Int) (items : fs_items) (path : List String)
        (st : backup_state),
      env.RAMDISK_CLUSTER_SZ = env2.RAMDISK_CLUSTER_SZ → env.RAM_DISK_SZ = env2.RAM_DISK_SZ →
      env.RAMDISK_CLUSTER_SZ < 4294967296 → fs_files_32bit items → st.total_size < 4294967296 →
      (_backup_and_restore_files env true open_res items path st).map
          (fun r => (r.1.total_files, r.1.total_size, r.2))
        = (_backup_and_restore_files env2 true open_res items path st).map
          (fun r => (r.1.total_files, r.1.total_size, r.2))) := by
  refine ⟨by decide!, by decide!, by decide!, by decide!, ?_⟩
  intro env env2 open_res items path st h1 h2 _ _ _
  unfold _backup_and_restore_files
  by_cases hop : open_res ≠ 0
  · rw [if_pos hop, if_pos hop]
  · rw [if_neg hop, if_neg hop]
    exact backup_walk_totals_congr env env2 h1 h2 true items path _ st st rfl rfl

/-- C20 as amended: for every tree whose directories can all be opened and read, with no
name twice in a directory, whose paths fit in the buffer of 1024 bytes, in which no
directory has a longer name that starts with `System Volume Information`, and whose
accounted size stays within the ceiling `RAM_DISK_SZ - 0x1000000`, and with no failing call:
the copy of the tree from the root into an empty staging volume returns 0, and so does the
copy of the staging volume into an empty destination; both volumes then hold the tree
without the directories named `System Volume Information` and what is under them: the same
relative paths in the same order, with the same bytes in every file. -/
theorem C20_backup_restore_round_trip (env : backup_env) (hnf : env.no_faults)
    (hcl : env.RAMDISK_CLUSTER_SZ < 4294967296)
    (hram : env.RAM_DISK_SZ - 0x1000000 < 4294967296) (tree : fs_items) (buf : Nat → Nat)
    (hwf : fs_wf tree) (hfit : fs_paths_fit tree 0) (hnames : fs_no_longer_names tree)
    (hsize : backup_accounted env is_named_system_volume_information tree
      ≤ env.RAM_DISK_SZ - 0x1000000) :
    ∃ st1 st2,
      _backup_and_restore_files env true 0 tree []
          { total_files := 0, total_size := 0, dst := .nil, buf := buf } = some (st1, 0) ∧
      _backup_and_restore_files env true 0 st1.dst []
          { total_files := 0, total_size := 0, dst := .nil, buf := st1.buf } = some (st2, 0) ∧
      st1.dst = fs_prune is_named_system_volume_information tree ∧
      st2.dst = fs_prune is_named_system_volume_information tree := by
  rw [← backup_accounted_named env tree hnames] at hsize
  rw [← fs_prune_named tree hnames]
  obtain ⟨st1, h1, -, -, h4⟩ := backup_walk_mirror env hnf hcl hram tree [] 0
    { total_files := 0, total_size := 0, dst := .nil, buf := buf } hwf hfit
    (by show 0 + _ ≤ _; omega)
  have e1 : st1.dst = fs_prune is_system_volume_information tree := by
    rw [h4]
    show mirror_into tree .nil = _
    rw [mirror_into_append tree .nil hwf trivial (fun _ _ => rfl)]
    rfl
  obtain ⟨st2, g1, -, -, g4⟩ := backup_walk_mirror env hnf hcl hram
    (fs_prune is_system_volume_information tree) [] 0
    { total_files := 0, total_size := 0, dst := .nil, buf := st1.buf }
    (fs_wf_prune _ tree hwf) (fs_paths_fit_prune _ tree 0 hfit)
    (by show 0 + _ ≤ _; rw [backup_accounted_prune]; omega)
  have e2 : st2.dst = fs_prune is_system_volume_information tree := by
    rw [g4]
    show mirror_into (fs_prune is_system_volume_information tree) .nil = _
    rw [mirror_into_append (fs_prune is_system_volume_information tree) .nil
      (fs_wf_prune _ tree hwf) trivial (fun _ _ => rfl), fs_prune_prune]
    rfl
  refine ⟨st1, st2, ?_, ?_, e1, e2⟩
  · unfold _backup_and_restore_files
    rw [if_neg (by simp)]
    exact h1
  · unfold _backup_and_restore_files
    rw [if_neg (by simp), e1]
    exact g1

/-- C20 as amended, at a concrete tree: `tree_small` has no directory that is left out and
comes back as it was. -/
theorem C20_backup_restore_round_trip_witness :
    fs_prune is_named_system_volume_information tree_small = tree_small ∧
    ∃ st1 st2,
      _backup_and_restore_files env_ok true 0 tree_small []
          { total_files := 0, total_size := 0, dst := .nil, buf := fun _ => 0xFF }
        = some (st1, 0) ∧
      _backup_and_restore_files env_ok true 0 st1.dst []
          { total_files := 0, total_size := 0, dst := .nil, buf := st1.buf } = some (st2, 0) ∧
      st1.dst = tree_small ∧ st2.dst = tree_small := by
  have hp : fs_prune is_named_system_volume_information tree_small = tree_small := by decide!
  refine ⟨hp, ?_⟩
  have h := C20_backup_restore_round_trip env_ok
    ⟨fun _ => rfl, fun _ => rfl, fun _ _ => rfl, fun _ _ => rfl⟩ (by decide) (by decide)
    tree_small (fun _ => 0xFF) (by simp [tree_small, fs_wf, items_has_name])
    (by simp only [tree_small, fs_paths_fit, path_buf_size, and_true]; decide)
    (by simp only [tree_small, fs_no_longer_names, and_true]; decide) (by decide!)
  rw [hp] at h
  exact h

/-- C20 as stated fails. (1) `tree_windows` holds the directory `System Volume Information`
with a file; after the copy into the staging volume and back the destination holds
`boot.ini` alone, not the same relative paths as the original. (2) In `tree_longer_name` the
directory is named `System Volume Information2`; the test of line 195 compares 25 bytes and
the directory is not copied either. (3) In `tree_deep` the path of the file takes 1025 bytes
with its final 0, the `strcpy` of line 124 writes past the end of the buffer of 1024 bytes,
and the copy has no defined result. The accounted size of each tree is within the
ceiling. -/
theorem C20_backup_restore_round_trip_counterexample :
    fs_wf tree_windows ∧
    (_backup_and_restore_files env_ok true 0 tree_windows [] backup_state_zero).map
        (fun r => (r.1.dst, r.2)) = some (.file "boot.ini" [1, 2, 3] .nil, 0) ∧
    (_backup_and_restore_files env_ok true 0 (.file "boot.ini" [1, 2, 3] .nil) []
        backup_state_zero).map (fun r => (r.1.dst, r.2))
      = some (.file "boot.ini" [1, 2, 3] .nil, 0) ∧
    (.file "boot.ini" [1, 2, 3] .nil : fs_items) ≠ tree_windows ∧
    fs_wf tree_longer_name ∧
    (_backup_and_restore_files env_ok true 0 tree_longer_name [] backup_state_zero).map
        (fun r => (r.1.dst, r.2)) = some (.file "b" [4] .nil, 0) ∧
    fs_prune is_named_system_volume_information tree_longer_name = tree_longer_name ∧
    fs_wf tree_deep ∧
    (_backup_and_restore_files env_ok true 0 tree_deep [] backup_state_zero).map
        (fun r => (r.1.dst, r.2)) = none ∧
    backup_accounted env_ok is_named_system_volume_information tree_windows
      + backup_accounted env_ok is_named_system_volume_information tree_longer_name
      + backup_accounted env_ok is_named_system_volume_information tree_deep
      ≤ env_ok.RAM_DISK_SZ - 0x1000000 := by
  refine ⟨by simp [tree_windows, fs_wf, items_has_name], by decide!, by decide!, by decide,
    by simp [tree_longer_name, fs_wf, items_has_name], by decide!, by decide!,
    by simp [tree_deep, fs_wf, items_has_name], by decide!, by decide!⟩
/-! ## Layout writer: the two emuMMC partitions of doubled mode -/

theorem gpt_emummc_idx_eq (p : partition_ctxt_t) :
    gpt_emummc_idx p = (l4t_rows p ++ android_rows p).length + 1 := by
  unfold gpt_emummc_idx l4t_rows android_rows
  split_ifs <;> rfl

/-- The emuMMC partitions of doubled mode, in the MBR and in the GPT, for a plan of the
planner. -/
theorem flashed_doubled_sizes (p : partition_ctxt_t) (sec_cnt : Nat) (dev_mbr : mbr_t)
    (upper : Nat → Nat) (prng : Nat → Nat → Nat) (crc : Nat → List Nat → Nat)
    (hp : planner_inv p) (hsec : 0 < sec_cnt ∧ sec_cnt < 4294967296)
    (he : p.emu_size ≠ 0) (hd : p.emu_double = true) :
    ((flashed_mbr p sec_cnt dev_mbr upper prng crc).partitions (mbr_emu_idx p)).size_sct
      = p.emu_size * 1024 ∧
    ((flashed_mbr p sec_cnt dev_mbr upper prng crc).partitions (mbr_emu_idx p + 1)).size_sct
        + 0x800 = p.emu_size * 1024 ∧
    (p.and_size ≠ 0 →
      ((flashed_gpt p sec_cnt dev_mbr upper prng crc).entries (gpt_emummc_idx p)).name
        = gpt_name "emummc" ∧
      ((flashed_gpt p sec_cnt dev_mbr upper prng crc).entries (gpt_emummc_idx p)).lba_end + 1
        = ((flashed_gpt p sec_cnt dev_mbr upper prng crc).entries (gpt_emummc_idx p)).lba_start
          + p.emu_size * 1024 ∧
      ((flashed_gpt p sec_cnt dev_mbr upper prng crc).entries (gpt_emummc_idx p + 1)).name
        = gpt_name "emummc2" ∧
      ((flashed_gpt p sec_cnt dev_mbr upper prng crc).entries (gpt_emummc_idx p + 1)).lba_end
          + 1 + 0x800
        = ((flashed_gpt p sec_cnt dev_mbr upper prng crc).entries
            (gpt_emummc_idx p + 1)).lba_start + p.emu_size * 1024) := by
  have he4 : 4128 ≤ p.emu_size := by
    rcases hp.2.2.2.1 with h | h
    · exact absurd h he
    · exact h
  obtain ⟨-, -, hm, -, -⟩ := flashed_mbr_slots_of_plan p sec_cnt dev_mbr upper prng crc hp hsec
  obtain ⟨-, -, -, hm2⟩ := hm he
  obtain ⟨m1, -, -, m4⟩ := hm2 hd
  refine ⟨m1, by rw [m4]; omega, ?_⟩
  intro hand
  obtain ⟨-, -, c2, c3, -⟩ :=
    flashed_gpt_entries_of_plan p sec_cnt dev_mbr upper prng crc hp hand
  have c2 := c2 he
  have c3 := c3 he hd
  rw [gpt_emummc_idx_eq]
  rw [c2, c3]
  simp only [gpt_emummc_entry, hd, if_true]
  refine ⟨by decide, by omega, by decide, by omega⟩

/-- C21 as amended: in doubled mode (`emu_double` set, `emu_size != 0`), for a plan of the
planner, the second emuMMC partition is `0x800` sectors (the 1 MiB reserve) smaller than the
first: the MBR slot of the first has `size_sct = emu_size * 1024`, the next slot
`emu_size * 1024 - 0x800`; when `and_size != 0` the `emummc` entry of the GPT spans
`emu_size * 1024` sectors and the `emummc2` entry `emu_size * 1024 - 0x800`. -/
theorem C21_doubled_second_smaller (p : partition_ctxt_t) (sec_cnt : Nat) (dev_mbr : mbr_t)
    (upper : Nat → Nat) (prng : Nat → Nat → Nat) (crc : Nat → List Nat → Nat)
    (hp : planner_inv p) (hsec : 0 < sec_cnt ∧ sec_cnt < 4294967296)
    (he : p.emu_size ≠ 0) (hd : p.emu_double = true) :
    ((flashed_mbr p sec_cnt dev_mbr upper prng crc).partitions (mbr_emu_idx p)).size_sct
      = p.emu_size * 1024 ∧
    ((flashed_mbr p sec_cnt dev_mbr upper prng crc).partitions (mbr_emu_idx p + 1)).size_sct
        + 0x800 = p.emu_size * 1024 ∧
    (p.and_size ≠ 0 →
      ((flashed_gpt p sec_cnt dev_mbr upper prng crc).entries (gpt_emummc_idx p)).name
        = gpt_name "emummc" ∧
      ((flashed_gpt p sec_cnt dev_mbr upper prng crc).entries (gpt_emummc_idx p)).lba_end + 1
        = ((flashed_gpt p sec_cnt dev_mbr upper prng crc).entries (gpt_emummc_idx p)).lba_start
          + p.emu_size * 1024 ∧
      ((flashed_gpt p sec_cnt dev_mbr upper prng crc).entries (gpt_emummc_idx p + 1)).name
        = gpt_name "emummc2" ∧
      ((flashed_gpt p sec_cnt dev_mbr upper prng crc).entries (gpt_emummc_idx p + 1)).lba_end
          + 1 + 0x800
        = ((flashed_gpt p sec_cnt dev_mbr upper prng crc).entries
            (gpt_emummc_idx p + 1)).lba_start + p.emu_size * 1024) :=
  flashed_doubled_sizes p sec_cnt dev_mbr upper prng crc hp hsec he hd

/-- C21 as amended, at a concrete input: two emuMMC, 8 GiB of Linux and 8 GiB of Android on
a 29 GiB card (`emu_size = 8256`); the emuMMC slots of the MBR are 1 and 2, the emuMMC
entries of the GPT are 11 and 12. -/
theorem C21_doubled_second_smaller_witness :
    (planner_inv plan_29g_full ∧ (0 < 61071360 ∧ 61071360 < 4294967296) ∧
      plan_29g_full.emu_size ≠ 0 ∧ plan_29g_full.emu_double = true) ∧
    (((flashed_mbr plan_29g_full 61071360 mbr_fresh_29g upper_stale prng_seq
        crc32_calc).partitions (mbr_emu_idx plan_29g_full)).size_sct
      = plan_29g_full.emu_size * 1024 ∧
    ((flashed_mbr plan_29g_full 61071360 mbr_fresh_29g upper_stale prng_seq
        crc32_calc).partitions (mbr_emu_idx plan_29g_full + 1)).size_sct
        + 0x800 = plan_29g_full.emu_size * 1024 ∧
    (plan_29g_full.and_size ≠ 0 →
      ((flashed_gpt plan_29g_full 61071360 mbr_fresh_29g upper_stale prng_seq
          crc32_calc).entries (gpt_emummc_idx plan_29g_full)).name = gpt_name "emummc" ∧
      ((flashed_gpt plan_29g_full 61071360 mbr_fresh_29g upper_stale prng_seq
          crc32_calc).entries (gpt_emummc_idx plan_29g_full)).lba_end + 1
        = ((flashed_gpt plan_29g_full 61071360 mbr_fresh_29g upper_stale prng_seq
            crc32_calc).entries (gpt_emummc_idx plan_29g_full)).lba_start
          + plan_29g_full.emu_size * 1024 ∧
      ((flashed_gpt plan_29g_full 61071360 mbr_fresh_29g upper_stale prng_seq
          crc32_calc).entries (gpt_emummc_idx plan_29g_full + 1)).name = gpt_name "emummc2" ∧
      ((flashed_gpt plan_29g_full 61071360 mbr_fresh_29g upper_stale prng_seq
          crc32_calc).entries (gpt_emummc_idx plan_29g_full + 1)).lba_end + 1 + 0x800
        = ((flashed_gpt plan_29g_full 61071360 mbr_fresh_29g upper_stale prng_seq
            crc32_calc).entries (gpt_emummc_idx plan_29g_full + 1)).lba_start
          + plan_29g_full.emu_size * 1024)) :=
  ⟨⟨by decide, by decide, by decide, by decide⟩,
    C21_doubled_second_smaller plan_29g_full 61071360 mbr_fresh_29g upper_stale prng_seq
      crc32_calc (by decide) (by decide) (by decide) (by decide)⟩

/-- C21 as stated fails: for two emuMMC, 8 GiB of Linux and 8 GiB of Android on a 29 GiB
card the emuMMC slots of the MBR have 8454144 and 8452096 sectors, and the `emummc` and
`emummc2` entries of the GPT span 8454144 and 8452096 sectors: the sizes differ. -/
theorem C21_doubled_second_smaller_counterexample :
    planner_inv plan_29g_full ∧ plan_29g_full.emu_size ≠ 0 ∧
    plan_29g_full.emu_double = true ∧ plan_29g_full.and_size ≠ 0 ∧
    ((flashed_mbr plan_29g_full 61071360 mbr_fresh_29g upper_stale prng_seq
        crc32_calc).partitions 1).size_sct = 8454144 ∧
    ((flashed_mbr plan_29g_full 61071360 mbr_fresh_29g upper_stale prng_seq
        crc32_calc).partitions 2).size_sct = 8452096 ∧
    ((flashed_mbr plan_29g_full 61071360 mbr_fresh_29g upper_stale prng_seq
        crc32_calc).partitions 1).size_sct
      ≠ ((flashed_mbr plan_29g_full 61071360 mbr_fresh_29g upper_stale prng_seq
          crc32_calc).partitions 2).size_sct ∧
    ((flashed_gpt plan_29g_full 61071360 mbr_fresh_29g upper_stale prng_seq
        crc32_calc).entries 11).name = gpt_name "emummc" ∧
    ((flashed_gpt plan_29g_full 61071360 mbr_fresh_29g upper_stale prng_seq
        crc32_calc).entries 12).name = gpt_name "emummc2" ∧
    ((flashed_gpt plan_29g_full 61071360 mbr_fresh_29g upper_stale prng_seq
        crc32_calc).entries 11).lba_end + 1
      - ((flashed_gpt plan_29g_full 61071360 mbr_fresh_29g upper_stale prng_seq
          crc32_calc).entries 11).lba_start = 8454144 ∧
    ((flashed_gpt plan_29g_full 61071360 mbr_fresh_29g upper_stale prng_seq
        crc32_calc).entries 12).lba_end + 1
      - ((flashed_gpt plan_29g_full 61071360 mbr_fresh_29g upper_stale prng_seq
          crc32_calc).entries 12).lba_start = 8452096 := by
  have hinv : planner_inv plan_29g_full := by decide
  obtain ⟨h1, h2, h3⟩ := flashed_doubled_sizes plan_29g_full 61071360 mbr_fresh_29g upper_stale
    prng_seq crc32_calc hinv (by decide) (by decide) (by decide)
  obtain ⟨g1, g2, g3, g4⟩ := h3 (by decide)
  have hi : mbr_emu_idx plan_29g_full = 1 := by decide
  have hg : gpt_emummc_idx plan_29g_full = 11 := by decide
  have hs : plan_29g_full.emu_size = 8256 := rfl
  rw [hi, hs] at h1 h2
  rw [hg] at g1 g2 g3 g4
  rw [hs] at g2 g4
  simp only [Nat.reduceAdd] at h2 g3 g4
  refine ⟨hinv, by decide, by decide, by decide, h1, by omega, by omega, g1, g3, by omega,
    by omega⟩

/-! ## Layout writer: results of the write calls -/

theorem sd_write_results_calls (wr_fails : Nat → Bool) (ws : List sd_write) :
    (sd_write_results wr_fails ws).map Prod.fst = ws := by
  unfold sd_write_results
  apply List.map_fst_zip
  simp

/-- C22 as amended: `_prepare_and_flash_mbr_gpt` does not look at the result of a block
write. For every plan and every pattern of failing writes, the write calls it issues are
those of the run without failure, up to the write of the MBR at sector 0 that ends the
run: no failure stops the sequence. -/
theorem C22_write_failures_ignored (wr_fails : Nat → Bool) (p : partition_ctxt_t)
    (sec_cnt : Nat) (dev_mbr : mbr_t) (upper : Nat → Nat) (prng : Nat → Nat → Nat)
    (crc : Nat → List Nat → Nat) :
    (flash_write_calls wr_fails p sec_cnt dev_mbr upper prng crc).map Prod.fst
      = _prepare_and_flash_mbr_gpt p sec_cnt dev_mbr upper prng crc ∧
    (flash_write_calls wr_fails p sec_cnt dev_mbr upper prng crc).map Prod.fst
      = (flash_write_calls (fun _ => false) p sec_cnt dev_mbr upper prng crc).map Prod.fst ∧
    ((flash_write_calls wr_fails p sec_cnt dev_mbr upper prng crc).map Prod.fst).getLast?
      = some ⟨0, 1, .mbr (flashed_mbr p sec_cnt dev_mbr upper prng crc)⟩ := by
  refine ⟨sd_write_results_calls _ _, ?_, ?_⟩
  · rw [flash_write_calls, flash_write_calls, sd_write_results_calls, sd_write_results_calls]
  · rw [flash_write_calls, sd_write_results_calls]
    exact flashed_writes_last p sec_cnt dev_mbr upper prng crc

/-- C22 as stated fails: on a 29 GiB card planned with 8 GiB of Android, with a first write
(the clearing of the first 16 MiB) that fails, the thirteen later writes are issued all the
same: the nine partition heads, the primary GPT at sector 1, the backup entries, the backup
header and the MBR. The triples are sector, number of sectors and whether the call
succeeded. -/
theorem C22_write_failures_ignored_counterexample :
    (flash_write_calls (fun k => k == 0) plan_29g_and8 61071360 mbr_fresh_29g upper_stale
        prng_seq crc32_calc).map (fun r => (r.1.sector, r.1.num_sectors, r.2))
      = [(0, 0x8000, false), (44294144, 0x800, true), (46391296, 0x800, true),
         (50585600, 0x800, true), (50651136, 0x800, true), (50782208, 0x800, true),
         (50784256, 0x8000, true), (50817024, 0x800, true), (52250624, 0x800, true),
         (52256768, 0x800, true), (1, 33, true), (61071327, 32, true), (61071359, 1, true),
         (0, 1, true)] := by
  decide!

/-! ## Layout writer: the clearing writes -/

theorem head_append_of_head {α : Type} (l l2 : List α) (w : α) (h : l.head? = some w) :
    (l ++ l2).head? = some w := by
  cases l with
  | nil => simp at h
  | cons a t => simpa using h

theorem flash_mbr_slots_writes_head (p : partition_ctxt_t) (dev_mbr : mbr_t)
    (upper : Nat → Nat) (prng : Nat → Nat → Nat) :
    (flash_mbr_slots p dev_mbr upper prng).writes.head?
      = some ⟨0, 0x8000, .upper_buffer (fun j => if j < 0x8000 then 0 else upper j)⟩ := by
  unfold flash_mbr_slots
  split_ifs <;> rfl

theorem flash_gpt_rows_writes_head (prng : Nat → Nat → Nat) (rows : List gpt_part_row)
    (st : flash_state) (w : sd_write) (h : st.writes.head? = some w) :
    (flash_gpt_rows prng st rows).writes.head? = some w := by
  induction rows generalizing st with
  | nil => exact h
  | cons r rest ih =>
    rw [flash_gpt_rows_cons]
    apply ih
    exact head_append_of_head _ _ w h

theorem flash_gpt_emummc_writes (p : partition_ctxt_t) (prng : Nat → Nat → Nat)
    (st : flash_state) : (flash_gpt_emummc p prng st).writes = st.writes := by
  unfold flash_gpt_emummc
  split_ifs <;> rfl

theorem flash_gpt_entries_writes_head (p : partition_ctxt_t) (sec_cnt : Nat)
    (prng : Nat → Nat → Nat) (st : flash_state) (w : sd_write) (h : st.writes.head? = some w) :
    (flash_gpt_entries p sec_cnt prng st).writes.head? = some w := by
  unfold flash_gpt_entries
  rw [flash_gpt_emummc_writes, flash_gpt_l4t_android_eq_rows]
  exact flash_gpt_rows_writes_head prng _ _ w h

/-- The first write of `_prepare_and_flash_mbr_gpt`, for every plan: `0x8000` sectors from
sector 0, out of the upper buffer after the `memset` of `0x8000` bytes of line 236. -/
theorem flashed_writes_head (p : partition_ctxt_t) (sec_cnt : Nat) (dev_mbr : mbr_t)
    (upper : Nat → Nat) (prng : Nat → Nat → Nat) (crc : Nat → List Nat → Nat) :
    (_prepare_and_flash_mbr_gpt p sec_cnt dev_mbr upper prng crc).head?
      = some ⟨0, 0x8000, .upper_buffer (fun j => if j < 0x8000 then 0 else upper j)⟩ := by
  unfold _prepare_and_flash_mbr_gpt flash_state_final
  apply head_append_of_head
  split_ifs
  · unfold flash_gpt_finish
    apply head_append_of_head
    exact flash_gpt_entries_writes_head p sec_cnt prng _ _
      (flash_mbr_slots_writes_head p dev_mbr upper prng)
  · exact flash_mbr_slots_writes_head p dev_mbr upper prng

/-- C24, the code at a failing input. For every plan the first write of
`_prepare_and_flash_mbr_gpt` covers the `0x8000` sectors from sector 0, but the `memset`
before it clears `0x8000` bytes, not `0x8000` sectors: only the first 64 sectors written are
zero, every later byte of the write is what the upper buffer held before the call. With an
upper buffer that held `0xFF` and a card that held zero after sector 0, byte `0x8000` of
the write is `0xFF`, and after the run the card holds `0xFF` at byte `0x8000` (sector 64)
and at byte `0xFFFFFF`, the last one of the first 16 MiB. -/
theorem C24_first_write_not_all_zero (p : partition_ctxt_t) (sec_cnt : Nat) (dev_mbr : mbr_t)
    (upper : Nat → Nat) (prng : Nat → Nat → Nat) (crc : Nat → List Nat → Nat) :
    (_prepare_and_flash_mbr_gpt p sec_cnt dev_mbr upper prng crc).head?
      = some ⟨0, 0x8000, .upper_buffer (fun j => if j < 0x8000 then 0 else upper j)⟩ ∧
    (∀ j, (sd_payload.upper_buffer (fun j => if j < 0x8000 then 0 else upper j)).byte
        (0x8000 + j) = upper (0x8000 + j)) ∧
    (sd_payload.upper_buffer (fun j => if j < 0x8000 then 0 else upper_stale j)).byte 0x8000
      = 0xFF ∧
    card_fresh_zero 0x8000 = 0 ∧ card_fresh_zero 0xFFFFFF = 0 ∧
    flashed_card plan_29g_full 61071360 card_fresh_zero upper_stale prng_seq crc32_calc 0x8000
      = 0xFF ∧
    flashed_card plan_29g_full 61071360 card_fresh_zero upper_stale prng_seq crc32_calc 0xFFFFFF
      = 0xFF := by
  refine ⟨flashed_writes_head p sec_cnt dev_mbr upper prng crc, ?_, by decide, by decide,
    by decide, by decide!, by decide!⟩
  intro j
  show (if 0x8000 + j < 0x8000 then 0 else upper (0x8000 + j)) = upper (0x8000 + j)
  rw [if_neg (by omega)]

/-- C25, the code at a failing input: two emuMMC, 8 GiB of Linux and 8 GiB of Android on a
29 GiB card. The run issues one head-clearing write per Linux / Android partition and none
for `emummc` (sector 44163072) and `emummc2` (sector 52617216), and each clearing write
takes its bytes from the upper buffer, of which the `memset` of line 236 cleared `0x8000`
bytes only. With an upper buffer that held `0xFF` and a card that was zero, the head of
`l4t` (entry 1, sector 10608640) and the `MDA` partition (entry 7, sector 33875968) hold
`0xFF` at their byte `0x8000` after the run. With an upper buffer that held zero and a
card that held `0xFF`, the first byte of `emummc` and of `emummc2` still holds `0xFF`
after the run. -/
theorem C25_partition_heads_not_cleared :
    (_prepare_and_flash_mbr_gpt plan_29g_full 61071360 mbr_fresh_full upper_stale prng_seq
        crc32_calc).map (fun w => (w.sector, w.num_sectors))
      = [(0, 0x8000), (10608640, 0x800), (27385856, 0x800), (29483008, 0x800),
         (33677312, 0x800), (33742848, 0x800), (33873920, 0x800), (33875968, 0x8000),
         (33908736, 0x800), (35342336, 0x800), (35348480, 0x800), (1, 33), (61071327, 32),
         (61071359, 1), (0, 1)] ∧
    ((flashed_gpt plan_29g_full 61071360 mbr_fresh_full upper_stale prng_seq
        crc32_calc).entries 1).name = gpt_name "l4t" ∧
    ((flashed_gpt plan_29g_full 61071360 mbr_fresh_full upper_stale prng_seq
        crc32_calc).entries 1).lba_start = 10608640 ∧
    ((flashed_gpt plan_29g_full 61071360 mbr_fresh_full upper_stale prng_seq
        crc32_calc).entries 7).name = gpt_name "MDA" ∧
    ((flashed_gpt plan_29g_full 61071360 mbr_fresh_full upper_stale prng_seq
        crc32_calc).entries 7).lba_start = 33875968 ∧
    ((flashed_gpt plan_29g_full 61071360 mbr_fresh_full upper_stale prng_seq
        crc32_calc).entries 11).name = gpt_name "emummc" ∧
    ((flashed_gpt plan_29g_full 61071360 mbr_fresh_full upper_stale prng_seq
        crc32_calc).entries 11).lba_start = 44163072 ∧
    ((flashed_gpt plan_29g_full 61071360 mbr_fresh_full upper_stale prng_seq
        crc32_calc).entries 12).name = gpt_name "emummc2" ∧
    ((flashed_gpt plan_29g_full 61071360 mbr_fresh_full upper_stale prng_seq
        crc32_calc).entries 12).lba_start = 52617216 ∧
    ((flashed_mbr plan_29g_full 61071360 mbr_fresh_full upper_stale prng_seq
        crc32_calc).partitions 1).start_sct = 44163072 ∧
    ((flashed_mbr plan_29g_full 61071360 mbr_fresh_full upper_stale prng_seq
        crc32_calc).partitions 2).start_sct = 52617216 ∧
    (List.range 4).map (mbr_of_bytes (sdmmc_storage_read card_fresh_zero 0)).partitions
      = (List.range 4).map mbr_fresh_full.partitions ∧
    (List.range 4).map (mbr_of_bytes (sdmmc_storage_read card_fresh_old 0)).partitions
      = (List.range 4).map mbr_fresh_full.partitions ∧
    card_fresh_zero (512 * 10608640 + 0x8000) = 0 ∧
    flashed_card plan_29g_full 61071360 card_fresh_zero upper_stale prng_seq crc32_calc
      (512 * 10608640 + 0x8000) = 0xFF ∧
    card_fresh_zero (512 * 33875968 + 0x8000) = 0 ∧
    flashed_card plan_29g_full 61071360 card_fresh_zero upper_stale prng_seq crc32_calc
      (512 * 33875968 + 0x8000) = 0xFF ∧
    flashed_card plan_29g_full 61071360 card_fresh_old upper_zero prng_seq crc32_calc
      (512 * 44163072) = 0xFF ∧
    flashed_card plan_29g_full 61071360 card_fresh_old upper_zero prng_seq crc32_calc
      (512 * 52617216) = 0xFF := by
  refine ⟨by decide!, by decide!, by decide!, by decide!, by decide!, by decide!, by decide!,
    by decide!, by decide!, by decide!, by decide!, by decide, by decide, by decide, by decide!, by decide,
    by decide!, by decide!, by decide!⟩

/-! ## Layout writer: the bootstrap area of the MBR -/

/-- The bootstrap area of the MBR that `_prepare_and_flash_mbr_gpt` writes, for every
plan. -/
theorem flashed_mbr_bootstrap (p : partition_ctxt_t) (sec_cnt : Nat) (dev_mbr : mbr_t)
    (upper : Nat → Nat) (prng : Nat → Nat → Nat) (crc : Nat → List Nat → Nat) :
    (flashed_mbr p sec_cnt dev_mbr upper prng crc).bootstrap
      = if le32 p.mbr_old.bootstrap 0x80 ≠ 0 then
          memcpy_at dev_mbr.bootstrap p.mbr_old.bootstrap 0x80 304
        else dev_mbr.bootstrap := by
  rw [flashed_mbr_eq]
  unfold flash_mbr_slots mbr_set_partition
  split_ifs <;> rfl

/-- C26 as amended: when the `u32` at bootstrap offset `0x80` of the old MBR
(`part_info.mbr_old`) is not zero, the MBR that `_prepare_and_flash_mbr_gpt` writes carries
the 304 bytes at bootstrap offset `0x80` of the old MBR; when that `u32` is zero, the whole
bootstrap is the one of the MBR read from the card at line 229, whatever the other 300
bytes of the old MBR hold; in both cases every bootstrap byte outside the 304 is the one
read from the card. -/
theorem C26_bootstrap_metadata (p : partition_ctxt_t) (sec_cnt : Nat) (dev_mbr : mbr_t)
    (upper : Nat → Nat) (prng : Nat → Nat → Nat) (crc : Nat → List Nat → Nat) :
    (le32 p.mbr_old.bootstrap 0x80 ≠ 0 → ∀ j, 0x80 ≤ j → j < 0x80 + 304 →
      (flashed_mbr p sec_cnt dev_mbr upper prng crc).bootstrap j = p.mbr_old.bootstrap j) ∧
    (le32 p.mbr_old.bootstrap 0x80 = 0 → ∀ j,
      (flashed_mbr p sec_cnt dev_mbr upper prng crc).bootstrap j = dev_mbr.bootstrap j) ∧
    (∀ j, j < 0x80 ∨ 0x80 + 304 ≤ j →
      (flashed_mbr p sec_cnt dev_mbr upper prng crc).bootstrap j = dev_mbr.bootstrap j) := by
  rw [flashed_mbr_bootstrap]
  refine ⟨fun h j h1 h2 => ?_, fun h j => ?_, fun j hj => ?_⟩
  · rw [if_pos h]
    show (if 0x80 ≤ j ∧ j < 0x80 + 304 then _ else _) = _
    rw [if_pos ⟨h1, h2⟩]
  · rw [if_neg (by simp [h])]
  · split_ifs
    · show (if 0x80 ≤ j ∧ j < 0x80 + 304 then _ else _) = _
      rw [if_neg (by omega)]
    · rfl

/-- C26 as amended, at concrete inputs: with an old MBR that holds `0x4E` in the 304 bytes
and `0x11` elsewhere, the MBR written has `0x4E` in the 304 bytes and the (zero) bytes of
the card elsewhere; with an old MBR whose `u32` at offset `0x80` is zero, the MBR written
has the bootstrap of the card. -/
theorem C26_bootstrap_metadata_witness :
    (le32 plan_29g_and8_metadata.mbr_old.bootstrap 0x80 ≠ 0 ∧
      le32 plan_29g_and8_late.mbr_old.bootstrap 0x80 = 0) ∧
    (∀ j, 0x80 ≤ j → j < 0x80 + 304 →
      (flashed_mbr plan_29g_and8_metadata 61071360 mbr_fresh_29g upper_stale prng_seq
        crc32_calc).bootstrap j = plan_29g_and8_metadata.mbr_old.bootstrap j) ∧
    (∀ j, (flashed_mbr plan_29g_and8_late 61071360 mbr_fresh_29g upper_stale prng_seq
        crc32_calc).bootstrap j = mbr_fresh_29g.bootstrap j) ∧
    (∀ j, j < 0x80 ∨ 0x80 + 304 ≤ j →
      (flashed_mbr plan_29g_and8_metadata 61071360 mbr_fresh_29g upper_stale prng_seq
        crc32_calc).bootstrap j = mbr_fresh_29g.bootstrap j) :=
  ⟨⟨by decide, by decide⟩,
    (C26_bootstrap_metadata plan_29g_and8_metadata 61071360 mbr_fresh_29g upper_stale prng_seq
      crc32_calc).1 (by decide),
    (C26_bootstrap_metadata plan_29g_and8_late 61071360 mbr_fresh_29g upper_stale prng_seq
      crc32_calc).2.1 (by decide),
    (C26_bootstrap_metadata plan_29g_and8_metadata 61071360 mbr_fresh_29g upper_stale prng_seq
      crc32_calc).2.2⟩

/-- C26 as stated fails: the old MBR `mbr_old_late_metadata` holds `0x4E` at bootstrap
offset `0x84`, so its 304 bytes at offset `0x80` are not all zero, but the four bytes at
`0x80` are zero and nothing is copied: the MBR written holds at offset `0x84` the byte of
the card, zero, not `0x4E`. -/
theorem C26_bootstrap_metadata_counterexample :
    plan_29g_and8_late.mbr_old.bootstrap 0x84 = 0x4E ∧
    plan_29g_and8_late.mbr_old.bootstrap 0x84 ≠ 0 ∧
    le32 plan_29g_and8_late.mbr_old.bootstrap 0x80 = 0 ∧
    (flashed_mbr plan_29g_and8_late 61071360 mbr_fresh_29g upper_stale prng_seq
      crc32_calc).bootstrap 0x84 = 0 ∧
    (flashed_mbr plan_29g_and8_late 61071360 mbr_fresh_29g upper_stale prng_seq
      crc32_calc).bootstrap 0x84 ≠ plan_29g_and8_late.mbr_old.bootstrap 0x84 := by
  have h : (flashed_mbr plan_29g_and8_late 61071360 mbr_fresh_29g upper_stale prng_seq
      crc32_calc).bootstrap 0x84 = 0 := by
    rw [flashed_mbr_bootstrap, if_neg (by decide)]
    rfl
  refine ⟨by decide, by decide, by decide, h, ?_⟩
  rw [h]
  decide

/-! ## Layout writer: use of the entropy service -/

theorem random_number_length (prng : Nat → Nat → Nat) (k : Nat) :
    (random_number prng k).length = 16 := by
  simp [random_number]

theorem memcpy_list_random (prng : Nat → Nat → Nat) (k : Nat) :
    memcpy_list (List.replicate 16 0) (random_number prng k) 16 = random_number prng k := by
  unfold memcpy_list
  rw [List.take_of_length_le (by rw [random_number_length]),
    List.drop_of_length_le (by simp), List.append_nil]

theorem flashed_mbr_signature (p : partition_ctxt_t) (sec_cnt : Nat) (dev_mbr : mbr_t)
    (upper : Nat → Nat) (prng : Nat → Nat → Nat) (crc : Nat → List Nat → Nat) :
    (flashed_mbr p sec_cnt dev_mbr upper prng crc).signature
      = le32 (fun j => (random_number prng 0).getD j 0) 0 := by
  rw [flashed_mbr_eq]
  unfold flash_mbr_slots mbr_set_partition
  split_ifs <;> rfl

/-- The usable range and the disk GUID that lines 291-294 set stay as set up to the end of
the entries. -/
theorem flash_gpt_entries_header_range (p : partition_ctxt_t) (sec_cnt : Nat)
    (prng : Nat → Nat → Nat) (st : flash_state) :
    (flash_gpt_entries p sec_cnt prng st).gpt.header.first_use_lba
      = (sizeof_mbr_t + sizeof_gpt_t) / 512 ∧
    (flash_gpt_entries p sec_cnt prng st).gpt.header.last_use_lba
      = u32_sub (u32_sub sec_cnt 0x800) 1 ∧
    (flash_gpt_entries p sec_cnt prng st).gpt.header.disk_guid
      = memcpy_list st.gpt.header.disk_guid
          ((random_number prng st.prng_calls).take 10 ++ ascii "NYXGPT") 16 := by
  unfold flash_gpt_entries flash_gpt_emummc flash_gpt_android flash_gpt_l4t
  split_ifs <;> exact ⟨rfl, rfl, rfl⟩

/-- The usable range and the disk GUID of the header of the GPT that
`_prepare_and_flash_mbr_gpt` builds. -/
theorem flashed_gpt_header_range (p : partition_ctxt_t) (sec_cnt : Nat) (dev_mbr : mbr_t)
    (upper : Nat → Nat) (prng : Nat → Nat → Nat) (crc : Nat → List Nat → Nat)
    (hand : p.and_size ≠ 0) :
    (flashed_gpt p sec_cnt dev_mbr upper prng crc).header.first_use_lba = 34 ∧
    (flashed_gpt p sec_cnt dev_mbr upper prng crc).header.last_use_lba
      = u32_sub (u32_sub sec_cnt 0x800) 1 ∧
    (flashed_gpt p sec_cnt dev_mbr upper prng crc).header.disk_guid
      = (random_number prng 1).take 10 ++ ascii "NYXGPT" := by
  obtain ⟨hg0, hc0, -⟩ := flash_mbr_slots_gpt p dev_mbr upper prng
  obtain ⟨h1, h2, h3⟩ :=
    flash_gpt_entries_header_range p sec_cnt prng (flash_mbr_slots p dev_mbr upper prng)
  rw [hg0, hc0] at h3
  unfold flashed_gpt flash_state_final
  rw [if_pos hand]
  obtain ⟨-, -, f3, -, -⟩ := flash_gpt_finish_fields sec_cnt crc
    (flash_gpt_entries p sec_cnt prng (flash_mbr_slots p dev_mbr upper prng))
  rw [f3]
  refine ⟨h1, h2, ?_⟩
  show (flash_gpt_entries p sec_cnt prng
    (flash_mbr_slots p dev_mbr upper prng)).gpt.header.disk_guid = _
  rw [h3]
  unfold memcpy_list
  have hl : ((random_number prng 1).take 10 ++ ascii "NYXGPT").length = 16 := by
    rw [List.length_append, List.length_take, random_number_length]
    rfl
  rw [List.take_of_length_le (by rw [hl]), List.drop_of_length_le (by
    show (List.replicate 16 0).length ≤ 16
    simp), List.append_nil]

theorem gpt_layout_expected_length (p : partition_ctxt_t) :
    (gpt_layout_expected p).length = (l4t_rows p ++ android_rows p).length + emu_count p + 1 := by
  unfold gpt_layout_expected l4t_rows android_rows emu_count
  split_ifs <;> rfl

/-- The unique GUID of each entry of the GPT that `_prepare_and_flash_mbr_gpt` builds, for
a plan of the planner with Android. -/
theorem flashed_gpt_part_guids (p : partition_ctxt_t) (sec_cnt : Nat) (dev_mbr : mbr_t)
    (upper : Nat → Nat) (prng : Nat → Nat → Nat) (crc : Nat → List Nat → Nat)
    (hp : planner_inv p) (hand : p.and_size ≠ 0) :
    ((flashed_gpt p sec_cnt dev_mbr upper prng crc).entries 0).part_guid
      = (random_number prng 2).set 7 0 ∧
    (∀ i, 1 ≤ i → i < (gpt_layout_expected p).length →
      ((flashed_gpt p sec_cnt dev_mbr upper prng crc).entries i).part_guid
        = random_number prng (i + 2)) := by
  obtain ⟨c0, c1, c2, c3, -⟩ :=
    flashed_gpt_entries_of_plan p sec_cnt dev_mbr upper prng crc hp hand
  refine ⟨?_, ?_⟩
  · rw [c0]
    show (memcpy_list (List.replicate 16 0) (random_number prng 2) 16).set 7 0 = _
    rw [memcpy_list_random]
  · intro i h1 h2
    rw [gpt_layout_expected_length] at h2
    by_cases hi : i - 1 < (l4t_rows p ++ android_rows p).length
    · have e : i = (i - 1) + 1 := by omega
      have e2 : i + 2 = (i - 1) + 3 := by omega
      rw [e2]
      rw [e, c1 (i - 1) hi]
      show memcpy_list (List.replicate 16 0) (random_number prng (i - 1 + 3)) 16 = _
      rw [memcpy_list_random]
      simp
    · have he0 : p.emu_size ≠ 0 := by
        intro h0
        simp only [emu_count, h0, ne_eq, not_true_eq_false, if_false] at h2
        omega
      by_cases hi2 : i = (l4t_rows p ++ android_rows p).length + 1
      · rw [hi2, c2 he0]
        show memcpy_list (List.replicate 16 0) (random_number prng _) 16 = _
        rw [memcpy_list_random]
      · have hd : p.emu_double = true := by
          cases hd : p.emu_double
          · simp only [emu_count, he0, hd, ne_eq, not_false_eq_true, if_true,
              Bool.false_eq_true, if_false] at h2
            omega
          · rfl
        have hi3 : i = (l4t_rows p ++ android_rows p).length + 2 := by
          simp only [emu_count, he0, hd, ne_eq, not_false_eq_true, if_true] at h2
          omega
        rw [hi3, c3 he0 hd]
        show memcpy_list (List.replicate 16 0) (random_number prng _) 16 = _
        rw [memcpy_list_random]

/-- C27 as amended: for a plan of the planner with `and_size != 0`, each structure takes
its random bytes from its own `se_gen_prng128` call, call 0 for the MBR disk signature,
call 1 for the GPT disk GUID and call `i + 2` for the unique GUID of GPT entry `i`. The
disk signature is bytes 0-3 of its call (little endian) and the unique GUID of every entry
after `hos_data` is the 16 bytes of its call; the disk GUID is the first 10 bytes of its
call followed by the 6 bytes `NYXGPT`, and the unique GUID of `hos_data` (entry 0) is the
16 bytes of its call with byte 7 set to zero. -/
theorem C27_entropy_per_structure (p : partition_ctxt_t) (sec_cnt : Nat) (dev_mbr : mbr_t)
    (upper : Nat → Nat) (prng : Nat → Nat → Nat) (crc : Nat → List Nat → Nat)
    (hp : planner_inv p) (hand : p.and_size ≠ 0) :
    (flashed_mbr p sec_cnt dev_mbr upper prng crc).signature
      = le32 (fun j => (random_number prng 0).getD j 0) 0 ∧
    (flashed_gpt p sec_cnt dev_mbr upper prng crc).header.disk_guid
      = (random_number prng 1).take 10 ++ ascii "NYXGPT" ∧
    ((flashed_gpt p sec_cnt dev_mbr upper prng crc).entries 0).part_guid
      = (random_number prng 2).set 7 0 ∧
    (∀ i, 1 ≤ i → i < (gpt_layout_expected p).length →
      ((flashed_gpt p sec_cnt dev_mbr upper prng crc).entries i).part_guid
        = random_number prng (i + 2)) :=
  ⟨flashed_mbr_signature p sec_cnt dev_mbr upper prng crc,
    (flashed_gpt_header_range p sec_cnt dev_mbr upper prng crc hand).2.2,
    (flashed_gpt_part_guids p sec_cnt dev_mbr upper prng crc hp hand).1,
    (flashed_gpt_part_guids p sec_cnt dev_mbr upper prng crc hp hand).2⟩

/-- C27 as amended, at a concrete input: two emuMMC, 8 GiB of Linux and 8 GiB of Android on
a 29 GiB card (13 entries), with the entropy source `prng_seq`; entry 12 (`emummc2`) has
the 16 bytes of call 14. -/
theorem C27_entropy_per_structure_witness :
    (planner_inv plan_29g_full ∧ plan_29g_full.and_size ≠ 0) ∧
    (flashed_mbr plan_29g_full 61071360 mbr_fresh_full upper_stale prng_seq
        crc32_calc).signature = le32 (fun j => (random_number prng_seq 0).getD j 0) 0 ∧
    (flashed_gpt plan_29g_full 61071360 mbr_fresh_full upper_stale prng_seq
        crc32_calc).header.disk_guid = (random_number prng_seq 1).take 10 ++ ascii "NYXGPT" ∧
    ((flashed_gpt plan_29g_full 61071360 mbr_fresh_full upper_stale prng_seq
        crc32_calc).entries 0).part_guid = (random_number prng_seq 2).set 7 0 ∧
    ((flashed_gpt plan_29g_full 61071360 mbr_fresh_full upper_stale prng_seq
        crc32_calc).entries 12).part_guid = random_number prng_seq (12 + 2) :=
  have h := C27_entropy_per_structure plan_29g_full 61071360 mbr_fresh_full upper_stale
    prng_seq crc32_calc (by decide) (by decide)
  ⟨⟨by decide, by decide⟩, h.1, h.2.1, h.2.2.1, h.2.2.2 12 (by decide) (by decide)⟩

/-- C27 as stated fails: for the same plan and entropy source, call 1 returns the bytes
16 .. 31 and the disk GUID is 16 .. 25 followed by `NYXGPT`; call 2 returns the bytes
32 .. 47 and the unique GUID of entry 0 has zero in place of 39 at byte 7. Neither is the
16 leading bytes of its call. -/
theorem C27_entropy_per_structure_counterexample :
    planner_inv plan_29g_full ∧ plan_29g_full.and_size ≠ 0 ∧
    random_number prng_seq 1 = [16, 17, 18, 19, 20, 21, 22, 23, 24, 25, 26, 27, 28, 29, 30, 31] ∧
    (flashed_gpt plan_29g_full 61071360 mbr_fresh_full upper_stale prng_seq
        crc32_calc).header.disk_guid
      = [16, 17, 18, 19, 20, 21, 22, 23, 24, 25, 78, 89, 88, 71, 80, 84] ∧
    (flashed_gpt plan_29g_full 61071360 mbr_fresh_full upper_stale prng_seq
        crc32_calc).header.disk_guid ≠ random_number prng_seq 1 ∧
    random_number prng_seq 2 = [32, 33, 34, 35, 36, 37, 38, 39, 40, 41, 42, 43, 44, 45, 46, 47] ∧
    ((flashed_gpt plan_29g_full 61071360 mbr_fresh_full upper_stale prng_seq
        crc32_calc).entries 0).part_guid
      = [32, 33, 34, 35, 36, 37, 38, 0, 40, 41, 42, 43, 44, 45, 46, 47] ∧
    ((flashed_gpt plan_29g_full 61071360 mbr_fresh_full upper_stale prng_seq
        crc32_calc).entries 0).part_guid ≠ random_number prng_seq 2 := by
  have hinv : planner_inv plan_29g_full := by decide
  have hand : plan_29g_full.and_size ≠ 0 := by decide
  have hd := (flashed_gpt_header_range plan_29g_full 61071360 mbr_fresh_full upper_stale
    prng_seq crc32_calc hand).2.2
  have h0 := (flashed_gpt_part_guids plan_29g_full 61071360 mbr_fresh_full upper_stale
    prng_seq crc32_calc hinv hand).1
  refine ⟨hinv, hand, by decide, ?_, ?_, by decide, ?_, ?_⟩
  · rw [hd]; decide
  · rw [hd]; decide
  · rw [h0]; decide
  · rw [h0]; decide

/-! ## Hybrid MBR repair -/

theorem fix_mbr_set_part_idx (pt : Nat) (ex : Bool) (st : fix_mbr_state) (part : emmc_part_t) :
    (fix_mbr_set_part pt ex st part).mbr_idx
      = if strcmp_eq part.name "emummc" ∨ strcmp_eq part.name "emummc2" then st.mbr_idx + 1
        else st.mbr_idx := by
  unfold fix_mbr_set_part
  simp only []
  split_ifs <;> rfl

theorem fix_mbr_set_part_found (pt : Nat) (ex : Bool) (st : fix_mbr_state) (part : emmc_part_t) :
    (fix_mbr_set_part pt ex st part).found_hos_data
      = if pt = 0 ∧ st.found_hos_data = false ∧ strcmp_eq part.name "hos_data" then true
        else st.found_hos_data := by
  unfold fix_mbr_set_part
  simp only []
  split_ifs <;> rfl

/-- One pass of the loop writes slot 0 and the slot at `mbr_idx` at most. -/
theorem fix_mbr_set_part_frame (pt : Nat) (ex : Bool) (st : fix_mbr_state) (part : emmc_part_t)
    (i : Nat) (h0 : i ≠ 0) (hi : i ≠ st.mbr_idx) :
    (fix_mbr_set_part pt ex st part).mbr.partitions i = st.mbr.partitions i := by
  unfold fix_mbr_set_part fix_mbr_set_slot mbr_set_partition
  simp only []
  split_ifs <;> simp [Function.update_apply, h0, hi]

/-- One pass of the loop leaves every slot from the new `mbr_idx` on untouched. -/
theorem fix_mbr_set_part_frame_above (pt : Nat) (ex : Bool) (st : fix_mbr_state)
    (part : emmc_part_t) (i : Nat) (h0 : i ≠ 0)
    (hi : (fix_mbr_set_part pt ex st part).mbr_idx ≤ i) :
    (fix_mbr_set_part pt ex st part).mbr.partitions i = st.mbr.partitions i := by
  have hidx := fix_mbr_set_part_idx pt ex st part
  by_cases he : strcmp_eq part.name "emummc" ∨ strcmp_eq part.name "emummc2"
  · rw [if_pos he] at hidx
    exact fix_mbr_set_part_frame pt ex st part i h0 (by omega)
  · unfold fix_mbr_set_part fix_mbr_set_slot mbr_set_partition
    simp only []
    rw [if_neg he]
    split_ifs <;> simp [Function.update_apply, h0]

/-- The slot an emuMMC pass writes. -/
theorem fix_mbr_set_part_slot (pt : Nat) (ex : Bool) (st : fix_mbr_state) (part : emmc_part_t)
    (he : strcmp_eq part.name "emummc" ∨ strcmp_eq part.name "emummc2") :
    mbr_slot_fields ((fix_mbr_set_part pt ex st part).mbr.partitions st.mbr_idx)
      = (0xE0, u32 part.lba_start,
          to_u32 ((part.lba_end : Int) - (part.lba_start : Int) + 1)) := by
  unfold fix_mbr_set_part fix_mbr_set_slot mbr_set_partition mbr_slot_fields
  simp only []
  rw [if_pos he]
  split_ifs <;> simp [Function.update_apply]

/-- The loop leaves `mbr_idx` between its value on entry and 3. -/
theorem fix_mbr_set_parts_idx (pt : Nat) (ex : Bool) (parts : List emmc_part_t)
    (st : fix_mbr_state) (h : st.mbr_idx ≤ 2) :
    st.mbr_idx ≤ (fix_mbr_set_parts pt ex parts st).mbr_idx ∧
    (fix_mbr_set_parts pt ex parts st).mbr_idx ≤ 3 := by
  induction parts generalizing st with
  | nil => exact ⟨Nat.le_refl _, by unfold fix_mbr_set_parts; omega⟩
  | cons part rest ih =>
    have hidx := fix_mbr_set_part_idx pt ex st part
    unfold fix_mbr_set_parts
    simp only []
    split_ifs with h3
    · split_ifs at hidx <;> omega
    · have := ih (fix_mbr_set_part pt ex st part) (by omega)
      split_ifs at hidx <;> omega

/-- The loop leaves every slot from `mbr_idx` on, as it is after the loop, untouched. -/
theorem fix_mbr_set_parts_frame (pt : Nat) (ex : Bool) (parts : List emmc_part_t)
    (st : fix_mbr_state) (h1 : 1 ≤ st.mbr_idx) (h : st.mbr_idx ≤ 2) (i : Nat)
    (hi : (fix_mbr_set_parts pt ex parts st).mbr_idx ≤ i) :
    (fix_mbr_set_parts pt ex parts st).mbr.partitions i = st.mbr.partitions i := by
  induction parts generalizing st with
  | nil => rfl
  | cons part rest ih =>
    have hidx := fix_mbr_set_part_idx pt ex st part
    unfold fix_mbr_set_parts at hi ⊢
    simp only [] at hi ⊢
    split_ifs at hi ⊢ with h3
    · exact fix_mbr_set_part_frame_above pt ex st part i (by split_ifs at hidx <;> omega) hi
    · have hle := (fix_mbr_set_parts_idx pt ex rest (fix_mbr_set_part pt ex st part)
        (by omega)).1
      rw [ih (fix_mbr_set_part pt ex st part) (by split_ifs at hidx <;> omega) (by omega) hi]
      exact fix_mbr_set_part_frame_above pt ex st part i (by split_ifs at hidx <;> omega)
        (by omega)

/-- The slots the loop fills, from 1 to below `mbr_idx`, and `mbr_idx` itself do not depend
on the MBR the loop starts from. -/
theorem fix_mbr_set_parts_from_gpt (pt : Nat) (ex : Bool) (parts : List emmc_part_t)
    (st1 st2 : fix_mbr_state) (h1 : 1 ≤ st1.mbr_idx) (hidx : st1.mbr_idx = st2.mbr_idx)
    (hslots : ∀ i, 1 ≤ i → i < st1.mbr_idx →
      mbr_slot_fields (st1.mbr.partitions i) = mbr_slot_fields (st2.mbr.partitions i)) :
    (fix_mbr_set_parts pt ex parts st1).mbr_idx = (fix_mbr_set_parts pt ex parts st2).mbr_idx ∧
    ∀ i, 1 ≤ i → i < (fix_mbr_set_parts pt ex parts st1).mbr_idx →
      mbr_slot_fields ((fix_mbr_set_parts pt ex parts st1).mbr.partitions i)
        = mbr_slot_fields ((fix_mbr_set_parts pt ex parts st2).mbr.partitions i) := by
  induction parts generalizing st1 st2 with
  | nil => exact ⟨hidx, hslots⟩
  | cons part rest ih =>
    have hi1 := fix_mbr_set_part_idx pt ex st1 part
    have hi2 := fix_mbr_set_part_idx pt ex st2 part
    have hstep : ∀ i, 1 ≤ i → i < (fix_mbr_set_part pt ex st1 part).mbr_idx →
        mbr_slot_fields ((fix_mbr_set_part pt ex st1 part).mbr.partitions i)
          = mbr_slot_fields ((fix_mbr_set_part pt ex st2 part).mbr.partitions i) := by
      intro i hi hlt
      by_cases hlt1 : i < st1.mbr_idx
      · rw [fix_mbr_set_part_frame pt ex st1 part i (by omega) (by omega),
          fix_mbr_set_part_frame pt ex st2 part i (by omega) (by omega)]
        exact hslots i hi hlt1
      · by_cases he : strcmp_eq part.name "emummc" ∨ strcmp_eq part.name "emummc2"
        · rw [if_pos he] at hi1
          have hii : i = st1.mbr_idx := by omega
          rw [hii, fix_mbr_set_part_slot pt ex st1 part he, hidx,
            fix_mbr_set_part_slot pt ex st2 part he]
        · rw [if_neg he] at hi1
          omega
    have hidx2 : (fix_mbr_set_part pt ex st1 part).mbr_idx
        = (fix_mbr_set_part pt ex st2 part).mbr_idx := by
      rw [hi1, hi2, hidx]
    unfold fix_mbr_set_parts
    simp only []
    rw [← hidx2]
    split_ifs with h3
    · exact ⟨hidx2, hstep⟩
    · exact ih _ _ (by split_ifs at hi1 <;> omega) hidx2 hstep

/-- The slots the loop fills, from 1 to below `mbr_idx`, have type `0xE0`. -/
theorem fix_mbr_set_parts_types (pt : Nat) (ex : Bool) (parts : List emmc_part_t)
    (st : fix_mbr_state) (h1 : 1 ≤ st.mbr_idx)
    (hslots : ∀ i, 1 ≤ i → i < st.mbr_idx → (st.mbr.partitions i).type = 0xE0) :
    ∀ i, 1 ≤ i → i < (fix_mbr_set_parts pt ex parts st).mbr_idx →
      ((fix_mbr_set_parts pt ex parts st).mbr.partitions i).type = 0xE0 := by
  induction parts generalizing st with
  | nil => exact hslots
  | cons part rest ih =>
    have hi1 := fix_mbr_set_part_idx pt ex st part
    have hstep : ∀ i, 1 ≤ i → i < (fix_mbr_set_part pt ex st part).mbr_idx →
        ((fix_mbr_set_part pt ex st part).mbr.partitions i).type = 0xE0 := by
      intro i hi hlt
      by_cases hlt1 : i < st.mbr_idx
      · rw [fix_mbr_set_part_frame pt ex st part i (by omega) (by omega)]
        exact hslots i hi hlt1
      · by_cases he : strcmp_eq part.name "emummc" ∨ strcmp_eq part.name "emummc2"
        · rw [if_pos he] at hi1
          have hii : i = st.mbr_idx := by omega
          have := fix_mbr_set_part_slot pt ex st part he
          rw [hii]
          exact congrArg Prod.fst this
        · rw [if_neg he] at hi1
          omega
    unfold fix_mbr_set_parts
    simp only []
    split_ifs with h3
    · exact hstep
    · exact ih _ (by split_ifs at hi1 <;> omega) hstep

/-- What lines 2068-2131 of `_action_fix_mbr` regenerate, for two old MBRs and the same
GPT: the same `mbr_idx`, at most 3; the same slots of type `0xE0` from 1 to below
`mbr_idx`; the protective entry in slot `mbr_idx`; and every later slot as in the old
MBR. -/
theorem fix_mbr_regenerate_spec (pt : Nat) (ex : Bool) (sec_cnt : Nat) (m1 m2 : mbr_t)
    (gpt : gpt_t) :
    (fix_mbr_regenerate pt ex sec_cnt m1 gpt).mbr_idx
      = (fix_mbr_regenerate pt ex sec_cnt m2 gpt).mbr_idx ∧
    1 ≤ (fix_mbr_regenerate pt ex sec_cnt m1 gpt).mbr_idx ∧
    (fix_mbr_regenerate pt ex sec_cnt m1 gpt).mbr_idx ≤ 3 ∧
    (∀ i, 1 ≤ i → i < (fix_mbr_regenerate pt ex sec_cnt m1 gpt).mbr_idx →
      ((fix_mbr_regenerate pt ex sec_cnt m1 gpt).mbr.partitions i).type = 0xE0 ∧
      mbr_slot_fields ((fix_mbr_regenerate pt ex sec_cnt m1 gpt).mbr.partitions i)
        = mbr_slot_fields ((fix_mbr_regenerate pt ex sec_cnt m2 gpt).mbr.partitions i)) ∧
    mbr_slot_fields ((fix_mbr_regenerate pt ex sec_cnt m1 gpt).mbr.partitions
        (fix_mbr_regenerate pt ex sec_cnt m1 gpt).mbr_idx) = (0xEE, 1, u32_sub sec_cnt 1) ∧
    (∀ i, (fix_mbr_regenerate pt ex sec_cnt m1 gpt).mbr_idx < i →
      (fix_mbr_regenerate pt ex sec_cnt m1 gpt).mbr.partitions i = m1.partitions i) := by
  obtain ⟨hlo, hhi⟩ := fix_mbr_set_parts_idx pt ex (fix_mbr_parse gpt)
    { mbr := m1, mbr_idx := 1, found_hos_data := false } (show 1 ≤ 2 by decide)
  obtain ⟨hidx, hsame⟩ := fix_mbr_set_parts_from_gpt pt ex (fix_mbr_parse gpt)
    { mbr := m1, mbr_idx := 1, found_hos_data := false }
    { mbr := m2, mbr_idx := 1, found_hos_data := false } (Nat.le_refl 1) rfl
    (fun i h1 h2 => absurd h2 (Nat.not_lt.mpr h1))
  have htype := fix_mbr_set_parts_types pt ex (fix_mbr_parse gpt)
    { mbr := m1, mbr_idx := 1, found_hos_data := false } (Nat.le_refl 1)
    (fun i h1 h2 => absurd h2 (Nat.not_lt.mpr h1))
  have hframe := fix_mbr_set_parts_frame pt ex (fix_mbr_parse gpt)
    { mbr := m1, mbr_idx := 1, found_hos_data := false } (Nat.le_refl 1)
    (show 1 ≤ 2 by decide)
  simp only [fix_mbr_regenerate, mbr_set_partition]
  generalize fix_mbr_set_parts pt ex (fix_mbr_parse gpt)
    { mbr := m1, mbr_idx := 1, found_hos_data := false } = r1 at *
  generalize fix_mbr_set_parts pt ex (fix_mbr_parse gpt)
    { mbr := m2, mbr_idx := 1, found_hos_data := false } = r2 at *
  have hlo1 : 1 ≤ r1.mbr_idx := hlo
  refine ⟨hidx, hlo1, hhi, ?_, ?_, ?_⟩
  · intro i h1 h2
    rw [Function.update_noteq (by omega), Function.update_noteq (by omega)]
    exact ⟨htype i h1 h2, hsame i h1 h2⟩
  · rw [Function.update_same]
    rfl
  · intro i hi
    rw [Function.update_noteq (by omega)]
    exact hframe i (by omega)

/-- C23, the code at a failing input. For every GPT and any two old MBRs, lines 2068-2131
of `_action_fix_mbr` regenerate the same slots from 1 up to the protective entry (the
emuMMC entries found, type `0xE0`, then type `0xEE` with start 1 and size `sec_cnt - 1`, at
an index of 3 at most), but every slot after the protective entry is the slot of the old
MBR, of which the new MBR starts as a copy. Two 29 GiB cards with the same valid GPT
(`hos_data` and one `emummc`): on the card whose old MBR has empty slots 1-3 the proposed
slots 1-3 are `emummc`, the protective entry, and an empty slot; on the card whose old MBR
held `emummc`, `emummc2` and the protective entry, the proposed slots 1-3 are `emummc`, the
protective entry, and the old protective entry once more. The proposed slots 3 differ. -/
theorem C23_slots_after_protective_kept (pt : Nat) (ex : Bool) (sec_cnt : Nat) (m1 m2 : mbr_t)
    (gpt : gpt_t) :
    ((fix_mbr_regenerate pt ex sec_cnt m1 gpt).mbr_idx
        = (fix_mbr_regenerate pt ex sec_cnt m2 gpt).mbr_idx ∧
      1 ≤ (fix_mbr_regenerate pt ex sec_cnt m1 gpt).mbr_idx ∧
      (fix_mbr_regenerate pt ex sec_cnt m1 gpt).mbr_idx ≤ 3 ∧
      (∀ i, 1 ≤ i → i < (fix_mbr_regenerate pt ex sec_cnt m1 gpt).mbr_idx →
        ((fix_mbr_regenerate pt ex sec_cnt m1 gpt).mbr.partitions i).type = 0xE0 ∧
        mbr_slot_fields ((fix_mbr_regenerate pt ex sec_cnt m1 gpt).mbr.partitions i)
          = mbr_slot_fields ((fix_mbr_regenerate pt ex sec_cnt m2 gpt).mbr.partitions i)) ∧
      mbr_slot_fields ((fix_mbr_regenerate pt ex sec_cnt m1 gpt).mbr.partitions
          (fix_mbr_regenerate pt ex sec_cnt m1 gpt).mbr_idx) = (0xEE, 1, u32_sub sec_cnt 1) ∧
      (∀ i, (fix_mbr_regenerate pt ex sec_cnt m1 gpt).mbr_idx < i →
        (fix_mbr_regenerate pt ex sec_cnt m1 gpt).mbr.partitions i = m1.partitions i)) ∧
    (∀ a, card_of_tables mbr_hybrid_none gpt_one_emummc (512 + a)
      = card_of_tables mbr_hybrid_two_emummc gpt_one_emummc (512 + a)) ∧
    (_action_fix_mbr true 0 false 61071360 (card_of_tables mbr_hybrid_none gpt_one_emummc)
      true).status = .written ∧
    (_action_fix_mbr true 0 false 61071360 (card_of_tables mbr_hybrid_two_emummc gpt_one_emummc)
      true).status = .written ∧
    [1, 2, 3].map (fun i => mbr_slot_fields ((_action_fix_mbr true 0 false 61071360
        (card_of_tables mbr_hybrid_none gpt_one_emummc) true).mbr_new.partitions i))
      = [(0xE0, 44163072, 16906240), (0xEE, 1, 61071359), (0, 0, 0)] ∧
    [1, 2, 3].map (fun i => mbr_slot_fields ((_action_fix_mbr true 0 false 61071360
        (card_of_tables mbr_hybrid_two_emummc gpt_one_emummc) true).mbr_new.partitions i))
      = [(0xE0, 44163072, 16906240), (0xEE, 1, 61071359), (0xEE, 1, 61071359)] ∧
    mbr_slot_fields ((_action_fix_mbr true 0 false 61071360
        (card_of_tables mbr_hybrid_none gpt_one_emummc) true).mbr_new.partitions 3)
      ≠ mbr_slot_fields ((_action_fix_mbr true 0 false 61071360
        (card_of_tables mbr_hybrid_two_emummc gpt_one_emummc) true).mbr_new.partitions 3) := by
  refine ⟨fix_mbr_regenerate_spec pt ex sec_cnt m1 m2 gpt, ?_, by decide!, by decide!,
    by decide!, by decide!, by decide!⟩
  intro a
  unfold card_of_tables
  rw [if_neg (by omega), if_neg (show ¬ 512 + a < 512 by omega)]

/-! ## Layout writer: the ranges of the GPT entries -/

/-- Ranges `s i .. e i` that follow one another without a gap, for `1 <= i < n`: a later
range starts after an earlier one ends, and all lie between `s 1` and `e (n - 1)`. -/
theorem ranges_in_a_row (s e : Nat → Nat) (n : Nat)
    (h1 : ∀ i, 1 ≤ i → i < n → s i ≤ e i)
    (h2 : ∀ i, 1 ≤ i → i + 1 < n → s (i + 1) = e i + 1) :
    (∀ i j, 1 ≤ i → i < j → j < n → e i < s j) ∧
    (∀ i, 1 ≤ i → i < n → s 1 ≤ s i ∧ e i ≤ e (n - 1)) := by
  have hlt : ∀ d i, 1 ≤ i → i + d + 1 < n → e i < s (i + d + 1) := by
    intro d
    induction d with
    | zero =>
      intro i hi hn
      rw [h2 i hi hn]
      omega
    | succ d ih =>
      intro i hi hn
      have a := ih i hi (by omega)
      have b := h1 (i + d + 1) (by omega) (by omega)
      have c := h2 (i + d + 1) (by omega) (by omega)
      have e1 : i + (d + 1) + 1 = i + d + 1 + 1 := by omega
      rw [e1, c]
      omega
  have hpair : ∀ i j, 1 ≤ i → i < j → j < n → e i < s j := by
    intro i j hi hij hj
    have e1 : j = i + (j - i - 1) + 1 := by omega
    rw [e1]
    exact hlt (j - i - 1) i hi (by omega)
  refine ⟨hpair, ?_⟩
  intro i hi hn
  constructor
  · by_cases h : i = 1
    · rw [h]
    · have a := hpair 1 i (Nat.le_refl 1) (by omega) hn
      have b := h1 1 (Nat.le_refl 1) (by omega)
      omega
  · by_cases h : i = n - 1
    · rw [h]
    · have a := hpair i (n - 1) hi (by omega) (by omega)
      have b := h1 (n - 1) (by omega) (by omega)
      omega

/-- The ranges of the GPT entries after `hos_data`, for a plan of the planner with Android:
each is not empty, each starts at the sector after the one before, the first starts at
`0x8000 + hos_size * 2048` and the last ends `0x800` sectors before
`0x8000 + (hos_size + l4t_size + and_size + emu_size) * 2048`. -/
theorem flashed_gpt_ranges (p : partition_ctxt_t) (sec_cnt : Nat) (dev_mbr : mbr_t)
    (upper : Nat → Nat) (prng : Nat → Nat → Nat) (crc : Nat → List Nat → Nat)
    (hp : planner_inv p) (hand : p.and_size ≠ 0) :
    (∀ i, 1 ≤ i → i < (gpt_layout_expected p).length →
      ((flashed_gpt p sec_cnt dev_mbr upper prng crc).entries i).lba_start
        ≤ ((flashed_gpt p sec_cnt dev_mbr upper prng crc).entries i).lba_end) ∧
    (∀ i, 1 ≤ i → i + 1 < (gpt_layout_expected p).length →
      ((flashed_gpt p sec_cnt dev_mbr upper prng crc).entries (i + 1)).lba_start
        = ((flashed_gpt p sec_cnt dev_mbr upper prng crc).entries i).lba_end + 1) ∧
    ((flashed_gpt p sec_cnt dev_mbr upper prng crc).entries 1).lba_start = gpt_first_lba p ∧
    ((flashed_gpt p sec_cnt dev_mbr upper prng crc).entries
        ((gpt_layout_expected p).length - 1)).lba_end + 0x800 + 1
      = gpt_first_lba p + (p.l4t_size + p.and_size + p.emu_size) * 2048 := by
  obtain ⟨c0, c1, c2, c3, c4⟩ :=
    flashed_gpt_entries_of_plan p sec_cnt dev_mbr upper prng crc hp hand
  obtain ⟨-, hfirst, hfit⟩ := gpt_first_lba_eq p hp
  obtain ⟨ht, hh, hs, he, hl, ha⟩ := hp
  have hu : and_user_size p
      = p.and_size * 2048 - 0x798000 - (if p.emu_size = 0 then 0x800 else 0) := by
    unfold and_user_size u32_sub u32 to_u32
    split_ifs <;> simp only [] <;> omega
  have hl4 : u32 (p.l4t_size * 2048) = p.l4t_size * 2048 := by unfold u32; omega
  generalize hes : (flashed_gpt p sec_cnt dev_mbr upper prng crc).entries = es at *
  by_cases hl0 : p.l4t_size = 0 <;> by_cases he0 : p.emu_size = 0 <;> cases hd : p.emu_double <;>
    simp only [he0, if_true, if_false] at hu <;>
    simp only [l4t_rows, android_rows, emu_count, gpt_layout_expected, hl0, he0, hd, hl4,
      ne_eq, not_true_eq_false, not_false_eq_true, if_true, if_false, List.nil_append,
      List.cons_append, List.append_nil, List.length_cons, List.length_nil,
      Bool.false_eq_true, forall_true_left, Nat.reduceAdd, Nat.zero_add, Nat.reduceSub]
      at c1 c2 c3 c4 ⊢
  all_goals
    refine ⟨?_, ?_, ?_, ?_⟩
    · intro i h1 h2
      interval_cases i <;>
        (try rw [c2]) <;> (try rw [c3]) <;>
        (try rw [c1 _ (by norm_num)]) <;>
        (try simp only [gpt_part_entry, gpt_emummc_entry,
          List.getD_cons_succ, List.getD_cons_zero, rows_start_cons_succ, rows_start_zero]) <;>
        omega
    · intro i h1 h2
      have h3 := Nat.lt_sub_of_add_lt h2
      simp only [Nat.reduceSub] at h3
      interval_cases i <;>
        (try rw [c2]) <;> (try rw [c3]) <;>
        (try rw [c1 _ (by norm_num)]) <;> (try rw [c1 _ (by norm_num)]) <;>
        (try simp only [gpt_part_entry, gpt_emummc_entry,
          List.getD_cons_succ, List.getD_cons_zero, rows_start_cons_succ, rows_start_zero]) <;>
        omega
    · rw [c1 0 (by norm_num)]
      simp only [gpt_part_entry, rows_start_zero]
    · try rw [c2]
      try rw [c3]
      try rw [c1 _ (by norm_num)]
      try simp only [gpt_part_entry, gpt_emummc_entry,
        List.getD_cons_succ, List.getD_cons_zero, rows_start_cons_succ, rows_start_zero]
      omega

/-- C29: for a plan of the planner with `and_size != 0` and `sec_cnt = total_sct`, the GPT
that `_prepare_and_flash_mbr_gpt` builds has `first_use_lba = 34` and
`last_use_lba = sec_cnt - 0x800 - 1`; every entry after `hos_data` has
`lba_start <= lba_end` and lies within `first_use_lba .. last_use_lba`; of two such entries
the earlier one ends before the later one starts; and the size of the userdata partition,
`and_size * 2048 - 0x798000` (less `0x800` without emuMMC), does not underflow. -/
theorem C29_gpt_entries_in_range (p : partition_ctxt_t) (sec_cnt : Nat) (dev_mbr : mbr_t)
    (upper : Nat → Nat) (prng : Nat → Nat → Nat) (crc : Nat → List Nat → Nat)
    (hp : planner_inv p) (hand : p.and_size ≠ 0) (hsec : sec_cnt = p.total_sct) :
    (flashed_gpt p sec_cnt dev_mbr upper prng crc).header.first_use_lba = 34 ∧
    (flashed_gpt p sec_cnt dev_mbr upper prng crc).header.last_use_lba + 0x800 + 1 = sec_cnt ∧
    (∀ i, 1 ≤ i → i < (gpt_layout_expected p).length →
      ((flashed_gpt p sec_cnt dev_mbr upper prng crc).entries i).lba_start
        ≤ ((flashed_gpt p sec_cnt dev_mbr upper prng crc).entries i).lba_end ∧
      (flashed_gpt p sec_cnt dev_mbr upper prng crc).header.first_use_lba
        ≤ ((flashed_gpt p sec_cnt dev_mbr upper prng crc).entries i).lba_start ∧
      ((flashed_gpt p sec_cnt dev_mbr upper prng crc).entries i).lba_end
        ≤ (flashed_gpt p sec_cnt dev_mbr upper prng crc).header.last_use_lba) ∧
    (∀ i j, 1 ≤ i → i < j → j < (gpt_layout_expected p).length →
      ((flashed_gpt p sec_cnt dev_mbr upper prng crc).entries i).lba_end
        < ((flashed_gpt p sec_cnt dev_mbr upper prng crc).entries j).lba_start) ∧
    0x798000 + (if p.emu_size = 0 then 0x800 else 0) < p.and_size * 2048 ∧
    and_user_size p
      = p.and_size * 2048 - 0x798000 - (if p.emu_size = 0 then 0x800 else 0) := by
  obtain ⟨r1, r2, r3, r4⟩ := flashed_gpt_ranges p sec_cnt dev_mbr upper prng crc hp hand
  obtain ⟨f1, f2, -⟩ := flashed_gpt_header_range p sec_cnt dev_mbr upper prng crc hand
  obtain ⟨q1, q2⟩ := ranges_in_a_row
    (fun i => ((flashed_gpt p sec_cnt dev_mbr upper prng crc).entries i).lba_start)
    (fun i => ((flashed_gpt p sec_cnt dev_mbr upper prng crc).entries i).lba_end)
    (gpt_layout_expected p).length r1 r2
  obtain ⟨-, hfirst, -⟩ := gpt_first_lba_eq p hp
  obtain ⟨ht, hh, hs, he, hl, ha⟩ := hp
  have hu : and_user_size p
      = p.and_size * 2048 - 0x798000 - (if p.emu_size = 0 then 0x800 else 0) := by
    unfold and_user_size u32_sub u32 to_u32
    split_ifs <;> simp only [] <;> omega
  have hlast : u32_sub (u32_sub sec_cnt 0x800) 1 + 0x800 + 1 = sec_cnt := by
    unfold u32_sub to_u32
    omega
  rw [f1, f2]
  refine ⟨rfl, hlast, ?_, q1, ?_, hu⟩
  · intro i h1 h2
    obtain ⟨a, b⟩ := q2 i h1 h2
    rw [r3] at a
    have c := r1 i h1 h2
    refine ⟨c, ?_, ?_⟩
    · have : 34 ≤ gpt_first_lba p := by unfold gpt_first_lba; omega
      omega
    · omega
  · split_ifs <;> omega

/-- C29 at a concrete input: two emuMMC, 8 GiB of Linux and 8 GiB of Android on a 29 GiB
card (13 entries); entry 12 (`emummc2`) ends within the usable range and starts after
entry 11 (`emummc`) ends. -/
theorem C29_gpt_entries_in_range_witness :
    (planner_inv plan_29g_full ∧ plan_29g_full.and_size ≠ 0 ∧
      61071360 = plan_29g_full.total_sct) ∧
    (flashed_gpt plan_29g_full 61071360 mbr_fresh_full upper_stale prng_seq
        crc32_calc).header.first_use_lba = 34 ∧
    (flashed_gpt plan_29g_full 61071360 mbr_fresh_full upper_stale prng_seq
        crc32_calc).header.last_use_lba + 0x800 + 1 = 61071360 ∧
    (((flashed_gpt plan_29g_full 61071360 mbr_fresh_full upper_stale prng_seq
          crc32_calc).entries 12).lba_start
        ≤ ((flashed_gpt plan_29g_full 61071360 mbr_fresh_full upper_stale prng_seq
          crc32_calc).entries 12).lba_end ∧
      (flashed_gpt plan_29g_full 61071360 mbr_fresh_full upper_stale prng_seq
          crc32_calc).header.first_use_lba
        ≤ ((flashed_gpt plan_29g_full 61071360 mbr_fresh_full upper_stale prng_seq
          crc32_calc).entries 12).lba_start ∧
      ((flashed_gpt plan_29g_full 61071360 mbr_fresh_full upper_stale prng_seq
          crc32_calc).entries 12).lba_end
        ≤ (flashed_gpt plan_29g_full 61071360 mbr_fresh_full upper_stale prng_seq
          crc32_calc).header.last_use_lba) ∧
    ((flashed_gpt plan_29g_full 61071360 mbr_fresh_full upper_stale prng_seq
        crc32_calc).entries 11).lba_end
      < ((flashed_gpt plan_29g_full 61071360 mbr_fresh_full upper_stale prng_seq
        crc32_calc).entries 12).lba_start ∧
    and_user_size plan_29g_full
      = plan_29g_full.and_size * 2048 - 0x798000
        - (if plan_29g_full.emu_size = 0 then 0x800 else 0) :=
  have h := C29_gpt_entries_in_range plan_29g_full 61071360 mbr_fresh_full upper_stale
    prng_seq crc32_calc (by decide) (by decide) rfl
  ⟨⟨by decide, by decide, rfl⟩, h.1, h.2.1, h.2.2.1 12 (by decide) (by decide),
    h.2.2.2.1 11 12 (by decide) (by decide) (by decide), h.2.2.2.2.2⟩

/-! ## Table indexes -/

/-- The slots of the MBR that `_prepare_and_flash_mbr_gpt` leaves as read, for every plan:
slot 0 and every index from 4 on. -/
theorem flashed_mbr_frame (p : partition_ctxt_t) (sec_cnt : Nat) (dev_mbr : mbr_t)
    (upper : Nat → Nat) (prng : Nat → Nat → Nat) (crc : Nat → List Nat → Nat) (i : Nat)
    (hi : i = 0 ∨ 4 ≤ i) :
    (flashed_mbr p sec_cnt dev_mbr upper prng crc).partitions i = dev_mbr.partitions i := by
  rw [flashed_mbr_eq]
  unfold flash_mbr_slots mbr_set_partition
  by_cases hl0 : p.l4t_size = 0 <;> by_cases ha0 : p.and_size = 0 <;>
    by_cases he0 : p.emu_size = 0 <;> cases hd : p.emu_double <;>
    simp [hl0, ha0, he0, hd, Function.update_apply] <;>
    (try split_ifs) <;> first | rfl | omega

theorem flash_gpt_part_frame (prng : Nat → Nat → Nat) (st : flash_state) (name : List Nat)
    (name_len size wipe : Nat) :
    (flash_gpt_part prng st name name_len size wipe).gpt_idx = st.gpt_idx + 1 ∧
    ∀ i, i ≠ st.gpt_idx →
      (flash_gpt_part prng st name name_len size wipe).gpt.entries i = st.gpt.entries i := by
  refine ⟨rfl, fun i hi => ?_⟩
  simp [flash_gpt_part, gpt_set_entry, Function.update_apply, hi]

/-- A run of partition blocks writes the entries from `gpt_idx` on, one per row. -/
theorem flash_gpt_rows_frame (prng : Nat → Nat → Nat) (rows : List gpt_part_row)
    (st : flash_state) :
    (flash_gpt_rows prng st rows).gpt_idx = st.gpt_idx + rows.length ∧
    ∀ i, st.gpt_idx + rows.length ≤ i →
      (flash_gpt_rows prng st rows).gpt.entries i = st.gpt.entries i := by
  induction rows generalizing st with
  | nil => exact ⟨rfl, fun i _ => rfl⟩
  | cons r rest ih =>
    rw [flash_gpt_rows_cons]
    obtain ⟨a, b⟩ := ih (flash_gpt_part prng st r.name r.name_len r.size r.wipe)
    obtain ⟨c, d⟩ := flash_gpt_part_frame prng st r.name r.name_len r.size r.wipe
    rw [c] at a b
    rw [List.length_cons]
    refine ⟨by omega, fun i hi => ?_⟩
    rw [b i (by omega), d i (by omega)]

theorem flash_gpt_emummc_frame (p : partition_ctxt_t) (prng : Nat → Nat → Nat)
    (st : flash_state) (i : Nat) (hi : st.gpt_idx + 2 ≤ i) :
    (flash_gpt_emummc p prng st).gpt.entries i = st.gpt.entries i := by
  have h1 : i ≠ st.gpt_idx := by omega
  have h2 : i ≠ st.gpt_idx + 1 := by omega
  unfold flash_gpt_emummc gpt_set_entry
  split_ifs <;> simp [Function.update_apply, h1, h2]

/-- The entries of the GPT that `_prepare_and_flash_mbr_gpt` leaves as allocated (zero), for
every plan: every index from 13 on. -/
theorem flashed_gpt_frame (p : partition_ctxt_t) (sec_cnt : Nat) (dev_mbr : mbr_t)
    (upper : Nat → Nat) (prng : Nat → Nat → Nat) (crc : Nat → List Nat → Nat) (i : Nat)
    (hi : 13 ≤ i) :
    (flashed_gpt p sec_cnt dev_mbr upper prng crc).entries i = gpt_entry_zero := by
  unfold flashed_gpt flash_state_final
  split_ifs with hand
  · obtain ⟨hg0, -, -⟩ := flash_mbr_slots_gpt p dev_mbr upper prng
    have hidx0 := flash_mbr_slots_mbr_idx_pos p dev_mbr upper prng
    generalize flash_mbr_slots p dev_mbr upper prng = st0 at hg0 hidx0
    have hhe := flash_gpt_head_entries p sec_cnt prng st0 hg0 hidx0
    obtain ⟨hhi, -, -, -, -⟩ := flash_gpt_head_fields p sec_cnt prng st0
    obtain ⟨ra, rb⟩ := flash_gpt_rows_frame prng (l4t_rows p ++ android_rows p)
      (flash_gpt_head p sec_cnt prng st0)
    have hlen : (l4t_rows p ++ android_rows p).length ≤ 10 := by
      unfold l4t_rows android_rows
      split_ifs <;> simp
    rw [hhi] at ra rb
    show (flash_gpt_finish sec_cnt crc (flash_gpt_entries p sec_cnt prng st0)).gpt.entries i = _
    rw [(flash_gpt_finish_fields sec_cnt crc _).1]
    unfold flash_gpt_entries
    rw [flash_gpt_l4t_android_eq_rows, flash_gpt_emummc_frame p prng _ i (by omega),
      rb i (by omega), hhe i, if_neg (by omega)]
  · rw [(flash_mbr_slots_gpt p dev_mbr upper prng).1]
    rfl

theorem l4t_gpt_scan_reads (g1 g2 : gpt_t) (hh : g1.header = g2.header)
    (he : ∀ i, i ≤ 127 → g1.entries i = g2.entries i) (fuel i : Nat) (hi : i ≤ 127) :
    l4t_gpt_scan g1 i fuel = l4t_gpt_scan g2 i fuel := by
  induction fuel generalizing i with
  | zero => rfl
  | succ f ih =>
    rw [l4t_gpt_scan_succ, l4t_gpt_scan_succ, hh, he i hi]
    split_ifs with h1 h2 h3
    · rfl
    · rfl
    · exact ih (i + 1) (by omega)
    · rfl

theorem android_gpt_scan_reads (g1 g2 : gpt_t) (hh : g1.header = g2.header)
    (he : ∀ i, i ≤ 127 → g1.entries i = g2.entries i) (fuel i : Nat) (hi : i ≤ 127) :
    android_gpt_scan g1 i fuel = android_gpt_scan g2 i fuel := by
  induction fuel generalizing i with
  | zero => rfl
  | succ f ih =>
    unfold android_gpt_scan
    rw [hh, he i hi]
    split_ifs with h1 h2 h3
    · rfl
    · rfl
    · exact ih (i + 1) (by omega)
    · rfl

/-- C30: table indexes stay in range. For every plan, `_prepare_and_flash_mbr_gpt` leaves
slot 0 of the MBR and every index from 4 on as read (it writes slots 1-3 only) and leaves
every GPT entry from index 13 on zero (it writes 13 entries at most). For every GPT and
every old MBR, `_action_fix_mbr` puts the protective entry at an index `mbr_idx <= 3` and
leaves every index from 4 on as in the old MBR. For every header, also with
`num_part_ents` above 128, the scans of `_get_available_l4t_partition` and
`_get_available_android_partition` have the same result on two GPTs that agree on the
header and on the entries 0 .. 127: they read no entry of a higher index. -/
theorem C30_table_indexes_in_range (p : partition_ctxt_t) (sec_cnt : Nat) (dev_mbr : mbr_t)
    (upper : Nat → Nat) (prng : Nat → Nat → Nat) (crc : Nat → List Nat → Nat)
    (pt : Nat) (ex : Bool) (mbr_old : mbr_t) (gpt g1 g2 : gpt_t) :
    (∀ i, i = 0 ∨ 4 ≤ i →
      (flashed_mbr p sec_cnt dev_mbr upper prng crc).partitions i = dev_mbr.partitions i) ∧
    (∀ i, 13 ≤ i → (flashed_gpt p sec_cnt dev_mbr upper prng crc).entries i = gpt_entry_zero) ∧
    (fix_mbr_regenerate pt ex sec_cnt mbr_old gpt).mbr_idx ≤ 3 ∧
    mbr_slot_fields ((fix_mbr_regenerate pt ex sec_cnt mbr_old gpt).mbr.partitions
        (fix_mbr_regenerate pt ex sec_cnt mbr_old gpt).mbr_idx) = (0xEE, 1, u32_sub sec_cnt 1) ∧
    (∀ i, 4 ≤ i →
      (fix_mbr_regenerate pt ex sec_cnt mbr_old gpt).mbr.partitions i = mbr_old.partitions i) ∧
    (g1.header = g2.header → (∀ i, i ≤ 127 → g1.entries i = g2.entries i) →
      l4t_partition_search dev_mbr g1 = l4t_partition_search dev_mbr g2 ∧
      android_partition_search g1 = android_partition_search g2) := by
  obtain ⟨-, -, h3, -, h5, h6⟩ := fix_mbr_regenerate_spec pt ex sec_cnt mbr_old mbr_old gpt
  refine ⟨fun i hi => flashed_mbr_frame p sec_cnt dev_mbr upper prng crc i hi,
    fun i hi => flashed_gpt_frame p sec_cnt dev_mbr upper prng crc i hi, h3, h5,
    fun i hi => h6 i (by omega), fun hh he => ⟨?_, ?_⟩⟩
  · unfold l4t_partition_search
    rw [l4t_gpt_scan_reads g1 g2 hh he 128 0 (by norm_num), hh]
  · unfold android_partition_search
    rw [android_gpt_scan_reads g1 g2 hh he 128 0 (by norm_num), hh]

/-! ## Hybrid MBR repair after the layout writer -/

theorem filterMap_range_tail {α : Type} (f : Nat → Option α) (K n : Nat) (hK : K ≤ n)
    (hnone : ∀ i, K ≤ i → i < n → f i = none) :
    (List.range n).filterMap f = (List.range K).filterMap f := by
  induction n with
  | zero =>
    have : K = 0 := by omega
    rw [this]
  | succ n ih =>
    by_cases h : K = n + 1
    · rw [h]
    · rw [List.range_succ, List.filterMap_append, ih (by omega)
        (fun i h1 h2 => hnone i h1 (by omega))]
      simp [hnone n (by omega) (by omega)]

theorem filterMap_range_succ_some {α : Type} (f : Nat → Option α) (n : Nat) (x : α)
    (h : f n = some x) :
    (List.range (n + 1)).filterMap f = (List.range n).filterMap f ++ [x] := by
  rw [List.range_succ, List.filterMap_append]
  simp [h]

/-- The test of line 2113 on a parsed entry. -/
theorem fix_mbr_set_part_skip (pt : Nat) (ex : Bool) (st : fix_mbr_state) (part : emmc_part_t)
    (he : ¬ (strcmp_eq part.name "emummc" ∨ strcmp_eq part.name "emummc2")) :
    (fix_mbr_set_part pt ex st part).mbr_idx = st.mbr_idx ∧
    ∀ i, i ≠ 0 → (fix_mbr_set_part pt ex st part).mbr.partitions i = st.mbr.partitions i := by
  have hidx := fix_mbr_set_part_idx pt ex st part
  rw [if_neg he] at hidx
  refine ⟨hidx, fun i h0 => ?_⟩
  unfold fix_mbr_set_part fix_mbr_set_slot mbr_set_partition
  simp only []
  rw [if_neg he]
  split_ifs <;> simp [Function.update_apply, h0]

/-- The loop over entries none of which is an emuMMC: `mbr_idx` and the slots after slot 0
stay as they are. -/
theorem fix_mbr_set_parts_skip (pt : Nat) (ex : Bool) (parts : List emmc_part_t)
    (st : fix_mbr_state) (h2 : st.mbr_idx ≤ 2)
    (he : ∀ part ∈ parts, ¬ (strcmp_eq part.name "emummc" ∨ strcmp_eq part.name "emummc2")) :
    (fix_mbr_set_parts pt ex parts st).mbr_idx = st.mbr_idx ∧
    ∀ i, i ≠ 0 → (fix_mbr_set_parts pt ex parts st).mbr.partitions i = st.mbr.partitions i := by
  induction parts generalizing st with
  | nil => exact ⟨rfl, fun i _ => rfl⟩
  | cons part rest ih =>
    obtain ⟨a, b⟩ := fix_mbr_set_part_skip pt ex st part (he part (List.mem_cons_self _ _))
    obtain ⟨c, d⟩ := ih (fix_mbr_set_part pt ex st part) (by omega)
      (fun q hq => he q (List.mem_cons_of_mem _ hq))
    unfold fix_mbr_set_parts
    simp only []
    rw [if_neg (by omega)]
    exact ⟨by omega, fun i h0 => by rw [d i h0, b i h0]⟩

theorem fix_mbr_set_parts_cons (pt : Nat) (ex : Bool) (part : emmc_part_t)
    (rest : List emmc_part_t) (st : fix_mbr_state) :
    fix_mbr_set_parts pt ex (part :: rest) st
      = if (fix_mbr_set_part pt ex st part).mbr_idx ≥ 3 then fix_mbr_set_part pt ex st part
        else fix_mbr_set_parts pt ex rest (fix_mbr_set_part pt ex st part) := rfl

/-- The loop over a list in two parts. -/
theorem fix_mbr_set_parts_append (pt : Nat) (ex : Bool) (p1 p2 : List emmc_part_t)
    (st : fix_mbr_state) (h2 : st.mbr_idx ≤ 2) :
    fix_mbr_set_parts pt ex (p1 ++ p2) st
      = if (fix_mbr_set_parts pt ex p1 st).mbr_idx ≥ 3 then fix_mbr_set_parts pt ex p1 st
        else fix_mbr_set_parts pt ex p2 (fix_mbr_set_parts pt ex p1 st) := by
  induction p1 generalizing st with
  | nil =>
    show fix_mbr_set_parts pt ex p2 st = if st.mbr_idx ≥ 3 then st else _
    rw [if_neg (by omega)]
    rfl
  | cons part rest ih =>
    rw [List.cons_append, fix_mbr_set_parts_cons, fix_mbr_set_parts_cons]
    by_cases h3 : (fix_mbr_set_part pt ex st part).mbr_idx ≥ 3
    · rw [if_pos h3, if_pos h3, if_pos h3]
    · rw [if_neg h3, if_neg h3]
      exact ih (fix_mbr_set_part pt ex st part) (by omega)

/-- The first usable LBA of the GPT header read back from sectors that hold the bytes of
`g`. -/
theorem gpt_of_bytes_first_use_lba (g : gpt_t) (b : Nat → Nat)
    (hb : ∀ j, j < 16896 → b j = g.byte j) :
    (gpt_of_bytes b).header.first_use_lba = g.header.first_use_lba % 18446744073709551616 := by
  show le64 b 40 = _
  apply le64_le_byte
  intro k hk
  rw [hb _ (by omega), gpt_byte_header g _ (by omega)]
  unfold gpt_header_t.byte
  have e : 40 + k - 40 = k := by omega
  iterate 7 rw [if_neg (by omega)]
  rw [if_pos (by omega), e]

theorem fix_mbr_changed_false_iff (a b : mbr_t) :
    fix_mbr_changed a b = false ↔
      mbr_slot_fields (a.partitions 1) = mbr_slot_fields (b.partitions 1) ∧
      mbr_slot_fields (a.partitions 2) = mbr_slot_fields (b.partitions 2) ∧
      mbr_slot_fields (a.partitions 3) = mbr_slot_fields (b.partitions 3) := by
  simp only [fix_mbr_changed, List.any_cons, List.any_nil, fix_mbr_slot_differs, mbr_slot_fields,
    Bool.or_false, Bool.or_eq_false_iff, bne_eq_false_iff_eq, Prod.mk.injEq, and_assoc]

/-- The state after the loop of lines 2093-2124 when the parsed list is a run of entries
that are no emuMMC followed by no, one or two emuMMC entries. -/
theorem fix_mbr_set_parts_of_parse (pt : Nat) (ex : Bool) (m0 : mbr_t)
    (H E : List emmc_part_t)
    (hH : ∀ part ∈ H, ¬ (strcmp_eq part.name "emummc" ∨ strcmp_eq part.name "emummc2"))
    (hE : ∀ part ∈ E, strcmp_eq part.name "emummc" ∨ strcmp_eq part.name "emummc2")
    (hlen : E.length ≤ 2) :
    (fix_mbr_set_parts pt ex (H ++ E)
      { mbr := m0, mbr_idx := 1, found_hos_data := false }).mbr_idx = E.length + 1 ∧
    (∀ k, k < E.length →
      mbr_slot_fields ((fix_mbr_set_parts pt ex (H ++ E)
          { mbr := m0, mbr_idx := 1, found_hos_data := false }).mbr.partitions (k + 1))
        = (0xE0, u32 (E.getD k ⟨0, 0, 0, []⟩).lba_start,
            to_u32 (((E.getD k ⟨0, 0, 0, []⟩).lba_end : Int)
              - ((E.getD k ⟨0, 0, 0, []⟩).lba_start : Int) + 1))) ∧
    (∀ i, E.length + 1 ≤ i →
      (fix_mbr_set_parts pt ex (H ++ E)
        { mbr := m0, mbr_idx := 1, found_hos_data := false }).mbr.partitions i
      = m0.partitions i) := by
  obtain ⟨a1, a2⟩ := fix_mbr_set_parts_skip pt ex H
    { mbr := m0, mbr_idx := 1, found_hos_data := false } (show 1 ≤ 2 by decide) hH
  have a1' : (fix_mbr_set_parts pt ex H
      { mbr := m0, mbr_idx := 1, found_hos_data := false }).mbr_idx = 1 := a1
  have a2' : ∀ i, i ≠ 0 → (fix_mbr_set_parts pt ex H
      { mbr := m0, mbr_idx := 1, found_hos_data := false }).mbr.partitions i
        = m0.partitions i := a2
  rw [fix_mbr_set_parts_append pt ex H E _ (show 1 ≤ 2 by decide), if_neg (by omega)]
  generalize fix_mbr_set_parts pt ex H
    { mbr := m0, mbr_idx := 1, found_hos_data := false } = r at a1' a2'
  match E, hE, hlen with
  | [], _, _ =>
    refine ⟨a1', fun k hk => absurd hk (Nat.not_lt_zero k), fun i hi => ?_⟩
    exact a2' i (by simp at hi; omega)
  | [e1], hE, _ =>
    have he1 := hE e1 (List.mem_cons_self _ _)
    have i1 := fix_mbr_set_part_idx pt ex r e1
    rw [if_pos he1, a1'] at i1
    have s1 := fix_mbr_set_part_slot pt ex r e1 he1
    rw [a1'] at s1
    have f1 := fix_mbr_set_part_frame pt ex r e1
    rw [a1'] at f1
    rw [fix_mbr_set_parts_cons, if_neg (by omega)]
    refine ⟨i1, ?_, ?_⟩
    · intro k hk
      have hk0 : k = 0 := by simp at hk; omega
      subst hk0
      exact s1
    · intro i hi
      simp only [List.length_singleton] at hi
      show (fix_mbr_set_part pt ex r e1).mbr.partitions i = _
      rw [f1 i (by omega) (by omega), a2' i (by omega)]
  | [e1, e2], hE, _ =>
    have he1 := hE e1 (List.mem_cons_self _ _)
    have he2 := hE e2 (List.mem_cons_of_mem _ (List.mem_cons_self _ _))
    have i1 := fix_mbr_set_part_idx pt ex r e1
    rw [if_pos he1, a1'] at i1
    have s1 := fix_mbr_set_part_slot pt ex r e1 he1
    rw [a1'] at s1
    have f1 := fix_mbr_set_part_frame pt ex r e1
    rw [a1'] at f1
    rw [fix_mbr_set_parts_cons, if_neg (by omega), fix_mbr_set_parts_cons]
    generalize fix_mbr_set_part pt ex r e1 = r1 at i1 s1 f1
    have i2 := fix_mbr_set_part_idx pt ex r1 e2
    rw [if_pos he2, i1] at i2
    have s2 := fix_mbr_set_part_slot pt ex r1 e2 he2
    rw [i1] at s2
    have f2 := fix_mbr_set_part_frame pt ex r1 e2
    rw [i1] at f2
    rw [if_pos (by omega)]
    generalize fix_mbr_set_part pt ex r1 e2 = r2 at i2 s2 f2
    refine ⟨i2, ?_, ?_⟩
    · intro k hk
      have hk01 : k = 0 ∨ k = 1 := by simp at hk; omega
      rcases hk01 with h | h
      · subst h
        rw [f2 1 (by omega) (by omega)]
        exact s1
      · subst h
        exact s2
    · intro i hi
      simp only [List.length_cons, List.length_nil] at hi
      rw [f2 i (by omega) (by omega), f1 i (by omega) (by omega), a2' i (by omega)]
  | _ :: _ :: _ :: _, _, hlen => exact absurd hlen (by simp)

/-- What lines 2090-2131 regenerate when the parsed list is a run of entries that are no
emuMMC followed by no, one or two emuMMC entries. -/
theorem fix_mbr_regenerate_of_parse (pt : Nat) (ex : Bool) (sec_cnt : Nat) (m0 : mbr_t)
    (gpt : gpt_t) (H E : List emmc_part_t) (hP : fix_mbr_parse gpt = H ++ E)
    (hH : ∀ part ∈ H, ¬ (strcmp_eq part.name "emummc" ∨ strcmp_eq part.name "emummc2"))
    (hE : ∀ part ∈ E, strcmp_eq part.name "emummc" ∨ strcmp_eq part.name "emummc2")
    (hlen : E.length ≤ 2) :
    (∀ k, k < E.length →
      mbr_slot_fields ((fix_mbr_regenerate pt ex sec_cnt m0 gpt).mbr.partitions (k + 1))
        = (0xE0, u32 (E.getD k ⟨0, 0, 0, []⟩).lba_start,
            to_u32 (((E.getD k ⟨0, 0, 0, []⟩).lba_end : Int)
              - ((E.getD k ⟨0, 0, 0, []⟩).lba_start : Int) + 1))) ∧
    mbr_slot_fields ((fix_mbr_regenerate pt ex sec_cnt m0 gpt).mbr.partitions (E.length + 1))
      = (0xEE, 1, u32_sub sec_cnt 1) ∧
    (∀ i, E.length + 1 < i →
      (fix_mbr_regenerate pt ex sec_cnt m0 gpt).mbr.partitions i = m0.partitions i) := by
  obtain ⟨b1, b2, b3⟩ := fix_mbr_set_parts_of_parse pt ex m0 H E hH hE hlen
  have hm : (fix_mbr_regenerate pt ex sec_cnt m0 gpt).mbr.partitions
      = Function.update (fix_mbr_set_parts pt ex (H ++ E)
          { mbr := m0, mbr_idx := 1, found_hos_data := false }).mbr.partitions (E.length + 1)
          { (fix_mbr_set_parts pt ex (H ++ E)
              { mbr := m0, mbr_idx := 1, found_hos_data := false }).mbr.partitions
                (E.length + 1) with
            type := 0xEE, start_sct := 1, size_sct := u32_sub sec_cnt 1 } := by
    unfold fix_mbr_regenerate mbr_set_partition
    simp only []
    rw [hP, b1]
  rw [hm]
  refine ⟨fun k hk => ?_, ?_, fun i hi => ?_⟩
  · rw [Function.update_noteq (by omega)]
    exact b2 k hk
  · rw [Function.update_same]; rfl
  · rw [Function.update_noteq (by omega)]
    exact b3 i (by omega)

theorem gpt_entry_ascii_name_congr (e1 e2 : gpt_entry_t)
    (h : ∀ k, k < 72 → e1.name.getD k 0 = e2.name.getD k 0) :
    gpt_entry_ascii_name e1 = gpt_entry_ascii_name e2 := by
  unfold gpt_entry_ascii_name
  congr 1
  apply List.map_congr_left
  intro j hj
  rw [List.mem_range] at hj
  rw [h (2 * j) (by omega)]

/-- The name `_action_fix_mbr` gives an entry read back from sectors that hold the bytes of
`g`. -/
theorem gpt_of_bytes_ascii_name (g : gpt_t) (b : Nat → Nat)
    (hb : ∀ j, j < 16896 → b j = g.byte j) (i : Nat) (hi : i < 128) :
    gpt_entry_ascii_name ((gpt_of_bytes b).entries i) = gpt_entry_ascii_name (g.entries i) := by
  apply gpt_entry_ascii_name_congr
  intro k hk
  show (bytes_at b (sizeof_gpt_header_t + sizeof_gpt_entry_t * i + 56) 72).getD k 0 = _
  unfold bytes_at sizeof_gpt_header_t sizeof_gpt_entry_t
  rw [List.getD_eq_getElem _ _ (by simpa using hk)]
  simp only [List.getElem_map, List.getElem_range]
  have e : 512 + 128 * i + 56 + k = 512 + 128 * i + (56 + k) := by omega
  rw [hb _ (by omega), e, gpt_byte_entry g i (56 + k) hi (by omega)]
  unfold gpt_entry_t.byte
  have e2 : 56 + k - 56 = k := by omega
  rw [if_neg (by omega), if_neg (by omega), if_neg (by omega), if_neg (by omega),
    if_neg (by omega), if_pos (by omega), e2]

/-- The names of the entries of the GPT that `_prepare_and_flash_mbr_gpt` builds, for a plan
of the planner with Android. -/
theorem flashed_gpt_names (p : partition_ctxt_t) (sec_cnt : Nat) (dev_mbr : mbr_t)
    (upper : Nat → Nat) (prng : Nat → Nat → Nat) (crc : Nat → List Nat → Nat)
    (hp : planner_inv p) (hand : p.and_size ≠ 0) :
    ∀ i name size, (gpt_layout_expected p)[i]? = some (name, size) →
      ((flashed_gpt p sec_cnt dev_mbr upper prng crc).entries i).name = gpt_name name := by
  obtain ⟨c0, c1, c2, c3, c4⟩ :=
    flashed_gpt_entries_of_plan p sec_cnt dev_mbr upper prng crc hp hand
  generalize hes : (flashed_gpt p sec_cnt dev_mbr upper prng crc).entries = es at *
  have hidx : ∀ i name size, (gpt_layout_expected p)[i]? = some (name, size) →
      i < (gpt_layout_expected p).length := fun i name size h =>
    gpt_layout_index_lt _ i _ h
  by_cases hl0 : p.l4t_size = 0 <;> by_cases he0 : p.emu_size = 0 <;> cases hd : p.emu_double <;>
    simp only [l4t_rows, android_rows, emu_count, gpt_layout_expected, hl0, he0, hd,
      ne_eq, not_true_eq_false, not_false_eq_true, if_true, if_false, List.nil_append,
      List.cons_append, List.append_nil, List.length_cons, List.length_nil,
      Bool.false_eq_true, forall_true_left, Nat.reduceAdd, Nat.zero_add] at c1 c2 c3 c4 hidx ⊢
  all_goals
    intro i name size h
    have hi := hidx i name size h
    interval_cases i <;> simp only [List.getElem?_cons_succ, List.getElem?_cons_zero,
      Option.some.injEq, Prod.mk.injEq] at h <;> obtain ⟨rfl, rfl⟩ := h <;>
      (try rw [c0]) <;> (try rw [c2]) <;> (try rw [c3]) <;>
      (try rw [c1 _ (by norm_num)]) <;>
      simp only [gpt_part_entry, gpt_emummc_entry, gpt_hos_data_entry,
        List.getD_cons_succ, List.getD_cons_zero, rows_start_cons_succ, rows_start_zero] <;>
      decide

/-- The name `_action_fix_mbr` gives entry `i` of the GPT that `_prepare_and_flash_mbr_gpt`
builds: the one of an entry with the name the layout has at index `i`. -/
theorem flashed_gpt_ascii_names (p : partition_ctxt_t) (sec_cnt : Nat) (dev_mbr : mbr_t)
    (upper : Nat → Nat) (prng : Nat → Nat → Nat) (crc : Nat → List Nat → Nat)
    (hp : planner_inv p) (hand : p.and_size ≠ 0) (i : Nat)
    (hi : i < (gpt_layout_expected p).length) :
    gpt_entry_ascii_name ((flashed_gpt p sec_cnt dev_mbr upper prng crc).entries i)
      = gpt_entry_ascii_name
          (gpt_entry_named (((gpt_layout_expected p).map Prod.fst).getD i "") 0 0) := by
  obtain ⟨⟨nm, sz⟩, hx⟩ : ∃ x, (gpt_layout_expected p)[i]? = some x :=
    ⟨(gpt_layout_expected p)[i], List.getElem?_eq_getElem hi⟩
  have hn : ((gpt_layout_expected p).map Prod.fst).getD i "" = nm := by
    rw [List.getD_eq_getElem?_getD, List.getElem?_map, hx]
    rfl
  rw [hn]
  apply gpt_entry_ascii_name_congr
  intro k _
  rw [flashed_gpt_names p sec_cnt dev_mbr upper prng crc hp hand i nm sz hx]
  rfl

/-- Which entries of the GPT that `_prepare_and_flash_mbr_gpt` builds pass the name test of
line 2113 of `_action_fix_mbr`: none before index `gpt_emummc_idx`, and the emuMMC
entries. -/
theorem flashed_gpt_emummc_names (p : partition_ctxt_t) (sec_cnt : Nat) (dev_mbr : mbr_t)
    (upper : Nat → Nat) (prng : Nat → Nat → Nat) (crc : Nat → List Nat → Nat)
    (hp : planner_inv p) (hand : p.and_size ≠ 0) :
    (∀ i, i < gpt_emummc_idx p →
      ¬ (strcmp_eq (gpt_entry_ascii_name
            ((flashed_gpt p sec_cnt dev_mbr upper prng crc).entries i)) "emummc" ∨
         strcmp_eq (gpt_entry_ascii_name
            ((flashed_gpt p sec_cnt dev_mbr upper prng crc).entries i)) "emummc2")) ∧
    (p.emu_size ≠ 0 →
      strcmp_eq (gpt_entry_ascii_name
        ((flashed_gpt p sec_cnt dev_mbr upper prng crc).entries (gpt_emummc_idx p)))
        "emummc" = true) ∧
    (p.emu_size ≠ 0 → p.emu_double = true →
      strcmp_eq (gpt_entry_ascii_name
        ((flashed_gpt p sec_cnt dev_mbr upper prng crc).entries (gpt_emummc_idx p + 1)))
        "emummc2" = true) := by
  have hn := flashed_gpt_ascii_names p sec_cnt dev_mbr upper prng crc hp hand
  generalize hes : (flashed_gpt p sec_cnt dev_mbr upper prng crc).entries = es at *
  by_cases hl0 : p.l4t_size = 0 <;> by_cases he0 : p.emu_size = 0 <;> cases hd : p.emu_double <;>
    simp only [gpt_layout_expected, gpt_emummc_idx, hl0, he0, hd,
      ne_eq, not_true_eq_false, not_false_eq_true, if_true, if_false, List.nil_append,
      List.cons_append, List.append_nil, List.length_cons, List.length_nil,
      Bool.false_eq_true, forall_true_left, Nat.reduceAdd, Nat.zero_add, false_implies,
      true_and, and_true, List.map_cons, List.map_nil] at hn ⊢
  all_goals
    first
      | (intro i hi
         rw [hn i (by omega)]
         interval_cases i <;> decide)
      | (refine ⟨?_, ?_⟩
         · intro i hi
           rw [hn i (by omega)]
           interval_cases i <;> decide
         · rw [hn _ (by norm_num)]
           decide)
      | (refine ⟨?_, ?_, ?_⟩
         · intro i hi
           rw [hn i (by omega)]
           interval_cases i <;> decide
         · rw [hn _ (by norm_num)]
           decide
         · rw [hn _ (by norm_num)]
           decide)

theorem fix_mbr_parse_eq (gpt : gpt_t) :
    fix_mbr_parse gpt = (List.range gpt.header.num_part_ents).filterMap (fun i =>
      if (gpt.entries i).lba_start < gpt.header.first_use_lba then none
      else some { index := i
                  lba_start := (gpt.entries i).lba_start
                  lba_end := (gpt.entries i).lba_end
                  name := gpt_entry_ascii_name (gpt.entries i) }) := rfl

/-- The parsed list of a GPT of 128 entries of which the first `K` do not have the name of
an emuMMC, the next `ec` (at most two) are emuMMC entries in the usable range, and the
others start below `first_use_lba`: the emuMMC entries come last. -/
theorem fix_mbr_parse_layout (gpt : gpt_t) (K ec : Nat)
    (hnum : gpt.header.num_part_ents = 128) (hK : K + ec ≤ 128) (hec : ec ≤ 2)
    (hhead : ∀ i, i < K →
      ¬ (strcmp_eq (gpt_entry_ascii_name (gpt.entries i)) "emummc" ∨
         strcmp_eq (gpt_entry_ascii_name (gpt.entries i)) "emummc2"))
    (hemu : ∀ k, k < ec →
      ¬ (gpt.entries (K + k)).lba_start < gpt.header.first_use_lba ∧
      (strcmp_eq (gpt_entry_ascii_name (gpt.entries (K + k))) "emummc" ∨
       strcmp_eq (gpt_entry_ascii_name (gpt.entries (K + k))) "emummc2"))
    (htail : ∀ i, K + ec ≤ i → i < 128 →
      (gpt.entries i).lba_start < gpt.header.first_use_lba) :
    ∃ H E, fix_mbr_parse gpt = H ++ E ∧
      (∀ part ∈ H, ¬ (strcmp_eq part.name "emummc" ∨ strcmp_eq part.name "emummc2")) ∧
      (∀ part ∈ E, strcmp_eq part.name "emummc" ∨ strcmp_eq part.name "emummc2") ∧
      E.length = ec ∧
      ∀ k, k < ec →
        (E.getD k ⟨0, 0, 0, []⟩).lba_start = (gpt.entries (K + k)).lba_start ∧
        (E.getD k ⟨0, 0, 0, []⟩).lba_end = (gpt.entries (K + k)).lba_end := by
  rw [fix_mbr_parse_eq, hnum]
  generalize hf : (fun i =>
      if (gpt.entries i).lba_start < gpt.header.first_use_lba then none
      else some ({ index := i
                   lba_start := (gpt.entries i).lba_start
                   lba_end := (gpt.entries i).lba_end
                   name := gpt_entry_ascii_name (gpt.entries i) } : emmc_part_t)) = f
  have hnone : ∀ i, K + ec ≤ i → i < 128 → f i = none := by
    intro i h1 h2
    rw [← hf]
    simp only []
    rw [if_pos (htail i h1 h2)]
  have hsome : ∀ k, k < ec → f (K + k)
      = some { index := K + k
               lba_start := (gpt.entries (K + k)).lba_start
               lba_end := (gpt.entries (K + k)).lba_end
               name := gpt_entry_ascii_name (gpt.entries (K + k)) } := by
    intro k hk
    rw [← hf]
    simp only []
    rw [if_neg (hemu k hk).1]
  have hH : ∀ part ∈ (List.range K).filterMap f,
      ¬ (strcmp_eq part.name "emummc" ∨ strcmp_eq part.name "emummc2") := by
    intro part hpart
    rw [List.mem_filterMap] at hpart
    obtain ⟨i, hi, hfi⟩ := hpart
    rw [List.mem_range] at hi
    rw [← hf] at hfi
    simp only [] at hfi
    split_ifs at hfi
    simp only [Option.some.injEq] at hfi
    rw [← hfi]
    exact hhead i hi
  rw [filterMap_range_tail f (K + ec) 128 hK hnone]
  interval_cases ec
  · refine ⟨(List.range K).filterMap f, [], by simp, hH, by simp, rfl, ?_⟩
    intro k hk
    omega
  · have s0 := hsome 0 (by norm_num)
    rw [Nat.add_zero] at s0
    refine ⟨(List.range K).filterMap f, [_], filterMap_range_succ_some f K _ s0, hH, ?_, rfl, ?_⟩
    · intro part hpart
      rw [List.mem_singleton] at hpart
      rw [hpart]
      have := (hemu 0 (by norm_num)).2
      rw [Nat.add_zero] at this
      exact this
    · intro k hk
      have hk0 : k = 0 := by omega
      subst hk0
      exact ⟨rfl, rfl⟩
  · have s0 := hsome 0 (by norm_num)
    rw [Nat.add_zero] at s0
    have s1 := hsome 1 (by norm_num)
    refine ⟨(List.range K).filterMap f,
      [⟨K, (gpt.entries K).lba_start, (gpt.entries K).lba_end,
          gpt_entry_ascii_name (gpt.entries K)⟩,
        ⟨K + 1, (gpt.entries (K + 1)).lba_start, (gpt.entries (K + 1)).lba_end,
          gpt_entry_ascii_name (gpt.entries (K + 1))⟩], ?_, hH, ?_, rfl, ?_⟩
    · rw [show K + 2 = K + 1 + 1 from rfl, filterMap_range_succ_some f (K + 1) _ s1,
        filterMap_range_succ_some f K _ s0, List.append_assoc]
      rfl
    · intro part hpart
      simp only [List.mem_cons, List.mem_nil_iff, or_false] at hpart
      rcases hpart with h | h
      · rw [h]
        have := (hemu 0 (by norm_num)).2
        rw [Nat.add_zero] at this
        exact this
      · rw [h]
        exact (hemu 1 (by norm_num)).2
    · intro k hk
      have hk01 : k = 0 ∨ k = 1 := by omega
      rcases hk01 with h | h
      · subst h
        exact ⟨rfl, rfl⟩
      · subst h
        exact ⟨rfl, rfl⟩

/-- What lines 2068-2131 regenerate for such a GPT: the emuMMC entries in the slots from 1
on, the protective entry after them, the later slots as in the old MBR. -/
theorem fix_mbr_regenerate_layout (pt : Nat) (ex : Bool) (sec_cnt : Nat) (m0 : mbr_t)
    (gpt : gpt_t) (K ec : Nat)
    (hnum : gpt.header.num_part_ents = 128) (hK : K + ec ≤ 128) (hec : ec ≤ 2)
    (hhead : ∀ i, i < K →
      ¬ (strcmp_eq (gpt_entry_ascii_name (gpt.entries i)) "emummc" ∨
         strcmp_eq (gpt_entry_ascii_name (gpt.entries i)) "emummc2"))
    (hemu : ∀ k, k < ec →
      ¬ (gpt.entries (K + k)).lba_start < gpt.header.first_use_lba ∧
      (strcmp_eq (gpt_entry_ascii_name (gpt.entries (K + k))) "emummc" ∨
       strcmp_eq (gpt_entry_ascii_name (gpt.entries (K + k))) "emummc2"))
    (htail : ∀ i, K + ec ≤ i → i < 128 →
      (gpt.entries i).lba_start < gpt.header.first_use_lba) :
    (∀ k, k < ec →
      mbr_slot_fields ((fix_mbr_regenerate pt ex sec_cnt m0 gpt).mbr.partitions (k + 1))
        = (0xE0, u32 (gpt.entries (K + k)).lba_start,
            to_u32 (((gpt.entries (K + k)).lba_end : Int)
              - ((gpt.entries (K + k)).lba_start : Int) + 1))) ∧
    mbr_slot_fields ((fix_mbr_regenerate pt ex sec_cnt m0 gpt).mbr.partitions (ec + 1))
      = (0xEE, 1, u32_sub sec_cnt 1) ∧
    (∀ i, ec + 1 < i →
      (fix_mbr_regenerate pt ex sec_cnt m0 gpt).mbr.partitions i = m0.partitions i) := by
  obtain ⟨H, E, hP, hH, hE, hlen, hl⟩ :=
    fix_mbr_parse_layout gpt K ec hnum hK hec hhead hemu htail
  obtain ⟨r1, r2, r3⟩ := fix_mbr_regenerate_of_parse pt ex sec_cnt m0 gpt H E hP hH hE
    (by omega)
  rw [hlen] at r1 r2 r3
  refine ⟨fun k hk => ?_, r2, r3⟩
  rw [r1 k hk, (hl k hk).1, (hl k hk).2]

theorem mbr_slot_fields_eq (a : mbr_part_t) (t s z : Nat) :
    mbr_slot_fields a = (t, s, z) ↔ a.type = t ∧ a.start_sct = s ∧ a.size_sct = z := by
  simp only [mbr_slot_fields, Prod.mk.injEq]

theorem fix_mbr_status_of_tables (pt : Nat) (ex : Bool) (sec_cnt : Nat) (dev : Nat → Nat)
    (power : Bool)
    (hsig : (gpt_of_bytes (sdmmc_storage_read dev 1)).header.signature = ascii "EFI PART")
    (hnum : (gpt_of_bytes (sdmmc_storage_read dev 1)).header.num_part_ents = 128) :
    ((_action_fix_mbr true pt ex sec_cnt dev power).status = .no_changes ↔
      fix_mbr_changed (mbr_of_bytes (sdmmc_storage_read dev 0))
        (fix_mbr_regenerate pt ex sec_cnt (mbr_of_bytes (sdmmc_storage_read dev 0))
          (gpt_of_bytes (sdmmc_storage_read dev 1))).mbr = false) ∧
    ((_action_fix_mbr true pt ex sec_cnt dev power).status = .no_changes →
      (_action_fix_mbr true pt ex sec_cnt dev power).writes = []) ∧
    (_action_fix_mbr true pt ex sec_cnt dev power).mbr_new
      = (fix_mbr_regenerate pt ex sec_cnt (mbr_of_bytes (sdmmc_storage_read dev 0))
          (gpt_of_bytes (sdmmc_storage_read dev 1))).mbr := by
  unfold _action_fix_mbr
  simp only [Bool.true_eq_false, if_false, hsig, hnum, ne_eq, not_true_eq_false, gt_iff_lt,
    Nat.lt_irrefl, or_self]
  by_cases hc : fix_mbr_changed (mbr_of_bytes (sdmmc_storage_read dev 0))
      (fix_mbr_regenerate pt ex sec_cnt (mbr_of_bytes (sdmmc_storage_read dev 0))
        (gpt_of_bytes (sdmmc_storage_read dev 1))).mbr = false
  · simp only [hc, if_true, true_and, implies_true, and_self]
  · simp only [hc, if_false]
    cases power <;> simp

/-- The hybrid MBR repair on the card the layout writer leaves, for a plan of the planner
with Android: the regenerated slots 1-3 are those of the card, except for the type of the
second emuMMC slot when the layout writer left there a type other than `0xE0`. -/
theorem fix_mbr_after_flash (p : partition_ctxt_t) (sec_cnt : Nat) (dev : Nat → Nat)
    (upper : Nat → Nat) (prng : Nat → Nat → Nat) (crc : Nat → List Nat → Nat)
    (pt : Nat) (ex : Bool) (power : Bool)
    (hp : planner_inv p) (hand : p.and_size ≠ 0) (hsec : sec_cnt = p.total_sct) :
    ((_action_fix_mbr true pt ex sec_cnt (flashed_card p sec_cnt dev upper prng crc)
        power).status = .no_changes ↔
      (p.emu_size ≠ 0 ∧ p.emu_double = true →
        ((mbr_of_bytes (sdmmc_storage_read dev 0)).partitions 2).type = 0xE0)) ∧
    ((_action_fix_mbr true pt ex sec_cnt (flashed_card p sec_cnt dev upper prng crc)
        power).status = .no_changes →
      (_action_fix_mbr true pt ex sec_cnt (flashed_card p sec_cnt dev upper prng crc)
        power).writes = []) := by
  have h67 : 67 ≤ sec_cnt ∧ sec_cnt < 4294967296 := by
    obtain ⟨ht, hh, hs, he, hl, ha⟩ := hp
    omega
  obtain ⟨hm, hg⟩ := flashed_card_gpt_scheme p sec_cnt dev upper prng crc hand h67.1 h67.2
  obtain ⟨hsig, hnum⟩ := flashed_gpt_header_id p sec_cnt
    (mbr_of_bytes (sdmmc_storage_read dev 0)) upper prng crc hand
  obtain ⟨hfu, -, -⟩ := flashed_gpt_header_range p sec_cnt
    (mbr_of_bytes (sdmmc_storage_read dev 0)) upper prng crc hand
  obtain ⟨-, -, c2, c3, c4⟩ := flashed_gpt_entries_of_plan p sec_cnt
    (mbr_of_bytes (sdmmc_storage_read dev 0)) upper prng crc hp hand
  obtain ⟨n1, n2, n3⟩ := flashed_gpt_emummc_names p sec_cnt
    (mbr_of_bytes (sdmmc_storage_read dev 0)) upper prng crc hp hand
  obtain ⟨-, -, m3, m4, m5⟩ := flashed_mbr_slots_of_plan p sec_cnt
    (mbr_of_bytes (sdmmc_storage_read dev 0)) upper prng crc hp ⟨by omega, h67.2⟩
  obtain ⟨fsig, fnum, fent⟩ := gpt_of_bytes_fields _ _ hg
  have ffu := gpt_of_bytes_first_use_lba _ _ hg
  have fname := gpt_of_bytes_ascii_name _ _ hg
  have fmbr := mbr_of_bytes_partition _ _ hm
  obtain ⟨-, hfirst, hfit⟩ := gpt_first_lba_eq p hp
  have hKeq := gpt_emummc_idx_eq p
  have hK13 : gpt_emummc_idx p ≤ 11 := by unfold gpt_emummc_idx; split_ifs <;> omega
  have hemu4 : p.emu_size = 0 ∨ 4128 ≤ p.emu_size := hp.2.2.2.1
  have hmi : mbr_emu_idx p = 1 := by unfold mbr_emu_idx; rw [if_neg (by tauto)]
  have e_sig : (gpt_of_bytes (sdmmc_storage_read
      (flashed_card p sec_cnt dev upper prng crc) 1)).header.signature = ascii "EFI PART" := by
    rw [fsig (by rw [hsig]; decide), hsig]
  have e_num : (gpt_of_bytes (sdmmc_storage_read
      (flashed_card p sec_cnt dev upper prng crc) 1)).header.num_part_ents = 128 := by
    rw [fnum, hnum]
  have e_fu : (gpt_of_bytes (sdmmc_storage_read
      (flashed_card p sec_cnt dev upper prng crc) 1)).header.first_use_lba = 34 := by
    rw [ffu, hfu]
  obtain ⟨st1, st2, st3⟩ := fix_mbr_status_of_tables pt ex sec_cnt
    (flashed_card p sec_cnt dev upper prng crc) power e_sig e_num
  refine ⟨?_, st2⟩
  rw [st1, fix_mbr_changed_false_iff]
  have hreg := fix_mbr_regenerate_layout pt ex sec_cnt
    (mbr_of_bytes (sdmmc_storage_read (flashed_card p sec_cnt dev upper prng crc) 0))
    (gpt_of_bytes (sdmmc_storage_read (flashed_card p sec_cnt dev upper prng crc) 1))
    (gpt_emummc_idx p) (emu_count p) e_num
    (by unfold emu_count; split_ifs <;> omega) (by unfold emu_count; split_ifs <;> omega)
    (fun i hi => by rw [fname i (by omega)]; exact n1 i hi)
    (by
      intro k hk
      rw [e_fu, fname _ (by unfold emu_count at hk; split_ifs at hk <;> omega),
        (fent _ (by unfold emu_count at hk; split_ifs at hk <;> omega)).2.1]
      by_cases he0 : p.emu_size = 0
      · simp [emu_count, he0] at hk
      · cases hd : p.emu_double
        · have hk0 : k = 0 := by simp [emu_count, he0, hd] at hk; omega
          subst hk0
          rw [Nat.add_zero]
          refine ⟨?_, Or.inl (n2 he0)⟩
          rw [hKeq, c2 he0]
          simp only [gpt_emummc_entry]
          unfold gpt_first_lba
          omega
        · have hk01 : k = 0 ∨ k = 1 := by simp [emu_count, he0, hd] at hk; omega
          rcases hk01 with h | h
          · subst h
            rw [Nat.add_zero]
            refine ⟨?_, Or.inl (n2 he0)⟩
            rw [hKeq, c2 he0]
            simp only [gpt_emummc_entry]
            unfold gpt_first_lba
            omega
          · subst h
            refine ⟨?_, Or.inr (n3 he0 hd)⟩
            rw [hKeq, c3 he0 hd]
            simp only [gpt_emummc_entry]
            unfold gpt_first_lba
            omega)
    (by
      intro i h1 h2
      rw [e_fu, (fent i h2).2.1, c4 i (by rw [hKeq] at h1; omega)]
      decide)
  obtain ⟨g1, g2, g3⟩ := hreg
  generalize hM0 : mbr_of_bytes (sdmmc_storage_read
    (flashed_card p sec_cnt dev upper prng crc) 0) = M0 at *
  generalize hGP : gpt_of_bytes (sdmmc_storage_read
    (flashed_card p sec_cnt dev upper prng crc) 1) = GP at *
  generalize hR : (fix_mbr_regenerate pt ex sec_cnt M0 GP).mbr = R at *
  have hprot : u32_sub sec_cnt 1 = sec_cnt - 1 := by unfold u32_sub to_u32; omega
  obtain ⟨t1, s1, z1⟩ := fmbr 1 (by norm_num)
  obtain ⟨t2, s2, z2⟩ := fmbr 2 (by norm_num)
  obtain ⟨t3, s3, z3⟩ := fmbr 3 (by norm_num)
  obtain ⟨pt1, ps1, pz1⟩ := m4 hand
  by_cases he0 : p.emu_size = 0
  · have hec : emu_count p = 0 := by simp [emu_count, he0]
    have hpi : mbr_protective_idx p = 1 := by
      simp [mbr_protective_idx, hmi, he0]
    rw [hec] at g2 g3
    rw [hpi] at pt1 ps1 pz1
    rw [g3 2 (by norm_num), g3 3 (by norm_num), g2, hprot]
    simp only [he0, ne_eq, not_true_eq_false, false_and, false_implies, iff_true, and_true]
    rw [mbr_slot_fields_eq, t1, s1, z1, pt1, ps1, pz1]
    omega
  · obtain ⟨et, es, ez0, ez1⟩ := m3 he0
    rw [hmi] at et es ez0 ez1
    have he4 : 4128 ≤ p.emu_size := by
      rcases hemu4 with h | h
      · exact absurd h he0
      · exact h
    have hs1 : ((flashed_mbr p sec_cnt (mbr_of_bytes (sdmmc_storage_read dev 0)) upper prng
        crc).partitions 1).start_sct
          = gpt_first_lba p + (p.l4t_size + p.and_size) * 2048 := by
      have := es
      push_cast at this
      omega
    have hgs : (GP.entries (gpt_emummc_idx p)).lba_start
        = gpt_first_lba p + (p.l4t_size + p.and_size) * 2048 := by
      rw [(fent _ (by omega)).2.1, hKeq, c2 he0]
      simp only [gpt_emummc_entry]
      omega
    cases hd : p.emu_double
    · have hec : emu_count p = 1 := by simp [emu_count, he0, hd]
      have hpi : mbr_protective_idx p = 2 := by
        simp [mbr_protective_idx, hmi, he0, hd]
      have hge : (GP.entries (gpt_emummc_idx p)).lba_end
          = gpt_first_lba p + (p.l4t_size + p.and_size) * 2048
            + (p.emu_size * 2048 - 0x800) - 1 := by
        rw [(fent _ (by omega)).2.2, hKeq, c2 he0]
        simp only [gpt_emummc_entry, hd, Bool.false_eq_true, if_false]
        omega
      rw [hec] at g1 g2 g3
      rw [hpi] at pt1 ps1 pz1
      have g10 := g1 0 (by norm_num)
      simp only [Nat.add_zero, Nat.zero_add] at g10
      rw [hgs, hge] at g10
      rw [g3 3 (by norm_num), g2, g10, hprot]
      simp only [hd, Bool.false_eq_true, and_false, false_implies, iff_true, and_true]
      rw [mbr_slot_fields_eq, mbr_slot_fields_eq, t1, s1, z1, t2, s2, z2, et, hs1, ez0 hd,
        pt1, ps1, pz1]
      unfold u32 to_u32
      refine ⟨⟨by norm_num, by omega, by omega⟩, by norm_num, by norm_num, by omega⟩
    · have hec : emu_count p = 2 := by simp [emu_count, he0, hd]
      have hpi : mbr_protective_idx p = 3 := by
        simp [mbr_protective_idx, hmi, he0, hd]
      obtain ⟨dz, dt, ds, dz2⟩ := ez1 hd
      simp only [Nat.reduceAdd] at dt ds dz2
      have hge : (GP.entries (gpt_emummc_idx p)).lba_end
          = gpt_first_lba p + (p.l4t_size + p.and_size) * 2048 + p.emu_size * 1024 - 1 := by
        rw [(fent _ (by omega)).2.2, hKeq, c2 he0]
        simp only [gpt_emummc_entry, hd, if_true]
        omega
      have hgs2 : (GP.entries (gpt_emummc_idx p + 1)).lba_start
          = gpt_first_lba p + (p.l4t_size + p.and_size) * 2048 + p.emu_size * 1024 := by
        rw [(fent _ (by omega)).2.1, hKeq, c3 he0 hd]
        simp only [gpt_emummc_entry]
        omega
      have hge2 : (GP.entries (gpt_emummc_idx p + 1)).lba_end
          = gpt_first_lba p + (p.l4t_size + p.and_size) * 2048 + p.emu_size * 1024
            + (p.emu_size * 1024 - 0x800) - 1 := by
        rw [(fent _ (by omega)).2.2, hKeq, c3 he0 hd]
        simp only [gpt_emummc_entry]
        omega
      have hdt : ((mbr_of_bytes (sdmmc_storage_read dev 0)).partitions 2).type % 256
          = ((mbr_of_bytes (sdmmc_storage_read dev 0)).partitions 2).type := by
        show (sdmmc_storage_read dev 0 (446 + 16 * 2 + 4) % 256) % 256 = _
        rw [Nat.mod_mod]
        rfl
      rw [hec] at g1 g2 g3
      rw [hpi] at pt1 ps1 pz1
      have g10 := g1 0 (by norm_num)
      have g11 := g1 1 (by norm_num)
      simp only [Nat.add_zero, Nat.zero_add, Nat.reduceAdd] at g10 g11 g2
      rw [hgs, hge] at g10
      rw [hgs2, hge2] at g11
      rw [g2, g10, g11, hprot]
      simp only [he0, ne_eq, not_false_eq_true, and_self, forall_true_left]
      rw [mbr_slot_fields_eq, mbr_slot_fields_eq, mbr_slot_fields_eq, t1, s1, z1, t2, s2, z2,
        t3, s3, z3, et, hs1, dz, dt, ds, dz2, hs1, pt1, ps1, pz1, hdt]
      unfold u32 to_u32
      constructor
      · intro h
        exact h.2.1.1
      · intro h
        refine ⟨⟨by norm_num, by omega, by omega⟩, ⟨h, by omega, by omega⟩, by norm_num,
          by norm_num, by omega⟩

/-- C28, the code in general and at a failing input. For a plan of the planner with
`and_size != 0`, `_action_fix_mbr` on the card `_prepare_and_flash_mbr_gpt` leaves reports
that no change is needed (and then writes nothing) exactly when the plan is not in doubled
mode, or when slot 2 of the MBR read at line 229 had type `0xE0` already: in doubled mode
the layout writer never sets the type of the second emuMMC slot, and the repair regenerates
it as `0xE0`. -/
theorem C28_repair_after_layout (p : partition_ctxt_t) (sec_cnt : Nat) (dev : Nat → Nat)
    (upper : Nat → Nat) (prng : Nat → Nat → Nat) (crc : Nat → List Nat → Nat)
    (pt : Nat) (ex : Bool) (power : Bool)
    (hp : planner_inv p) (hand : p.and_size ≠ 0) (hsec : sec_cnt = p.total_sct) :
    ((_action_fix_mbr true pt ex sec_cnt (flashed_card p sec_cnt dev upper prng crc)
        power).status = .no_changes ↔
      (p.emu_size ≠ 0 ∧ p.emu_double = true →
        ((mbr_of_bytes (sdmmc_storage_read dev 0)).partitions 2).type = 0xE0)) ∧
    ((_action_fix_mbr true pt ex sec_cnt (flashed_card p sec_cnt dev upper prng crc)
        power).status = .no_changes →
      (_action_fix_mbr true pt ex sec_cnt (flashed_card p sec_cnt dev upper prng crc)
        power).writes = []) :=
  fix_mbr_after_flash p sec_cnt dev upper prng crc pt ex power hp hand hsec

/-- C28 at a failing input: two emuMMC, 8 GiB of Linux and 8 GiB of Android on a freshly
formatted 29 GiB card (slots 1-3 of the MBR empty). After the layout writer the slots 1-3
of the card are `emummc` (type `0xE0`), `emummc2` with type 0, and the protective entry;
the repair regenerates `emummc2` with type `0xE0`, finds a change and, with the power
button pressed, writes a new MBR. -/
theorem C28_repair_after_layout_witness :
    (planner_inv plan_29g_full ∧ plan_29g_full.and_size ≠ 0 ∧
      61071360 = plan_29g_full.total_sct) ∧
    ((_action_fix_mbr true 0 false 61071360
        (flashed_card plan_29g_full 61071360 card_fresh_zero upper_zero prng_seq crc32_calc)
        true).status = .no_changes ↔
      (plan_29g_full.emu_size ≠ 0 ∧ plan_29g_full.emu_double = true →
        ((mbr_of_bytes (sdmmc_storage_read card_fresh_zero 0)).partitions 2).type = 0xE0)) ∧
    ((mbr_of_bytes (sdmmc_storage_read card_fresh_zero 0)).partitions 2).type = 0 ∧
    (_action_fix_mbr true 0 false 61071360
      (flashed_card plan_29g_full 61071360 card_fresh_zero upper_zero prng_seq crc32_calc)
      true).status = .written ∧
    [1, 2, 3].map (fun i => mbr_slot_fields ((mbr_of_bytes (sdmmc_storage_read
        (flashed_card plan_29g_full 61071360 card_fresh_zero upper_zero prng_seq crc32_calc)
        0)).partitions i))
      = [(0xE0, 44163072, 8454144), (0, 52617216, 8452096), (0xEE, 1, 61071359)] ∧
    [1, 2, 3].map (fun i => mbr_slot_fields ((_action_fix_mbr true 0 false 61071360
        (flashed_card plan_29g_full 61071360 card_fresh_zero upper_zero prng_seq crc32_calc)
        true).mbr_new.partitions i))
      = [(0xE0, 44163072, 8454144), (0xE0, 52617216, 8452096), (0xEE, 1, 61071359)] ∧
    (_action_fix_mbr true 0 false 61071360
      (flashed_card plan_29g_full 61071360 card_fresh_zero upper_zero prng_seq crc32_calc)
      true).writes.map (fun w => (w.sector, w.num_sectors)) = [(0, 1)] :=
  ⟨⟨by decide, by decide, rfl⟩,
    (C28_repair_after_layout plan_29g_full 61071360 card_fresh_zero upper_zero prng_seq
      crc32_calc 0 false true (by decide) (by decide) rfl).1,
    by decide, by decide!, by decide!, by decide!, by decide!⟩

end Hekate
